import Mathlib

/-!
# Shell link persistence: `dlls/shell32/shelllink.c`

A shallow embedding of the shortcut (`.lnk`) reader and writer, of the
advertised-shortcut string parser, of the path resolver, of the setters and
path getters of the two link interfaces and of the file-level load and save.

Conventions of the embedding.

* Machine integers are natural numbers; `DWORD`, `ULONG`, `int` and `size_t`
  are 32 bits wide (the Win32 ABI the file targets), `USHORT`, `WORD` and
  `WCHAR` are 16 bits wide.  Arithmetic that can wrap is written with an
  explicit `%`.
* A byte sequence is a `List Nat`; a byte read from it is taken modulo 256.
* A wide string pointer (`LPWSTR`) is `Option (List Nat)`: `none` is `NULL`,
  `some b` points at a buffer whose code units, up to the terminator the code
  stored last, are `b`.  String functions see `cstr b`, the units before the
  first zero.
* An input stream is the list of bytes still to be read; `IStream::Read` hands
  out at most the bytes that remain and never reports a failure of its own.
* Heap allocations succeed.
* A function returns `none` exactly where the C code would access memory
  outside the object it was given (behaviour undefined in C); this includes a
  copy into a local buffer that does not hold it and a read of a local buffer
  that nothing was stored in.
* The file system and the functions of other libraries that the path code
  calls are parameters (`Shell`), as the id-list and time functions are
  (`Collaborators`) and as `SHCreateStreamOnFileW` is for the file-level load
  and save.
* An array of the caller is the list of its elements; a store that the array
  does not hold gives `none`.
-/

namespace ShellLink

/-! ## Result codes -/

abbrev HRESULT := Nat

def S_OK : HRESULT := 0
def S_FALSE : HRESULT := 1
def E_FAIL : HRESULT := 0x80004005
def E_INVALIDARG : HRESULT := 0x80070057
def CO_E_CLASSSTRING : HRESULT := 0x800401F3
def STG_E_MEDIUMFULL : HRESULT := 0x80030070

/-- The `FAILED` test of winerror.h: the code is negative as a signed 32-bit value. -/
def FAILED (hr : HRESULT) : Bool := decide (0x80000000 ≤ hr % 0x100000000)

def MAX_PATH : Nat := 260

/-! ## C strings -/

/-- The characters a string function sees in a buffer: those before the first zero unit. -/
def cstr (s : List Nat) : List Nat := s.takeWhile (fun c => c ≠ 0)

def lstrlenW (s : List Nat) : Nat := (cstr s).length

/-- The unit `str[i]`; past the stored units stands the terminator. -/
def chr (str : List Nat) (i : Nat) : Nat := str.getD i 0

/-- The library search `strchrW(str, ch)` of wine/unicode.h: the tail of `str` that starts at
the first unit equal to `ch`, or `none` (a null pointer) when the string ends first. -/
def strchrW : List Nat → Nat → Option (List Nat)
  | [], _ => none
  | x :: xs, ch => if x = ch then some (x :: xs) else if x = 0 then none else strchrW xs ch

/-! ## GUIDs -/

structure GUID where
  Data1 : Nat
  Data2 : Nat
  Data3 : Nat
  Data4 : List Nat
deriving DecidableEq, Repr

def SHELL32_AdvtShortcutProduct : GUID :=
  { Data1 := 0x9db1186f, Data2 := 0x40df, Data3 := 0x11d1,
    Data4 := [0xaa, 0x8c, 0x00, 0xc0, 0x4f, 0xb6, 0x78, 0x63] }

def SHELL32_AdvtShortcutComponent : GUID :=
  { Data1 := 0x9db1186e, Data2 := 0x40df, Data3 := 0x11d1,
    Data4 := [0xaa, 0x8c, 0x00, 0xc0, 0x4f, 0xb6, 0x78, 0x63] }

def IsEqualGUID (a b : GUID) : Bool := decide (a = b)

def hexDigit (c : Nat) : Option Nat :=
  if 48 ≤ c ∧ c ≤ 57 then some (c - 48)
  else if 97 ≤ c ∧ c ≤ 102 then some (c - 87)
  else if 65 ≤ c ∧ c ≤ 70 then some (c - 55)
  else none

def hexValue : List Nat → Option Nat
  | [] => some 0
  | c :: cs =>
    match hexDigit c, hexValue cs with
    | some d, some v => some (d * 16 ^ cs.length + v)
    | _, _ => none

def hexBytes : List Nat → Option (List Nat)
  | a :: b :: rest =>
    match hexValue [a, b], hexBytes rest with
    | some v, some vs => some (v :: vs)
    | _, _ => none
  | _ => some []

/-- Modelled from the spec: `CLSIDFromString` lives in ole32 and is not among the sources.
The spec speaks of "a 38-character GUID text form" whose failure to parse fails the segment:
the text is an opening brace, 8-4-4-4-12 hexadecimal digits separated by dashes, and a closing
brace; any other text is answered with `CO_E_CLASSSTRING`. -/
def CLSIDFromString (s : List Nat) : HRESULT × GUID :=
  let bad : HRESULT × GUID := (CO_E_CLASSSTRING, ⟨0, 0, 0, []⟩)
  if s.length ≠ 38 then bad
  else if chr s 0 ≠ 123 ∨ chr s 9 ≠ 45 ∨ chr s 14 ≠ 45 ∨ chr s 19 ≠ 45 ∨ chr s 24 ≠ 45
      ∨ chr s 37 ≠ 125 then bad
  else
    match hexValue ((s.drop 1).take 8), hexValue ((s.drop 10).take 4),
        hexValue ((s.drop 15).take 4), hexBytes ((s.drop 20).take 4),
        hexBytes ((s.drop 25).take 12) with
    | some d1, some d2, some d3, some b1, some b2 => (S_OK, ⟨d1, d2, d3, b1 ++ b2⟩)
    | _, _, _, _, _ => bad

/-! ## The link object -/

/-- The `SYSTEMTIME` of winbase.h: eight 16-bit fields. -/
structure SYSTEMTIME where
  wYear : Nat
  wMonth : Nat
  wDayOfWeek : Nat
  wDay : Nat
  wHour : Nat
  wMinute : Nat
  wSecond : Nat
  wMilliseconds : Nat
deriving DecidableEq, Repr

/-- The `volume_info` struct; `label` is the array `WCHAR label[12]`. -/
structure volume_info where
  type : Nat
  serial : Nat
  label : List Nat
deriving DecidableEq, Repr

/-- The data members of `IShellLinkImpl` (the interface tables and the reference count are
left out). `pPidl` is the id list as an uninterpreted byte blob. -/
structure IShellLinkImpl where
  pPidl : Option (List Nat)
  wHotKey : Nat
  time1 : SYSTEMTIME
  time2 : SYSTEMTIME
  time3 : SYSTEMTIME
  iShowCmd : Nat
  sIcoPath : Option (List Nat)
  iIcoNdx : Int
  sPath : Option (List Nat)
  sArgs : Option (List Nat)
  sWorkDir : Option (List Nat)
  sDescription : Option (List Nat)
  sPathRel : Option (List Nat)
  sProduct : Option (List Nat)
  sComponent : Option (List Nat)
  volume : volume_info
  bDirty : Bool
deriving DecidableEq, Repr

def SW_SHOWNORMAL : Nat := 1

/-- The object `IShellLink_Constructor` builds: zero-initialised storage, then
`iShowCmd = SW_SHOWNORMAL` and `bDirty = FALSE`. -/
def IShellLink_Constructor : IShellLinkImpl :=
  { pPidl := none, wHotKey := 0,
    time1 := ⟨0, 0, 0, 0, 0, 0, 0, 0⟩, time2 := ⟨0, 0, 0, 0, 0, 0, 0, 0⟩,
    time3 := ⟨0, 0, 0, 0, 0, 0, 0, 0⟩,
    iShowCmd := SW_SHOWNORMAL, sIcoPath := none, iIcoNdx := 0, sPath := none, sArgs := none,
    sWorkDir := none, sDescription := none, sPathRel := none, sProduct := none,
    sComponent := none, volume := ⟨0, 0, List.replicate 12 0⟩, bDirty := false }

/-! ## Advertised shortcut strings -/

/-- `ShellLink_GetAdvertisedArg`: a copy of the units before the first colon; `NULL` for a
null argument and for a string without a colon. -/
def ShellLink_GetAdvertisedArg (str : Option (List Nat)) : Option (List Nat) :=
  match str with
  | none => none
  | some s =>
    match strchrW s 58 with
    | none => none
    | some p => some (s.take (s.length - p.length))

/-- The `while` loop of `ShellLink_SetAdvertiseInfo`. `str` is the text from the current
position on, `szComponent` and `szProduct` the two value pointers found so far. The result is
`some (.ok _)` when the loop is left (by its condition or by `break`), `some (.error r)` when
the function returns `r` from inside it. The first argument bounds the number of iterations;
`none` means the bound was too small. -/
def advertiseLoop : Nat → List Nat → Option (List Nat) → Option (List Nat) →
    Option (Except HRESULT (Option (List Nat) × Option (List Nat)))
  | 0, _, _, _ => none
  | fuel + 1, str, szComponent, szProduct =>
    if chr str 0 = 0 then some (.ok (szComponent, szProduct))
    else if chr str 0 ≠ 58 ∨ chr str 1 ≠ 58 then some (.error E_FAIL)
    else if chr str 2 = 0 then some (.ok (szComponent, szProduct))
    else
      let str1 := str.drop 2
      match strchrW str1 58 with
      | none => some (.error E_FAIL)
      | some p =>
        let len := str1.length - p.length
        if len ≠ 38 then some (.error E_FAIL)
        else
          let szGuid := str1.take len
          let rg := CLSIDFromString szGuid
          if rg.1 ≠ S_OK then some (.error rg.1)
          else
            let str2 := p.drop 1
            let matched : Option (Option (List Nat) × Option (List Nat)) :=
              if IsEqualGUID rg.2 SHELL32_AdvtShortcutComponent ∧ szComponent = none then
                some (some str2, szProduct)
              else if IsEqualGUID rg.2 SHELL32_AdvtShortcutProduct ∧ szProduct = none then
                some (szComponent, some str2)
              else none
            match matched with
            | none => some (.error E_FAIL)
            | some (szComponent1, szProduct1) =>
              match strchrW str2 58 with
              | none => some (.error E_FAIL)
              | some str3 => advertiseLoop fuel str3 szComponent1 szProduct1

/-- `ShellLink_SetAdvertiseInfo`: the loop, then the test for a component, then the two
assignments. The argument is seen as a C string. The iteration bound is one more than the
length of the text, which the loop never exhausts. -/
def ShellLink_SetAdvertiseInfo (This : IShellLinkImpl) (str : List Nat) :
    Option (HRESULT × IShellLinkImpl) :=
  match advertiseLoop ((cstr str).length + 1) (cstr str) none none with
  | none => none
  | some (.error r) => some (r, This)
  | some (.ok (szComponent, szProduct)) =>
    match szComponent with
    | none => some (E_FAIL, This)
    | some c =>
      some (S_OK, { This with
        sComponent := ShellLink_GetAdvertisedArg (some c),
        sProduct := ShellLink_GetAdvertisedArg szProduct })

/-- The text `"::{9db1186e-40df-11d1-aa8c-00c04fb67863}:"` as code units. -/
def componentLead : List Nat :=
  "::\x7b9db1186e-40df-11d1-aa8c-00c04fb67863\x7d:".toList.map Char.toNat

/-- The text `"::{9db1186f-40df-11d1-aa8c-00c04fb67863}:"` as code units. -/
def productLead : List Nat :=
  "::\x7b9db1186f-40df-11d1-aa8c-00c04fb67863\x7d:".toList.map Char.toNat

/-! ## Bytes and encodings -/

/-- The byte at index `i` of a byte sequence. -/
def byte (b : List Nat) (i : Nat) : Nat := b.getD i 0 % 256

/-- A little-endian 16-bit value at the start of `b`. -/
def u16 (b : List Nat) : Nat := byte b 0 + 256 * byte b 1

/-- A little-endian 32-bit value at the start of `b`. -/
def u32 (b : List Nat) : Nat :=
  byte b 0 + 256 * byte b 1 + 65536 * byte b 2 + 16777216 * byte b 3

/-- The little-endian 32-bit value at offset `off` of `b`. -/
def u32At (b : List Nat) (off : Nat) : Nat := u32 (b.drop off)

/-- The little-endian 64-bit value at offset `off` of `b`. -/
def u64At (b : List Nat) (off : Nat) : Nat := u32At b off + 4294967296 * u32At b (off + 4)

def le16 (n : Nat) : List Nat := [n % 256, n / 256 % 256]

def le32 (n : Nat) : List Nat := [n % 256, n / 256 % 256, n / 65536 % 256, n / 16777216 % 256]

def le64 (n : Nat) : List Nat := le32 (n % 4294967296) ++ le32 (n / 4294967296)

/-- The value of an `INT` as the `DWORD` with the same bits. -/
def toDWORD (i : Int) : Nat := (i % 4294967296).toNat

/-- The value of a `DWORD` as the `INT` with the same bits. -/
def toINT (n : Nat) : Int :=
  if n % 4294967296 < 2147483648 then ((n % 4294967296 : Nat) : Int)
  else ((n % 4294967296 : Nat) : Int) - 4294967296

/-- The bytes of an array of 16-bit units. -/
def wideBytes : List Nat → List Nat
  | [] => []
  | c :: cs => c % 256 :: c / 256 % 256 :: wideBytes cs

/-- The 16-bit units of a byte array (a trailing odd byte is no unit). -/
def wideUnits : List Nat → List Nat
  | a :: b :: rest => (a % 256 + 256 * (b % 256)) :: wideUnits rest
  | _ => []

/-- Modelled from the spec: the conversions `MultiByteToWideChar` and `WideCharToMultiByte`
for `CP_ACP` live in kernel32 and are not among the sources. The spec calls the narrow form
"narrow-encoded bytes" that are "decoded to an internal Unicode representation"; the embedding
fixes the single-byte code page ISO-8859-1: byte `b` is the unit `b`. -/
def mbtowc (b : Nat) : Nat := b % 256

/-- Modelled from the spec: the narrow form of one unit in the same code page; a unit with
no narrow form becomes the default character `?`. -/
def wctomb (c : Nat) : Nat := if c < 256 then c else 63

/-- `n` bytes, those of `b` first and zeros after them. -/
def padTo (n : Nat) (b : List Nat) : List Nat := (b ++ List.replicate n 0).take n

/-! ## Streams -/

/-- `IStream::Read` of `cb` bytes: the bytes handed out (their number is `*pcbRead`) and the
stream after the call. -/
def IStream_Read (stm : List Nat) (cb : Nat) : List Nat × List Nat := (stm.take cb, stm.drop cb)

/-- A stream being written: the bytes stored so far, the number of `Write` calls made so far,
and which calls the medium refuses. -/
structure WStream where
  data : List Nat
  calls : Nat
  fails : Nat → Bool

/-- `IStream::Write`: a refused call stores nothing and returns a failure code. -/
def IStream_Write (stm : WStream) (bytes : List Nat) : HRESULT × WStream :=
  if stm.fails stm.calls then (STG_E_MEDIUMFULL, { stm with calls := stm.calls + 1 })
  else (S_OK, { stm with data := stm.data ++ bytes, calls := stm.calls + 1 })

/-- An empty stream that accepts every write. -/
def emptyStream : WStream := { data := [], calls := 0, fails := fun _ => false }

/-- Functions the file calls that are defined elsewhere (pidl.c, shlexec.c, kernel32); they are
parameters of the embedding.
* `ILLoadFromStream stm`: result code, the id list stored through the pointer, stream after.
* `ILSaveToStream stm pidl`: result code and stream after.
* `SHELL_FindExecutable path`: the content of the result buffer after the call (it starts with
  a zero unit, or is empty, when nothing was found).
* `FileTimeToSystemTime`, `SystemTimeToFileTime`: `none` when the conversion fails and leaves
  its output untouched. -/
structure Collaborators where
  ILLoadFromStream : List Nat → HRESULT × Option (List Nat) × List Nat
  ILSaveToStream : WStream → List Nat → HRESULT × WStream
  SHELL_FindExecutable : List Nat → List Nat
  FileTimeToSystemTime : Nat → Option SYSTEMTIME
  SystemTimeToFileTime : SYSTEMTIME → Option Nat

/-- The prior content of the four bytes of `buffer.dbh.cbSize` in the two calls of
`Stream_LoadAdvertiseInfo` that `IPersistStream_fnLoad` makes: the local is not initialised
and a short read leaves part of it as it was. -/
structure Indeterminate where
  logo3 : List Nat
  darwin : List Nat

/-! ## Header constants (shlobj.h, shlguid.h) -/

def SLDF_HAS_ID_LIST : Nat := 0x1
def SLDF_HAS_LINK_INFO : Nat := 0x2
def SLDF_HAS_NAME : Nat := 0x4
def SLDF_HAS_RELPATH : Nat := 0x8
def SLDF_HAS_WORKINGDIR : Nat := 0x10
def SLDF_HAS_ARGS : Nat := 0x20
def SLDF_HAS_ICONLOCATION : Nat := 0x40
def SLDF_UNICODE : Nat := 0x80
def SLDF_HAS_LOGO3ID : Nat := 0x800
def SLDF_HAS_DARWINID : Nat := 0x1000

def EXP_DARWIN_ID_SIG : Nat := 0xA0000006
def EXP_SZ_ICON_SIG : Nat := 0xA0000007

/-- The bytes of `CLSID_ShellLink`, `{00021401-0000-0000-C000-000000000046}`. -/
def CLSID_ShellLink : List Nat :=
  [0x01, 0x14, 0x02, 0x00, 0x00, 0x00, 0x00, 0x00, 0xC0, 0x00, 0x00, 0x00, 0x00, 0x00, 0x00, 0x46]

/-- The size of `LINK_HEADER`. -/
def sizeof_LINK_HEADER : Nat := 0x4C

/-- The size of `LOCATION_INFO`. -/
def sizeof_LOCATION_INFO : Nat := 28

/-- The size of `LOCAL_VOLUME_INFO`. -/
def sizeof_LOCAL_VOLUME_INFO : Nat := 16

/-- The size of `EXP_DARWIN_LINK`: two header words, `MAX_PATH` narrow characters and
`MAX_PATH` wide characters (0x314, as the comment in the source records). -/
def sizeof_EXP_DARWIN_LINK : Nat := 8 + MAX_PATH + 2 * MAX_PATH

/-- The test `flags & mask`. -/
def hasFlag (flags mask : Nat) : Bool := decide (flags &&& mask ≠ 0)

/-! ## Reading -/

/-- `Stream_LoadString`: the result code, the new value of `*pstr` (given its old value) and
the stream after the call. -/
def Stream_LoadString (stm : List Nat) (unicode : Bool) (pstr : Option (List Nat)) :
    HRESULT × Option (List Nat) × List Nat :=
  let rd := IStream_Read stm 2
  if rd.1.length ≠ 2 then (E_FAIL, pstr, rd.2)
  else
    let len0 := u16 rd.1
    let len := if unicode then (len0 * 2) % 65536 else len0
    let rd2 := IStream_Read rd.2 len
    if rd2.1.length ≠ len then (E_FAIL, pstr, rd2.2)
    else if unicode then (S_OK, some (wideUnits rd2.1), rd2.2)
    else (S_OK, some (rd2.1.map mbtowc), rd2.2)

/-- `Stream_ReadChunk`: result code, the chunk (its size field included) and the stream after.
A declared size below 4 makes the code store the size field, and read the rest of the stream,
past the end of the block it allocated. -/
def Stream_ReadChunk (stm : List Nat) : Option (HRESULT × List Nat × List Nat) :=
  let rd := IStream_Read stm 4
  if rd.1.length ≠ 4 then some (E_FAIL, [], rd.2)
  else
    let size := u32 rd.1
    if size < 4 then none
    else
      let rd2 := IStream_Read rd.2 (size - 4)
      if rd2.1.length ≠ size - 4 then some (E_FAIL, [], rd2.2)
      else some (S_OK, le32 size ++ rd2.1, rd2.2)

/-- The bytes `p[start] .. p[start + n - 1]` of an object `p`, when they all lie inside it. -/
def peek (p : List Nat) (start n : Nat) : Option (List Nat) :=
  if start + n ≤ p.length then some ((p.drop start).take n) else none

/-- The length the library computes for a narrow string at `mem`: the index of its first zero
byte, when there is one inside the object. -/
def strlenA : List Nat → Option Nat
  | [] => none
  | b :: rest => if b % 256 = 0 then some 0 else (strlenA rest).map (fun k => k + 1)

/-- The array `dst` after `src` has been stored at its start. -/
def store (dst src : List Nat) : List Nat := src ++ dst.drop src.length

/-- `Stream_LoadVolume` for the sub-record at offset `ofs` of the chunk `p`: the value returned
and the volume afterwards. The conversion stores at most `label_sz - 1` = 11 units in the
label; a length that is negative as an `int` makes the conversion measure the narrow string
itself. -/
def Stream_LoadVolume (p : List Nat) (ofs : Nat) (volume : volume_info) :
    Option (Bool × volume_info) :=
  match peek p ofs sizeof_LOCAL_VOLUME_INFO with
  | none => none
  | some vol =>
    let volume1 := { volume with serial := u32At vol 8, type := u32At vol 4 }
    let dwSize := u32At vol 0
    let dwVolLabelOfs := u32At vol 12
    if dwVolLabelOfs = 0 then some (false, volume1)
    else if dwSize ≤ dwVolLabelOfs then some (false, volume1)
    else
      let len := dwSize - dwVolLabelOfs
      let srclen : Option Nat :=
        if len < 2147483648 then some len
        else (strlenA (p.drop (ofs + dwVolLabelOfs))).map (fun k => k + 1)
      match srclen with
      | none => none
      | some n =>
        match peek p (ofs + dwVolLabelOfs) (min n 11) with
        | none => none
        | some src => some (true, { volume1 with label := store volume1.label (src.map mbtowc) })

/-- The loop `while( p[len] && (len < maxlen) ) len++` of `Stream_LoadPath`; `mem` are the
bytes of the object from `p[len]` on. -/
def Stream_LoadPath_scan : List Nat → Nat → Nat → Option Nat
  | [], _, _ => none
  | b :: rest, maxlen, len =>
    if b % 256 = 0 then some len
    else if len < maxlen then Stream_LoadPath_scan rest maxlen (len + 1)
    else some len

/-- `Stream_LoadPath`: the wide copy of the narrow string at `mem`. -/
def Stream_LoadPath (mem : List Nat) (maxlen : Nat) : Option (List Nat) :=
  (Stream_LoadPath_scan mem maxlen 0).map (fun len => (mem.take len).map mbtowc)

/-- `Stream_LoadLocation`: result code, volume and `*path` afterwards, stream after. -/
def Stream_LoadLocation (stm : List Nat) (volume : volume_info) (path : Option (List Nat)) :
    Option (HRESULT × volume_info × Option (List Nat) × List Nat) :=
  match Stream_ReadChunk stm with
  | none => none
  | some (r, p, stm1) =>
    if FAILED r then some (r, volume, path, stm1)
    else
      let dwTotalSize := u32At p 0
      if dwTotalSize < sizeof_LOCATION_INFO then some (E_FAIL, volume, path, stm1)
      else
        let dwVolTableOfs := u32At p 12
        let vol : Option volume_info :=
          if dwVolTableOfs ≠ 0
              ∧ (dwVolTableOfs + sizeof_LOCAL_VOLUME_INFO) % 4294967296 ≤ dwTotalSize then
            (Stream_LoadVolume p dwVolTableOfs volume).map (fun x => x.2)
          else some volume
        match vol with
        | none => none
        | some volume1 =>
          let n := u32At p 16
          if n ≠ 0 ∧ n < dwTotalSize then
            match Stream_LoadPath (p.drop n) (dwTotalSize - n) with
            | none => none
            | some s => some (S_OK, volume1, some s, stm1)
          else some (S_OK, volume1, path, stm1)

/-- `Stream_LoadAdvertiseInfo`: result code, new value of `*str`, stream after. `junk` is the
prior content of `buffer.dbh.cbSize`. The block's wide buffer starts at offset 8 + `MAX_PATH`;
measuring a wide buffer without a zero unit runs past the end of the local. -/
def Stream_LoadAdvertiseInfo (junk : List Nat) (stm : List Nat) (str : Option (List Nat)) :
    Option (HRESULT × Option (List Nat) × List Nat) :=
  let rd := IStream_Read stm 4
  let cbSize := u32 (rd.1 ++ junk.drop rd.1.length)
  let size := sizeof_EXP_DARWIN_LINK - 4
  if cbSize ≠ sizeof_EXP_DARWIN_LINK then some (E_FAIL, str, rd.2)
  else
    let rd2 := IStream_Read rd.2 size
    if rd2.1.length ≠ size then some (E_FAIL, str, rd2.2)
    else
      let dwSignature := u32 rd2.1
      if dwSignature &&& 0xffff0000 ≠ 0xa0000000 then some (E_FAIL, str, rd2.2)
      else
        let szwDarwinID := wideUnits ((rd2.1.drop (4 + MAX_PATH)).take (2 * MAX_PATH))
        if 0 ∈ szwDarwinID then some (S_OK, some (cstr szwDarwinID), rd2.2) else none

/-- The state between two steps of `IPersistStream_fnLoad`: the value of `r`, the object and
the stream; `none` after an access outside an object. -/
abbrev LoadState := Option (HRESULT × IShellLinkImpl × List Nat)

/-- Sequencing with `if( FAILED( r ) ) goto end;` (or `return r;`): once `r` is a failure the
remaining steps are skipped and `r` is what the function returns. -/
def LoadState.next (s : LoadState) (f : HRESULT → IShellLinkImpl → List Nat → LoadState) :
    LoadState :=
  match s with
  | none => none
  | some (r, This, stm) => if FAILED r then some (r, This, stm) else f r This stm

/-- One string section of `IPersistStream_fnLoad`: read when `present`, with `get` and `set`
naming the member. -/
def loadStringSection (present unicode : Bool) (get : IShellLinkImpl → Option (List Nat))
    (set : IShellLinkImpl → Option (List Nat) → IShellLinkImpl)
    (r : HRESULT) (This : IShellLinkImpl) (stm : List Nat) : LoadState :=
  if present then
    let x := Stream_LoadString stm unicode (get This)
    some (x.1, set This x.2.1, x.2.2)
  else some (r, This, stm)

/-- One advertised-info section of `IPersistStream_fnLoad`. -/
def loadAdvertiseSection (present : Bool) (junk : List Nat)
    (get : IShellLinkImpl → Option (List Nat))
    (set : IShellLinkImpl → Option (List Nat) → IShellLinkImpl)
    (r : HRESULT) (This : IShellLinkImpl) (stm : List Nat) : LoadState :=
  if present then
    (Stream_LoadAdvertiseInfo junk stm (get This)).map (fun x => (x.1, set This x.2.1, x.2.2))
  else some (r, This, stm)

/-- The part of `IPersistStream_fnLoad` that frees the old members and takes the scalar
members from the header `hdr`. `iShowCmd` and `bDirty` are not assigned. -/
def loadHeaderFields (env : Collaborators) (This : IShellLinkImpl) (hdr : List Nat) :
    IShellLinkImpl :=
  { This with
    pPidl := none
    volume := ⟨0, 0, List.replicate 12 0⟩
    sPath := none
    sDescription := none
    sPathRel := none
    sWorkDir := none
    sArgs := none
    sIcoPath := none
    sProduct := none
    sComponent := none
    wHotKey := u32At hdr 0x40 % 65536
    iIcoNdx := toINT (u32At hdr 0x38)
    time1 := (env.FileTimeToSystemTime (u64At hdr 0x1c)).getD This.time1
    time2 := (env.FileTimeToSystemTime (u64At hdr 0x24)).getD This.time2
    time3 := (env.FileTimeToSystemTime (u64At hdr 0x2c)).getD This.time3 }

/-- The part of `IPersistStream_fnLoad` under the comment "load all the new stuff", up to the
last `goto end`: the sections selected by the header flags, in their fixed order. -/
def loadNewStuff (env : Collaborators) (junk : Indeterminate) (dwFlags : Nat)
    (r : HRESULT) (This : IShellLinkImpl) (stm : List Nat) : LoadState :=
  let unicode := hasFlag dwFlags SLDF_UNICODE
  let s0 : LoadState := some (r, This, stm)
  let s1 := s0.next (fun r This stm =>
    if hasFlag dwFlags SLDF_HAS_ID_LIST then
      let x := env.ILLoadFromStream stm
      some (x.1, { This with pPidl := x.2.1 }, x.2.2)
    else some (r, This, stm))
  let s2 := s1.next (fun r This stm =>
    if hasFlag dwFlags SLDF_HAS_LINK_INFO then
      (Stream_LoadLocation stm This.volume This.sPath).map
        (fun x => (x.1, { This with volume := x.2.1, sPath := x.2.2.1 }, x.2.2.2))
    else some (r, This, stm))
  let s3 := s2.next (loadStringSection (hasFlag dwFlags SLDF_HAS_NAME) unicode
    (fun t => t.sDescription) (fun t v => { t with sDescription := v }))
  let s4 := s3.next (loadStringSection (hasFlag dwFlags SLDF_HAS_RELPATH) unicode
    (fun t => t.sPathRel) (fun t v => { t with sPathRel := v }))
  let s5 := s4.next (loadStringSection (hasFlag dwFlags SLDF_HAS_WORKINGDIR) unicode
    (fun t => t.sWorkDir) (fun t v => { t with sWorkDir := v }))
  let s6 := s5.next (loadStringSection (hasFlag dwFlags SLDF_HAS_ARGS) unicode
    (fun t => t.sArgs) (fun t v => { t with sArgs := v }))
  let s7 := s6.next (loadStringSection (hasFlag dwFlags SLDF_HAS_ICONLOCATION) unicode
    (fun t => t.sIcoPath) (fun t v => { t with sIcoPath := v }))
  let s8 := s7.next (loadAdvertiseSection (hasFlag dwFlags SLDF_HAS_LOGO3ID) junk.logo3
    (fun t => t.sProduct) (fun t v => { t with sProduct := v }))
  s8.next (loadAdvertiseSection (hasFlag dwFlags SLDF_HAS_DARWINID) junk.darwin
    (fun t => t.sComponent) (fun t v => { t with sComponent := v }))

/-- `IPersistStream_fnLoad` on a stream (the guard against a null stream pointer is outside
the embedding): the value returned, the object afterwards and the stream afterwards. The last
read, of the terminating word, has no effect on the result: its outcome is only logged. -/
def IPersistStream_fnLoad (env : Collaborators) (junk : Indeterminate) (This : IShellLinkImpl)
    (stm : List Nat) : LoadState :=
  let rd := IStream_Read stm sizeof_LINK_HEADER
  let hdr := rd.1
  if hdr.length ≠ sizeof_LINK_HEADER then some (E_FAIL, This, rd.2)
  else if u32At hdr 0 ≠ sizeof_LINK_HEADER then some (E_FAIL, This, rd.2)
  else if ((hdr.drop 4).take 16).map (fun b => b % 256) ≠ CLSID_ShellLink then
    some (E_FAIL, This, rd.2)
  else
    (loadNewStuff env junk (u32At hdr 0x14) S_OK (loadHeaderFields env This hdr) rd.2).next
      (fun _ This stm => some (S_OK, This, (IStream_Read stm 4).2))

/-! ## Writing -/

/-- `Stream_WriteString`: the 16-bit count `lstrlenW( str ) + 1`, then that many units taken
from the buffer, the byte count again being computed in 16 bits. -/
def Stream_WriteString (stm : WStream) (str : List Nat) : HRESULT × WStream :=
  let len := (lstrlenW str + 1) % 65536
  let w1 := IStream_Write stm (le16 len)
  if FAILED w1.1 then w1
  else
    let len2 := (len * 2) % 65536
    let w2 := IStream_Write w1.2 ((wideBytes (cstr str ++ [0])).take len2)
    if FAILED w2.1 then w2 else (S_OK, w2.2)

/-- `Stream_WriteLocationInfo`. The label is measured as a C string inside the array
`volume->label`; an array without a zero unit is read past its end. -/
def Stream_WriteLocationInfo (stm : WStream) (path : List Nat) (volume : volume_info) :
    Option (HRESULT × WStream) :=
  if 0 ∈ volume.label then
    let szLabel := (cstr volume.label).map wctomb ++ [0]
    let szPath := (cstr path).map wctomb ++ [0]
    let label_size := szLabel.length
    let path_size := szPath.length
    let volume_info_size := sizeof_LOCAL_VOLUME_INFO + label_size
    let final_path_size := 1
    let total_size := sizeof_LOCATION_INFO + volume_info_size + path_size + final_path_size
    let loc := le32 total_size ++ le32 sizeof_LOCATION_INFO ++ le32 1
      ++ le32 sizeof_LOCATION_INFO ++ le32 (sizeof_LOCATION_INFO + volume_info_size)
      ++ le32 0 ++ le32 (sizeof_LOCATION_INFO + volume_info_size + path_size)
    let vol := le32 volume_info_size ++ le32 volume.type ++ le32 volume.serial
      ++ le32 sizeof_LOCAL_VOLUME_INFO
    some (IStream_Write stm (loc ++ vol ++ szLabel ++ szPath ++ [0]))
  else none

/-- `Stream_WriteAdvertiseInfo`: a zeroed block with its size, the signature, the string
copied into the wide buffer by `lstrcpynW` (at most `MAX_PATH - 1` units and a terminator) and
converted into the narrow buffer (at most `MAX_PATH` bytes). -/
def Stream_WriteAdvertiseInfo (stm : WStream) (string : List Nat) (magic : Nat) :
    HRESULT × WStream :=
  let szwDarwinID := padTo (2 * MAX_PATH) (wideBytes ((cstr string).take (MAX_PATH - 1)))
  let szDarwinID := padTo MAX_PATH ((cstr string).map wctomb)
  IStream_Write stm (le32 sizeof_EXP_DARWIN_LINK ++ le32 magic ++ szDarwinID ++ szwDarwinID)

/-- The flags word `IPersistStream_fnSave` puts in the header. -/
def saveFlags (This : IShellLinkImpl) : Nat :=
  SLDF_UNICODE
    ||| (if This.pPidl.isSome then SLDF_HAS_ID_LIST else 0)
    ||| (if This.sPath.isSome then SLDF_HAS_LINK_INFO else 0)
    ||| (if This.sDescription.isSome then SLDF_HAS_NAME else 0)
    ||| (if This.sWorkDir.isSome then SLDF_HAS_WORKINGDIR else 0)
    ||| (if This.sArgs.isSome then SLDF_HAS_ARGS else 0)
    ||| (if This.sIcoPath.isSome then SLDF_HAS_ICONLOCATION else 0)
    ||| (if This.sProduct.isSome then SLDF_HAS_LOGO3ID else 0)
    ||| (if This.sComponent.isSome then SLDF_HAS_DARWINID else 0)

/-- The `LINK_HEADER` that `IPersistStream_fnSave` fills in: zeroed, then size, show command,
magic, hot key, icon index, flags and the three times (a time whose conversion fails stays
zero). -/
def saveHeader (env : Collaborators) (This : IShellLinkImpl) : List Nat :=
  le32 sizeof_LINK_HEADER ++ CLSID_ShellLink ++ le32 (saveFlags This) ++ le32 0
    ++ le64 ((env.SystemTimeToFileTime This.time1).getD 0)
    ++ le64 ((env.SystemTimeToFileTime This.time2).getD 0)
    ++ le64 ((env.SystemTimeToFileTime This.time3).getD 0)
    ++ le32 0 ++ le32 (toDWORD This.iIcoNdx) ++ le32 This.iShowCmd
    ++ le32 (This.wHotKey % 65536) ++ le32 0 ++ le32 0

/-- The content of the local `exePath` when the header is written: empty without a path;
otherwise what `SHELL_FindExecutable` found, or a copy of the path when it found nothing.
The copy overruns the `MAX_PATH` units of the local when the path is too long. -/
def saveExePath (env : Collaborators) (This : IShellLinkImpl) : Option (List Nat) :=
  match This.sPath with
  | none => some []
  | some sPath =>
    let found := env.SHELL_FindExecutable sPath
    if chr found 0 ≠ 0 then some found
    else if lstrlenW sPath < MAX_PATH then some (cstr sPath)
    else none

/-- An unconditional step on the output stream that keeps or drops the result code. -/
def writeOptional (field : Option (List Nat)) (w : WStream → List Nat → HRESULT × WStream)
    (stm : WStream) : WStream :=
  match field with
  | none => stm
  | some v => (w stm v).2

/-- `IPersistStream_fnSave` (the argument `fClearDirty` is not used by the code): the value
returned and the stream afterwards. Only the writes of the header and of the id list are
followed by a test of their result; the results of all later writes are not looked at, and
the function ends with `return S_OK`. -/
def IPersistStream_fnSave (env : Collaborators) (This : IShellLinkImpl) (stm : WStream) :
    Option (HRESULT × WStream) :=
  match saveExePath env This with
  | none => none
  | some exePath =>
    let w0 := IStream_Write stm (saveHeader env This)
    if FAILED w0.1 then some w0
    else
      let w1 : HRESULT × WStream :=
        match This.pPidl with
        | none => w0
        | some pidl => env.ILSaveToStream w0.2 pidl
      if This.pPidl.isSome ∧ FAILED w1.1 then some w1
      else
        let w2 : Option WStream :=
          match This.sPath with
          | none => some w1.2
          | some _ => (Stream_WriteLocationInfo w1.2 exePath This.volume).map (fun x => x.2)
        match w2 with
        | none => none
        | some stm2 =>
          let stm3 := writeOptional This.sDescription Stream_WriteString stm2
          let stm4 := writeOptional This.sPathRel Stream_WriteString stm3
          let stm5 := writeOptional This.sWorkDir Stream_WriteString stm4
          let stm6 := writeOptional This.sArgs Stream_WriteString stm5
          let stm7 := writeOptional This.sIcoPath Stream_WriteString stm6
          let stm8 := writeOptional This.sProduct
            (fun s v => Stream_WriteAdvertiseInfo s v EXP_SZ_ICON_SIG) stm7
          let stm9 := writeOptional This.sComponent
            (fun s v => Stream_WriteAdvertiseInfo s v EXP_DARWIN_ID_SIG) stm8
          some (S_OK, (IStream_Write stm9 (le32 0)).2)

/-- A reader for id lists framed by a 16-bit byte count. -/
def framedILLoad (stm : List Nat) : HRESULT × Option (List Nat) × List Nat :=
  let rd := IStream_Read stm 2
  if rd.1.length ≠ 2 then (E_FAIL, none, rd.2)
  else
    let rd2 := IStream_Read rd.2 (u16 rd.1)
    if rd2.1.length ≠ u16 rd.1 then (E_FAIL, none, rd2.2)
    else (S_OK, some (rd2.1.map (fun b => b % 256)), rd2.2)

/-- A writer for id lists framed by a 16-bit byte count. -/
def framedILSave (stm : WStream) (pidl : List Nat) : HRESULT × WStream :=
  IStream_Write stm (le16 pidl.length ++ pidl.map (fun b => b % 256))

/-- An instance of the collaborators used where a concrete one is needed: the id list is
framed by a 16-bit byte count, no executable is ever found, and times do not convert. -/
def plainCollaborators : Collaborators :=
  { ILLoadFromStream := framedILLoad
    ILSaveToStream := framedILSave
    SHELL_FindExecutable := fun _ => []
    FileTimeToSystemTime := fun _ => none
    SystemTimeToFileTime := fun _ => none }

/-- A text as 16-bit units. -/
def units (s : String) : List Nat := s.toList.map Char.toNat

/-! ## Notions used in the statements and proofs -/

/-- The bytes `Stream_WriteString` hands to the stream for a buffer. -/
def stringImage (b : List Nat) : List Nat :=
  le16 ((lstrlenW b + 1) % 65536)
    ++ (wideBytes (cstr b ++ [0])).take ((lstrlenW b + 1) % 65536 * 2 % 65536)

/-- A stream that refuses no write. -/
def Accepting (w : WStream) : Prop := ∀ n, w.fails n = false

/-- The bytes `Stream_WriteAdvertiseInfo` hands to the stream. -/
def advertiseImage (s : List Nat) (magic : Nat) : List Nat :=
  le32 sizeof_EXP_DARWIN_LINK ++ le32 magic ++ padTo MAX_PATH ((cstr s).map wctomb)
    ++ padTo (2 * MAX_PATH) (wideBytes ((cstr s).take (MAX_PATH - 1)))

/-- The bytes `Stream_WriteLocationInfo` hands to the stream. -/
def locationImage (path : List Nat) (volume : volume_info) : List Nat :=
  let szLabel := (cstr volume.label).map wctomb ++ [0]
  let szPath := (cstr path).map wctomb ++ [0]
  let volume_info_size := sizeof_LOCAL_VOLUME_INFO + szLabel.length
  let total_size := sizeof_LOCATION_INFO + volume_info_size + szPath.length + 1
  (le32 total_size ++ le32 sizeof_LOCATION_INFO ++ le32 1
      ++ le32 sizeof_LOCATION_INFO ++ le32 (sizeof_LOCATION_INFO + volume_info_size)
      ++ le32 0 ++ le32 (sizeof_LOCATION_INFO + volume_info_size + szPath.length))
    ++ (le32 volume_info_size ++ le32 volume.type ++ le32 volume.serial
      ++ le32 sizeof_LOCAL_VOLUME_INFO)
    ++ szLabel ++ szPath ++ [0]

/-- A reading step is local when a successful run consumes a front part of the stream and
looks at nothing behind it: with any other bytes behind that part it gives the same result. -/
def Local (f : List Nat → LoadState) : Prop :=
  ∀ stm r T rest, f stm = some (r, T, rest) → FAILED r = false →
    ∃ c, stm = c ++ rest ∧ ∀ t, f (c ++ t) = some (r, T, t)

/-- The id-list reader is local. -/
def PidlLoadLocal (env : Collaborators) : Prop :=
  ∀ stm r p rest, env.ILLoadFromStream stm = (r, p, rest) → FAILED r = false →
    ∃ c, stm = c ++ rest ∧ ∀ t, env.ILLoadFromStream (c ++ t) = (r, p, t)

/-- Every outcome of a state satisfies `P`. -/
def Keeps (P : IShellLinkImpl → Prop) (s : LoadState) : Prop :=
  ∀ r T rest, s = some (r, T, rest) → P T

/-- The bytes of an optional section: nothing for an absent member. -/
def optImage (field : Option (List Nat)) (img : List Nat → List Nat) : List Nat :=
  match field with
  | none => []
  | some b => img b

/-- A state that has not failed, with its object and its remaining stream. -/
def Reads (s : LoadState) (T : IShellLinkImpl) (rest : List Nat) : Prop :=
  ∃ r, FAILED r = false ∧ s = some (r, T, rest)

/-- The id list `pidl` survives the collaborators' writer and reader: on a stream that accepts
every write the writer appends some bytes `enc`, and the reader takes exactly these bytes from
the front of any stream and gives back `pidl`. -/
def PidlRoundTrip (env : Collaborators) (pidl : List Nat) : Prop :=
  ∃ enc : List Nat,
    (∀ w, Accepting w → FAILED (env.ILSaveToStream w pidl).1 = false
      ∧ (env.ILSaveToStream w pidl).2.data = w.data ++ enc
      ∧ Accepting (env.ILSaveToStream w pidl).2)
    ∧ ∀ rest, FAILED (env.ILLoadFromStream (enc ++ rest)).1 = false
      ∧ (env.ILLoadFromStream (enc ++ rest)).2 = (some pidl, rest)

/-- Everything `IPersistStream_fnSave` writes after the header and the id list. -/
def saveTail (This : IShellLinkImpl) : List Nat :=
  optImage This.sPath (fun b => locationImage (cstr b) This.volume)
    ++ (optImage This.sDescription stringImage
    ++ (optImage This.sPathRel stringImage
    ++ (optImage This.sWorkDir stringImage
    ++ (optImage This.sArgs stringImage
    ++ (optImage This.sIcoPath stringImage
    ++ (optImage This.sProduct (fun b => advertiseImage b EXP_SZ_ICON_SIG)
    ++ (optImage This.sComponent (fun b => advertiseImage b EXP_DARWIN_ID_SIG)
    ++ le32 0)))))))

/-- The object a load leaves when the header gave `T0` and the sections gave the listed members. -/
def imageWith (T0 : IShellLinkImpl) (pidl : Option (List Nat)) (vol : volume_info)
    (path desc wd args ico prod comp : Option (List Nat)) : IShellLinkImpl :=
  { T0 with
    pPidl := pidl, volume := vol, sPath := path, sDescription := desc, sPathRel := none,
    sWorkDir := wd, sArgs := args, sIcoPath := ico, sProduct := prod, sComponent := comp }

/-- The volume a load reads back from the location block written for `This`. -/
def volumeImage (This : IShellLinkImpl) : volume_info :=
  match This.sPath with
  | none => ⟨0, 0, List.replicate 12 0⟩
  | some _ =>
    ⟨This.volume.type, This.volume.serial,
      cstr This.volume.label ++ List.replicate (12 - lstrlenW This.volume.label) 0⟩

/-- The object a load of the image of `This` leaves. -/
def loadedImage (env : Collaborators) (This : IShellLinkImpl) : IShellLinkImpl :=
  imageWith (loadHeaderFields env IShellLink_Constructor (saveHeader env This))
    This.pPidl (volumeImage This) (This.sPath.map cstr)
    (This.sDescription.map (fun b => cstr b ++ [0])) (This.sWorkDir.map (fun b => cstr b ++ [0]))
    (This.sArgs.map (fun b => cstr b ++ [0])) (This.sIcoPath.map (fun b => cstr b ++ [0]))
    (This.sProduct.map cstr) (This.sComponent.map cstr)

/-- The objects whose stored form reads back: no relative path (the writer stores that section
without setting its flag), scalars within their C types, strings short enough for the 16-bit
count and the fixed advertised-info buffers, a target path of single-byte characters that fits
`MAX_PATH` and that `SHELL_FindExecutable` does not replace, a label that fits its array, and an
id list the collaborators' codec round-trips. Without a target path no location block is
written, so the volume must be the zeroed one. -/
structure Storable (env : Collaborators) (This : IShellLinkImpl) : Prop where
  relpath : This.sPathRel = none
  hotkey : This.wHotKey < 65536
  iconLo : -2147483648 ≤ This.iIcoNdx
  iconHi : This.iIcoNdx < 2147483648
  pidl : ∀ p, This.pPidl = some p → PidlRoundTrip env p
  path : ∀ b, This.sPath = some b → chr (env.SHELL_FindExecutable b) 0 = 0
    ∧ lstrlenW b < MAX_PATH ∧ (∀ c ∈ cstr b, c < 256)
    ∧ 0 ∈ This.volume.label ∧ lstrlenW This.volume.label ≤ 11
    ∧ (∀ c ∈ cstr This.volume.label, c < 256)
    ∧ This.volume.type < 4294967296 ∧ This.volume.serial < 4294967296
  noPath : This.sPath = none →
    This.volume.type = 0 ∧ This.volume.serial = 0 ∧ cstr This.volume.label = []
  description : ∀ b, This.sDescription = some b → lstrlenW b < 32767 ∧ ∀ c ∈ cstr b, c < 65536
  workDir : ∀ b, This.sWorkDir = some b → lstrlenW b < 32767 ∧ ∀ c ∈ cstr b, c < 65536
  args : ∀ b, This.sArgs = some b → lstrlenW b < 32767 ∧ ∀ c ∈ cstr b, c < 65536
  icoPath : ∀ b, This.sIcoPath = some b → lstrlenW b < 32767 ∧ ∀ c ∈ cstr b, c < 65536
  product : ∀ b, This.sProduct = some b → lstrlenW b < MAX_PATH ∧ ∀ c ∈ cstr b, c < 65536
  component : ∀ b, This.sComponent = some b → lstrlenW b < MAX_PATH ∧ ∀ c ∈ cstr b, c < 65536

/-- An object with every optional member but the relative path. -/
def sampleLink : IShellLinkImpl :=
  { IShellLink_Constructor with
    pPidl := some [1, 2, 3], wHotKey := 0x1234, iIcoNdx := -5,
    sPath := some (units "C:\\a.exe"), sDescription := some (units "desc"),
    sWorkDir := some (units "wd"), sArgs := some (units "-x"), sIcoPath := some (units "ico"),
    sProduct := some (units "prod"), sComponent := some (units "comp"),
    volume := ⟨3, 0xdeadbeef, units "LABEL" ++ List.replicate 7 0⟩ }

/-- A header that `IPersistStream_fnLoad` accepts, with the given flags and every other field
zero. -/
def sampleHeader (dwFlags : Nat) : List Nat :=
  le32 sizeof_LINK_HEADER ++ CLSID_ShellLink ++ le32 dwFlags ++ List.replicate 52 0

/-- The stream starts with a header that `IPersistStream_fnLoad` accepts. -/
def headerAccepted (stm : List Nat) : Prop :=
  76 ≤ stm.length ∧ u32At stm 0 = 0x4C
    ∧ ((stm.drop 4).take 16).map (fun b => b % 256) = CLSID_ShellLink

/-- A fresh object with a description. -/
def describedLink : IShellLinkImpl :=
  { IShellLink_Constructor with sDescription := some (units "a") }

/-- A fresh object with a relative path only. -/
def relativeLink : IShellLinkImpl :=
  { IShellLink_Constructor with sPathRel := some (units "a") }

/-- A fresh object shown maximized (`SW_SHOWMAXIMIZED` = 3). -/
def maximizedLink : IShellLinkImpl :=
  { IShellLink_Constructor with iShowCmd := 3 }

/-- A fresh object whose advertised product has 260 characters. -/
def longProductLink : IShellLinkImpl :=
  { IShellLink_Constructor with sProduct := some (List.replicate 260 65) }

/-- A stream that takes the first write and refuses every later one. -/
def fullAfterHeader : WStream := { data := [], calls := 0, fails := fun n => decide (1 ≤ n) }

/-! ## Paths and the shell -/

/-- Functions of kernel32, shell32 and pidl.c that the path code calls; they are parameters
of the embedding.
* `GetFullPathNameW name len`: the value the call returns for a buffer of `len` units, and
  what it stored: the text put in the buffer and the offset in it of the file part (`none`
  for a null `lastpart`); `none` when the call stored nothing, as it does when it fails
  (value 0) or finds the buffer too small.
* `GetFileAttributesW path`: the attributes, `INVALID_FILE_ATTRIBUTES` when there is no
  such entry.
* `PathFileExistsW path`, `SHSimpleIDListFromPathW path`, `ILClone pidl`, `GetDriveTypeW root`.
* `GetVolumeInformationW root`: the label and the serial number, `none` when the call fails
  (it then leaves its outputs as they were). -/
structure Shell where
  GetFullPathNameW : List Nat → Nat → Nat × Option (List Nat × Option Nat)
  GetFileAttributesW : List Nat → Nat
  PathFileExistsW : List Nat → Bool
  SHSimpleIDListFromPathW : List Nat → Option (List Nat)
  ILClone : Option (List Nat) → Option (List Nat)
  GetDriveTypeW : List Nat → Nat
  GetVolumeInformationW : List Nat → Option (List Nat × Nat)

def INVALID_FILE_ATTRIBUTES : Nat := 0xFFFFFFFF

/-- `SHELL_ExistsFileW`. -/
def SHELL_ExistsFileW (sh : Shell) (path : List Nat) : Bool :=
  if sh.GetFileAttributesW path = INVALID_FILE_ATTRIBUTES then false else true

/-- Modelled from the spec: `PathAddBackslashW` lives in shlwapi and is not among the sources.
The spec joins the working directory and the hint into one candidate path; the function
appends a backslash to a text that is not empty and does not end in one, and returns a null
pointer (`none`) when the text has `MAX_PATH` units or more. The result is the text up to the
position the returned pointer designates. -/
def PathAddBackslashW (path : List Nat) : Option (List Nat) :=
  if MAX_PATH ≤ path.length then none
  else if path = [] ∨ path.getLast? = some 92 then some path
  else some (path ++ [92])

/-- The statement `if (!GetFullPathNameW(buffer, MAX_PATH, abs_path, &final))
lstrcpyW(abs_path, buffer);` of `ShellLink_UpdatePath`, which finds the empty string in
`abs_path` (`*abs_path = '\0'` precedes it): the text in `abs_path` afterwards. It is a copy
of `buffer` when the call returns 0, the path the call stored when it stored one, and still
the empty string when the call returned a non-zero value and stored nothing. -/
def updatePathFull (sh : Shell) (buffer : List Nat) : List Nat :=
  let g := sh.GetFullPathNameW buffer MAX_PATH
  if g.1 = 0 then buffer
  else
    match g.2 with
    | some (full, _) => full
    | none => []

/-- The end of `ShellLink_UpdatePath`: an empty `abs_path` is replaced by the relative path,
and `*psPath` receives a copy. -/
def updatePathStore (abs_path rel : List Nat) : Option (List Nat) :=
  if chr abs_path 0 = 0 then some (cstr rel) else some (cstr abs_path)

/-- The text in `buffer` after `GetFullPathNameW(path, MAX_PATH*2, buffer, &final)`,
`if (!final) final = buffer` and `lstrcpyW(final, sPathRel)`: the relative path in the place of
the file name of the link file's full path, or alone when the call stored no path with a file
part. -/
def linkCandidate (sh : Shell) (path rel : List Nat) : List Nat :=
  let g := sh.GetFullPathNameW (cstr path) (2 * MAX_PATH)
  let head : List Nat :=
    match g.2 with
    | some (full, some k) => full.take k
    | _ => []
  head ++ cstr rel

/-- The text in `buffer` after `lstrcpyW(buffer, sWorkDir)` and
`lstrcpyW(PathAddBackslashW(buffer), sPathRel)`; `none` when a copy does not fit in the
`2*MAX_PATH` units of the buffer or goes through the null pointer. -/
def workCandidate (wd rel : List Nat) : Option (List Nat) :=
  if 2 * MAX_PATH < (cstr wd).length + 1 then none
  else
    match PathAddBackslashW (cstr wd) with
    | none => none
    | some wd1 =>
      if 2 * MAX_PATH < (wd1 ++ cstr rel).length + 1 then none else some (wd1 ++ cstr rel)

/-- `ShellLink_UpdatePath(sPathRel, path, sWorkDir, psPath)`: the result code, the value of
`*psPath` afterwards (`sPath` is its value before; `psPath` itself is the address of a member
in both callers and never null), and the paths given to `SHELL_ExistsFileW`, in order. The two
local buffers hold `2*MAX_PATH` units; a copy that does not fit in them gives `none`. -/
def ShellLink_UpdatePath (sh : Shell) (sPathRel path sWorkDir sPath : Option (List Nat)) :
    Option (HRESULT × Option (List Nat) × List (List Nat)) :=
  match path with
  | none => some (E_INVALIDARG, sPath, [])
  | some path =>
    match sPath, sPathRel with
    | none, some rel =>
      let buffer := linkCandidate sh path rel
      if 2 * MAX_PATH < buffer.length + 1 then none
      else if SHELL_ExistsFileW sh (cstr buffer) then
        some (S_OK, updatePathStore (updatePathFull sh (cstr buffer)) rel, [cstr buffer])
      else
        match sWorkDir with
        | none => some (S_OK, updatePathStore [] rel, [cstr buffer])
        | some wd =>
          match workCandidate wd rel with
          | none => none
          | some buffer2 =>
            if SHELL_ExistsFileW sh buffer2 then
              some (S_OK, updatePathStore (updatePathFull sh buffer2) rel, [cstr buffer, buffer2])
            else some (S_OK, updatePathStore [] rel, [cstr buffer, buffer2])
    | _, _ => some (S_OK, sPath, [])

/-! ## The setters of `IShellLinkA` and `IShellLinkW` -/

/-- `HEAP_strdupAtoW`: the wide copy of a narrow string. -/
def HEAP_strdupAtoW (str : List Nat) : List Nat := (cstr str).map mbtowc

def IShellLinkA_fnSetIDList (sh : Shell) (This : IShellLinkImpl) (pidl : Option (List Nat)) :
    HRESULT × IShellLinkImpl :=
  (S_OK, { This with pPidl := sh.ILClone pidl, bDirty := true })

def IShellLinkA_fnSetDescription (This : IShellLinkImpl) (pszName : List Nat) :
    HRESULT × IShellLinkImpl :=
  (S_OK, { This with sDescription := some (HEAP_strdupAtoW pszName), bDirty := true })

def IShellLinkA_fnSetWorkingDirectory (This : IShellLinkImpl) (pszDir : List Nat) :
    HRESULT × IShellLinkImpl :=
  (S_OK, { This with sWorkDir := some (HEAP_strdupAtoW pszDir), bDirty := true })

def IShellLinkA_fnSetArguments (This : IShellLinkImpl) (pszArgs : List Nat) :
    HRESULT × IShellLinkImpl :=
  (S_OK, { This with sArgs := some (HEAP_strdupAtoW pszArgs), bDirty := true })

def IShellLinkA_fnSetHotkey (This : IShellLinkImpl) (wHotkey : Nat) : HRESULT × IShellLinkImpl :=
  (S_OK, { This with wHotKey := wHotkey % 65536, bDirty := true })

def IShellLinkA_fnSetShowCmd (This : IShellLinkImpl) (iShowCmd : Nat) :
    HRESULT × IShellLinkImpl :=
  (S_OK, { This with iShowCmd := iShowCmd, bDirty := true })

def IShellLinkA_fnSetIconLocation (This : IShellLinkImpl) (pszIconPath : List Nat) (iIcon : Int) :
    HRESULT × IShellLinkImpl :=
  (S_OK, { This with sIcoPath := some (HEAP_strdupAtoW pszIconPath), iIcoNdx := iIcon,
                     bDirty := true })

/-- `IShellLinkA_fnSetRelativePath`: the hint is stored and the flag set, then the result of
`ShellLink_UpdatePath`, called with the target path in the place of the link file path, is
returned. -/
def IShellLinkA_fnSetRelativePath (sh : Shell) (This : IShellLinkImpl) (pszPathRel : List Nat) :
    Option (HRESULT × IShellLinkImpl) :=
  let This1 := { This with sPathRel := some (HEAP_strdupAtoW pszPathRel), bDirty := true }
  (ShellLink_UpdatePath sh This1.sPathRel This1.sPath This1.sWorkDir This1.sPath).map
    (fun x => (x.1, { This1 with sPath := x.2.1 }))

def IShellLinkW_fnSetIDList (sh : Shell) (This : IShellLinkImpl) (pidl : Option (List Nat)) :
    HRESULT × IShellLinkImpl :=
  match sh.ILClone pidl with
  | none => (E_FAIL, { This with pPidl := none })
  | some p => (S_OK, { This with pPidl := some p, bDirty := true })

def IShellLinkW_fnSetDescription (This : IShellLinkImpl) (pszName : List Nat) :
    HRESULT × IShellLinkImpl :=
  (S_OK, { This with sDescription := some (cstr pszName), bDirty := true })

def IShellLinkW_fnSetWorkingDirectory (This : IShellLinkImpl) (pszDir : List Nat) :
    HRESULT × IShellLinkImpl :=
  (S_OK, { This with sWorkDir := some (cstr pszDir), bDirty := true })

def IShellLinkW_fnSetArguments (This : IShellLinkImpl) (pszArgs : List Nat) :
    HRESULT × IShellLinkImpl :=
  (S_OK, { This with sArgs := some (cstr pszArgs), bDirty := true })

def IShellLinkW_fnSetHotkey (This : IShellLinkImpl) (wHotkey : Nat) : HRESULT × IShellLinkImpl :=
  (S_OK, { This with wHotKey := wHotkey % 65536, bDirty := true })

def IShellLinkW_fnSetShowCmd (This : IShellLinkImpl) (iShowCmd : Nat) :
    HRESULT × IShellLinkImpl :=
  (S_OK, { This with iShowCmd := iShowCmd, bDirty := true })

def IShellLinkW_fnSetIconLocation (This : IShellLinkImpl) (pszIconPath : List Nat) (iIcon : Int) :
    HRESULT × IShellLinkImpl :=
  (S_OK, { This with sIcoPath := some (cstr pszIconPath), iIcoNdx := iIcon, bDirty := true })

def IShellLinkW_fnSetRelativePath (sh : Shell) (This : IShellLinkImpl) (pszPathRel : List Nat) :
    Option (HRESULT × IShellLinkImpl) :=
  let This1 := { This with sPathRel := some (cstr pszPathRel), bDirty := true }
  (ShellLink_UpdatePath sh This1.sPathRel This1.sPath This1.sWorkDir This1.sPath).map
    (fun x => (x.1, { This1 with sPath := x.2.1 }))

/-- `ShellLink_GetVolumeInfo`: the value returned and the volume afterwards. The label array
receives at most 11 units and a terminator. -/
def ShellLink_GetVolumeInfo (sh : Shell) (path : List Nat) (volume : volume_info) :
    Bool × volume_info :=
  let drive := cstr [chr path 0, 58, 92]
  let volume1 := { volume with type := sh.GetDriveTypeW drive }
  match sh.GetVolumeInformationW drive with
  | none => (false, volume1)
  | some (label, serial) =>
    (true, { volume1 with label := store volume1.label ((cstr label).take 11 ++ [0]),
                          serial := serial })

/-- `IShellLinkW_fnSetPath`. `none` when `GetFullPathNameW` returned a non-zero value without
storing a path in the local buffer, which the code then reads. -/
def IShellLinkW_fnSetPath (sh : Shell) (This : IShellLinkImpl) (pszFile : List Nat) :
    Option (HRESULT × IShellLinkImpl) :=
  let This1 := { This with sPath := none, sComponent := none, pPidl := none }
  match ShellLink_SetAdvertiseInfo This1 pszFile with
  | none => none
  | some (r, This2) =>
    if r ≠ S_OK then
      let g := sh.GetFullPathNameW (cstr pszFile) MAX_PATH
      let filled : Option (Option (HRESULT × List Nat)) :=
        if chr pszFile 0 = 0 then some (some (S_OK, []))
        else if g.1 = 0 then some none
        else
          match g.2 with
          | none => none
          | some (buffer, _) =>
            some (some (if sh.PathFileExistsW (cstr buffer) then S_OK else S_FALSE, buffer))
      match filled with
      | none => none
      | some none => some (E_FAIL, This2)
      | some (some (hr, buffer)) =>
        some (hr, { This2 with
          pPidl := sh.SHSimpleIDListFromPathW (cstr pszFile),
          volume := (ShellLink_GetVolumeInfo sh buffer This2.volume).2,
          sPath := some (cstr buffer),
          bDirty := true })
    else some (S_OK, { This2 with bDirty := true })

def IShellLinkA_fnSetPath (sh : Shell) (This : IShellLinkImpl) (pszFile : List Nat) :
    Option (HRESULT × IShellLinkImpl) :=
  IShellLinkW_fnSetPath sh This (HEAP_strdupAtoW pszFile)

/-- A call of one of the setters of the two interfaces, with its arguments. -/
inductive Setter where
  | A_SetIDList (pidl : Option (List Nat))
  | A_SetDescription (pszName : List Nat)
  | A_SetWorkingDirectory (pszDir : List Nat)
  | A_SetArguments (pszArgs : List Nat)
  | A_SetHotkey (wHotkey : Nat)
  | A_SetShowCmd (iShowCmd : Nat)
  | A_SetIconLocation (pszIconPath : List Nat) (iIcon : Int)
  | A_SetRelativePath (pszPathRel : List Nat)
  | A_SetPath (pszFile : List Nat)
  | W_SetIDList (pidl : Option (List Nat))
  | W_SetDescription (pszName : List Nat)
  | W_SetWorkingDirectory (pszDir : List Nat)
  | W_SetArguments (pszArgs : List Nat)
  | W_SetHotkey (wHotkey : Nat)
  | W_SetShowCmd (iShowCmd : Nat)
  | W_SetIconLocation (pszIconPath : List Nat) (iIcon : Int)
  | W_SetRelativePath (pszPathRel : List Nat)
  | W_SetPath (pszFile : List Nat)

/-- The setter a call names, applied to the object. -/
def Setter.call (sh : Shell) (This : IShellLinkImpl) : Setter → Option (HRESULT × IShellLinkImpl)
  | .A_SetIDList pidl => some (IShellLinkA_fnSetIDList sh This pidl)
  | .A_SetDescription s => some (IShellLinkA_fnSetDescription This s)
  | .A_SetWorkingDirectory s => some (IShellLinkA_fnSetWorkingDirectory This s)
  | .A_SetArguments s => some (IShellLinkA_fnSetArguments This s)
  | .A_SetHotkey k => some (IShellLinkA_fnSetHotkey This k)
  | .A_SetShowCmd c => some (IShellLinkA_fnSetShowCmd This c)
  | .A_SetIconLocation s i => some (IShellLinkA_fnSetIconLocation This s i)
  | .A_SetRelativePath s => IShellLinkA_fnSetRelativePath sh This s
  | .A_SetPath s => IShellLinkA_fnSetPath sh This s
  | .W_SetIDList pidl => some (IShellLinkW_fnSetIDList sh This pidl)
  | .W_SetDescription s => some (IShellLinkW_fnSetDescription This s)
  | .W_SetWorkingDirectory s => some (IShellLinkW_fnSetWorkingDirectory This s)
  | .W_SetArguments s => some (IShellLinkW_fnSetArguments This s)
  | .W_SetHotkey k => some (IShellLinkW_fnSetHotkey This k)
  | .W_SetShowCmd c => some (IShellLinkW_fnSetShowCmd This c)
  | .W_SetIconLocation s i => some (IShellLinkW_fnSetIconLocation This s i)
  | .W_SetRelativePath s => IShellLinkW_fnSetRelativePath sh This s
  | .W_SetPath s => IShellLinkW_fnSetPath sh This s

/-! ## Further notions used in the statements and proofs -/

/-- The units of one segment of an advertised string: `::`, the GUID text `g`, `:` and the
value `v`. -/
def segment (g v : List Nat) : List Nat := 58 :: 58 :: (g ++ 58 :: v)

/-- A text without a colon and without a terminator. -/
abbrev Plain (v : List Nat) : Prop := ∀ x ∈ v, x ≠ 58 ∧ x ≠ 0

/-- The three ways in which the segment that starts the text `bad` can be malformed: it does
not begin with `::`; the text between its `::` and the next colon is not a 38-character GUID
text; that text names a GUID that is neither the product nor the component identifier. -/
def Malformed (bad : List Nat) : Prop :=
  (bad ≠ [] ∧ (chr bad 0 ≠ 58 ∨ chr bad 1 ≠ 58)) ∨
  (∃ t rest, bad = segment t rest ∧ 58 ∉ t ∧
      (t.length ≠ 38 ∨ (CLSIDFromString t).1 ≠ S_OK)) ∨
  (∃ t rest, bad = segment t rest ∧ 58 ∉ t ∧ (CLSIDFromString t).1 = S_OK ∧
      (CLSIDFromString t).2 ≠ SHELL32_AdvtShortcutProduct ∧
      (CLSIDFromString t).2 ≠ SHELL32_AdvtShortcutComponent)

/-- The text made of the segments `segs`, each a GUID text with its value. -/
def segments (segs : List (List Nat × List Nat)) : List Nat :=
  (segs.map (fun gv => segment gv.1 gv.2)).flatten

/-- `canon` is the canonical form of `path`: `GetFullPathNameW`, given `path` and a buffer of
`MAX_PATH` units, returns a non-zero value and stores `canon`, a text that is not empty. -/
def Canonical (sh : Shell) (path canon : List Nat) : Prop :=
  ∃ n k, sh.GetFullPathNameW path MAX_PATH = (n, some (canon, k)) ∧ n ≠ 0 ∧
    canon ≠ [] ∧ 0 ∉ canon

/-- The label a location chunk declares: the bytes from the label offset of its volume
sub-record up to the size of the sub-record. -/
def declaredLabel (p : List Nat) : List Nat :=
  (p.drop (u32At p 12 + u32At p (u32At p 12 + 12))).take
    (u32At p (u32At p 12) - u32At p (u32At p 12 + 12))

/-- A location chunk whose volume sub-record declares a label of more than 11 characters: the
chunk has its fixed header, the volume sub-record lies in it, the label offset is set, and
the declared label, whose length is positive as an `int`, has more than 11 bytes in the
chunk. -/
structure DeclaresLongLabel (p : List Nat) : Prop where
  header : sizeof_LOCATION_INFO ≤ u32At p 0
  volume : u32At p 12 ≠ 0 ∧ u32At p 12 + sizeof_LOCAL_VOLUME_INFO ≤ u32At p 0
  offset : u32At p (u32At p 12 + 12) ≠ 0
  long : 11 < (declaredLabel p).length
  positive : u32At p (u32At p 12) - u32At p (u32At p 12 + 12) < 2147483648

/-- The local path of a location chunk, when the chunk has one, ends inside the chunk. -/
def PathInside (p : List Nat) : Prop :=
  u32At p 16 ≠ 0 → u32At p 16 < u32At p 0 →
    ∃ s, Stream_LoadPath (p.drop (u32At p 16)) (u32At p 0 - u32At p 16) = some s

/-- The object with the members that `IPersistStream_fnLoad` may leave as they were (the show
command, the dirty flag and the three times) blanked out. -/
def content (t : IShellLinkImpl) : IShellLinkImpl :=
  { t with iShowCmd := 0, bDirty := false,
           time1 := ⟨0, 0, 0, 0, 0, 0, 0, 0⟩, time2 := ⟨0, 0, 0, 0, 0, 0, 0, 0⟩,
           time3 := ⟨0, 0, 0, 0, 0, 0, 0, 0⟩ }

/-- A load state with the object reduced to its content. -/
def LoadState.content (s : LoadState) : LoadState :=
  s.map (fun x => (x.1, ShellLink.content x.2.1, x.2.2))

/-! ## Sample environments and inputs -/

/-- A shell in which nothing exists and no full path can be computed. -/
def bareShell : Shell :=
  { GetFullPathNameW := fun _ _ => (0, none)
    GetFileAttributesW := fun _ => INVALID_FILE_ATTRIBUTES
    PathFileExistsW := fun _ => false
    SHSimpleIDListFromPathW := fun _ => none
    ILClone := fun p => p
    GetDriveTypeW := fun _ => 1
    GetVolumeInformationW := fun _ => none }

/-- The file system of the path-resolution scenario: the link file `/links/a.lnk`, and a file
`app.exe` in `/opt/app` (reached as `/opt/app` + backslash + `app.exe`) but none in `/links`. -/
def scenarioShell : Shell :=
  { bareShell with
    GetFullPathNameW := fun n _ =>
      if n = units "/links/a.lnk" then (12, some (units "/links/a.lnk", some 7))
      else if n = units "/opt/app" ++ 92 :: units "app.exe" then
        (16, some (units "/opt/app/app.exe", some 9))
      else (0, none)
    GetFileAttributesW := fun p =>
      if p = units "/opt/app" ++ 92 :: units "app.exe" then 0x20 else INVALID_FILE_ATTRIBUTES }

/-- A location chunk of 57 bytes without a local path, whose volume sub-record (drive type 3,
serial 0x1234) declares the 13-character label `ABCDEFGHIJKLM`. -/
def longLabelChunk : List Nat :=
  le32 57 ++ le32 28 ++ le32 1 ++ le32 28 ++ le32 0 ++ le32 0 ++ le32 0
    ++ (le32 29 ++ le32 3 ++ le32 0x1234 ++ le32 16 ++ units "ABCDEFGHIJKLM")

/-! ## Files and the path getters -/

/-- Storage modes of objbase.h. -/
def STGM_READWRITE : Nat := 0x2
def STGM_SHARE_EXCLUSIVE : Nat := 0x10
def STGM_CREATE : Nat := 0x1000

/-- What `IPersistFile_fnSave` does with the file once the stream is released: it starts the
link processor on it, or deletes it. -/
inductive FileAction where
  | StartLinkProcessor (szLink : List Nat)
  | DeleteFileW (lpFileName : List Nat)
deriving DecidableEq, Repr

/-- `IPersistFile_fnSave` (the argument `fRemember` is not used by the code): the value
returned, the object afterwards and what was done with the file. `SHCreateStreamOnFileW`
(shlwapi) is a parameter: for a file name and a mode it gives a result code and the stream it
opened. -/
def IPersistFile_fnSave (env : Collaborators)
    (SHCreateStreamOnFileW : List Nat → Nat → HRESULT × WStream)
    (This : IShellLinkImpl) (pszFileName : Option (List Nat)) :
    Option (HRESULT × IShellLinkImpl × List FileAction) :=
  match pszFileName with
  | none => some (E_FAIL, This, [])
  | some name =>
    let c := SHCreateStreamOnFileW name (STGM_READWRITE ||| STGM_CREATE ||| STGM_SHARE_EXCLUSIVE)
    if FAILED c.1 then some (c.1, This, [])
    else
      match IPersistStream_fnSave env This c.2 with
      | none => none
      | some (r, _) =>
        if FAILED r then some (r, This, [FileAction.DeleteFileW name])
        else some (r, { This with bDirty := false }, [FileAction.StartLinkProcessor name])

/-- The caller's array `dst` after `src` has been stored at its start; `none` when the array
does not hold it. -/
def storeIn (dst src : List Nat) : Option (List Nat) :=
  if src.length ≤ dst.length then some (store dst src) else none

/-- `IShellLinkW_fnGetPath`: the value returned and the caller's array `pszFile` afterwards
(`cchMaxPath` is taken non-negative; `pfd` and `fFlags` have no effect). `lstrcpynW` stores
at most `cchMaxPath - 1` units of the string and a terminator, and nothing for a count
of 0. -/
def IShellLinkW_fnGetPath (This : IShellLinkImpl) (pszFile : List Nat) (cchMaxPath : Nat) :
    Option (HRESULT × List Nat) :=
  if This.sComponent.isSome ∨ This.sProduct.isSome then some (S_FALSE, pszFile)
  else
    let cleared : Option (List Nat) :=
      if cchMaxPath ≠ 0 then storeIn pszFile [0] else some pszFile
    match cleared with
    | none => none
    | some buf =>
      match This.sPath with
      | none => some (S_OK, buf)
      | some sPath =>
        if cchMaxPath = 0 then some (S_OK, buf)
        else (storeIn buf ((cstr sPath).take (cchMaxPath - 1) ++ [0])).map (fun b => (S_OK, b))

/-- `IShellLinkA_fnGetPath`: as the wide variant, the path being converted by
`WideCharToMultiByte` with source length -1: the narrow string and its terminator, as far
as `cchMaxPath` bytes hold them, and nothing for a count of 0. -/
def IShellLinkA_fnGetPath (This : IShellLinkImpl) (pszFile : List Nat) (cchMaxPath : Nat) :
    Option (HRESULT × List Nat) :=
  if This.sComponent.isSome ∨ This.sProduct.isSome then some (S_FALSE, pszFile)
  else
    let cleared : Option (List Nat) :=
      if cchMaxPath ≠ 0 then storeIn pszFile [0] else some pszFile
    match cleared with
    | none => none
    | some buf =>
      match This.sPath with
      | none => some (S_OK, buf)
      | some sPath =>
        if cchMaxPath = 0 then some (S_OK, buf)
        else (storeIn buf (((cstr sPath).map wctomb ++ [0]).take cchMaxPath)).map
          (fun b => (S_OK, b))

/-! ## Further sample inputs -/

/-- A stream that refuses every write. -/
def fullStream : WStream := { data := [], calls := 0, fails := fun _ => true }

/-- A file system in which every file can be created, empty. -/
def createEmpty (_ : List Nat) (_ : Nat) : HRESULT × WStream := (S_OK, emptyStream)

/-- A file system whose medium is full: the file is created and refuses every write. -/
def createFull (_ : List Nat) (_ : Nat) : HRESULT × WStream := (S_OK, fullStream)

/-- A fresh object with the target path `C:\a.exe`. -/
def targetLink : IShellLinkImpl :=
  { IShellLink_Constructor with sPath := some (units "C:\\a.exe"), bDirty := true }

/-- An object with a target path and an advertised component. -/
def advertisedLink : IShellLinkImpl :=
  { targetLink with sComponent := some (units "comp") }

/-- A text of 32767 units `a`; with its terminator it has 32768 units, 65536 bytes. -/
def longText : List Nat := List.replicate 32767 97

/-- A location chunk of 28 bytes, the fixed header only, whose volume-table offset is
0xFFFFFFF0 and whose local-path offset is 0. -/
def wrappedOffsetChunk : List Nat :=
  le32 28 ++ le32 28 ++ le32 0 ++ le32 0xFFFFFFF0 ++ le32 0 ++ le32 0 ++ le32 0

/-- A location chunk of 30 bytes without volume table: the local path starts at offset 28 and
its two characters `ab` fill the chunk to its end, with no zero byte. -/
def unterminatedPathChunk : List Nat :=
  le32 30 ++ le32 28 ++ le32 1 ++ le32 0 ++ le32 28 ++ le32 0 ++ le32 0 ++ [97, 98]

/-- A location chunk of 44 bytes, the fixed header and a volume sub-record at offset 28 that
declares a size of 100 bytes and a label at its offset 16, which is offset 44 of the chunk. -/
def outsideLabelChunk : List Nat :=
  le32 44 ++ le32 28 ++ le32 1 ++ le32 28 ++ le32 0 ++ le32 0 ++ le32 0
    ++ (le32 100 ++ le32 3 ++ le32 5 ++ le32 16)

/-! ## The file-level load -/

def STGM_READ : Nat := 0x0
def STGM_SHARE_DENY_WRITE : Nat := 0x20

/-- `IPersistFile_fnLoad`: the value returned, the object afterwards and the paths that
`ShellLink_UpdatePath` gave to `SHELL_ExistsFileW`. `SHCreateStreamOnFileW` (shlwapi) is a
parameter: for a file name (`none` for a null pointer) and a mode it gives a result code and
the content of the file it opened, which is the stream to read. -/
def IPersistFile_fnLoad (env : Collaborators) (junk : Indeterminate) (sh : Shell)
    (SHCreateStreamOnFileW : Option (List Nat) → Nat → HRESULT × List Nat)
    (This : IShellLinkImpl) (pszFileName : Option (List Nat)) (dwMode : Nat) :
    Option (HRESULT × IShellLinkImpl × List (List Nat)) :=
  let dwMode1 := if dwMode = 0 then STGM_READ ||| STGM_SHARE_DENY_WRITE else dwMode
  let c := SHCreateStreamOnFileW pszFileName dwMode1
  if FAILED c.1 then some (c.1, This, [])
  else
    match IPersistStream_fnLoad env junk This c.2 with
    | none => none
    | some (r, This1, _) =>
      match ShellLink_UpdatePath sh This1.sPathRel pszFileName This1.sWorkDir This1.sPath with
      | none => none
      | some (_, sPath, probed) =>
        some (r, { This1 with sPath := sPath, bDirty := false }, probed)

/-! ## Notions used in the statements on the string sections -/

/-- The bytes of a string section that holds the elements `s`: their number as a 16-bit
count, then the elements, one byte each when narrow and two bytes each when wide. -/
def stringSection (unicode : Bool) (s : List Nat) : List Nat :=
  le16 s.length ++ (if unicode then wideBytes s else s)

/-- The bytes of a string section in a stream whose header has the flags `flags`: nothing
when the bit `mask` of the section is clear. -/
def flaggedSection (flags mask : Nat) (unicode : Bool) (s : List Nat) : List Nat :=
  if hasFlag flags mask then stringSection unicode s else []

/-- The string a section holding the elements `s` is read as: the bytes as units when narrow,
the units themselves when wide. -/
def sectionText (unicode : Bool) (s : List Nat) : List Nat :=
  if unicode then s else s.map mbtowc

/-- The member a flagged section leaves: the text read when the bit is set, `old` when it is
clear. -/
def flaggedText (flags mask : Nat) (unicode : Bool) (s : List Nat) (old : Option (List Nat)) :
    Option (List Nat) :=
  if hasFlag flags mask then some (sectionText unicode s) else old

/-- The five string members of the object are the given ones. -/
def StringMembers (d r w a i : Option (List Nat)) (T : IShellLinkImpl) : Prop :=
  T.sDescription = d ∧ T.sPathRel = r ∧ T.sWorkDir = w ∧ T.sArgs = a ∧ T.sIcoPath = i

/-! ## Sample inputs for the file-level load and the setters -/

/-- A file system whose every file is empty. -/
def openEmpty (_ : Option (List Nat)) (_ : Nat) : HRESULT × List Nat := (S_OK, [])

/-- A file system in which no file can be opened. -/
def openNothing (_ : Option (List Nat)) (_ : Nat) : HRESULT × List Nat := (E_FAIL, [])

/-- A file system whose every file holds a header with no flag set and the terminator. -/
def openBlank (_ : Option (List Nat)) (_ : Nat) : HRESULT × List Nat :=
  (S_OK, sampleHeader 0 ++ [0, 0, 0, 0])

/-- A modified object with the hint `app.exe`, the working directory `/opt/app` and no target
path. -/
def hintedLink : IShellLinkImpl :=
  { IShellLink_Constructor with
    sPathRel := some (units "app.exe"), sWorkDir := some (units "/opt/app"), bDirty := true }

/-- The GUID text of the component identifier. -/
def componentText : List Nat := units "\x7b9db1186e-40df-11d1-aa8c-00c04fb67863\x7d"

/-- The GUID text of the product identifier. -/
def productText : List Nat := units "\x7b9db1186f-40df-11d1-aa8c-00c04fb67863\x7d"

/-- An advertised string with a product `prod` and a component `comp`. -/
def advertisedText : List Nat :=
  segment productText (units "prod") ++ segment componentText (units "comp") ++ [58, 58]

/-! ## Notions and sample inputs for canonical forms and for texts that exceed a buffer -/

/-- An advertised-info block of 0x314 bytes with the size 0x314 and the signature
`EXP_DARWIN_ID_SIG`, a zeroed narrow buffer, and a wide buffer whose 260 units all hold the
character `a`: it has no zero unit. -/
def unterminatedBlock : List Nat :=
  le32 sizeof_EXP_DARWIN_LINK ++ le32 EXP_DARWIN_ID_SIG ++ List.replicate MAX_PATH 0
    ++ wideBytes (List.replicate MAX_PATH 97)

/-- The same block with a zero in the last unit of the wide buffer. -/
def terminatedBlock : List Nat :=
  le32 sizeof_EXP_DARWIN_LINK ++ le32 EXP_DARWIN_ID_SIG ++ List.replicate MAX_PATH 0
    ++ wideBytes (List.replicate (MAX_PATH - 1) 97 ++ [0])

/-- A text of 260 units `a`, as many as `MAX_PATH`. -/
def longPath : List Nat := List.replicate MAX_PATH 97

/-- A fresh object whose target path has 260 characters. -/
def longPathLink : IShellLinkImpl :=
  { IShellLink_Constructor with sPath := some longPath }

/-- A hint of 520 units `a`, as many as the work buffer of the resolver has. -/
def longHint : List Nat := List.replicate (2 * MAX_PATH) 97

/-- The content of a link file: an accepted header with the flag of the relative path only,
the relative path of 520 characters as a narrow string section, and the terminator. -/
def longHintFile : List Nat :=
  sampleHeader SLDF_HAS_RELPATH ++ stringSection false longHint ++ [0, 0, 0, 0]

/-- A file system in which every file can be opened and holds `longHintFile`. -/
def openLongHint (_ : Option (List Nat)) (_ : Nat) : HRESULT × List Nat := (S_OK, longHintFile)

/-! ## Theorems -/

theorem zero_not_mem_cstr (s : List Nat) : 0 ∉ cstr s := by
  intro h
  have := List.mem_takeWhile_imp h
  simp at this

theorem cstr_eq_self {s : List Nat} (h : 0 ∉ s) : cstr s = s := by
  unfold cstr
  rw [List.takeWhile_eq_self_iff]
  intro x hx
  simp only [ne_eq, decide_eq_true_eq]
  rintro rfl
  exact h hx

theorem cstr_append_zero {l : List Nat} (rest : List Nat) (h : 0 ∉ l) :
    cstr (l ++ 0 :: rest) = l := by
  induction l with
  | nil => simp [cstr]
  | cons x xs ih =>
    have hx : x ≠ 0 := fun e => h (by simp [e])
    have hxs : 0 ∉ xs := fun hm => h (List.mem_cons_of_mem _ hm)
    have := ih hxs
    simp only [cstr] at this ⊢
    rw [List.cons_append, List.takeWhile_cons, this]
    simp [hx]

theorem cstr_cstr_append_zero (b rest : List Nat) : cstr (cstr b ++ 0 :: rest) = cstr b :=
  cstr_append_zero rest (zero_not_mem_cstr b)

theorem u16_le16 (n : Nat) (rest : List Nat) (h : n < 65536) : u16 (le16 n ++ rest) = n := by
  simp only [u16, byte, le16, List.cons_append, List.getD_cons_zero, List.getD_cons_succ]
  omega

theorem u32_le32 (n : Nat) (rest : List Nat) (h : n < 4294967296) :
    u32 (le32 n ++ rest) = n := by
  simp only [u32, byte, le32, List.cons_append, List.getD_cons_zero, List.getD_cons_succ]
  omega

theorem length_wideBytes (l : List Nat) : (wideBytes l).length = 2 * l.length := by
  induction l with
  | nil => rfl
  | cons x xs ih => simp only [wideBytes, List.length_cons, ih]; omega

theorem wideUnits_wideBytes_append (l : List Nat) (k : Nat) (h : ∀ c ∈ l, c < 65536) :
    wideUnits (wideBytes l ++ List.replicate (2 * k) 0) = l ++ List.replicate k 0 := by
  induction l with
  | nil =>
    simp only [wideBytes, List.nil_append]
    induction k with
    | zero => rfl
    | succ k ih =>
      rw [show 2 * (k + 1) = (2 * k + 1) + 1 by omega, List.replicate_succ, List.replicate_succ,
        wideUnits, ih, List.replicate_succ]
  | cons x xs ih =>
    have hx := h x (List.mem_cons_self _ _)
    have ih' := ih (fun c hc => h c (List.mem_cons_of_mem _ hc))
    simp only [wideBytes, List.cons_append, wideUnits, ih']
    congr 1
    omega

theorem wideUnits_wideBytes (l : List Nat) (h : ∀ c ∈ l, c < 65536) :
    wideUnits (wideBytes l) = l := by
  have := wideUnits_wideBytes_append l 0 h
  simpa using this

theorem write_accepting (w : WStream) (b : List Nat) (h : Accepting w) :
    (IStream_Write w b).1 = S_OK ∧ (IStream_Write w b).2.data = w.data ++ b
      ∧ Accepting (IStream_Write w b).2 := by
  unfold IStream_Write
  rw [h w.calls]
  exact ⟨rfl, rfl, h⟩

theorem writeString_accepting (w : WStream) (b : List Nat) (h : Accepting w) :
    (Stream_WriteString w b).2.data = w.data ++ stringImage b
      ∧ Accepting (Stream_WriteString w b).2 := by
  obtain ⟨h1, h2, h3⟩ := write_accepting w (le16 ((lstrlenW b + 1) % 65536)) h
  obtain ⟨k1, k2, k3⟩ := write_accepting _
    ((wideBytes (cstr b ++ [0])).take ((lstrlenW b + 1) % 65536 * 2 % 65536)) h3
  unfold Stream_WriteString
  simp only [h1, k1, show FAILED S_OK = false from by decide, Bool.false_eq_true, if_false]
  exact ⟨by rw [k2, h2, stringImage, List.append_assoc], k3⟩

theorem loadString_stringImage (b rest : List Nat) (old : Option (List Nat))
    (hlen : lstrlenW b < 32767) (hu : ∀ c ∈ cstr b, c < 65536) :
    Stream_LoadString (stringImage b ++ rest) true old = (S_OK, some (cstr b ++ [0]), rest) := by
  have hl : (lstrlenW b + 1) % 65536 = lstrlenW b + 1 := by omega
  have hl2 : (lstrlenW b + 1) * 2 % 65536 = 2 * (cstr b ++ [0]).length := by
    simp only [List.length_append, List.length_singleton, lstrlenW] at *; omega
  have hu' : ∀ c ∈ cstr b ++ [0], c < 65536 := by
    intro c hc
    rcases List.mem_append.mp hc with h | h
    · exact hu c h
    · simp at h; omega
  have e : stringImage b ++ rest
      = le16 (lstrlenW b + 1) ++ (wideBytes (cstr b ++ [0]) ++ rest) := by
    rw [stringImage, hl, hl2, ← length_wideBytes, List.take_length, List.append_assoc]
  have t2 : (le16 (lstrlenW b + 1) ++ (wideBytes (cstr b ++ [0]) ++ rest)).take 2
      = le16 (lstrlenW b + 1) := List.take_left' rfl
  have d2 : (le16 (lstrlenW b + 1) ++ (wideBytes (cstr b ++ [0]) ++ rest)).drop 2
      = wideBytes (cstr b ++ [0]) ++ rest := List.drop_left' rfl
  have hu16 : u16 (le16 (lstrlenW b + 1)) = lstrlenW b + 1 := by
    have := u16_le16 (lstrlenW b + 1) [] (by omega)
    simpa using this
  unfold Stream_LoadString
  simp only [IStream_Read, e, t2, d2, hu16, hl2, if_true]
  rw [List.take_left' (length_wideBytes _), List.drop_left' (length_wideBytes _)]
  simp [le16, length_wideBytes, wideUnits_wideBytes _ hu']

theorem length_padTo (n : Nat) (b : List Nat) : (padTo n b).length = n := by
  simp [padTo]

theorem padTo_eq (n : Nat) (b : List Nat) (h : b.length ≤ n) :
    padTo n b = b ++ List.replicate (n - b.length) 0 := by
  unfold padTo
  rw [List.take_append_eq_append_take, List.take_of_length_le h, List.take_replicate]
  congr 2
  omega

theorem writeAdvertiseInfo_accepting (w : WStream) (s : List Nat) (magic : Nat)
    (h : Accepting w) :
    (Stream_WriteAdvertiseInfo w s magic).2.data = w.data ++ advertiseImage s magic
      ∧ Accepting (Stream_WriteAdvertiseInfo w s magic).2 := by
  obtain ⟨_, h2, h3⟩ := write_accepting w (advertiseImage s magic) h
  exact ⟨h2, h3⟩

theorem length_le32 (n : Nat) : (le32 n).length = 4 := rfl

theorem loadAdvertiseInfo_advertiseImage (junk s rest : List Nat) (magic : Nat)
    (old : Option (List Nat)) (hlen : lstrlenW s < MAX_PATH) (hu : ∀ c ∈ cstr s, c < 65536)
    (hm : magic < 4294967296) (hsig : magic &&& 0xffff0000 = 0xa0000000) :
    Stream_LoadAdvertiseInfo junk (advertiseImage s magic ++ rest) old
      = some (S_OK, some (cstr s), rest) := by
  have hl : (cstr s).length ≤ 259 := by
    simp only [lstrlenW, MAX_PATH] at hlen; omega
  set A := padTo MAX_PATH ((cstr s).map wctomb) with hA
  set W := padTo (2 * MAX_PATH) (wideBytes ((cstr s).take (MAX_PATH - 1))) with hW
  have lA : A.length = 260 := length_padTo _ _
  have lW : W.length = 520 := length_padTo _ _
  have e : advertiseImage s magic ++ rest
      = le32 sizeof_EXP_DARWIN_LINK ++ ((le32 magic ++ A ++ W) ++ rest) := by
    simp only [advertiseImage, List.append_assoc, ← hA, ← hW]
  have lB : (le32 magic ++ A ++ W).length = sizeof_EXP_DARWIN_LINK - 4 := by
    simp only [List.length_append, length_le32, lA, lW]; rfl
  have hWu : wideUnits W = cstr s ++ List.replicate (260 - (cstr s).length) 0 := by
    have h1 : (cstr s).take (MAX_PATH - 1) = cstr s := List.take_of_length_le (by simpa [MAX_PATH] using hl)
    rw [hW, h1, padTo_eq _ _ (by rw [length_wideBytes]; simp only [MAX_PATH]; omega),
      length_wideBytes,
      show 2 * MAX_PATH - 2 * (cstr s).length = 2 * (260 - (cstr s).length) by
        simp only [MAX_PATH]; omega,
      wideUnits_wideBytes_append _ _ hu]
  have hz : (0 : Nat) ∈ wideUnits W := by
    rw [hWu]
    apply List.mem_append_right
    rw [List.mem_replicate]
    exact ⟨by omega, rfl⟩
  have hc : cstr (wideUnits W) = cstr s := by
    rw [hWu, show 260 - (cstr s).length = (259 - (cstr s).length) + 1 by omega,
      List.replicate_succ]
    exact cstr_cstr_append_zero s _
  unfold Stream_LoadAdvertiseInfo
  simp only [IStream_Read, e]
  rw [List.take_left' (length_le32 _), List.drop_left' (length_le32 _),
    List.take_left' lB, List.drop_left' lB]
  have h4 : (le32 sizeof_EXP_DARWIN_LINK).length = 4 := rfl
  have hs1 : u32 (le32 sizeof_EXP_DARWIN_LINK ++ List.drop (le32 sizeof_EXP_DARWIN_LINK).length junk)
      = sizeof_EXP_DARWIN_LINK := u32_le32 _ _ (by decide)
  have hs2 : u32 (le32 magic ++ A ++ W) = magic := by
    rw [List.append_assoc]; exact u32_le32 _ _ hm
  have hd : ((le32 magic ++ A ++ W).drop (4 + MAX_PATH)).take (2 * MAX_PATH) = W := by
    rw [List.drop_left' (by simp only [List.length_append, length_le32, lA]; rfl),
      List.take_of_length_le (by rw [lW]; decide)]
  simp only [hs1, hs2, hd, hsig, hz, hc, ne_eq, not_true_eq_false, if_false, if_true, lB]

theorem map_wctomb_of_lt {l : List Nat} (h : ∀ c ∈ l, c < 256) : l.map wctomb = l := by
  induction l with
  | nil => rfl
  | cons x xs ih =>
    have hx := h x (List.mem_cons_self _ _)
    simp only [List.map_cons, wctomb, hx, if_true, ih (fun c hc => h c (List.mem_cons_of_mem _ hc))]

theorem map_mbtowc_of_lt {l : List Nat} (h : ∀ c ∈ l, c < 256) : l.map mbtowc = l := by
  induction l with
  | nil => rfl
  | cons x xs ih =>
    have hx := h x (List.mem_cons_self _ _)
    simp only [List.map_cons, mbtowc, Nat.mod_eq_of_lt hx,
      ih (fun c hc => h c (List.mem_cons_of_mem _ hc))]

theorem loadPath_scan_append (a r : List Nat) (maxlen k : Nat)
    (ha : ∀ c ∈ a, c % 256 ≠ 0) (hk : k + a.length ≤ maxlen) :
    Stream_LoadPath_scan (a ++ 0 :: r) maxlen k = some (k + a.length) := by
  induction a generalizing k with
  | nil => simp [Stream_LoadPath_scan]
  | cons x xs ih =>
    have hx := ha x (List.mem_cons_self _ _)
    simp only [List.length_cons] at hk ⊢
    rw [List.cons_append, Stream_LoadPath_scan, if_neg hx, if_pos (by omega),
      ih (k + 1) (fun c hc => ha c (List.mem_cons_of_mem _ hc)) (by omega)]
    congr 1
    omega

theorem readChunk_image (p tail rest : List Nat) (total : Nat) (hp : p = le32 total ++ tail)
    (hlen : p.length = total) (ht : total < 4294967296) :
    Stream_ReadChunk (p ++ rest) = some (S_OK, p, rest) := by
  have h4 : 4 ≤ total := by rw [← hlen, hp]; simp [le32]
  have htl : tail.length = total - 4 := by
    rw [← hlen, hp]; simp [le32]
  unfold Stream_ReadChunk
  simp only [IStream_Read, hp, List.append_assoc]
  rw [List.take_left' (length_le32 _), List.drop_left' (length_le32 _)]
  have hu : u32 (le32 total) = total := by
    have := u32_le32 total [] ht
    simpa using this
  simp only [hu, length_le32, ne_eq, not_true_eq_false, if_false, show ¬ total < 4 by omega]
  rw [List.take_left' htl, List.drop_left' htl]
  simp [htl]

theorem drop_le32 (x k : Nat) (l : List Nat) : (le32 x ++ l).drop (k + 4) = l.drop k := by
  simp [le32]

theorem loadLocation_layout (total vis n fin type serial : Nat) (lab pth rest : List Nat)
    (hvis : vis = 17 + lab.length) (hn : n = 28 + vis) (htot : total = n + pth.length + 2)
    (hl : ∀ c ∈ lab, c < 256) (hll : lab.length ≤ 11)
    (hp : ∀ c ∈ pth, c < 256) (hpz : 0 ∉ pth) (hpl : pth.length < 260)
    (ht : type < 4294967296) (hs : serial < 4294967296) :
    Stream_LoadLocation
      (le32 total ++ le32 28 ++ le32 1 ++ le32 28 ++ le32 n ++ le32 0 ++ le32 fin
        ++ le32 vis ++ le32 type ++ le32 serial ++ le32 16 ++ lab ++ [0] ++ pth ++ [0] ++ [0]
        ++ rest)
      ⟨0, 0, List.replicate 12 0⟩ none
      = some (S_OK, ⟨type, serial, lab ++ List.replicate (12 - lab.length) 0⟩, some pth, rest) := by
  obtain ⟨p, hpdef⟩ : ∃ p, p = le32 total ++ le32 28 ++ le32 1 ++ le32 28 ++ le32 n ++ le32 0
      ++ le32 fin ++ le32 vis ++ le32 type ++ le32 serial ++ le32 16 ++ lab ++ [0] ++ pth
      ++ [0] ++ [0] := ⟨_, rfl⟩
  rw [← hpdef]
  simp only [List.append_assoc] at hpdef
  have hlen : p.length = total := by
    simp only [hpdef, List.length_append, length_le32, List.length_cons, List.length_nil]
    omega
  have hchunk := readChunk_image p _ rest total hpdef hlen (by omega)
  have h0 : u32At p 0 = total := by
    rw [u32At, List.drop_zero, hpdef]; exact u32_le32 _ _ (by omega)
  have h12 : u32At p 12 = 28 := by
    rw [u32At, hpdef, drop_le32, drop_le32, drop_le32, List.drop_zero]; exact u32_le32 _ _ (by omega)
  have h16 : u32At p 16 = n := by
    rw [u32At, hpdef, drop_le32, drop_le32, drop_le32, drop_le32, List.drop_zero]
    exact u32_le32 _ _ (by omega)
  have hd28 : p.drop 28 = le32 vis ++ (le32 type ++ (le32 serial ++ (le32 16
        ++ (lab ++ ([0] ++ (pth ++ ([0] ++ [0]))))))) := by
    rw [hpdef, drop_le32, drop_le32, drop_le32, drop_le32, drop_le32, drop_le32, drop_le32,
      List.drop_zero]
  have hd44 : p.drop 44 = lab ++ ([0] ++ (pth ++ ([0] ++ [0]))) := by
    rw [show 44 = 28 + 16 by rfl, ← List.drop_drop, hd28, drop_le32, drop_le32, drop_le32, drop_le32,
      List.drop_zero]
  have hdn : p.drop n = pth ++ ([0] ++ [0]) := by
    rw [hn, hvis, show 28 + (17 + lab.length) = 44 + (lab.length + 1) by omega, ← List.drop_drop,
      hd44, ← List.append_assoc, List.drop_left' (by simp)]
  have hpeek1 : peek p 28 sizeof_LOCAL_VOLUME_INFO
      = some (le32 vis ++ le32 type ++ le32 serial ++ le32 16) := by
    unfold peek
    rw [if_pos (by rw [hlen]; simp only [sizeof_LOCAL_VOLUME_INFO]; omega), hd28]
    simp [le32, sizeof_LOCAL_VOLUME_INFO]
  have hv0 : u32At (le32 vis ++ le32 type ++ le32 serial ++ le32 16) 0 = vis := by
    rw [u32At, List.drop_zero, List.append_assoc, List.append_assoc]; exact u32_le32 _ _ (by omega)
  have hv4 : u32At (le32 vis ++ le32 type ++ le32 serial ++ le32 16) 4 = type := by
    rw [u32At, List.append_assoc, List.append_assoc, drop_le32 _ 0, List.drop_zero]
    exact u32_le32 _ _ ht
  have hv8 : u32At (le32 vis ++ le32 type ++ le32 serial ++ le32 16) 8 = serial := by
    rw [u32At, List.append_assoc, List.append_assoc, drop_le32 _ 4, drop_le32 _ 0, List.drop_zero]
    exact u32_le32 _ _ hs
  have hv12 : u32At (le32 vis ++ le32 type ++ le32 serial ++ le32 16) 12 = 16 := by
    rw [u32At, List.append_assoc, List.append_assoc, drop_le32 _ 8, drop_le32 _ 4, drop_le32 _ 0,
      List.drop_zero]
    rfl
  have hlabel : ∃ src, peek p (28 + 16) (min (vis - 16) 11) = some src
      ∧ store (List.replicate 12 0) (src.map mbtowc)
        = lab ++ List.replicate (12 - lab.length) 0 := by
    unfold peek
    rw [if_pos (by rw [hlen]; omega), hd44]
    by_cases h11 : lab.length = 11
    · refine ⟨lab, ?_, ?_⟩
      · rw [show min (vis - 16) 11 = lab.length by omega, List.take_left' rfl]
      · rw [map_mbtowc_of_lt hl, store, h11]; rfl
    · refine ⟨lab ++ [0], ?_, ?_⟩
      · rw [show min (vis - 16) 11 = lab.length + 1 by omega, ← List.append_assoc,
          List.take_left' (by simp)]
      · have hl0 : ∀ c ∈ lab ++ [0], c < 256 := by
          intro c hc
          rcases List.mem_append.mp hc with h | h
          · exact hl c h
          · simp at h; omega
        rw [map_mbtowc_of_lt hl0, store, List.drop_replicate, List.append_assoc]
        congr 1
        rw [List.length_append, List.length_singleton,
          show 12 - lab.length = (12 - (lab.length + 1)) + 1 by omega, List.replicate_succ]
        rfl
  obtain ⟨src, hsrc, hstore⟩ := hlabel
  have hscan : Stream_LoadPath (p.drop n) (total - n) = some pth := by
    have hnz : ∀ c ∈ pth, c % 256 ≠ 0 := by
      intro c hc
      have h0 : c ≠ 0 := fun e => hpz (e ▸ hc)
      have := hp c hc
      omega
    unfold Stream_LoadPath
    rw [hdn, show pth ++ ([0] ++ [0]) = pth ++ 0 :: [0] from rfl,
      loadPath_scan_append pth [0] (total - n) 0 hnz (by omega)]
    simp only [Nat.zero_add, Option.map_some', List.take_left' rfl, map_mbtowc_of_lt hp]
  unfold Stream_LoadLocation
  rw [hchunk]
  simp only [show FAILED S_OK = false from by decide, Bool.false_eq_true, if_false, h0, h12, h16,
    sizeof_LOCATION_INFO, show ¬ total < 28 by omega]
  rw [if_pos ⟨by omega, by simp only [sizeof_LOCAL_VOLUME_INFO]; omega⟩]
  unfold Stream_LoadVolume
  simp only [hpeek1, hv0, hv4, hv8, hv12]
  rw [if_neg (by omega), if_neg (by omega), if_pos (by omega)]
  simp only [hsrc, hstore, Option.map_some']
  rw [if_pos ⟨by omega, by omega⟩, hscan]

theorem writeLocationInfo_accepting (w : WStream) (path : List Nat) (volume : volume_info)
    (h : Accepting w) (hz : 0 ∈ volume.label) :
    ∃ x, Stream_WriteLocationInfo w path volume = some x
      ∧ x.2.data = w.data ++ locationImage path volume ∧ Accepting x.2 := by
  obtain ⟨_, h2, h3⟩ := write_accepting w (locationImage path volume) h
  refine ⟨IStream_Write w (locationImage path volume), ?_, h2, h3⟩
  unfold Stream_WriteLocationInfo
  rw [if_pos hz]
  rfl

theorem loadLocation_locationImage (path rest : List Nat) (volume : volume_info)
    (hp : ∀ c ∈ cstr path, c < 256) (hpl : lstrlenW path < MAX_PATH)
    (hl : ∀ c ∈ cstr volume.label, c < 256) (hll : lstrlenW volume.label ≤ 11)
    (ht : volume.type < 4294967296) (hs : volume.serial < 4294967296) :
    Stream_LoadLocation (locationImage path volume ++ rest) ⟨0, 0, List.replicate 12 0⟩ none
      = some (S_OK,
          ⟨volume.type, volume.serial,
            cstr volume.label ++ List.replicate (12 - lstrlenW volume.label) 0⟩,
          some (cstr path), rest) := by
  have key := loadLocation_layout
    (sizeof_LOCATION_INFO + (sizeof_LOCAL_VOLUME_INFO + (cstr volume.label ++ [0]).length)
      + (cstr path ++ [0]).length + 1)
    (sizeof_LOCAL_VOLUME_INFO + (cstr volume.label ++ [0]).length)
    (sizeof_LOCATION_INFO + (sizeof_LOCAL_VOLUME_INFO + (cstr volume.label ++ [0]).length))
    (sizeof_LOCATION_INFO + (sizeof_LOCAL_VOLUME_INFO + (cstr volume.label ++ [0]).length)
      + (cstr path ++ [0]).length)
    volume.type volume.serial (cstr volume.label) (cstr path) rest
    (by simp [sizeof_LOCAL_VOLUME_INFO]; omega)
    (by simp [sizeof_LOCATION_INFO])
    (by simp [sizeof_LOCATION_INFO, sizeof_LOCAL_VOLUME_INFO]; omega)
    hl hll hp (zero_not_mem_cstr path) hpl ht hs
  simp only [locationImage, map_wctomb_of_lt hl, map_wctomb_of_lt hp, lstrlenW,
    sizeof_LOCATION_INFO, sizeof_LOCAL_VOLUME_INFO, List.append_assoc] at key ⊢
  exact key

theorem saveFlags_facts (This : IShellLinkImpl) :
    saveFlags This < 4294967296
    ∧ hasFlag (saveFlags This) SLDF_UNICODE = true
    ∧ hasFlag (saveFlags This) SLDF_HAS_ID_LIST = This.pPidl.isSome
    ∧ hasFlag (saveFlags This) SLDF_HAS_LINK_INFO = This.sPath.isSome
    ∧ hasFlag (saveFlags This) SLDF_HAS_NAME = This.sDescription.isSome
    ∧ hasFlag (saveFlags This) SLDF_HAS_RELPATH = false
    ∧ hasFlag (saveFlags This) SLDF_HAS_WORKINGDIR = This.sWorkDir.isSome
    ∧ hasFlag (saveFlags This) SLDF_HAS_ARGS = This.sArgs.isSome
    ∧ hasFlag (saveFlags This) SLDF_HAS_ICONLOCATION = This.sIcoPath.isSome
    ∧ hasFlag (saveFlags This) SLDF_HAS_LOGO3ID = This.sProduct.isSome
    ∧ hasFlag (saveFlags This) SLDF_HAS_DARWINID = This.sComponent.isSome := by
  unfold saveFlags
  generalize This.pPidl.isSome = b1
  generalize This.sPath.isSome = b2
  generalize This.sDescription.isSome = b3
  generalize This.sWorkDir.isSome = b4
  generalize This.sArgs.isSome = b5
  generalize This.sIcoPath.isSome = b6
  generalize This.sProduct.isSome = b7
  generalize This.sComponent.isSome = b8
  revert b1 b2 b3 b4 b5 b6 b7 b8
  decide

theorem length_saveHeader (env : Collaborators) (This : IShellLinkImpl) :
    (saveHeader env This).length = 76 := by
  simp [saveHeader, le32, le64, CLSID_ShellLink]

theorem toINT_toDWORD (i : Int) (h1 : -2147483648 ≤ i) (h2 : i < 2147483648) :
    toINT (toDWORD i) = i := by
  unfold toINT toDWORD
  split <;> omega

theorem saveHeader_fields (env : Collaborators) (This : IShellLinkImpl) :
    u32At (saveHeader env This) 0 = 76
    ∧ ((saveHeader env This).drop 4).take 16 = CLSID_ShellLink
    ∧ u32At (saveHeader env This) 0x14 = saveFlags This
    ∧ u32At (saveHeader env This) 0x38 = toDWORD This.iIcoNdx % 4294967296
    ∧ u32At (saveHeader env This) 0x3c = This.iShowCmd % 4294967296
    ∧ u32At (saveHeader env This) 0x40 = This.wHotKey % 65536 := by
  have hf := (saveFlags_facts This).1
  refine ⟨?_, ?_, ?_, ?_, ?_, ?_⟩ <;>
    simp only [saveHeader, le32, le64, CLSID_ShellLink, sizeof_LINK_HEADER, u32At, u32, byte,
      List.cons_append, List.nil_append, List.drop_succ_cons, List.drop_zero, List.take_succ_cons,
      List.take_zero, List.getD_cons_zero, List.getD_cons_succ] <;>
    omega

theorem getD_take_of_lt (l : List Nat) {i n : Nat} (h : i < n) :
    (l.take n).getD i 0 = l.getD i 0 := by
  simp [List.getD_eq_getElem?_getD, List.getElem?_take, h]

theorem u32_take (l : List Nat) {n : Nat} (h : 4 ≤ n) : u32 (l.take n) = u32 l := by
  simp only [u32, byte]
  rw [getD_take_of_lt l (by omega : 0 < n), getD_take_of_lt l (by omega : 1 < n),
    getD_take_of_lt l (by omega : 2 < n), getD_take_of_lt l (by omega : 3 < n)]

theorem FAILED_E_FAIL : FAILED E_FAIL = true := by decide

/-- C3: for every stream shorter than the 76-byte header, or whose size field is not 0x4C, or whose
magic is not `CLSID_ShellLink`, `IPersistStream_fnLoad` returns the failure `E_FAIL`, leaves the
object exactly as it was, and has taken no more than the 76 header bytes from the stream. -/
theorem load_rejects_bad_header (env : Collaborators) (junk : Indeterminate)
    (This : IShellLinkImpl) (stm : List Nat)
    (h : stm.length < 76 ∨ u32At stm 0 ≠ 0x4C
      ∨ ((stm.drop 4).take 16).map (fun b => b % 256) ≠ CLSID_ShellLink) :
    FAILED E_FAIL = true ∧
      IPersistStream_fnLoad env junk This stm = some (E_FAIL, This, stm.drop 76) := by
  refine ⟨FAILED_E_FAIL, ?_⟩
  unfold IPersistStream_fnLoad
  simp only [IStream_Read, sizeof_LINK_HEADER]
  by_cases hlen : (stm.take 76).length ≠ 76
  · rw [if_pos hlen]
  · rw [if_neg hlen]
    have hl : 76 ≤ stm.length := by
      simp only [List.length_take, ne_eq, not_not] at hlen; omega
    have h1 : u32At (stm.take 76) 0 = u32At stm 0 := by
      simp only [u32At, List.drop_zero]; exact u32_take stm (by omega)
    have h2 : ((stm.take 76).drop 4).take 16 = (stm.drop 4).take 16 := by
      rw [List.drop_take, List.take_take]; simp
    rw [h1, h2]
    rcases h with h | h | h
    · omega
    · rw [if_pos h]
    · by_cases h3 : u32At stm 0 ≠ 76
      · rw [if_pos h3]
      · rw [if_neg h3, if_pos h]

theorem load_rejects_bad_header_witness :
    FAILED E_FAIL = true ∧
      IPersistStream_fnLoad plainCollaborators ⟨[], []⟩ IShellLink_Constructor
        (List.replicate 80 0) = some (E_FAIL, IShellLink_Constructor, (List.replicate 80 0).drop 76) :=
  load_rejects_bad_header plainCollaborators ⟨[], []⟩ IShellLink_Constructor (List.replicate 80 0)
    (Or.inr (Or.inl (by decide)))

theorem strchrW_append {a : List Nat} {c : Nat} (rest : List Nat)
    (h : ∀ x ∈ a, x ≠ c ∧ x ≠ 0) : strchrW (a ++ c :: rest) c = some (c :: rest) := by
  induction a with
  | nil => simp [strchrW]
  | cons x xs ih =>
    have hx := h x (List.mem_cons_self _ _)
    simp only [List.cons_append, strchrW, hx.1, hx.2, if_false]
    exact ih (fun y hy => h y (List.mem_cons_of_mem _ hy))

theorem advertiseLoop_end (fuel : Nat) (szC szP : Option (List Nat)) :
    advertiseLoop (fuel + 1) [58, 58] szC szP = some (.ok (szC, szP)) := by
  simp [advertiseLoop, chr]

/-- One iteration of the loop on a segment `::` guid `:` value followed by a colon. -/
theorem advertiseLoop_segment (fuel : Nat) (g val rest : List Nat) (guid : GUID)
    (szC szP : Option (List Nat))
    (hg : ∀ x ∈ g, x ≠ 58 ∧ x ≠ 0) (hlen : g.length = 38)
    (hval : ∀ x ∈ val, x ≠ 58 ∧ x ≠ 0) (hguid : CLSIDFromString g = (S_OK, guid)) :
    advertiseLoop (fuel + 1) (58 :: 58 :: (g ++ 58 :: (val ++ 58 :: rest))) szC szP =
      if guid = SHELL32_AdvtShortcutComponent ∧ szC = none then
        advertiseLoop fuel (58 :: rest) (some (val ++ 58 :: rest)) szP
      else if guid = SHELL32_AdvtShortcutProduct ∧ szP = none then
        advertiseLoop fuel (58 :: rest) szC (some (val ++ 58 :: rest))
      else some (.error E_FAIL) := by
  have h1 : strchrW (g ++ 58 :: (val ++ 58 :: rest)) 58 = some (58 :: (val ++ 58 :: rest)) :=
    strchrW_append _ hg
  have h2 : strchrW (val ++ 58 :: rest) 58 = some (58 :: rest) := strchrW_append _ hval
  obtain ⟨x, g', rfl⟩ : ∃ x g', g = x :: g' := by
    cases g with
    | nil => simp at hlen
    | cons x g' => exact ⟨x, g', rfl⟩
  have hx : x ≠ 0 := (hg x (List.mem_cons_self _ _)).2
  rw [advertiseLoop]
  have hl : (x :: g' ++ 58 :: (val ++ 58 :: rest)).length - (58 :: (val ++ 58 :: rest)).length = 38 := by
    simp only [List.length_append, hlen]; omega
  have ht : List.take 38 (x :: g' ++ 58 :: (val ++ 58 :: rest)) = x :: g' := by
    rw [List.take_append_of_le_length (by omega), List.take_of_length_le (by omega)]
  simp only [chr, List.getD_cons_zero, List.getD_cons_succ, List.drop_succ_cons, List.drop_zero,
    h1, hl, ht, hguid, List.cons_append] at *
  simp [hx, IsEqualGUID, h2, S_OK]
  by_cases hc : guid = SHELL32_AdvtShortcutComponent ∧ szC = none
  · rw [if_pos hc, if_pos hc]
  · by_cases hp : guid = SHELL32_AdvtShortcutProduct ∧ szP = none
    · rw [if_neg hc, if_pos hp, if_neg hc, if_pos hp]
    · rw [if_neg hc, if_neg hp, if_neg hc, if_neg hp]

theorem getAdvertisedArg_value (val rest : List Nat) (hval : ∀ x ∈ val, x ≠ 58 ∧ x ≠ 0) :
    ShellLink_GetAdvertisedArg (some (val ++ 58 :: rest)) = some val := by
  simp [ShellLink_GetAdvertisedArg, strchrW_append rest hval]

theorem componentLead_eq :
    componentLead = 58 :: 58 :: (units "\x7b9db1186e-40df-11d1-aa8c-00c04fb67863\x7d" ++ [58]) := by
  decide

/-- C9: for every value `v` without a colon (and, being a C string, without a NUL),
`ShellLink_SetAdvertiseInfo` on `"::{9db1186e-40df-11d1-aa8c-00c04fb67863}:" ++ v ++ "::"`
returns `S_OK`, sets the component to `v` and the product to `NULL`, and changes nothing else. -/
theorem setAdvertiseInfo_component_only (This : IShellLinkImpl) (v : List Nat)
    (hcolon : 58 ∉ v) (hnul : 0 ∉ v) :
    ShellLink_SetAdvertiseInfo This (componentLead ++ v ++ [58, 58]) =
      some (S_OK, { This with sComponent := some v, sProduct := none }) := by
  have hv : ∀ x ∈ v, x ≠ 58 ∧ x ≠ 0 :=
    fun x hx => ⟨fun e => hcolon (e ▸ hx), fun e => hnul (e ▸ hx)⟩
  have hz : 0 ∉ componentLead ++ v ++ [58, 58] := by
    have : 0 ∉ componentLead := by decide
    simp [this, hnul]
  have e : componentLead ++ v ++ [58, 58]
      = 58 :: 58 :: (units "\x7b9db1186e-40df-11d1-aa8c-00c04fb67863\x7d" ++ 58 :: (v ++ 58 :: [58])) := by
    rw [componentLead_eq]; simp
  have hloop : advertiseLoop ((componentLead ++ v ++ [58, 58]).length + 1)
      (componentLead ++ v ++ [58, 58]) none none = some (.ok (some (v ++ [58, 58]), none)) := by
    have hl : (componentLead ++ v ++ [58, 58]).length + 1 = (v.length + 42) + 1 + 1 := by
      have : componentLead.length = 41 := by decide
      simp [this]; omega
    rw [hl, e, advertiseLoop_segment _ _ v [58] SHELL32_AdvtShortcutComponent none none
      (by decide) (by decide) hv (by decide)]
    simp [advertiseLoop_end]
  unfold ShellLink_SetAdvertiseInfo
  rw [cstr_eq_self hz, hloop]
  simp only
  rw [show v ++ [58, 58] = v ++ 58 :: [58] from rfl, getAdvertisedArg_value v [58] hv]
  rfl

theorem setAdvertiseInfo_component_only_witness :
    ShellLink_SetAdvertiseInfo IShellLink_Constructor (componentLead ++ units "MyComp" ++ [58, 58]) =
      some (S_OK, { IShellLink_Constructor with sComponent := some (units "MyComp"), sProduct := none }) :=
  setAdvertiseInfo_component_only IShellLink_Constructor (units "MyComp") (by decide) (by decide)

theorem strchrW_some {s p : List Nat} {c : Nat} (h : strchrW s c = some p) :
    p <:+ s ∧ ∃ t, p = c :: t := by
  induction s with
  | nil => simp [strchrW] at h
  | cons x xs ih =>
    rw [strchrW] at h
    by_cases hx : x = c
    · rw [if_pos hx] at h
      cases h
      exact ⟨List.suffix_refl _, xs, by rw [hx]⟩
    · rw [if_neg hx] at h
      by_cases h0 : x = 0
      · rw [if_pos h0] at h; cases h
      · rw [if_neg h0] at h
        obtain ⟨h1, h2⟩ := ih h
        exact ⟨h1.trans (List.suffix_cons _ _), h2⟩

theorem CLSIDFromString_code (s : List Nat) :
    (CLSIDFromString s).1 = S_OK ∨ (CLSIDFromString s).1 = CO_E_CLASSSTRING := by
  unfold CLSIDFromString
  simp only
  split
  · right; rfl
  · split
    · right; rfl
    · split
      · left; rfl
      · right; rfl

theorem advertiseLoop_spec : ∀ (fuel : Nat) (str : List Nat) (szC szP : Option (List Nat)),
    0 ∉ str → str.length < fuel →
    ∃ res, advertiseLoop fuel str szC szP = some res ∧
      (match res with
       | .error r => FAILED r = true
       | .ok (c, p) => (str = [] ∧ c = szC ∧ p = szP) ∨ [58, 58] <:+ str) := by
  intro fuel
  induction fuel with
  | zero => intro str _ _ _ h; simp at h
  | succ fuel ih =>
    intro str szC szP hz hlen
    rw [advertiseLoop]
    match str, hz, hlen with
    | [], _, _ => exact ⟨.ok (szC, szP), by simp [chr], Or.inl ⟨rfl, rfl, rfl⟩⟩
    | [x], hz, _ =>
      have hx : x ≠ 0 := fun e => hz (by simp [e])
      refine ⟨.error E_FAIL, ?_, FAILED_E_FAIL⟩
      simp [chr, hx]
    | x :: y :: rest, hz, hlen =>
      have hx : x ≠ 0 := fun e => hz (by simp [e])
      have hrest : 0 ∉ rest := fun h => hz (by simp [h])
      simp only [chr, List.getD_cons_zero, List.getD_cons_succ, hx, if_false, List.drop_succ_cons,
        List.drop_zero]
      by_cases hxy : ¬x = 58 ∨ ¬y = 58
      · rw [if_pos (by simpa using hxy)]
        exact ⟨.error E_FAIL, rfl, FAILED_E_FAIL⟩
      · rw [if_neg (by simpa using hxy)]
        have hx58 : x = 58 := by by_contra h; exact hxy (Or.inl h)
        have hy58 : y = 58 := by by_contra h; exact hxy (Or.inr h)
        subst hx58 hy58
        by_cases h2 : rest.getD 0 0 = 0
        · rw [if_pos h2]
          have : rest = [] := by
            cases rest with
            | nil => rfl
            | cons z zs => exact absurd (by simpa using h2) (fun e : z = 0 => hrest (by simp [e]))
          subst this
          exact ⟨.ok (szC, szP), rfl, Or.inr (List.suffix_refl _)⟩
        · rw [if_neg h2]
          cases h3 : strchrW rest 58 with
          | none => exact ⟨.error E_FAIL, rfl, FAILED_E_FAIL⟩
          | some p =>
            simp only
            obtain ⟨hp, t, rfl⟩ := strchrW_some h3
            split
            · exact ⟨.error E_FAIL, rfl, FAILED_E_FAIL⟩
            · split
              · rename_i hne
                refine ⟨.error (CLSIDFromString (List.take (rest.length - (58 :: t).length) rest)).1,
                  rfl, ?_⟩
                rcases CLSIDFromString_code (List.take (rest.length - (58 :: t).length) rest) with h | h
                · exact absurd h hne
                · simp only [h]; decide
              · split
                · exact ⟨.error E_FAIL, rfl, FAILED_E_FAIL⟩
                · rename_i c1 p1 _
                  cases h4 : strchrW (List.drop 1 (58 :: t)) 58 with
                  | none => exact ⟨.error E_FAIL, rfl, FAILED_E_FAIL⟩
                  | some str3 =>
                    simp only
                    obtain ⟨hs3, t3, rfl⟩ := strchrW_some h4
                    have hsuf : (58 :: t3) <:+ 58 :: 58 :: rest := by
                      have h5 : (58 :: t3) <:+ t := by simpa using hs3
                      exact ((h5.trans (List.suffix_cons _ _)).trans hp).trans
                        ((List.suffix_cons _ _).trans (List.suffix_cons _ _))
                    have hz3 : 0 ∉ 58 :: t3 := fun h => hz (hsuf.subset h)
                    have hl3 : (58 :: t3).length < fuel := by
                      have h5 : (58 :: t3) <:+ t := by simpa using hs3
                      have := (h5.trans (List.suffix_cons 58 t)).length_le
                      have := hp.length_le
                      simp only [List.length_cons] at *
                      omega
                    obtain ⟨res, hres, hprop⟩ := ih (58 :: t3) c1 p1 hz3 hl3
                    refine ⟨res, hres, ?_⟩
                    cases res with
                    | error r => exact hprop
                    | ok cp =>
                      obtain ⟨c, p⟩ := cp
                      rcases hprop with ⟨h, _⟩ | h
                      · cases h
                      · exact Or.inr (h.trans hsuf)

/-- C10: for every string whose text (the units before the first NUL) does not end in `::`,
`ShellLink_SetAdvertiseInfo` returns a failure code and leaves the object unchanged. -/
theorem setAdvertiseInfo_requires_trailing_colons (This : IShellLinkImpl) (s : List Nat)
    (h : ¬ [58, 58] <:+ cstr s) :
    ∃ hr, FAILED hr = true ∧ ShellLink_SetAdvertiseInfo This s = some (hr, This) := by
  obtain ⟨res, hres, hprop⟩ :=
    advertiseLoop_spec ((cstr s).length + 1) (cstr s) none none (zero_not_mem_cstr s) (by omega)
  unfold ShellLink_SetAdvertiseInfo
  rw [hres]
  cases res with
  | error r => exact ⟨r, hprop, rfl⟩
  | ok cp =>
    obtain ⟨c, p⟩ := cp
    rcases hprop with ⟨_, hc, _⟩ | hsuf
    · subst hc
      exact ⟨E_FAIL, by decide, rfl⟩
    · exact absurd hsuf h

theorem setAdvertiseInfo_requires_trailing_colons_witness :
    ∃ hr, FAILED hr = true ∧
      ShellLink_SetAdvertiseInfo IShellLink_Constructor (componentLead ++ units "MyComp:")
        = some (hr, IShellLink_Constructor) :=
  setAdvertiseInfo_requires_trailing_colons IShellLink_Constructor
    (componentLead ++ units "MyComp:") (by decide)

theorem local_start (r : HRESULT) (T : IShellLinkImpl) :
    Local (fun stm => (some (r, T, stm) : LoadState)) := by
  intro stm r' T' rest h _
  simp only [Option.some.injEq, Prod.mk.injEq] at h
  obtain ⟨rfl, rfl, rfl⟩ := h
  exact ⟨[], rfl, fun t => rfl⟩

theorem local_next {f : List Nat → LoadState}
    {g : HRESULT → IShellLinkImpl → List Nat → LoadState}
    (hf : Local f) (hg : ∀ r T, Local (g r T)) : Local (fun stm => (f stm).next g) := by
  intro stm r T rest h hok
  cases hfs : f stm with
  | none => simp [hfs, LoadState.next] at h
  | some x =>
    obtain ⟨r1, T1, rest1⟩ := x
    simp only [hfs, LoadState.next] at h
    by_cases hr1 : FAILED r1 = true
    · rw [if_pos hr1] at h
      simp only [Option.some.injEq, Prod.mk.injEq] at h
      rw [h.1] at hr1
      rw [hr1] at hok
      cases hok
    · rw [if_neg hr1] at h
      obtain ⟨c1, e1, k1⟩ := hf stm r1 T1 rest1 hfs (by simpa using hr1)
      obtain ⟨c2, e2, k2⟩ := hg r1 T1 rest1 r T rest h hok
      refine ⟨c1 ++ c2, by rw [e1, e2, List.append_assoc], fun t => ?_⟩
      simp only [List.append_assoc, k1, LoadState.next, if_neg hr1, k2]

theorem take_drop_local (stm : List Nat) (n : Nat) (h : (stm.take n).length = n) (t : List Nat) :
    (stm.take n ++ t).take n = stm.take n ∧ (stm.take n ++ t).drop n = t :=
  ⟨List.take_left' h, List.drop_left' h⟩

theorem loadString_local (stm : List Nat) (unicode : Bool) (old : Option (List Nat))
    (r : HRESULT) (v : Option (List Nat)) (rest : List Nat)
    (h : Stream_LoadString stm unicode old = (r, v, rest)) (hok : FAILED r = false) :
    ∃ c, stm = c ++ rest ∧ ∀ t, Stream_LoadString (c ++ t) unicode old = (r, v, t) := by
  unfold Stream_LoadString at h
  simp only [IStream_Read] at h
  by_cases h1 : (stm.take 2).length ≠ 2
  · rw [if_pos h1] at h
    simp only [Prod.mk.injEq] at h
    rw [← h.1, FAILED_E_FAIL] at hok; cases hok
  · rw [if_neg h1] at h
    have h1' : (stm.take 2).length = 2 := by simpa using h1
    generalize hlen : (if unicode = true then u16 (stm.take 2) * 2 % 65536 else u16 (stm.take 2))
      = len at h
    by_cases h2 : ((stm.drop 2).take len).length ≠ len
    · rw [if_pos h2] at h
      simp only [Prod.mk.injEq] at h
      rw [← h.1, FAILED_E_FAIL] at hok; cases hok
    · rw [if_neg h2] at h
      have h2' : ((stm.drop 2).take len).length = len := by simpa using h2
      have hrest : rest = (stm.drop 2).drop len := by
        split at h <;> simp only [Prod.mk.injEq] at h <;> exact h.2.2.symm
      refine ⟨stm.take 2 ++ (stm.drop 2).take len, ?_, fun t => ?_⟩
      · rw [hrest, List.append_assoc, List.take_append_drop, List.take_append_drop]
      · unfold Stream_LoadString
        simp only [IStream_Read, List.append_assoc]
        rw [(take_drop_local stm 2 h1' _).1, (take_drop_local stm 2 h1' _).2, if_neg h1, hlen,
          (take_drop_local (stm.drop 2) len h2' _).1, (take_drop_local (stm.drop 2) len h2' _).2,
          if_neg h2]
        rw [hrest] at h
        cases unicode
        · simp only [Bool.false_eq_true, if_false, Prod.mk.injEq] at h ⊢
          exact ⟨h.1, h.2.1, trivial⟩
        · simp only [if_true, Prod.mk.injEq] at h ⊢
          exact ⟨h.1, h.2.1, trivial⟩

theorem readChunk_local (stm : List Nat) (r : HRESULT) (p rest : List Nat)
    (h : Stream_ReadChunk stm = some (r, p, rest)) (hok : FAILED r = false) :
    ∃ c, stm = c ++ rest ∧ ∀ t, Stream_ReadChunk (c ++ t) = some (r, p, t) := by
  unfold Stream_ReadChunk at h
  simp only [IStream_Read] at h
  by_cases h1 : (stm.take 4).length ≠ 4
  · rw [if_pos h1] at h
    simp only [Option.some.injEq, Prod.mk.injEq] at h
    rw [← h.1, FAILED_E_FAIL] at hok; cases hok
  · rw [if_neg h1] at h
    have h1' : (stm.take 4).length = 4 := by simpa using h1
    by_cases hs : u32 (stm.take 4) < 4
    · rw [if_pos hs] at h; cases h
    · rw [if_neg hs] at h
      by_cases h2 : ((stm.drop 4).take (u32 (stm.take 4) - 4)).length ≠ u32 (stm.take 4) - 4
      · rw [if_pos h2] at h
        simp only [Option.some.injEq, Prod.mk.injEq] at h
        rw [← h.1, FAILED_E_FAIL] at hok; cases hok
      · rw [if_neg h2] at h
        have h2' := not_not.mp h2
        simp only [Option.some.injEq, Prod.mk.injEq] at h
        obtain ⟨hr, hp, hrest⟩ := h
        refine ⟨stm.take 4 ++ (stm.drop 4).take (u32 (stm.take 4) - 4), ?_, fun t => ?_⟩
        · rw [← hrest, List.append_assoc, List.take_append_drop, List.take_append_drop]
        · unfold Stream_ReadChunk
          simp only [IStream_Read, List.append_assoc]
          rw [(take_drop_local stm 4 h1' _).1, (take_drop_local stm 4 h1' _).2, if_neg h1,
            if_neg hs, (take_drop_local (stm.drop 4) _ h2' _).1,
            (take_drop_local (stm.drop 4) _ h2' _).2, if_neg h2, hr, hp]

theorem loadLocation_local (stm : List Nat) (vol : volume_info) (path : Option (List Nat))
    (r : HRESULT) (vol1 : volume_info) (path1 : Option (List Nat)) (rest : List Nat)
    (h : Stream_LoadLocation stm vol path = some (r, vol1, path1, rest))
    (hok : FAILED r = false) :
    ∃ c, stm = c ++ rest ∧
      ∀ t, Stream_LoadLocation (c ++ t) vol path = some (r, vol1, path1, t) := by
  unfold Stream_LoadLocation at h
  cases hc : Stream_ReadChunk stm with
  | none => simp [hc] at h
  | some x =>
    obtain ⟨rc, p, stm1⟩ := x
    simp only [hc] at h
    by_cases hrc : FAILED rc = true
    · rw [if_pos hrc] at h
      simp only [Option.some.injEq, Prod.mk.injEq] at h
      rw [h.1] at hrc; rw [hrc] at hok; cases hok
    · rw [if_neg hrc] at h
      obtain ⟨c, e, k⟩ := readChunk_local stm rc p stm1 hc (by simpa using hrc)
      have hrest : rest = stm1 := by
        split at h
        · simp only [Option.some.injEq, Prod.mk.injEq] at h; exact h.2.2.2.symm
        · split at h
          · cases h
          · split at h
            · split at h
              · cases h
              · simp only [Option.some.injEq, Prod.mk.injEq] at h; exact h.2.2.2.symm
            · simp only [Option.some.injEq, Prod.mk.injEq] at h; exact h.2.2.2.symm
      subst hrest
      refine ⟨c, e, fun t => ?_⟩
      unfold Stream_LoadLocation
      simp only [k t, if_neg hrc]
      split at h
      · simp only [Option.some.injEq, Prod.mk.injEq] at h
        rw [← h.1, FAILED_E_FAIL] at hok; cases hok
      · rename_i hsz
        rw [if_neg hsz]
        split at h
        · cases h
        · rename_i v1 hv
          split at h
          · rename_i hn
            rw [if_pos hn]
            split at h
            · cases h
            · rename_i s hs
              simp only [Option.some.injEq, Prod.mk.injEq] at h ⊢
              exact ⟨h.1, h.2.1, h.2.2.1, trivial⟩
          · rename_i hn
            rw [if_neg hn]
            simp only [Option.some.injEq, Prod.mk.injEq] at h ⊢
            exact ⟨h.1, h.2.1, h.2.2.1, trivial⟩

theorem loadAdvertiseInfo_local (junk stm : List Nat) (old : Option (List Nat))
    (r : HRESULT) (v : Option (List Nat)) (rest : List Nat)
    (h : Stream_LoadAdvertiseInfo junk stm old = some (r, v, rest)) (hok : FAILED r = false) :
    ∃ c, stm = c ++ rest ∧ ∀ t, Stream_LoadAdvertiseInfo junk (c ++ t) old = some (r, v, t) := by
  unfold Stream_LoadAdvertiseInfo at h
  simp only [IStream_Read] at h
  split at h
  · simp only [Option.some.injEq, Prod.mk.injEq] at h
    rw [← h.1, FAILED_E_FAIL] at hok; cases hok
  · rename_i hcb
    split at h
    · simp only [Option.some.injEq, Prod.mk.injEq] at h
      rw [← h.1, FAILED_E_FAIL] at hok; cases hok
    · rename_i h2
      have h2' := not_not.mp h2
      have h1' : (stm.take 4).length = 4 := by
        by_contra hne
        have hl : stm.length < 4 := by
          simp only [List.length_take] at hne; omega
        have : (List.take (sizeof_EXP_DARWIN_LINK - 4) (List.drop 4 stm)).length = 0 := by
          simp only [List.length_take, List.length_drop]; omega
        rw [this] at h2'
        revert h2'; decide
      split at h
      · simp only [Option.some.injEq, Prod.mk.injEq] at h
        rw [← h.1, FAILED_E_FAIL] at hok; cases hok
      · rename_i hsig
        split at h
        · rename_i hz
          simp only [Option.some.injEq, Prod.mk.injEq] at h
          obtain ⟨hr, hv, hrest⟩ := h
          refine ⟨stm.take 4 ++ (stm.drop 4).take (sizeof_EXP_DARWIN_LINK - 4), ?_, fun t => ?_⟩
          · rw [← hrest, List.append_assoc, List.take_append_drop, List.take_append_drop]
          · unfold Stream_LoadAdvertiseInfo
            simp only [IStream_Read, List.append_assoc]
            rw [(take_drop_local stm 4 h1' _).1, (take_drop_local stm 4 h1' _).2, if_neg hcb,
              (take_drop_local (stm.drop 4) _ h2' _).1, (take_drop_local (stm.drop 4) _ h2' _).2,
              if_neg h2, if_neg hsig, if_pos hz, hr, hv]
        · cases h

theorem local_stringSection (present unicode : Bool) (get : IShellLinkImpl → Option (List Nat))
    (set : IShellLinkImpl → Option (List Nat) → IShellLinkImpl) (r : HRESULT)
    (T : IShellLinkImpl) : Local (loadStringSection present unicode get set r T) := by
  intro stm r1 T1 rest h hok
  unfold loadStringSection at h ⊢
  cases present
  · simp only [Bool.false_eq_true, if_false, Option.some.injEq, Prod.mk.injEq] at h ⊢
    obtain ⟨rfl, rfl, rfl⟩ := h
    exact ⟨[], rfl, fun t => ⟨rfl, rfl, rfl⟩⟩
  · rcases hx : Stream_LoadString stm unicode (get T) with ⟨rx, vx, restx⟩
    simp only [if_true, hx, Option.some.injEq, Prod.mk.injEq] at h ⊢
    obtain ⟨rfl, rfl, rfl⟩ := h
    obtain ⟨c, e, k⟩ := loadString_local stm unicode (get T) _ _ _ hx hok
    exact ⟨c, e, fun t => by rw [k t]; exact ⟨rfl, rfl, rfl⟩⟩

theorem local_advertiseSection (present : Bool) (junk : List Nat)
    (get : IShellLinkImpl → Option (List Nat))
    (set : IShellLinkImpl → Option (List Nat) → IShellLinkImpl) (r : HRESULT)
    (T : IShellLinkImpl) : Local (loadAdvertiseSection present junk get set r T) := by
  intro stm r1 T1 rest h hok
  unfold loadAdvertiseSection at h ⊢
  cases present
  · simp only [Bool.false_eq_true, if_false, Option.some.injEq, Prod.mk.injEq] at h ⊢
    obtain ⟨rfl, rfl, rfl⟩ := h
    exact ⟨[], rfl, fun t => ⟨rfl, rfl, rfl⟩⟩
  · simp only [if_true] at h ⊢
    cases hx : Stream_LoadAdvertiseInfo junk stm (get T) with
    | none => simp [hx] at h
    | some x =>
      obtain ⟨rx, vx, restx⟩ := x
      simp only [hx, Option.map_some', Option.some.injEq, Prod.mk.injEq] at h
      obtain ⟨rfl, rfl, rfl⟩ := h
      obtain ⟨c, e, k⟩ := loadAdvertiseInfo_local junk stm (get T) _ _ _ hx hok
      exact ⟨c, e, fun t => by rw [k t]; rfl⟩

theorem local_loadNewStuff (env : Collaborators) (junk : Indeterminate) (dwFlags : Nat)
    (hpidl : PidlLoadLocal env) (r : HRESULT) (T : IShellLinkImpl) :
    Local (loadNewStuff env junk dwFlags r T) := by
  unfold loadNewStuff
  refine local_next (local_next (local_next (local_next (local_next (local_next (local_next
    (local_next (local_next (local_start r T) ?_) ?_) (local_stringSection _ _ _ _))
    (local_stringSection _ _ _ _)) (local_stringSection _ _ _ _)) (local_stringSection _ _ _ _))
    (local_stringSection _ _ _ _)) (local_advertiseSection _ _ _ _))
    (local_advertiseSection _ _ _ _)
  · intro r0 T0 stm r1 T1 rest h hok
    by_cases hf : hasFlag dwFlags SLDF_HAS_ID_LIST = true
    · rcases hx : env.ILLoadFromStream stm with ⟨rx, vx, restx⟩
      simp only [hf, if_true, hx, Option.some.injEq, Prod.mk.injEq] at h ⊢
      obtain ⟨rfl, rfl, rfl⟩ := h
      obtain ⟨c, e, k⟩ := hpidl stm _ _ _ hx hok
      exact ⟨c, e, fun t => by rw [k t]; exact ⟨rfl, rfl, rfl⟩⟩
    · simp only [hf, if_false, Option.some.injEq, Prod.mk.injEq] at h
      obtain ⟨rfl, rfl, rfl⟩ := h
      exact ⟨[], rfl, fun t => by simp only [hf, Bool.false_eq_true, if_false, List.nil_append]⟩
  · intro r0 T0 stm r1 T1 rest h hok
    by_cases hf : hasFlag dwFlags SLDF_HAS_LINK_INFO = true
    · simp only [hf, if_true] at h ⊢
      cases hx : Stream_LoadLocation stm T0.volume T0.sPath with
      | none => simp [hx] at h
      | some x =>
        obtain ⟨rx, vx, px, restx⟩ := x
        simp only [hx, Option.map_some', Option.some.injEq, Prod.mk.injEq] at h
        obtain ⟨rfl, rfl, rfl⟩ := h
        obtain ⟨c, e, k⟩ := loadLocation_local stm _ _ _ _ _ _ hx hok
        exact ⟨c, e, fun t => by rw [k t]; rfl⟩
    · simp only [hf, if_false, Option.some.injEq, Prod.mk.injEq] at h
      obtain ⟨rfl, rfl, rfl⟩ := h
      exact ⟨[], rfl, fun t => by simp only [hf, Bool.false_eq_true, if_false, List.nil_append]⟩

/-- C7: when `IPersistStream_fnLoad` does not fail on a stream, it returns `S_OK`, and the stream
splits into the part `p` that holds the header and the flagged sections and a remainder `t0`
of which the load took at most four bytes; with any bytes `t` in place of `t0` (a zero word, a
non-zero word, fewer than four bytes, none) the load again returns `S_OK` and leaves the same
object. The id-list reader of the collaborators is assumed to look only at what it consumes. -/
theorem load_ignores_terminator (env : Collaborators) (junk : Indeterminate)
    (This : IShellLinkImpl) (stm : List Nat) (hr : HRESULT) (This1 : IShellLinkImpl)
    (rest : List Nat) (hpidl : PidlLoadLocal env)
    (h : IPersistStream_fnLoad env junk This stm = some (hr, This1, rest))
    (hok : FAILED hr = false) :
    hr = S_OK ∧ ∃ p t0, stm = p ++ t0 ∧ rest = t0.drop 4 ∧
      ∀ t, IPersistStream_fnLoad env junk This (p ++ t) = some (S_OK, This1, t.drop 4) := by
  unfold IPersistStream_fnLoad at h
  simp only [IStream_Read] at h
  split at h
  · simp only [Option.some.injEq, Prod.mk.injEq] at h
    rw [← h.1, FAILED_E_FAIL] at hok; cases hok
  · rename_i h1
    split at h
    · simp only [Option.some.injEq, Prod.mk.injEq] at h
      rw [← h.1, FAILED_E_FAIL] at hok; cases hok
    · rename_i h2
      split at h
      · simp only [Option.some.injEq, Prod.mk.injEq] at h
        rw [← h.1, FAILED_E_FAIL] at hok; cases hok
      · rename_i h3
        have h1' := not_not.mp h1
        cases hs : loadNewStuff env junk (u32At (stm.take sizeof_LINK_HEADER) 0x14) S_OK
            (loadHeaderFields env This (stm.take sizeof_LINK_HEADER))
            (stm.drop sizeof_LINK_HEADER) with
        | none => simp [hs, LoadState.next] at h
        | some x =>
          obtain ⟨r, T, rest0⟩ := x
          simp only [hs, LoadState.next] at h
          by_cases hfr : FAILED r = true
          · rw [if_pos hfr] at h
            simp only [Option.some.injEq, Prod.mk.injEq] at h
            rw [h.1] at hfr; rw [hfr] at hok; cases hok
          · rw [if_neg hfr] at h
            simp only [Option.some.injEq, Prod.mk.injEq] at h
            obtain ⟨rfl, rfl, rfl⟩ := h
            obtain ⟨c, e, k⟩ := local_loadNewStuff env junk _ hpidl _ _ _ _ _ _ hs
              (by simpa using hfr)
            refine ⟨rfl, stm.take sizeof_LINK_HEADER ++ c, rest0, ?_, rfl, fun t => ?_⟩
            · rw [List.append_assoc, ← e, List.take_append_drop]
            · unfold IPersistStream_fnLoad
              simp only [IStream_Read, List.append_assoc]
              rw [(take_drop_local stm _ h1' _).1, (take_drop_local stm _ h1' _).2, if_neg h1,
                if_neg h2, if_neg h3, k (t), LoadState.next]
              simp only [hfr, Bool.false_eq_true, if_false]

theorem keeps_next {P : IShellLinkImpl → Prop} {s : LoadState}
    {f : HRESULT → IShellLinkImpl → List Nat → LoadState}
    (hs : Keeps P s) (hf : ∀ r T stm, P T → Keeps P (f r T stm)) : Keeps P (s.next f) := by
  intro r T rest h
  cases s with
  | none => simp [LoadState.next] at h
  | some x =>
    obtain ⟨r1, T1, rest1⟩ := x
    simp only [LoadState.next] at h
    have h1 := hs r1 T1 rest1 rfl
    split at h
    · simp only [Option.some.injEq, Prod.mk.injEq] at h
      rw [← h.2.1]; exact h1
    · exact hf r1 T1 rest1 h1 r T rest h

theorem keeps_stringSection {P : IShellLinkImpl → Prop} (present unicode : Bool)
    (get : IShellLinkImpl → Option (List Nat))
    (set : IShellLinkImpl → Option (List Nat) → IShellLinkImpl)
    (hset : ∀ t v, P t → P (set t v)) (r : HRESULT) (T : IShellLinkImpl) (stm : List Nat)
    (hT : P T) : Keeps P (loadStringSection present unicode get set r T stm) := by
  intro r1 T1 rest h
  unfold loadStringSection at h
  split at h <;> simp only [Option.some.injEq, Prod.mk.injEq] at h
  · rw [← h.2.1]; exact hset _ _ hT
  · rw [← h.2.1]; exact hT

theorem keeps_advertiseSection {P : IShellLinkImpl → Prop} (present : Bool) (junk : List Nat)
    (get : IShellLinkImpl → Option (List Nat))
    (set : IShellLinkImpl → Option (List Nat) → IShellLinkImpl)
    (hset : ∀ t v, P t → P (set t v)) (r : HRESULT) (T : IShellLinkImpl) (stm : List Nat)
    (hT : P T) : Keeps P (loadAdvertiseSection present junk get set r T stm) := by
  intro r1 T1 rest h
  unfold loadAdvertiseSection at h
  split at h
  · cases hx : Stream_LoadAdvertiseInfo junk stm (get T) with
    | none => simp [hx] at h
    | some x =>
      simp only [hx, Option.map_some', Option.some.injEq, Prod.mk.injEq] at h
      rw [← h.2.1]; exact hset _ _ hT
  · simp only [Option.some.injEq, Prod.mk.injEq] at h
    rw [← h.2.1]; exact hT

/-- No section of `loadNewStuff` assigns `iShowCmd` or `bDirty`. -/
theorem loadNewStuff_keeps (env : Collaborators) (junk : Indeterminate) (dwFlags : Nat)
    (r : HRESULT) (T : IShellLinkImpl) (stm : List Nat) (a : Nat) (b : Bool)
    (hT : T.iShowCmd = a ∧ T.bDirty = b) :
    Keeps (fun t => t.iShowCmd = a ∧ t.bDirty = b) (loadNewStuff env junk dwFlags r T stm) := by
  unfold loadNewStuff
  refine keeps_next (keeps_next (keeps_next (keeps_next (keeps_next (keeps_next (keeps_next
    (keeps_next (keeps_next ?_ ?_) ?_)
    (keeps_stringSection _ _ _ _ (fun _ _ h => h))) (keeps_stringSection _ _ _ _ (fun _ _ h => h)))
    (keeps_stringSection _ _ _ _ (fun _ _ h => h))) (keeps_stringSection _ _ _ _ (fun _ _ h => h)))
    (keeps_stringSection _ _ _ _ (fun _ _ h => h)))
    (keeps_advertiseSection _ _ _ _ (fun _ _ h => h)))
    (keeps_advertiseSection _ _ _ _ (fun _ _ h => h))
  · intro r1 T1 rest h
    simp only [Option.some.injEq, Prod.mk.injEq] at h
    rw [← h.2.1]; exact hT
  · intro r0 T0 stm0 h0 r1 T1 rest h
    split at h <;> simp only [Option.some.injEq, Prod.mk.injEq] at h
    · rw [← h.2.1]; exact h0
    · rw [← h.2.1]; exact h0
  · intro r0 T0 stm0 h0 r1 T1 rest h
    split at h
    · cases hx : Stream_LoadLocation stm0 T0.volume T0.sPath with
      | none => simp [hx] at h
      | some x =>
        simp only [hx, Option.map_some', Option.some.injEq, Prod.mk.injEq] at h
        rw [← h.2.1]; exact h0
    · simp only [Option.some.injEq, Prod.mk.injEq] at h
      rw [← h.2.1]; exact h0

/-- `IPersistStream_fnLoad` never assigns `iShowCmd` or `bDirty`. -/
theorem load_keeps_showCmd (env : Collaborators) (junk : Indeterminate) (This : IShellLinkImpl)
    (stm : List Nat) :
    Keeps (fun t => t.iShowCmd = This.iShowCmd ∧ t.bDirty = This.bDirty)
      (IPersistStream_fnLoad env junk This stm) := by
  unfold IPersistStream_fnLoad
  simp only
  split
  · intro r T rest h
    simp only [Option.some.injEq, Prod.mk.injEq] at h
    rw [← h.2.1]; exact ⟨rfl, rfl⟩
  · split
    · intro r T rest h
      simp only [Option.some.injEq, Prod.mk.injEq] at h
      rw [← h.2.1]; exact ⟨rfl, rfl⟩
    · split
      · intro r T rest h
        simp only [Option.some.injEq, Prod.mk.injEq] at h
        rw [← h.2.1]; exact ⟨rfl, rfl⟩
      · refine keeps_next (loadNewStuff_keeps _ _ _ _ _ _ _ _ ⟨rfl, rfl⟩) ?_
        intro r0 T0 stm0 h0 r1 T1 rest h
        simp only [Option.some.injEq, Prod.mk.injEq] at h
        rw [← h.2.1]; exact h0

theorem headerAccepted_take (stm : List Nat) (h : headerAccepted stm) :
    (stm.take 76).length = 76 ∧ u32At (stm.take 76) 0 = 76
      ∧ (((stm.take 76).drop 4).take 16).map (fun b => b % 256) = CLSID_ShellLink := by
  obtain ⟨h1, h2, h3⟩ := h
  refine ⟨by simp [h1], ?_, ?_⟩
  · have := u32_take stm (show 4 ≤ 76 by omega)
    simp only [u32At, List.drop_zero] at h2 ⊢
    rw [this]; exact h2
  · rw [List.drop_take, List.take_take]
    simpa using h3

/-- Once the header is accepted, the outcome of a load depends on the previous state of the
object only through `iShowCmd`, `bDirty` and the three times. -/
theorem load_forgets_previous (env : Collaborators) (junk : Indeterminate)
    (This Other : IShellLinkImpl) (stm : List Nat) (hacc : headerAccepted stm)
    (h1 : Other.iShowCmd = This.iShowCmd) (h2 : Other.bDirty = This.bDirty)
    (h3 : Other.time1 = This.time1) (h4 : Other.time2 = This.time2)
    (h5 : Other.time3 = This.time3) :
    IPersistStream_fnLoad env junk Other stm = IPersistStream_fnLoad env junk This stm := by
  obtain ⟨hl, hs, hm⟩ := headerAccepted_take stm hacc
  have e : ∀ hdr, loadHeaderFields env Other hdr = loadHeaderFields env This hdr := by
    intro hdr
    simp only [loadHeaderFields, h1, h2, h3, h4, h5]
  unfold IPersistStream_fnLoad
  simp only [IStream_Read, sizeof_LINK_HEADER, ne_eq, hl, not_true_eq_false, if_false, hs, hm, e]

theorem loadAdvertiseInfo_failed (junk stm : List Nat) (str : Option (List Nat)) (r : HRESULT)
    (v : Option (List Nat)) (rest : List Nat)
    (h : Stream_LoadAdvertiseInfo junk stm str = some (r, v, rest)) (hf : FAILED r = true) :
    v = str := by
  unfold Stream_LoadAdvertiseInfo at h
  simp only at h
  split at h
  · simp only [Option.some.injEq, Prod.mk.injEq] at h; exact h.2.1.symm
  · split at h
    · simp only [Option.some.injEq, Prod.mk.injEq] at h; exact h.2.1.symm
    · split at h
      · simp only [Option.some.injEq, Prod.mk.injEq] at h; exact h.2.1.symm
      · split at h
        · simp only [Option.some.injEq, Prod.mk.injEq] at h
          rw [← h.1] at hf
          exact absurd hf (by decide)
        · cases h

/-- A load of the sections that ends in a failure leaves the member of the last section,
`sComponent`, as it found it when that was `NULL`. -/
theorem loadNewStuff_failed (env : Collaborators) (junk : Indeterminate) (dwFlags : Nat)
    (r0 : HRESULT) (T0 : IShellLinkImpl) (stm : List Nat) (hT : T0.sComponent = none)
    (r : HRESULT) (T : IShellLinkImpl) (rest : List Nat)
    (h : loadNewStuff env junk dwFlags r0 T0 stm = some (r, T, rest)) (hf : FAILED r = true) :
    T.sComponent = none := by
  unfold loadNewStuff at h
  simp only at h
  generalize hs8 : LoadState.next _ (loadAdvertiseSection (hasFlag dwFlags SLDF_HAS_LOGO3ID)
    junk.logo3 (fun t => t.sProduct) (fun t v => { t with sProduct := v })) = s8 at h
  have k8 : Keeps (fun t => t.sComponent = none) s8 := by
    rw [← hs8]
    refine keeps_next (keeps_next (keeps_next (keeps_next (keeps_next (keeps_next
      (keeps_next (keeps_next ?_ ?_) ?_)
      (keeps_stringSection _ _ _ _ (fun _ _ h => h)))
      (keeps_stringSection _ _ _ _ (fun _ _ h => h)))
      (keeps_stringSection _ _ _ _ (fun _ _ h => h)))
      (keeps_stringSection _ _ _ _ (fun _ _ h => h)))
      (keeps_stringSection _ _ _ _ (fun _ _ h => h)))
      (keeps_advertiseSection _ _ _ _ (fun _ _ h => h))
    · intro r1 T1 rest1 h1
      simp only [Option.some.injEq, Prod.mk.injEq] at h1
      rw [← h1.2.1]; exact hT
    · intro r1 T1 stm1 h1 r2 T2 rest2 h2
      split at h2 <;> simp only [Option.some.injEq, Prod.mk.injEq] at h2
      · rw [← h2.2.1]; exact h1
      · rw [← h2.2.1]; exact h1
    · intro r1 T1 stm1 h1 r2 T2 rest2 h2
      split at h2
      · cases hx : Stream_LoadLocation stm1 T1.volume T1.sPath with
        | none => simp [hx] at h2
        | some x =>
          simp only [hx, Option.map_some', Option.some.injEq, Prod.mk.injEq] at h2
          rw [← h2.2.1]; exact h1
      · simp only [Option.some.injEq, Prod.mk.injEq] at h2
        rw [← h2.2.1]; exact h1
  cases s8 with
  | none => simp [LoadState.next] at h
  | some x =>
    obtain ⟨r1, T1, rest1⟩ := x
    have hT1 := k8 r1 T1 rest1 rfl
    simp only [LoadState.next] at h
    split at h
    · simp only [Option.some.injEq, Prod.mk.injEq] at h
      rw [← h.2.1]; exact hT1
    · unfold loadAdvertiseSection at h
      split at h
      · cases hx : Stream_LoadAdvertiseInfo junk.darwin rest1 T1.sComponent with
        | none => simp [hx] at h
        | some x =>
          obtain ⟨rx, vx, restx⟩ := x
          simp only [hx, Option.map_some', Option.some.injEq, Prod.mk.injEq] at h
          obtain ⟨rfl, rfl, rfl⟩ := h
          show vx = none
          rw [loadAdvertiseInfo_failed _ _ _ _ _ _ hx hf, hT1]
      · simp only [Option.some.injEq, Prod.mk.injEq] at h
        rw [← h.2.1]; exact hT1

/-- C5 (amended): when `IPersistStream_fnLoad` fails after it accepted the header, the object is
not put back as it was. `iShowCmd` and `bDirty` keep their values; every other member is what
the header and the sections read before the failure made it, whatever the object held before
(so the same stream loaded into any other object with the same `iShowCmd`, `bDirty` and times
gives the same result); the member of the last section, `sComponent`, is absent. -/
theorem load_failure_leaves_partial_record (env : Collaborators) (junk : Indeterminate)
    (This : IShellLinkImpl) (stm : List Nat) (hr : HRESULT) (This1 : IShellLinkImpl)
    (rest : List Nat) (hacc : headerAccepted stm)
    (h : IPersistStream_fnLoad env junk This stm = some (hr, This1, rest))
    (hfail : FAILED hr = true) :
    This1.iShowCmd = This.iShowCmd ∧ This1.bDirty = This.bDirty ∧ This1.sComponent = none ∧
      ∀ Other : IShellLinkImpl, Other.iShowCmd = This.iShowCmd → Other.bDirty = This.bDirty →
        Other.time1 = This.time1 → Other.time2 = This.time2 → Other.time3 = This.time3 →
        IPersistStream_fnLoad env junk Other stm = some (hr, This1, rest) := by
  have hk := load_keeps_showCmd env junk This stm hr This1 rest h
  refine ⟨hk.1, hk.2, ?_, fun Other h1 h2 h3 h4 h5 => ?_⟩
  · obtain ⟨hl, hs, hm⟩ := headerAccepted_take stm hacc
    unfold IPersistStream_fnLoad at h
    simp only [IStream_Read, sizeof_LINK_HEADER, ne_eq, hl, not_true_eq_false, if_false, hs,
      hm] at h
    cases hx : loadNewStuff env junk (u32At (List.take 76 stm) 20) S_OK
        (loadHeaderFields env This (List.take 76 stm)) (List.drop 76 stm) with
    | none => simp [hx, LoadState.next] at h
    | some x =>
      obtain ⟨r1, T1, rest1⟩ := x
      simp only [hx, LoadState.next] at h
      split at h
      · rename_i hf1
        simp only [Option.some.injEq, Prod.mk.injEq] at h
        rw [← h.2.1]
        exact loadNewStuff_failed env junk _ _ _ _ rfl r1 T1 rest1 hx hf1
      · simp only [Option.some.injEq, Prod.mk.injEq] at h
        rw [← h.1] at hfail
        exact absurd hfail (by decide)
  · rw [load_forgets_previous env junk This Other stm hacc h1 h2 h3 h4 h5, h]

theorem load_failure_leaves_partial_record_witness :
    IShellLink_Constructor.iShowCmd = describedLink.iShowCmd
      ∧ IShellLink_Constructor.bDirty = describedLink.bDirty
      ∧ IShellLink_Constructor.sComponent = none
      ∧ ∀ Other : IShellLinkImpl, Other.iShowCmd = describedLink.iShowCmd →
        Other.bDirty = describedLink.bDirty → Other.time1 = describedLink.time1 →
        Other.time2 = describedLink.time2 → Other.time3 = describedLink.time3 →
        IPersistStream_fnLoad plainCollaborators ⟨[], []⟩ Other (sampleHeader SLDF_HAS_NAME)
          = some (E_FAIL, IShellLink_Constructor, []) :=
  load_failure_leaves_partial_record plainCollaborators ⟨[], []⟩ describedLink
    (sampleHeader SLDF_HAS_NAME) E_FAIL IShellLink_Constructor []
    (by unfold headerAccepted; decide) (by decide) (by decide)

theorem reads_next {s : LoadState} {f : HRESULT → IShellLinkImpl → List Nat → LoadState}
    {T T1 : IShellLinkImpl} {R R1 : List Nat} (hs : Reads s T R)
    (hf : ∀ r, FAILED r = false → Reads (f r T R) T1 R1) : Reads (s.next f) T1 R1 := by
  obtain ⟨r, hr, rfl⟩ := hs
  simp only [LoadState.next, hr, Bool.false_eq_true, if_false]
  exact hf r hr

theorem reads_stringSection (field : Option (List Nat))
    (get : IShellLinkImpl → Option (List Nat))
    (set : IShellLinkImpl → Option (List Nat) → IShellLinkImpl)
    (T : IShellLinkImpl) (rest : List Nat) (r : HRESULT) (hr : FAILED r = false)
    (hb : ∀ b, field = some b → lstrlenW b < 32767 ∧ ∀ c ∈ cstr b, c < 65536)
    (hskip : set T none = T) :
    Reads (loadStringSection field.isSome true get set r T (optImage field stringImage ++ rest))
      (set T (field.map (fun b => cstr b ++ [0]))) rest := by
  cases field with
  | none => exact ⟨r, hr, by simp [loadStringSection, optImage, hskip]⟩
  | some b =>
    obtain ⟨h1, h2⟩ := hb b rfl
    refine ⟨S_OK, by decide, ?_⟩
    simp only [loadStringSection, Option.isSome_some, if_true, optImage,
      loadString_stringImage b rest (get T) h1 h2, Option.map_some']

theorem reads_advertiseSection (field : Option (List Nat)) (junk : List Nat) (magic : Nat)
    (get : IShellLinkImpl → Option (List Nat))
    (set : IShellLinkImpl → Option (List Nat) → IShellLinkImpl)
    (T : IShellLinkImpl) (rest : List Nat) (r : HRESULT) (hr : FAILED r = false)
    (hb : ∀ b, field = some b → lstrlenW b < MAX_PATH ∧ ∀ c ∈ cstr b, c < 65536)
    (hm : magic < 4294967296) (hsig : magic &&& 0xffff0000 = 0xa0000000)
    (hskip : set T none = T) :
    Reads (loadAdvertiseSection field.isSome junk get set r T
        (optImage field (fun b => advertiseImage b magic) ++ rest))
      (set T (field.map cstr)) rest := by
  cases field with
  | none => exact ⟨r, hr, by simp [loadAdvertiseSection, optImage, hskip]⟩
  | some b =>
    obtain ⟨h1, h2⟩ := hb b rfl
    refine ⟨S_OK, by decide, ?_⟩
    simp only [loadAdvertiseSection, Option.isSome_some, if_true, optImage,
      loadAdvertiseInfo_advertiseImage junk b rest magic (get T) h1 h2 hm hsig, Option.map_some']

theorem writeOptional_accepting (field : Option (List Nat))
    (w : WStream → List Nat → HRESULT × WStream) (img : List Nat → List Nat) (stm : WStream)
    (h : Accepting stm)
    (hw : ∀ s v, Accepting s → (w s v).2.data = s.data ++ img v ∧ Accepting (w s v).2) :
    (writeOptional field w stm).data = stm.data ++ optImage field img
      ∧ Accepting (writeOptional field w stm) := by
  cases field with
  | none => exact ⟨by simp [writeOptional, optImage], h⟩
  | some v => exact hw stm v h

theorem FAILED_S_OK : FAILED S_OK = false := by decide

theorem save_tail_accepting (This : IShellLinkImpl) (exePath : List Nat) (w1 : WStream)
    (h1 : Accepting w1)
    (hpath : ∀ b, This.sPath = some b → exePath = cstr b ∧ 0 ∈ This.volume.label) :
    ∃ stm2 wfin, (match This.sPath with
        | none => some w1
        | some _ => (Stream_WriteLocationInfo w1 exePath This.volume).map (fun x => x.2))
        = some stm2
      ∧ wfin.data = w1.data ++ saveTail This
      ∧ wfin = (IStream_Write (writeOptional This.sComponent
          (fun s v => Stream_WriteAdvertiseInfo s v EXP_DARWIN_ID_SIG)
          (writeOptional This.sProduct (fun s v => Stream_WriteAdvertiseInfo s v EXP_SZ_ICON_SIG)
          (writeOptional This.sIcoPath Stream_WriteString
          (writeOptional This.sArgs Stream_WriteString
          (writeOptional This.sWorkDir Stream_WriteString
          (writeOptional This.sPathRel Stream_WriteString
          (writeOptional This.sDescription Stream_WriteString stm2)))))))
          (le32 0)).2 := by
  have hloc : ∃ stm2, (match This.sPath with
        | none => some w1
        | some _ => (Stream_WriteLocationInfo w1 exePath This.volume).map (fun x => x.2))
        = some stm2
      ∧ stm2.data = w1.data ++ optImage This.sPath (fun b => locationImage (cstr b) This.volume)
      ∧ Accepting stm2 := by
    cases hsp : This.sPath with
    | none => exact ⟨w1, rfl, by simp [optImage], h1⟩
    | some b =>
      obtain ⟨he, hz⟩ := hpath b hsp
      obtain ⟨x, hx, hd, ha⟩ := writeLocationInfo_accepting w1 exePath This.volume h1 hz
      refine ⟨x.2, by simp only [hx, Option.map_some'], ?_, ha⟩
      rw [hd, he]; rfl
  obtain ⟨stm2, e2, d2, a2⟩ := hloc
  refine ⟨stm2, _, e2, ?_, rfl⟩
  obtain ⟨d3, a3⟩ := writeOptional_accepting This.sDescription Stream_WriteString stringImage
    stm2 a2 writeString_accepting
  obtain ⟨d4, a4⟩ := writeOptional_accepting This.sPathRel Stream_WriteString stringImage
    _ a3 writeString_accepting
  obtain ⟨d5, a5⟩ := writeOptional_accepting This.sWorkDir Stream_WriteString stringImage
    _ a4 writeString_accepting
  obtain ⟨d6, a6⟩ := writeOptional_accepting This.sArgs Stream_WriteString stringImage
    _ a5 writeString_accepting
  obtain ⟨d7, a7⟩ := writeOptional_accepting This.sIcoPath Stream_WriteString stringImage
    _ a6 writeString_accepting
  obtain ⟨d8, a8⟩ := writeOptional_accepting This.sProduct
    (fun s v => Stream_WriteAdvertiseInfo s v EXP_SZ_ICON_SIG)
    (fun b => advertiseImage b EXP_SZ_ICON_SIG) _ a7
    (fun s v hs => writeAdvertiseInfo_accepting s v _ hs)
  obtain ⟨d9, a9⟩ := writeOptional_accepting This.sComponent
    (fun s v => Stream_WriteAdvertiseInfo s v EXP_DARWIN_ID_SIG)
    (fun b => advertiseImage b EXP_DARWIN_ID_SIG) _ a8
    (fun s v hs => writeAdvertiseInfo_accepting s v _ hs)
  obtain ⟨_, d10, _⟩ := write_accepting _ (le32 0) a9
  rw [d10, d9, d8, d7, d6, d5, d4, d3, d2]
  simp only [saveTail, List.append_assoc]

/-- What `IPersistStream_fnSave` stores on a stream that accepts every write. -/
theorem save_accepting (env : Collaborators) (This : IShellLinkImpl) (w : WStream)
    (P : List Nat) (hacc : Accepting w)
    (hP : match This.pPidl with
      | none => P = []
      | some pidl => ∀ w1, Accepting w1 → FAILED (env.ILSaveToStream w1 pidl).1 = false
          ∧ (env.ILSaveToStream w1 pidl).2.data = w1.data ++ P
          ∧ Accepting (env.ILSaveToStream w1 pidl).2)
    (hpath : ∀ b, This.sPath = some b → chr (env.SHELL_FindExecutable b) 0 = 0
      ∧ lstrlenW b < MAX_PATH ∧ 0 ∈ This.volume.label) :
    ∃ w1, IPersistStream_fnSave env This w = some (S_OK, w1)
      ∧ w1.data = w.data ++ (saveHeader env This ++ (P ++ saveTail This)) := by
  obtain ⟨exePath, hexe, hexe2⟩ : ∃ exePath, saveExePath env This = some exePath
      ∧ ∀ b, This.sPath = some b → exePath = cstr b := by
    unfold saveExePath
    cases hsp : This.sPath with
    | none => exact ⟨[], rfl, fun b hb => by cases hb⟩
    | some b =>
      obtain ⟨h1, h2, _⟩ := hpath b hsp
      refine ⟨cstr b, ?_, fun b1 hb1 => by cases hb1; rfl⟩
      simp only [h1, ne_eq, not_true_eq_false, if_false, h2, if_true]
  obtain ⟨k1, k2, k3⟩ := write_accepting w (saveHeader env This) hacc
  obtain ⟨w1, hw1, hw1d, hw1a⟩ : ∃ w1 : HRESULT × WStream,
      (match This.pPidl with
        | none => IStream_Write w (saveHeader env This)
        | some pidl => env.ILSaveToStream (IStream_Write w (saveHeader env This)).2 pidl) = w1
      ∧ w1.2.data = w.data ++ saveHeader env This ++ P ∧ Accepting w1.2
      ∧ FAILED w1.1 = false := by
    cases hpp : This.pPidl with
    | none =>
      rw [hpp] at hP
      simp only at hP
      exact ⟨_, rfl, by rw [k2, hP, List.append_nil], k3, by rw [k1]; rfl⟩
    | some pidl =>
      rw [hpp] at hP
      obtain ⟨q1, q2, q3⟩ := hP _ k3
      exact ⟨_, rfl, by rw [q2, k2], q3, q1⟩
  obtain ⟨stm2, wfin, e2, d2, hfin⟩ := save_tail_accepting This exePath w1.2 hw1a.1
    (fun b hb => ⟨hexe2 b hb, (hpath b hb).2.2⟩)
  refine ⟨wfin, ?_, ?_⟩
  · unfold IPersistStream_fnSave
    simp only [hexe, k1, FAILED_S_OK, Bool.false_eq_true, if_false, hw1, hw1a.2, and_false, e2,
      hfin]
  · rw [d2, hw1d]
    simp only [List.append_assoc]

theorem cstr_idem (b : List Nat) : cstr (cstr b) = cstr b := cstr_eq_self (zero_not_mem_cstr b)

theorem newStuff_reads (env : Collaborators) (junk : Indeterminate) (flags : Nat)
    (This T0 : IShellLinkImpl) (P : List Nat)
    (hflags : hasFlag flags SLDF_UNICODE = true
      ∧ hasFlag flags SLDF_HAS_ID_LIST = This.pPidl.isSome
      ∧ hasFlag flags SLDF_HAS_LINK_INFO = This.sPath.isSome
      ∧ hasFlag flags SLDF_HAS_NAME = This.sDescription.isSome
      ∧ hasFlag flags SLDF_HAS_RELPATH = false
      ∧ hasFlag flags SLDF_HAS_WORKINGDIR = This.sWorkDir.isSome
      ∧ hasFlag flags SLDF_HAS_ARGS = This.sArgs.isSome
      ∧ hasFlag flags SLDF_HAS_ICONLOCATION = This.sIcoPath.isSome
      ∧ hasFlag flags SLDF_HAS_LOGO3ID = This.sProduct.isSome
      ∧ hasFlag flags SLDF_HAS_DARWINID = This.sComponent.isSome)
    (hP : match This.pPidl with
      | none => P = []
      | some pidl => ∀ rest, FAILED (env.ILLoadFromStream (P ++ rest)).1 = false
          ∧ (env.ILLoadFromStream (P ++ rest)).2 = (some pidl, rest))
    (hrel : This.sPathRel = none)
    (hpath : ∀ b, This.sPath = some b → lstrlenW b < MAX_PATH ∧ (∀ c ∈ cstr b, c < 256)
      ∧ lstrlenW This.volume.label ≤ 11 ∧ (∀ c ∈ cstr This.volume.label, c < 256)
      ∧ This.volume.type < 4294967296 ∧ This.volume.serial < 4294967296)
    (hdesc : ∀ b, This.sDescription = some b → lstrlenW b < 32767 ∧ ∀ c ∈ cstr b, c < 65536)
    (hwd : ∀ b, This.sWorkDir = some b → lstrlenW b < 32767 ∧ ∀ c ∈ cstr b, c < 65536)
    (hargs : ∀ b, This.sArgs = some b → lstrlenW b < 32767 ∧ ∀ c ∈ cstr b, c < 65536)
    (hico : ∀ b, This.sIcoPath = some b → lstrlenW b < 32767 ∧ ∀ c ∈ cstr b, c < 65536)
    (hprod : ∀ b, This.sProduct = some b → lstrlenW b < MAX_PATH ∧ ∀ c ∈ cstr b, c < 65536)
    (hcomp : ∀ b, This.sComponent = some b → lstrlenW b < MAX_PATH ∧ ∀ c ∈ cstr b, c < 65536) :
    Reads (loadNewStuff env junk flags S_OK
        (imageWith T0 none ⟨0, 0, List.replicate 12 0⟩ none none none none none none none)
        (P ++ saveTail This))
      (imageWith T0 This.pPidl (volumeImage This) (This.sPath.map cstr)
        (This.sDescription.map (fun b => cstr b ++ [0]))
        (This.sWorkDir.map (fun b => cstr b ++ [0])) (This.sArgs.map (fun b => cstr b ++ [0]))
        (This.sIcoPath.map (fun b => cstr b ++ [0])) (This.sProduct.map cstr)
        (This.sComponent.map cstr))
      (le32 0) := by
  obtain ⟨f1, f2, f3, f4, f5, f6, f7, f8, f9, f10⟩ := hflags
  unfold loadNewStuff
  simp only [f1, f2, f3, f4, f5, f6, f7, f8, f9, f10]
  unfold saveTail
  have hz : FAILED S_OK = false := by decide
  obtain ⟨R8, hR8⟩ : ∃ R, R = (optImage This.sComponent fun b =>
      advertiseImage b EXP_DARWIN_ID_SIG) ++ le32 0 := ⟨_, rfl⟩
  obtain ⟨R7, hR7⟩ : ∃ R, R = (optImage This.sProduct fun b =>
      advertiseImage b EXP_SZ_ICON_SIG) ++ R8 := ⟨_, rfl⟩
  obtain ⟨R6, hR6⟩ : ∃ R, R = optImage This.sIcoPath stringImage ++ R7 := ⟨_, rfl⟩
  obtain ⟨R5, hR5⟩ : ∃ R, R = optImage This.sArgs stringImage ++ R6 := ⟨_, rfl⟩
  obtain ⟨R4, hR4⟩ : ∃ R, R = optImage This.sWorkDir stringImage ++ R5 := ⟨_, rfl⟩
  obtain ⟨R3, hR3⟩ : ∃ R, R = optImage This.sPathRel stringImage ++ R4 := ⟨_, rfl⟩
  obtain ⟨R2, hR2⟩ : ∃ R, R = optImage This.sDescription stringImage ++ R3 := ⟨_, rfl⟩
  obtain ⟨R1, hR1⟩ : ∃ R, R = (optImage This.sPath fun b =>
      locationImage (cstr b) This.volume) ++ R2 := ⟨_, rfl⟩
  rw [← hR8, ← hR7, ← hR6, ← hR5, ← hR4, ← hR3, ← hR2, ← hR1]
  refine reads_next
    (T := imageWith T0 This.pPidl (volumeImage This) (This.sPath.map cstr)
      (This.sDescription.map (fun b => cstr b ++ [0]))
      (This.sWorkDir.map (fun b => cstr b ++ [0])) (This.sArgs.map (fun b => cstr b ++ [0]))
      (This.sIcoPath.map (fun b => cstr b ++ [0])) (This.sProduct.map cstr) none)
    (R := R8) ?h8 ?s9
  case h8 =>
    refine reads_next
      (T := imageWith T0 This.pPidl (volumeImage This) (This.sPath.map cstr)
        (This.sDescription.map (fun b => cstr b ++ [0]))
        (This.sWorkDir.map (fun b => cstr b ++ [0])) (This.sArgs.map (fun b => cstr b ++ [0]))
        (This.sIcoPath.map (fun b => cstr b ++ [0])) none none)
      (R := R7) ?h7 ?s8
    case h7 =>
      refine reads_next
        (T := imageWith T0 This.pPidl (volumeImage This) (This.sPath.map cstr)
          (This.sDescription.map (fun b => cstr b ++ [0]))
          (This.sWorkDir.map (fun b => cstr b ++ [0])) (This.sArgs.map (fun b => cstr b ++ [0]))
          none none none)
        (R := R6) ?h6 ?s7
      case h6 =>
        refine reads_next
          (T := imageWith T0 This.pPidl (volumeImage This) (This.sPath.map cstr)
            (This.sDescription.map (fun b => cstr b ++ [0]))
            (This.sWorkDir.map (fun b => cstr b ++ [0])) none none none none)
          (R := R5) ?h5 ?s6
        case h5 =>
          refine reads_next
            (T := imageWith T0 This.pPidl (volumeImage This) (This.sPath.map cstr)
              (This.sDescription.map (fun b => cstr b ++ [0])) none none none none none)
            (R := R4) ?h4 ?s5
          case h4 =>
            refine reads_next
              (T := imageWith T0 This.pPidl (volumeImage This) (This.sPath.map cstr)
                (This.sDescription.map (fun b => cstr b ++ [0])) none none none none none)
              (R := R3) ?h3 ?s4
            case h3 =>
              refine reads_next
                (T := imageWith T0 This.pPidl (volumeImage This) (This.sPath.map cstr)
                  none none none none none none)
                (R := R2) ?h2 ?s3
              case h2 =>
                refine reads_next
                  (T := imageWith T0 This.pPidl ⟨0, 0, List.replicate 12 0⟩ none
                    none none none none none none)
                  (R := R1) ?h1 ?s2
                case h1 =>
                  refine reads_next (T := imageWith T0 none ⟨0, 0, List.replicate 12 0⟩ none
                    none none none none none none) (R := P ++ R1) ⟨S_OK, hz, rfl⟩ ?s1
                  intro r hr
                  cases hpp : This.pPidl with
                  | none =>
                    rw [hpp] at hP
                    simp only at hP
                    subst hP
                    exact ⟨r, hr, rfl⟩
                  | some pidl =>
                    rw [hpp] at hP
                    obtain ⟨q1, q2⟩ := hP R1
                    refine ⟨_, q1, ?_⟩
                    simp only [Option.isSome_some, if_true, q2]
                    rfl
                case s2 =>
                  intro r hr
                  rw [hR1]
                  cases hsp : This.sPath with
                  | none => exact ⟨r, hr, by simp [optImage, volumeImage, hsp]⟩
                  | some b =>
                    obtain ⟨p1, p2, p3, p4, p5, p6⟩ := hpath b hsp
                    refine ⟨S_OK, hz, ?_⟩
                    have hpl : lstrlenW (cstr b) < MAX_PATH := by
                      rw [lstrlenW, cstr_idem]; exact p1
                    have hpc : ∀ c ∈ cstr (cstr b), c < 256 := by rw [cstr_idem]; exact p2
                    have := loadLocation_locationImage (cstr b) R2 This.volume
                      hpc hpl p4 p3 p5 p6
                    simp only [Option.isSome_some, if_true, optImage, imageWith, this,
                      Option.map_some', volumeImage, hsp, cstr_idem]
              case s3 =>
                intro r hr
                rw [hR2]
                exact reads_stringSection This.sDescription _ _ _ _ r hr hdesc rfl
            case s4 =>
              intro r hr
              rw [hR3, hrel]
              exact ⟨r, hr, rfl⟩
          case s5 =>
            intro r hr
            rw [hR4]
            exact reads_stringSection This.sWorkDir _ _ _ _ r hr hwd rfl
        case s6 =>
          intro r hr
          rw [hR5]
          exact reads_stringSection This.sArgs _ _ _ _ r hr hargs rfl
      case s7 =>
        intro r hr
        rw [hR6]
        exact reads_stringSection This.sIcoPath _ _ _ _ r hr hico rfl
    case s8 =>
      intro r hr
      rw [hR7]
      exact reads_advertiseSection This.sProduct junk.logo3 EXP_SZ_ICON_SIG _ _ _ _ r hr
        hprod (by decide) (by decide) rfl
  case s9 =>
    intro r hr
    rw [hR8]
    exact reads_advertiseSection This.sComponent junk.darwin EXP_DARWIN_ID_SIG _ _ _ _ r hr
      hcomp (by decide) (by decide) rfl

theorem loadHeaderFields_base (env : Collaborators) (hdr : List Nat) :
    loadHeaderFields env IShellLink_Constructor hdr
      = imageWith (loadHeaderFields env IShellLink_Constructor hdr) none
        ⟨0, 0, List.replicate 12 0⟩ none none none none none none none := by
  simp only [loadHeaderFields, imageWith]

theorem load_of_header (env : Collaborators) (junk : Indeterminate) (This : IShellLinkImpl)
    (hdr rest : List Nat) (hl : hdr.length = 76) (h0 : u32At hdr 0 = 76)
    (hm : ((hdr.drop 4).take 16).map (fun b => b % 256) = CLSID_ShellLink) :
    IPersistStream_fnLoad env junk This (hdr ++ rest)
      = (loadNewStuff env junk (u32At hdr 0x14) S_OK (loadHeaderFields env This hdr) rest).next
          (fun _ This stm => some (S_OK, This, (IStream_Read stm 4).2)) := by
  unfold IPersistStream_fnLoad
  simp only [IStream_Read, sizeof_LINK_HEADER]
  rw [List.take_left' hl, List.drop_left' hl]
  simp only [hl, h0, hm, ne_eq, not_true_eq_false, if_false]

theorem load_saved (env : Collaborators) (junk : Indeterminate) (This : IShellLinkImpl)
    (P : List Nat)
    (hP : match This.pPidl with
      | none => P = []
      | some pidl => ∀ rest, FAILED (env.ILLoadFromStream (P ++ rest)).1 = false
          ∧ (env.ILLoadFromStream (P ++ rest)).2 = (some pidl, rest))
    (hrel : This.sPathRel = none)
    (hpath : ∀ b, This.sPath = some b → lstrlenW b < MAX_PATH ∧ (∀ c ∈ cstr b, c < 256)
      ∧ lstrlenW This.volume.label ≤ 11 ∧ (∀ c ∈ cstr This.volume.label, c < 256)
      ∧ This.volume.type < 4294967296 ∧ This.volume.serial < 4294967296)
    (hdesc : ∀ b, This.sDescription = some b → lstrlenW b < 32767 ∧ ∀ c ∈ cstr b, c < 65536)
    (hwd : ∀ b, This.sWorkDir = some b → lstrlenW b < 32767 ∧ ∀ c ∈ cstr b, c < 65536)
    (hargs : ∀ b, This.sArgs = some b → lstrlenW b < 32767 ∧ ∀ c ∈ cstr b, c < 65536)
    (hico : ∀ b, This.sIcoPath = some b → lstrlenW b < 32767 ∧ ∀ c ∈ cstr b, c < 65536)
    (hprod : ∀ b, This.sProduct = some b → lstrlenW b < MAX_PATH ∧ ∀ c ∈ cstr b, c < 65536)
    (hcomp : ∀ b, This.sComponent = some b → lstrlenW b < MAX_PATH ∧ ∀ c ∈ cstr b, c < 65536) :
    IPersistStream_fnLoad env junk IShellLink_Constructor
        (saveHeader env This ++ (P ++ saveTail This))
      = some (S_OK, loadedImage env This, []) := by
  obtain ⟨g0, g1, g2, _, _, _⟩ := saveHeader_fields env This
  have hl := length_saveHeader env This
  obtain ⟨r, hr, hreads⟩ := newStuff_reads env junk (saveFlags This) This
    (loadHeaderFields env IShellLink_Constructor (saveHeader env This)) P
    (saveFlags_facts This).2 hP hrel hpath hdesc hwd hargs hico hprod hcomp
  rw [load_of_header env junk _ _ _ hl g0 (by rw [g1]; decide), g2, loadHeaderFields_base, hreads]
  simp only [LoadState.next, hr, Bool.false_eq_true, if_false, loadedImage]
  rfl

theorem map_cstr_buffer (f : Option (List Nat)) :
    (f.map (fun b => cstr b ++ [0])).map cstr = f.map cstr := by
  cases f with
  | none => rfl
  | some b => simp only [Option.map_some', cstr_cstr_append_zero]

theorem map_cstr_cstr (f : Option (List Nat)) : (f.map cstr).map cstr = f.map cstr := by
  cases f with
  | none => rfl
  | some b => simp only [Option.map_some', cstr_idem]

theorem loadedImage_fields (env : Collaborators) (This : IShellLinkImpl) :
    (loadedImage env This).pPidl = This.pPidl
    ∧ (loadedImage env This).sPath = This.sPath.map cstr
    ∧ (loadedImage env This).sDescription = This.sDescription.map (fun b => cstr b ++ [0])
    ∧ (loadedImage env This).sPathRel = none
    ∧ (loadedImage env This).sWorkDir = This.sWorkDir.map (fun b => cstr b ++ [0])
    ∧ (loadedImage env This).sArgs = This.sArgs.map (fun b => cstr b ++ [0])
    ∧ (loadedImage env This).sIcoPath = This.sIcoPath.map (fun b => cstr b ++ [0])
    ∧ (loadedImage env This).iIcoNdx = toINT (u32At (saveHeader env This) 0x38)
    ∧ (loadedImage env This).wHotKey = u32At (saveHeader env This) 0x40 % 65536
    ∧ (loadedImage env This).volume = volumeImage This
    ∧ (loadedImage env This).sProduct = This.sProduct.map cstr
    ∧ (loadedImage env This).sComponent = This.sComponent.map cstr := by
  simp only [loadedImage, imageWith, loadHeaderFields, and_self]

/-- C1 (amended): for every storable object (see `Storable`: no relative path, scalars within
their C types, strings within the 16-bit count and the fixed advertised-info buffers, a
single-byte target path below `MAX_PATH`, a label that fits its array, an id list the
collaborators round-trip), `IPersistStream_fnSave` succeeds on a stream that accepts every
write, and loading the stored bytes into a freshly constructed object succeeds, consumes the
whole stream and gives an object with the same id list, target path, description, working
directory, arguments, icon path, icon index, hot key, volume type, serial and label, product and
component (strings compared as C strings) and no relative path. The show command is not part of
the statement. -/
theorem save_load_roundtrip (env : Collaborators) (junk : Indeterminate)
    (This : IShellLinkImpl) (h : Storable env This) :
    ∃ w T, IPersistStream_fnSave env This emptyStream = some (S_OK, w)
      ∧ IPersistStream_fnLoad env junk IShellLink_Constructor w.data = some (S_OK, T, [])
      ∧ T.pPidl = This.pPidl
      ∧ T.sPath.map cstr = This.sPath.map cstr
      ∧ T.sDescription.map cstr = This.sDescription.map cstr
      ∧ T.sPathRel = This.sPathRel
      ∧ T.sWorkDir.map cstr = This.sWorkDir.map cstr
      ∧ T.sArgs.map cstr = This.sArgs.map cstr
      ∧ T.sIcoPath.map cstr = This.sIcoPath.map cstr
      ∧ T.iIcoNdx = This.iIcoNdx
      ∧ T.wHotKey = This.wHotKey
      ∧ T.volume.type = This.volume.type
      ∧ T.volume.serial = This.volume.serial
      ∧ cstr T.volume.label = cstr This.volume.label
      ∧ T.sProduct.map cstr = This.sProduct.map cstr
      ∧ T.sComponent.map cstr = This.sComponent.map cstr := by
  obtain ⟨P, hPs, hPl⟩ : ∃ P : List Nat,
      (match This.pPidl with
        | none => P = []
        | some pidl => ∀ w1, Accepting w1 → FAILED (env.ILSaveToStream w1 pidl).1 = false
            ∧ (env.ILSaveToStream w1 pidl).2.data = w1.data ++ P
            ∧ Accepting (env.ILSaveToStream w1 pidl).2)
      ∧ (match This.pPidl with
        | none => P = []
        | some pidl => ∀ rest, FAILED (env.ILLoadFromStream (P ++ rest)).1 = false
            ∧ (env.ILLoadFromStream (P ++ rest)).2 = (some pidl, rest)) := by
    cases hpp : This.pPidl with
    | none => exact ⟨[], rfl, rfl⟩
    | some p =>
      obtain ⟨enc, h1, h2⟩ := h.pidl p hpp
      exact ⟨enc, h1, h2⟩
  obtain ⟨w, hw, hd⟩ := save_accepting env This emptyStream P (fun _ => rfl) hPs
    (fun b hb => ⟨(h.path b hb).1, (h.path b hb).2.1, (h.path b hb).2.2.2.1⟩)
  have hload := load_saved env junk This P hPl h.relpath
    (fun b hb => ⟨(h.path b hb).2.1, (h.path b hb).2.2.1, (h.path b hb).2.2.2.2.1,
      (h.path b hb).2.2.2.2.2.1, (h.path b hb).2.2.2.2.2.2⟩)
    h.description h.workDir h.args h.icoPath h.product h.component
  obtain ⟨_, _, _, g3, _, g5⟩ := saveHeader_fields env This
  obtain ⟨e1, e2, e3, e4, e5, e6, e7, e8, e9, e10, e11, e12⟩ := loadedImage_fields env This
  refine ⟨w, loadedImage env This, hw, ?_, e1, ?_, ?_, ?_, ?_, ?_, ?_, ?_, ?_, ?_, ?_, ?_,
    ?_, ?_⟩
  · rw [hd]; exact hload
  · rw [e2]; exact map_cstr_cstr _
  · rw [e3]; exact map_cstr_buffer _
  · rw [e4, h.relpath]
  · rw [e5]; exact map_cstr_buffer _
  · rw [e6]; exact map_cstr_buffer _
  · rw [e7]; exact map_cstr_buffer _
  · rw [e8, g3]
    have := toINT_toDWORD This.iIcoNdx h.iconLo h.iconHi
    unfold toINT at this ⊢
    simp only [Nat.mod_mod] at this ⊢
    exact this
  · rw [e9, g5]
    have := h.hotkey
    omega
  · rw [e10]
    unfold volumeImage
    cases hsp : This.sPath with
    | none => exact (h.noPath hsp).1.symm
    | some b => rfl
  · rw [e10]
    unfold volumeImage
    cases hsp : This.sPath with
    | none => exact (h.noPath hsp).2.1.symm
    | some b => rfl
  · rw [e10]
    unfold volumeImage
    cases hsp : This.sPath with
    | none => rw [(h.noPath hsp).2.2]; rfl
    | some b =>
      have hl := (h.path b hsp).2.2.2.2.1
      show cstr (cstr This.volume.label ++ List.replicate (12 - lstrlenW This.volume.label) 0)
        = cstr This.volume.label
      rw [show 12 - lstrlenW This.volume.label = (11 - lstrlenW This.volume.label) + 1 by omega,
        List.replicate_succ]
      exact cstr_cstr_append_zero _ _
  · rw [e11]; exact map_cstr_cstr _
  · rw [e12]; exact map_cstr_cstr _

theorem map_mod_of_lt {l : List Nat} (h : ∀ c ∈ l, c < 256) :
    l.map (fun b => b % 256) = l := by
  induction l with
  | nil => rfl
  | cons x xs ih =>
    have hx := h x (List.mem_cons_self _ _)
    simp only [List.map_cons, Nat.mod_eq_of_lt hx,
      ih (fun c hc => h c (List.mem_cons_of_mem _ hc))]

/-- The 16-bit framing of `plainCollaborators` round-trips every id list of fewer than 65536
bytes. -/
theorem plain_pidl_roundtrip (pidl : List Nat) (hlen : pidl.length < 65536)
    (hb : ∀ b ∈ pidl, b < 256) : PidlRoundTrip plainCollaborators pidl := by
  refine ⟨le16 pidl.length ++ pidl.map (fun b => b % 256), fun w hw => ?_, fun rest => ?_⟩
  · obtain ⟨h1, h2, h3⟩ := write_accepting w (le16 pidl.length ++ pidl.map (fun b => b % 256)) hw
    exact ⟨by show FAILED (framedILSave w pidl).1 = false; unfold framedILSave; rw [h1]; rfl,
      h2, h3⟩
  · have hu : u16 (le16 pidl.length) = pidl.length := by
      have := u16_le16 pidl.length [] hlen
      simpa using this
    have hm := map_mod_of_lt hb
    have e : framedILLoad ((le16 pidl.length ++ pidl.map (fun b => b % 256)) ++ rest)
        = (S_OK, some pidl, rest) := by
      unfold framedILLoad
      simp only [IStream_Read, List.append_assoc, hm]
      rw [List.take_left' (show (le16 pidl.length).length = 2 from rfl),
        List.drop_left' (show (le16 pidl.length).length = 2 from rfl), hu,
        List.take_left' rfl, List.drop_left' rfl]
      simp [le16, hm]
    have e1 : plainCollaborators.ILLoadFromStream
        ((le16 pidl.length ++ pidl.map (fun b => b % 256)) ++ rest)
        = (S_OK, some pidl, rest) := e
    rw [e1]
    exact ⟨rfl, rfl⟩

theorem plain_pidl_local : PidlLoadLocal plainCollaborators := by
  intro stm r p rest h hok
  have h' : framedILLoad stm = (r, p, rest) := h
  unfold framedILLoad at h'
  simp only [IStream_Read] at h'
  by_cases h1 : (stm.take 2).length ≠ 2
  · rw [if_pos h1] at h'
    simp only [Prod.mk.injEq] at h'
    rw [← h'.1, FAILED_E_FAIL] at hok; cases hok
  · rw [if_neg h1] at h'
    have h1' := not_not.mp h1
    by_cases h2 : ((stm.drop 2).take (u16 (stm.take 2))).length ≠ u16 (stm.take 2)
    · rw [if_pos h2] at h'
      simp only [Prod.mk.injEq] at h'
      rw [← h'.1, FAILED_E_FAIL] at hok; cases hok
    · rw [if_neg h2] at h'
      have h2' := not_not.mp h2
      simp only [Prod.mk.injEq] at h'
      obtain ⟨hr, hp, hrest⟩ := h'
      refine ⟨stm.take 2 ++ (stm.drop 2).take (u16 (stm.take 2)), ?_, fun t => ?_⟩
      · rw [← hrest, List.append_assoc, List.take_append_drop, List.take_append_drop]
      · show framedILLoad ((stm.take 2 ++ (stm.drop 2).take (u16 (stm.take 2))) ++ t)
          = (r, p, t)
        unfold framedILLoad
        simp only [IStream_Read, List.append_assoc]
        rw [(take_drop_local stm 2 h1' _).1, (take_drop_local stm 2 h1' _).2, if_neg h1,
          (take_drop_local (stm.drop 2) _ h2' _).1, (take_drop_local (stm.drop 2) _ h2' _).2,
          if_neg h2, hr, hp]

theorem save_load_roundtrip_witness :
    ∃ w T, IPersistStream_fnSave plainCollaborators sampleLink emptyStream = some (S_OK, w)
      ∧ IPersistStream_fnLoad plainCollaborators ⟨[], []⟩ IShellLink_Constructor w.data
        = some (S_OK, T, [])
      ∧ T.pPidl = sampleLink.pPidl
      ∧ T.sPath.map cstr = sampleLink.sPath.map cstr
      ∧ T.sDescription.map cstr = sampleLink.sDescription.map cstr
      ∧ T.sPathRel = sampleLink.sPathRel
      ∧ T.sWorkDir.map cstr = sampleLink.sWorkDir.map cstr
      ∧ T.sArgs.map cstr = sampleLink.sArgs.map cstr
      ∧ T.sIcoPath.map cstr = sampleLink.sIcoPath.map cstr
      ∧ T.iIcoNdx = sampleLink.iIcoNdx
      ∧ T.wHotKey = sampleLink.wHotKey
      ∧ T.volume.type = sampleLink.volume.type
      ∧ T.volume.serial = sampleLink.volume.serial
      ∧ cstr T.volume.label = cstr sampleLink.volume.label
      ∧ T.sProduct.map cstr = sampleLink.sProduct.map cstr
      ∧ T.sComponent.map cstr = sampleLink.sComponent.map cstr :=
  save_load_roundtrip plainCollaborators ⟨[], []⟩ sampleLink
    { relpath := rfl
      hotkey := by decide
      iconLo := by decide
      iconHi := by decide
      pidl := fun p hp => plain_pidl_roundtrip p
        (by cases hp; decide) (by cases hp; decide)
      path := fun b hb => by cases hb; decide
      noPath := fun hb => by cases hb
      description := fun b hb => by cases hb; decide
      workDir := fun b hb => by cases hb; decide
      args := fun b hb => by cases hb; decide
      icoPath := fun b hb => by cases hb; decide
      product := fun b hb => by cases hb; decide
      component := fun b hb => by cases hb; decide }

set_option maxRecDepth 100000 in
/-- C1 (counterexample): an object whose advertised product has 260 characters is stored and
loaded without error, and the loaded product has 259 characters: the block holds `MAX_PATH`
units, one of them the terminator. -/
theorem roundtrip_truncates_long_product :
    (IPersistStream_fnSave plainCollaborators longProductLink emptyStream).bind
        (fun w => (IPersistStream_fnLoad plainCollaborators ⟨[], []⟩ IShellLink_Constructor
          w.2.data).map (fun x => (w.1, x.1, x.2.1.sProduct.map cstr)))
      = some (S_OK, S_OK, some (List.replicate 259 65))
    ∧ longProductLink.sProduct.map cstr = some (List.replicate 260 65) := by
  decide

/-- C2 (code defect, evaluated): for an object with only a relative path, `IPersistStream_fnSave`
writes the relative-path string section (count 2, the unit `a`, a terminator) before the final
zero word, yet the `SLDF_HAS_RELPATH` bit of the stored flags is clear. -/
theorem save_relative_path_without_flag :
    (IPersistStream_fnSave plainCollaborators relativeLink emptyStream).map
        (fun x => (x.1, hasFlag (u32At x.2.data 0x14) SLDF_HAS_RELPATH, x.2.data.drop 76))
      = some (S_OK, false, [2, 0, 97, 0, 0, 0, 0, 0, 0, 0]) := by
  decide

/-- C4 (code defect, evaluated): a stream with a valid header, the unicode and name flags, and a
string section that declares 32768 units but holds none of them is loaded with `S_OK` and an
empty description: the byte count `32768 * 2` is computed in 16 bits and is 0. -/
theorem load_accepts_wrapped_string_count :
    headerAccepted (sampleHeader (SLDF_UNICODE ||| SLDF_HAS_NAME) ++ [0x00, 0x80])
    ∧ IPersistStream_fnLoad plainCollaborators ⟨[], []⟩ IShellLink_Constructor
        (sampleHeader (SLDF_UNICODE ||| SLDF_HAS_NAME) ++ [0x00, 0x80])
      = some (S_OK, { IShellLink_Constructor with sDescription := some [] }, []) := by
  unfold headerAccepted
  decide

/-- C5 (counterexample): an object with the description `a` is given a stream with a valid header,
the name flag, and nothing behind the header. The load fails with `E_FAIL` and leaves the
object without a description. -/
theorem load_failure_clears_description :
    headerAccepted (sampleHeader SLDF_HAS_NAME)
    ∧ IPersistStream_fnLoad plainCollaborators ⟨[], []⟩ describedLink (sampleHeader SLDF_HAS_NAME)
      = some (E_FAIL, IShellLink_Constructor, [])
    ∧ FAILED E_FAIL = true
    ∧ describedLink.sDescription = some (units "a")
    ∧ IShellLink_Constructor.sDescription = none := by
  unfold headerAccepted
  decide

/-- C6 (code defect, evaluated): on a stream that accepts the header and refuses every later
write, saving an object with a description returns `S_OK`; the refused write of the string
count (the second call) is followed by a third call, the write of the terminator. -/
theorem save_reports_success_after_failed_write :
    (IPersistStream_fnSave plainCollaborators describedLink fullAfterHeader).map
        (fun x => (x.1, x.2.calls, x.2.data.length))
      = some (S_OK, 3, 76) := by
  decide

/-- C8 (code defect, evaluated): an object with show command 3 is stored; loading the stored
bytes into a freshly constructed object succeeds and leaves the show command at
`SW_SHOWNORMAL`: `IPersistStream_fnLoad` never assigns `iShowCmd`. -/
theorem load_after_save_resets_showCmd :
    (IPersistStream_fnSave plainCollaborators maximizedLink emptyStream).bind
        (fun w => (IPersistStream_fnLoad plainCollaborators ⟨[], []⟩ IShellLink_Constructor
          w.2.data).map (fun x => (w.1, x.1, x.2.1.iShowCmd)))
      = some (S_OK, S_OK, SW_SHOWNORMAL)
    ∧ maximizedLink.iShowCmd = 3 := by
  decide

theorem load_ignores_terminator_witness :
    S_OK = S_OK ∧ ∃ p t0, sampleHeader SLDF_UNICODE ++ [1, 0] = p ++ t0 ∧ [] = t0.drop 4 ∧
      ∀ t, IPersistStream_fnLoad plainCollaborators ⟨[], []⟩ IShellLink_Constructor (p ++ t)
        = some (S_OK, IShellLink_Constructor, t.drop 4) :=
  load_ignores_terminator plainCollaborators ⟨[], []⟩ IShellLink_Constructor
    (sampleHeader SLDF_UNICODE ++ [1, 0]) S_OK IShellLink_Constructor [] plain_pidl_local
    (by decide) (by decide)

/-- One iteration of the loop on a text that starts with `::`, a colon-free text `t` and a
colon. -/
theorem advertiseLoop_unfold (fuel : Nat) (t rest : List Nat) (szC szP : Option (List Nat))
    (ht : Plain t) :
    advertiseLoop (fuel + 1) (58 :: 58 :: (t ++ 58 :: rest)) szC szP =
      if t.length ≠ 38 then some (.error E_FAIL)
      else if (CLSIDFromString t).1 ≠ S_OK then some (.error (CLSIDFromString t).1)
      else if (CLSIDFromString t).2 = SHELL32_AdvtShortcutComponent ∧ szC = none then
        (match strchrW rest 58 with
         | none => some (.error E_FAIL)
         | some str3 => advertiseLoop fuel str3 (some rest) szP)
      else if (CLSIDFromString t).2 = SHELL32_AdvtShortcutProduct ∧ szP = none then
        (match strchrW rest 58 with
         | none => some (.error E_FAIL)
         | some str3 => advertiseLoop fuel str3 szC (some rest))
      else some (.error E_FAIL) := by
  have h1 : strchrW (t ++ 58 :: rest) 58 = some (58 :: rest) := strchrW_append _ ht
  have h2 : chr (58 :: 58 :: (t ++ 58 :: rest)) 2 ≠ 0 := by
    cases t with
    | nil => simp [chr]
    | cons x xs => simpa [chr] using (ht x (List.mem_cons_self _ _)).2
  have hl : (t ++ 58 :: rest).length - (58 :: rest).length = t.length := by
    simp only [List.length_append, List.length_cons]; omega
  have htk : List.take t.length (t ++ 58 :: rest) = t := by
    rw [List.take_append_of_le_length (le_refl _), List.take_of_length_le (le_refl _)]
  rw [advertiseLoop]
  rw [if_neg (by simp [chr]), if_neg (by simp [chr]), if_neg h2]
  simp only [List.drop_succ_cons, List.drop_zero, h1, hl, htk, IsEqualGUID, decide_eq_true_eq]
  by_cases hlen : t.length = 38
  · simp only [hlen, ne_eq, not_true_eq_false, if_false]
    by_cases hc : (CLSIDFromString t).1 = S_OK
    · simp only [hc, not_true_eq_false, if_false]
      by_cases h3 : (CLSIDFromString t).2 = SHELL32_AdvtShortcutComponent ∧ szC = none
      · simp only [h3, and_self, if_true]
      · rw [if_neg h3, if_neg h3]
        by_cases h4 : (CLSIDFromString t).2 = SHELL32_AdvtShortcutProduct ∧ szP = none
        · simp only [h4, and_self, if_true]
        · rw [if_neg h4, if_neg h4]
    · simp only [hc, not_false_eq_true, if_true]
  · simp only [hlen, ne_eq, not_false_eq_true, if_true]

theorem plain_of_not_mem {t : List Nat} (h1 : 58 ∉ t) (h2 : 0 ∉ t) : Plain t :=
  fun _ hx => ⟨fun e => h1 (e ▸ hx), fun e => h2 (e ▸ hx)⟩

/-- The loop returns a failure when the text at the current position is a malformed
segment. -/
theorem advertiseLoop_malformed (fuel : Nat) (bad : List Nat) (szC szP : Option (List Nat))
    (hnul : 0 ∉ bad) (hbad : Malformed bad) :
    ∃ hr, FAILED hr = true ∧ advertiseLoop (fuel + 1) bad szC szP = some (.error hr) := by
  rcases hbad with ⟨hne, h⟩ | ⟨t, rest, rfl, ht, h⟩ | ⟨t, rest, rfl, ht, hok, hp, hc⟩
  · refine ⟨E_FAIL, FAILED_E_FAIL, ?_⟩
    have h0 : chr bad 0 ≠ 0 := by
      cases bad with
      | nil => exact absurd rfl hne
      | cons x xs => intro e; exact hnul (by simp [chr] at e; simp [e])
    rw [advertiseLoop, if_neg h0, if_pos h]
  · have hpl : Plain t := plain_of_not_mem ht (fun h0 => hnul (by simp [segment, h0]))
    unfold segment
    rw [advertiseLoop_unfold fuel t rest szC szP hpl]
    rcases h with h | h
    · exact ⟨E_FAIL, FAILED_E_FAIL, by rw [if_pos h]⟩
    · by_cases hl : t.length ≠ 38
      · exact ⟨E_FAIL, FAILED_E_FAIL, by rw [if_pos hl]⟩
      · refine ⟨(CLSIDFromString t).1, ?_, by rw [if_neg hl, if_pos h]⟩
        rcases CLSIDFromString_code t with h1 | h1
        · exact absurd h1 h
        · rw [h1]; decide
  · have hpl : Plain t := plain_of_not_mem ht (fun h0 => hnul (by simp [segment, h0]))
    unfold segment
    rw [advertiseLoop_unfold fuel t rest szC szP hpl]
    refine ⟨E_FAIL, FAILED_E_FAIL, ?_⟩
    by_cases hl : t.length ≠ 38
    · rw [if_pos hl]
    · rw [if_neg hl, if_neg (by simpa using hok), if_neg (fun h => hc h.1), if_neg (fun h => hp h.1)]

theorem advertiseLoop_segments : ∀ (segs : List (List Nat × List Nat)) (fuel : Nat)
    (bad : List Nat) (szC szP : Option (List Nat)),
    (∀ gv ∈ segs, Plain gv.1 ∧ Plain gv.2) → (segs = [] ∨ chr bad 0 = 58) → 0 ∉ bad →
    Malformed bad → (segments segs ++ bad).length < fuel →
    ∃ hr, FAILED hr = true ∧ advertiseLoop fuel (segments segs ++ bad) szC szP = some (.error hr) := by
  intro segs
  induction segs with
  | nil =>
    intro fuel bad szC szP _ _ hnul hbad hlen
    obtain ⟨f, rfl⟩ : ∃ f, fuel = f + 1 := ⟨fuel - 1, by omega⟩
    simpa [segments] using advertiseLoop_malformed f bad szC szP hnul hbad
  | cons gv segs ih =>
    intro fuel bad szC szP hsegs hpos hnul hbad hlen
    obtain ⟨f, rfl⟩ : ∃ f, fuel = f + 1 := ⟨fuel - 1, by omega⟩
    have hgv := hsegs gv (List.mem_cons_self _ _)
    have hsegs1 : ∀ x ∈ segs, Plain x.1 ∧ Plain x.2 :=
      fun x hx => hsegs x (List.mem_cons_of_mem _ hx)
    have hb58 : chr bad 0 = 58 := by
      rcases hpos with h | h
      · cases h
      · exact h
    have hpos1 : segs = [] ∨ chr bad 0 = 58 := Or.inr hb58
    -- the text after this segment starts with a colon
    obtain ⟨tl, htl⟩ : ∃ tl, segments segs ++ bad = 58 :: tl := by
      cases segs with
      | nil =>
        cases bad with
        | nil => simp [chr] at hb58
        | cons _ xs => exact ⟨xs, by simp [chr] at hb58; simp [segments, hb58]⟩
      | cons a as => exact ⟨_, by simp [segments, segment]; rfl⟩
    have hstr : segments (gv :: segs) ++ bad
        = 58 :: 58 :: (gv.1 ++ 58 :: (gv.2 ++ 58 :: tl)) := by
      simp only [segments, List.map_cons, List.flatten_cons, segment, List.cons_append,
        List.append_assoc] at htl ⊢
      rw [htl]
    have hlen1 : (segments segs ++ bad).length < f := by
      rw [hstr] at hlen
      rw [htl]
      simp only [List.length_cons, List.length_append] at hlen ⊢
      omega
    have hrec := fun c p => ih f bad c p hsegs1 hpos1 hnul hbad hlen1
    have hscan : strchrW (gv.2 ++ 58 :: tl) 58 = some (58 :: tl) := strchrW_append _ hgv.2
    rw [hstr, advertiseLoop_unfold f gv.1 _ szC szP hgv.1, hscan, ← htl]
    by_cases h1 : gv.1.length ≠ 38
    · exact ⟨E_FAIL, FAILED_E_FAIL, by rw [if_pos h1]⟩
    · rw [if_neg h1]
      by_cases h2 : (CLSIDFromString gv.1).1 ≠ S_OK
      · rw [if_pos h2]
        refine ⟨_, ?_, rfl⟩
        rcases CLSIDFromString_code gv.1 with h | h
        · exact absurd h h2
        · rw [h]; decide
      · rw [if_neg h2]
        split
        · exact hrec _ _
        · split
          · exact hrec _ _
          · exact ⟨E_FAIL, FAILED_E_FAIL, rfl⟩

theorem zero_not_mem_segments (segs : List (List Nat × List Nat))
    (h : ∀ gv ∈ segs, Plain gv.1 ∧ Plain gv.2) : 0 ∉ segments segs := by
  induction segs with
  | nil => simp [segments]
  | cons gv segs ih =>
    have hgv := h gv (List.mem_cons_self _ _)
    have := ih (fun x hx => h x (List.mem_cons_of_mem _ hx))
    simp only [segments, List.map_cons, List.flatten_cons, segment, List.mem_append,
      List.mem_cons, not_or] at this ⊢
    refine ⟨⟨by decide, by decide, fun h0 => (hgv.1 0 h0).2 rfl, by decide,
      fun h0 => (hgv.2 0 h0).2 rfl⟩, this⟩

/-- C11: a text made of segments (each `::`, a colon-free text, `:`, a colon-free value)
followed by a malformed segment - one that does not begin with `::`, or whose text up to the
next colon is not a 38-character GUID text, or whose GUID is neither the product nor the
component identifier - makes `ShellLink_SetAdvertiseInfo` return a failure code and leave the
object, its product and component included, as it was. A segment after the first begins at
the colon that ends the value before it. -/
theorem setAdvertiseInfo_rejects_malformed_segment (This : IShellLinkImpl)
    (segs : List (List Nat × List Nat)) (bad : List Nat)
    (hsegs : ∀ gv ∈ segs, Plain gv.1 ∧ Plain gv.2)
    (hpos : segs = [] ∨ chr bad 0 = 58) (hnul : 0 ∉ bad) (hbad : Malformed bad) :
    ∃ hr, FAILED hr = true ∧
      ShellLink_SetAdvertiseInfo This (segments segs ++ bad) = some (hr, This) := by
  have hz : 0 ∉ segments segs ++ bad := by
    simp only [List.mem_append, not_or]
    exact ⟨zero_not_mem_segments segs hsegs, hnul⟩
  obtain ⟨hr, hf, hloop⟩ := advertiseLoop_segments segs ((segments segs ++ bad).length + 1)
    bad none none hsegs hpos hnul hbad (by omega)
  refine ⟨hr, hf, ?_⟩
  unfold ShellLink_SetAdvertiseInfo
  rw [cstr_eq_self hz, hloop]

theorem hexDigit_plain {c d : Nat} (h : hexDigit c = some d) : c ≠ 58 ∧ c ≠ 0 := by
  unfold hexDigit at h
  constructor
  · rintro rfl; simp at h
  · rintro rfl; simp at h

theorem hexValue_plain : ∀ (l : List Nat) (v : Nat), hexValue l = some v →
    ∀ x ∈ l, x ≠ 58 ∧ x ≠ 0 := by
  intro l
  induction l with
  | nil => intro v _ x hx; cases hx
  | cons c cs ih =>
    intro v h x hx
    rw [hexValue] at h
    cases hd : hexDigit c with
    | none => simp [hd] at h
    | some d =>
      cases hv : hexValue cs with
      | none => simp [hd, hv] at h
      | some w =>
        rcases List.mem_cons.mp hx with rfl | hx
        · exact hexDigit_plain hd
        · exact ih w hv x hx

theorem hexBytes_plain : ∀ (n : Nat) (l : List Nat) (v : List Nat), l.length ≤ n → l.length % 2 = 0 →
    hexBytes l = some v → ∀ x ∈ l, x ≠ 58 ∧ x ≠ 0 := by
  intro n
  induction n using Nat.strong_induction_on with
  | _ n ih =>
    intro l v hn hev h x hx
    match l, hev, h, hx, hn with
    | [], _, _, hx, _ => cases hx
    | [a], hev, _, _, _ => simp at hev
    | a :: b :: rest, hev, h, hx, hn =>
      rw [hexBytes] at h
      cases hd : hexValue [a, b] with
      | none => simp [hd] at h
      | some d =>
        cases hv : hexBytes rest with
        | none => simp [hd, hv] at h
        | some w =>
          have hab := hexValue_plain [a, b] d hd
          rcases List.mem_cons.mp hx with rfl | hx
          · exact hab _ (by simp)
          · rcases List.mem_cons.mp hx with rfl | hx
            · exact hab _ (by simp)
            · simp only [List.length_cons] at hn hev
              exact ih (n - 2) (by omega) rest w (by omega) (by omega) hv x hx

theorem getD_mem_window (s : List Nat) (k n i : Nat) (h1 : k ≤ i) (h2 : i < k + n)
    (h3 : i < s.length) : s.getD i 0 ∈ (s.drop k).take n := by
  rw [List.mem_iff_getElem?]
  refine ⟨i - k, ?_⟩
  rw [List.getElem?_take_of_lt (by omega), List.getElem?_drop]
  have : k + (i - k) = i := by omega
  rw [this, List.getD_eq_getElem?_getD, List.getElem?_eq_getElem h3]
  rfl

/-- A text that `CLSIDFromString` accepts has 38 units, none of them a colon or a
terminator. -/
theorem CLSIDFromString_plain (s : List Nat) (guid : GUID)
    (h : CLSIDFromString s = (S_OK, guid)) :
    s.length = 38 ∧ ∀ x ∈ s, x ≠ 58 ∧ x ≠ 0 := by
  unfold CLSIDFromString at h
  simp only at h
  by_cases hlen : s.length ≠ 38
  · rw [if_pos hlen] at h; cases h
  rw [if_neg hlen] at h
  have hlen : s.length = 38 := not_not.mp hlen
  split at h
  · cases h
  rename_i hfix
  simp only [not_or, not_not] at hfix
  obtain ⟨f0, f9, f14, f19, f24, f37⟩ := hfix
  split at h
  · rename_i d1 d2 d3 b1 b2 e1 e2 e3 e4 e5
    refine ⟨hlen, fun x hx => ?_⟩
    obtain ⟨i, hi, rfl⟩ : ∃ i, i < 38 ∧ s.getD i 0 = x := by
      obtain ⟨i, hi, rfl⟩ := List.getElem_of_mem hx
      exact ⟨i, hlen ▸ hi, by rw [List.getD_eq_getElem?_getD, List.getElem?_eq_getElem hi]; rfl⟩
    have w1 := fun (hh : 1 ≤ i ∧ i < 1 + 8) =>
      hexValue_plain _ _ e1 _ (getD_mem_window s 1 8 i hh.1 hh.2 (by omega))
    have w2 := fun (hh : 10 ≤ i ∧ i < 10 + 4) =>
      hexValue_plain _ _ e2 _ (getD_mem_window s 10 4 i hh.1 hh.2 (by omega))
    have w3 := fun (hh : 15 ≤ i ∧ i < 15 + 4) =>
      hexValue_plain _ _ e3 _ (getD_mem_window s 15 4 i hh.1 hh.2 (by omega))
    have w4 := fun (hh : 20 ≤ i ∧ i < 20 + 4) =>
      hexBytes_plain 4 _ _ (by simp) (by simp [hlen]) e4 _
        (getD_mem_window s 20 4 i hh.1 hh.2 (by omega))
    have w5 := fun (hh : 25 ≤ i ∧ i < 25 + 12) =>
      hexBytes_plain 12 _ _ (by simp) (by simp [hlen]) e5 _
        (getD_mem_window s 25 12 i hh.1 hh.2 (by omega))
    unfold chr at f0 f9 f14 f19 f24 f37
    by_cases c0 : i = 0
    · subst c0; rw [f0]; decide
    by_cases c9 : i = 9
    · subst c9; rw [f9]; decide
    by_cases c14 : i = 14
    · subst c14; rw [f14]; decide
    by_cases c19 : i = 19
    · subst c19; rw [f19]; decide
    by_cases c24 : i = 24
    · subst c24; rw [f24]; decide
    by_cases c37 : i = 37
    · subst c37; rw [f37]; decide
    by_cases g1 : i < 9
    · exact w1 ⟨by omega, by omega⟩
    by_cases g2 : i < 14
    · exact w2 ⟨by omega, by omega⟩
    by_cases g3 : i < 19
    · exact w3 ⟨by omega, by omega⟩
    by_cases g4 : i < 24
    · exact w4 ⟨by omega, by omega⟩
    · exact w5 ⟨by omega, by omega⟩
  · cases h

theorem suffix_take_append {p s : List Nat} (h : p <:+ s) :
    s = s.take (s.length - p.length) ++ p := by
  obtain ⟨q, rfl⟩ := h
  simp

/-- When the loop ends with a component pointer, that pointer was either there at the start
or is the value of a segment of the text whose GUID text reads as the component identifier. -/
theorem advertiseLoop_component : ∀ (fuel : Nat) (str : List Nat) (szC szP : Option (List Nat))
    (c : List Nat) (p : Option (List Nat)),
    advertiseLoop fuel str szC szP = some (.ok (some c, p)) →
    szC = some c ∨ ∃ pre g, str = pre ++ segment g c ∧
      CLSIDFromString g = (S_OK, SHELL32_AdvtShortcutComponent) ∧ 58 ∈ c := by
  intro fuel
  induction fuel with
  | zero => intro str szC szP c p h; simp [advertiseLoop] at h
  | succ fuel ih =>
    intro str szC szP c p h
    rw [advertiseLoop] at h
    by_cases h0 : chr str 0 = 0
    · rw [if_pos h0] at h
      left
      simpa using congrArg (fun x => match x with | some (.ok (a, _)) => a | _ => none) h
    rw [if_neg h0] at h
    by_cases h1 : chr str 0 ≠ 58 ∨ chr str 1 ≠ 58
    · rw [if_pos h1] at h; cases h
    rw [if_neg h1] at h
    by_cases h2 : chr str 2 = 0
    · rw [if_pos h2] at h
      left
      simpa using congrArg (fun x => match x with | some (.ok (a, _)) => a | _ => none) h
    rw [if_neg h2] at h
    simp only [not_or, not_not] at h1
    obtain ⟨r, rfl⟩ : ∃ r, str = 58 :: 58 :: r := by
      match str, h1 with
      | [], h1 => simp [chr] at h1
      | [x], h1 => simp [chr] at h1
      | x :: y :: r, h1 =>
        simp only [chr, List.getD_cons_zero, List.getD_cons_succ] at h1
        exact ⟨r, by rw [h1.1, h1.2]⟩
    simp only [List.drop_succ_cons, List.drop_zero] at h
    cases h3 : strchrW r 58 with
    | none => rw [h3] at h; cases h
    | some q =>
      rw [h3] at h
      simp only at h
      obtain ⟨hq, t, rfl⟩ := strchrW_some h3
      obtain ⟨G, rfl⟩ := hq
      have hl : (G ++ 58 :: t).length - (58 :: t).length = G.length := by
        simp only [List.length_append, List.length_cons]; omega
      have htk : List.take G.length (G ++ 58 :: t) = G := by
        rw [List.take_append_of_le_length (le_refl _), List.take_of_length_le (le_refl _)]
      simp only [hl, htk, List.drop_succ_cons, List.drop_zero] at h
      split at h
      · cases h
      split at h
      · cases h
      rename_i hlen hcode
      have hcode : (CLSIDFromString G).1 = S_OK := not_not.mp hcode
      split at h
      · cases h
      rename_i c1 p1 hm
      cases h4 : strchrW t 58 with
      | none => rw [h4] at h; cases h
      | some str3 =>
        rw [h4] at h
        simp only at h
        obtain ⟨hs3, t3, ht3⟩ := strchrW_some h4
        obtain ⟨u, rfl⟩ := hs3
        rcases ih str3 c1 p1 c p h with hc | ⟨pre1, g1, e, hg⟩
        · split at hm
          · rename_i hcomp
            simp only [Option.some.injEq, Prod.mk.injEq] at hm
            obtain ⟨e1, _⟩ := hm
            have ect : u ++ str3 = c := by rw [← e1] at hc; simpa using hc
            right
            refine ⟨[], G, ?_, ?_, ?_⟩
            · simp [segment, ect]
            · have := hcomp.1
              simp only [IsEqualGUID, decide_eq_true_eq] at this
              exact Prod.ext hcode this
            · rw [← ect, ht3]; simp
          · split at hm
            · simp only [Option.some.injEq, Prod.mk.injEq] at hm
              left
              rw [hm.1]; exact hc
            · cases hm
        · right
          refine ⟨58 :: 58 :: (G ++ 58 :: u) ++ pre1, g1, ?_, hg⟩
          rw [e]
          simp

theorem setAdvertiseInfo_of_ok (This : IShellLinkImpl) (s c : List Nat) (p : Option (List Nat))
    (f : Nat) (hz : 0 ∉ s) (hf : s.length + 1 = f)
    (h : advertiseLoop f s none none = some (.ok (some c, p))) :
    ShellLink_SetAdvertiseInfo This s = some (S_OK, { This with
      sComponent := ShellLink_GetAdvertisedArg (some c),
      sProduct := ShellLink_GetAdvertisedArg p }) := by
  unfold ShellLink_SetAdvertiseInfo
  rw [cstr_eq_self hz, hf, h]

theorem setAdvertiseInfo_of_none (This : IShellLinkImpl) (s : List Nat) (p : Option (List Nat))
    (f : Nat) (hz : 0 ∉ s) (hf : s.length + 1 = f)
    (h : advertiseLoop f s none none = some (.ok (none, p))) :
    ShellLink_SetAdvertiseInfo This s = some (E_FAIL, This) := by
  unfold ShellLink_SetAdvertiseInfo
  rw [cstr_eq_self hz, hf, h]

/-- C12: the advertised-string parse needs a component segment.  If
`ShellLink_SetAdvertiseInfo` returns `S_OK`, the text holds a segment whose GUID text reads as
the component identifier; the empty text, the text `::` and a text made of one product
segment and `::` are answered with `E_FAIL` and leave the object as it was; a text made of one
product segment with value `p`, one component segment with value `c` (in either order) and
`::` is answered with `S_OK`, the product set to `p` and the component to `c`.  `gp` and `gc`
are any GUID texts that read as the product and the component identifier; `p` and `c` are
free of colons (and of terminators). -/
theorem setAdvertiseInfo_needs_component (This : IShellLinkImpl) (gp gc p c : List Nat)
    (hgp : CLSIDFromString gp = (S_OK, SHELL32_AdvtShortcutProduct))
    (hgc : CLSIDFromString gc = (S_OK, SHELL32_AdvtShortcutComponent))
    (hp : Plain p) (hc : Plain c) :
    (∀ s T, ShellLink_SetAdvertiseInfo This s = some (S_OK, T) →
      ∃ pre g rest, cstr s = pre ++ segment g rest ∧
        CLSIDFromString g = (S_OK, SHELL32_AdvtShortcutComponent)) ∧
    ShellLink_SetAdvertiseInfo This [] = some (E_FAIL, This) ∧
    ShellLink_SetAdvertiseInfo This [58, 58] = some (E_FAIL, This) ∧
    ShellLink_SetAdvertiseInfo This (segment gp p ++ [58, 58]) = some (E_FAIL, This) ∧
    ShellLink_SetAdvertiseInfo This (segment gp p ++ segment gc c ++ [58, 58]) =
      some (S_OK, { This with sComponent := some c, sProduct := some p }) ∧
    ShellLink_SetAdvertiseInfo This (segment gc c ++ segment gp p ++ [58, 58]) =
      some (S_OK, { This with sComponent := some c, sProduct := some p }) := by
  have hgpP : Plain gp := (CLSIDFromString_plain gp _ hgp).2
  have hgcP : Plain gc := (CLSIDFromString_plain gc _ hgc).2
  have hgpL : gp.length = 38 := (CLSIDFromString_plain gp _ hgp).1
  have hgcL : gc.length = 38 := (CLSIDFromString_plain gc _ hgc).1
  have hne : SHELL32_AdvtShortcutProduct ≠ SHELL32_AdvtShortcutComponent := by decide
  have z : ∀ {l : List Nat}, Plain l → 0 ∉ l := fun h h0 => (h 0 h0).2 rfl
  have scan : ∀ (v rest : List Nat), Plain v → strchrW (v ++ 58 :: rest) 58 = some (58 :: rest) :=
    fun v rest h => strchrW_append rest h
  refine ⟨?_, ?_, ?_, ?_, ?_, ?_⟩
  · intro s T h
    obtain ⟨res, hres, hprop⟩ := advertiseLoop_spec ((cstr s).length + 1) (cstr s) none none
      (zero_not_mem_cstr s) (by omega)
    unfold ShellLink_SetAdvertiseInfo at h
    rw [hres] at h
    match res, hres, hprop, h with
    | .error r, _, hprop, h =>
      have hr : FAILED r = true := hprop
      simp only [Option.some.injEq, Prod.mk.injEq] at h
      rw [h.1] at hr
      exact absurd hr (by decide)
    | .ok (none, _), _, _, h => simp [E_FAIL, S_OK] at h
    | .ok (some c1, p1), hres, _, _ =>
      rcases advertiseLoop_component _ _ _ _ _ _ hres with h1 | ⟨pre, g, e, hg, _⟩
      · cases h1
      · exact ⟨pre, g, c1, e, hg⟩
  · simp [ShellLink_SetAdvertiseInfo, cstr, advertiseLoop, chr]
  · simp [ShellLink_SetAdvertiseInfo, cstr, advertiseLoop, chr]
  · have hz : 0 ∉ segment gp p ++ [58, 58] := by
      simp only [segment, List.cons_append, List.mem_cons, List.mem_append, not_or]
      exact ⟨by decide, by decide, ⟨z hgpP, by decide, z hp⟩, by decide, by decide, by simp⟩
    obtain ⟨f, hf⟩ : ∃ f, (segment gp p ++ [58, 58]).length + 1 = f + 1 + 1 :=
      ⟨(segment gp p ++ [58, 58]).length - 1, by simp [segment]⟩
    refine setAdvertiseInfo_of_none This _ (some (p ++ [58, 58])) _ hz hf ?_
    have e1 : segment gp p ++ [58, 58] = 58 :: 58 :: (gp ++ 58 :: (p ++ 58 :: [58])) := by
      simp [segment]
    rw [e1, advertiseLoop_unfold _ gp _ none none hgpP, scan p [58] hp]
    simp only [hgpL, hgp, ne_eq, not_true_eq_false, if_false, hne, false_and, and_self, if_true]
    rw [advertiseLoop_end]
  · have hz : 0 ∉ segment gp p ++ segment gc c ++ [58, 58] := by
      simp only [segment, List.cons_append, List.mem_cons, List.mem_append, not_or]
      exact ⟨by decide, by decide, ⟨⟨z hgpP, by decide, z hp⟩, by decide, by decide, z hgcP,
        by decide, z hc⟩, by decide, by decide, by simp⟩
    obtain ⟨f, hf⟩ : ∃ f, (segment gp p ++ segment gc c ++ [58, 58]).length + 1 = f + 1 + 1 + 1 :=
      ⟨(segment gp p ++ segment gc c ++ [58, 58]).length - 2, by simp [segment]⟩
    have key := setAdvertiseInfo_of_ok This _ (c ++ [58, 58])
      (some (p ++ 58 :: 58 :: (gc ++ 58 :: (c ++ 58 :: [58])))) _ hz hf ?_
    · rw [key, getAdvertisedArg_value c [58] hc, getAdvertisedArg_value p _ hp]
    have e1 : segment gp p ++ segment gc c ++ [58, 58]
        = 58 :: 58 :: (gp ++ 58 :: (p ++ 58 :: 58 :: (gc ++ 58 :: (c ++ 58 :: [58])))) := by
      simp [segment]
    rw [e1, advertiseLoop_unfold _ gp _ none none hgpP, scan p _ hp]
    simp only [hgpL, hgp, ne_eq, not_true_eq_false, if_false, hne, false_and, and_self, if_true]
    rw [advertiseLoop_unfold _ gc _ none _ hgcP, scan c _ hc]
    simp only [hgcL, hgc, ne_eq, not_true_eq_false, if_false, and_self, if_true]
    rw [advertiseLoop_end]
  · have hz : 0 ∉ segment gc c ++ segment gp p ++ [58, 58] := by
      simp only [segment, List.cons_append, List.mem_cons, List.mem_append, not_or]
      exact ⟨by decide, by decide, ⟨⟨z hgcP, by decide, z hc⟩, by decide, by decide, z hgpP,
        by decide, z hp⟩, by decide, by decide, by simp⟩
    obtain ⟨f, hf⟩ : ∃ f, (segment gc c ++ segment gp p ++ [58, 58]).length + 1 = f + 1 + 1 + 1 :=
      ⟨(segment gc c ++ segment gp p ++ [58, 58]).length - 2, by simp [segment]⟩
    have key := setAdvertiseInfo_of_ok This _
      (c ++ 58 :: 58 :: (gp ++ 58 :: (p ++ 58 :: [58]))) (some (p ++ [58, 58])) _ hz hf ?_
    · rw [key, getAdvertisedArg_value c _ hc, getAdvertisedArg_value p [58] hp]
    have e1 : segment gc c ++ segment gp p ++ [58, 58]
        = 58 :: 58 :: (gc ++ 58 :: (c ++ 58 :: 58 :: (gp ++ 58 :: (p ++ 58 :: [58])))) := by
      simp [segment]
    rw [e1, advertiseLoop_unfold _ gc _ none none hgcP, scan c _ hc]
    simp only [hgcL, hgc, ne_eq, not_true_eq_false, if_false, and_self, if_true]
    rw [advertiseLoop_unfold _ gp _ _ none hgpP, scan p _ hp]
    simp only [hgpL, hgp, ne_eq, not_true_eq_false, if_false, hne, false_and, and_self, if_true,
      reduceCtorEq, and_false]
    rw [advertiseLoop_end]

theorem strchrW_of_mem {s : List Nat} {c : Nat} (hc : c ∈ s) (hz : 0 ∉ s) :
    ∃ p, strchrW s c = some p := by
  induction s with
  | nil => cases hc
  | cons x xs ih =>
    rw [strchrW]
    by_cases hx : x = c
    · exact ⟨_, by rw [if_pos hx]⟩
    · have h0 : x ≠ 0 := fun e => hz (by simp [e])
      rw [if_neg hx, if_neg h0]
      rcases List.mem_cons.mp hc with h | h
      · exact absurd h.symm hx
      · exact ih h (fun h' => hz (List.mem_cons_of_mem _ h'))

/-- The outcome of the parse on any object: a failure code with the object untouched, or
`S_OK` with a component, which is then stored together with the product. -/
theorem setAdvertiseInfo_outcome (s : List Nat) :
    (∃ r, r ≠ S_OK ∧ ∀ This, ShellLink_SetAdvertiseInfo This s = some (r, This)) ∨
    (∃ v p, ∀ This : IShellLinkImpl, ShellLink_SetAdvertiseInfo This s
        = some (S_OK, { This with sComponent := some v, sProduct := p })) := by
  obtain ⟨res, hres, hprop⟩ := advertiseLoop_spec ((cstr s).length + 1) (cstr s) none none
    (zero_not_mem_cstr s) (by omega)
  match res, hres, hprop with
  | .error r, hres, hprop =>
    left
    have hr : FAILED r = true := hprop
    refine ⟨r, fun e => absurd (e ▸ hr) (by decide), fun This => ?_⟩
    unfold ShellLink_SetAdvertiseInfo
    rw [hres]
  | .ok (none, p), hres, _ =>
    left
    refine ⟨E_FAIL, by decide, fun This => ?_⟩
    unfold ShellLink_SetAdvertiseInfo
    rw [hres]
  | .ok (some c, p), hres, _ =>
    right
    rcases advertiseLoop_component _ _ _ _ _ _ hres with h1 | ⟨pre, g, e, _, h58⟩
    · cases h1
    · have hz : 0 ∉ c := by
        intro h0
        apply zero_not_mem_cstr s
        rw [e]
        simp [segment, h0]
      obtain ⟨q, hq⟩ := strchrW_of_mem h58 hz
      refine ⟨c.take (c.length - q.length), ShellLink_GetAdvertisedArg p, fun This => ?_⟩
      unfold ShellLink_SetAdvertiseInfo
      rw [hres]
      simp only [ShellLink_GetAdvertisedArg, hq]

/-- C13 (amended): `IShellLinkW_fnSetPath` tries the advertised parse first. For every text
the parse has an outcome `r`. When `r` is `S_OK` the call returns `S_OK`, the component the
parse found is stored (with the product, or `NULL` for it when none was given) and the target
path is left `NULL`. Otherwise the text is taken as a path and the component is `NULL`: for
the empty text the target path becomes the empty string; for any other text, when
`GetFullPathNameW` returns 0 the call returns `E_FAIL` and leaves the object without target
path, component and id list and otherwise as it was, and when `GetFullPathNameW` stores the
full path the call does not fail and the target path becomes that full path. -/
theorem setPath_advertised_or_literal (sh : Shell) (This : IShellLinkImpl) (text : List Nat) :
    ∃ r P, ShellLink_SetAdvertiseInfo This text = some (r, P) ∧
      (r = S_OK → ∃ T, IShellLinkW_fnSetPath sh This text = some (S_OK, T) ∧
        (∃ v, T.sComponent = some v) ∧ T.sComponent = P.sComponent ∧
        T.sProduct = P.sProduct ∧ T.sPath = none) ∧
      (r ≠ S_OK → chr text 0 = 0 → ∃ T, IShellLinkW_fnSetPath sh This text = some (S_OK, T) ∧
        T.sPath = some [] ∧ T.sComponent = none) ∧
      (r ≠ S_OK → chr text 0 ≠ 0 → (sh.GetFullPathNameW (cstr text) MAX_PATH).1 = 0 →
        IShellLinkW_fnSetPath sh This text
          = some (E_FAIL, { This with sPath := none, sComponent := none, pPidl := none })) ∧
      (r ≠ S_OK → chr text 0 ≠ 0 → ∀ n full k,
        sh.GetFullPathNameW (cstr text) MAX_PATH = (n, some (full, k)) → n ≠ 0 →
        ∃ hr T, IShellLinkW_fnSetPath sh This text = some (hr, T) ∧ FAILED hr = false ∧
          T.sPath = some (cstr full) ∧ T.sComponent = none) := by
  rcases setAdvertiseInfo_outcome text with ⟨r, hr, h⟩ | ⟨v, p, h⟩
  · refine ⟨r, This, h This, fun e => absurd e hr, ?_, ?_, ?_⟩
    · intro _ h0
      unfold IShellLinkW_fnSetPath
      simp only [h, hr, ne_eq, not_false_eq_true, if_true, h0]
      exact ⟨_, rfl, by simp [cstr], rfl⟩
    · intro _ h0 hg
      unfold IShellLinkW_fnSetPath
      simp only [h, hr, ne_eq, not_false_eq_true, if_true, h0, if_false, hg]
    · intro _ h0 n full k hg hl
      unfold IShellLinkW_fnSetPath
      simp only [h, hr, ne_eq, not_false_eq_true, if_true, h0, if_false, hg, hl]
      by_cases hex : sh.PathFileExistsW (cstr full) = true
      · exact ⟨S_OK, _, by rw [if_pos hex], by decide, rfl, rfl⟩
      · exact ⟨S_FALSE, _, by rw [if_neg hex], by decide, rfl, rfl⟩
  · refine ⟨S_OK, _, h This, ?_, fun e => absurd rfl e, fun e => absurd rfl e,
      fun e => absurd rfl e⟩
    intro _
    unfold IShellLinkW_fnSetPath
    simp only [h, ne_eq, not_true_eq_false, if_false]
    exact ⟨_, rfl, ⟨v, rfl⟩, rfl, rfl, rfl⟩

theorem setPath_advertised_or_literal_witness :
    (∃ hr T, IShellLinkW_fnSetPath scenarioShell IShellLink_Constructor (units "/links/a.lnk")
        = some (hr, T) ∧ FAILED hr = false ∧ T.sPath = some (units "/links/a.lnk") ∧
        T.sComponent = none)
    ∧ IShellLinkW_fnSetPath scenarioShell targetLink (units "/links/b.lnk")
        = some (E_FAIL, { targetLink with sPath := none, sComponent := none, pPidl := none }) := by
  obtain ⟨r, P, hp, _, _, h3, h4⟩ :=
    setPath_advertised_or_literal scenarioShell IShellLink_Constructor (units "/links/a.lnk")
  have e : some (r, P) = some (E_FAIL, IShellLink_Constructor) := hp.symm.trans (by decide)
  have hr : r = E_FAIL := by
    simp only [Option.some.injEq, Prod.mk.injEq] at e
    exact e.1
  obtain ⟨r1, P1, hp1, _, _, k3, _⟩ :=
    setPath_advertised_or_literal scenarioShell targetLink (units "/links/b.lnk")
  have e1 : some (r1, P1) = some (E_FAIL, targetLink) := hp1.symm.trans (by decide)
  have hr1 : r1 = E_FAIL := by
    simp only [Option.some.injEq, Prod.mk.injEq] at e1
    exact e1.1
  exact ⟨h4 (by rw [hr]; decide) (by decide) 12 (units "/links/a.lnk") (some 7) (by decide)
      (by decide),
    k3 (by rw [hr1]; decide) (by decide) (by decide)⟩

/-- C13 (counterexample): for the text `D:\b.exe` the advertised parse fails, and so does
`GetFullPathNameW`, which returns 0. `IShellLinkW_fnSetPath` on an object with the target path
`C:\a.exe` then returns `E_FAIL`, and the target path is not the full-path form of the text:
there is none. -/
theorem setPath_fails_without_full_path :
    (ShellLink_SetAdvertiseInfo targetLink (units "D:\\b.exe")).map (fun x => x.1)
      = some E_FAIL
    ∧ bareShell.GetFullPathNameW (cstr (units "D:\\b.exe")) MAX_PATH = (0, none)
    ∧ targetLink.sPath = some (units "C:\\a.exe")
    ∧ IShellLinkW_fnSetPath bareShell targetLink (units "D:\\b.exe")
        = some (E_FAIL, { targetLink with sPath := none })
    ∧ FAILED E_FAIL = true := by
  refine ⟨?_, ?_, ?_, ?_, ?_⟩ <;> decide

/-- C20: whichever setter of `IShellLinkA` or `IShellLinkW` is called, on whatever object and
with whatever arguments, if the call returns a code that is not a failure then `bDirty` is set
afterwards. The object `IShellLink_Constructor` builds has `bDirty` clear, the show command
`SW_SHOWNORMAL`, and no id list and no string. -/
theorem setters_mark_dirty (sh : Shell) (This : IShellLinkImpl) (m : Setter) (hr : HRESULT)
    (T : IShellLinkImpl) (h : m.call sh This = some (hr, T)) (hok : FAILED hr = false) :
    T.bDirty = true ∧
    IShellLink_Constructor.bDirty = false ∧ IShellLink_Constructor.iShowCmd = SW_SHOWNORMAL ∧
    IShellLink_Constructor.pPidl = none ∧ IShellLink_Constructor.sPath = none ∧
    IShellLink_Constructor.sDescription = none ∧ IShellLink_Constructor.sPathRel = none ∧
    IShellLink_Constructor.sWorkDir = none ∧ IShellLink_Constructor.sArgs = none ∧
    IShellLink_Constructor.sIcoPath = none ∧ IShellLink_Constructor.sProduct = none ∧
    IShellLink_Constructor.sComponent = none := by
  refine ⟨?_, rfl, rfl, rfl, rfl, rfl, rfl, rfl, rfl, rfl, rfl, rfl⟩
  have setPath : ∀ s, IShellLinkW_fnSetPath sh This s = some (hr, T) → T.bDirty = true := by
    intro s h
    unfold IShellLinkW_fnSetPath at h
    simp only at h
    split at h
    · cases h
    · split at h
      · split at h
        · cases h
        · simp only [Option.some.injEq, Prod.mk.injEq] at h
          rw [← h.1] at hok
          exact absurd hok (by decide)
        · simp only [Option.some.injEq, Prod.mk.injEq] at h
          rw [← h.2]
      · simp only [Option.some.injEq, Prod.mk.injEq] at h
        rw [← h.2]
  cases m with
  | A_SetRelativePath s =>
    simp only [Setter.call, IShellLinkA_fnSetRelativePath, Option.map_eq_some'] at h
    obtain ⟨x, _, hx⟩ := h
    simp only [Prod.mk.injEq] at hx
    rw [← hx.2]
  | W_SetRelativePath s =>
    simp only [Setter.call, IShellLinkW_fnSetRelativePath, Option.map_eq_some'] at h
    obtain ⟨x, _, hx⟩ := h
    simp only [Prod.mk.injEq] at hx
    rw [← hx.2]
  | A_SetPath s => exact setPath _ h
  | W_SetPath s => exact setPath _ h
  | W_SetIDList pidl =>
    simp only [Setter.call, IShellLinkW_fnSetIDList, Option.some.injEq] at h
    split at h
    · simp only [Prod.mk.injEq] at h
      rw [← h.1] at hok
      exact absurd hok (by decide)
    · simp only [Prod.mk.injEq] at h
      rw [← h.2]
  | _ =>
    simp only [Setter.call, IShellLinkA_fnSetIDList, IShellLinkA_fnSetDescription,
      IShellLinkA_fnSetWorkingDirectory, IShellLinkA_fnSetArguments, IShellLinkA_fnSetHotkey,
      IShellLinkA_fnSetShowCmd, IShellLinkA_fnSetIconLocation, IShellLinkW_fnSetDescription,
      IShellLinkW_fnSetWorkingDirectory, IShellLinkW_fnSetArguments, IShellLinkW_fnSetHotkey,
      IShellLinkW_fnSetShowCmd, IShellLinkW_fnSetIconLocation, Option.some.injEq,
      Prod.mk.injEq] at h
    rw [← h.2]

theorem updatePathFull_canonical (sh : Shell) (path canon : List Nat)
    (h : Canonical sh path canon) : updatePathFull sh path = canon := by
  obtain ⟨n, k, h1, h2, _, _⟩ := h
  unfold updatePathFull
  simp only [h1, h2, if_false]

theorem updatePathStore_canonical (canon rel : List Nat) (h3 : canon ≠ []) (h5 : 0 ∉ canon) :
    updatePathStore canon rel = some canon := by
  unfold updatePathStore
  have : chr canon 0 ≠ 0 := by
    cases canon with
    | nil => exact absurd rfl h3
    | cons x xs => intro e; exact h5 (by simp [chr] at e; simp [e])
  rw [if_neg this, cstr_eq_self h5]

/-- C15 (counterexample): without a link-file path `ShellLink_UpdatePath` returns
`E_INVALIDARG`, a failure code, also for a hint with no target path cached and no candidate
that exists; `IShellLinkW_fnSetRelativePath` on a fresh object makes exactly this call and
returns the error. -/
theorem updatePath_fails_without_link_path :
    ShellLink_UpdatePath bareShell (some (units "app.exe")) none none none
      = some (E_INVALIDARG, none, [])
    ∧ FAILED E_INVALIDARG = true
    ∧ (IShellLinkW_fnSetRelativePath bareShell IShellLink_Constructor (units "app.exe")).map
        (fun x => (x.1, x.2.sPath)) = some (E_INVALIDARG, none) := by
  decide

/-- C15 (amended): with a link-file path given, no target path cached and a hint that fits
the work buffer, when no entry exists at the link-directory candidate and none at the
working-directory candidate (or no working directory is given), `ShellLink_UpdatePath`
returns `S_OK` and stores the hint, unit for unit. The only failure code the function ever
returns is `E_INVALIDARG`, when no link-file path is given; the target path is then left as
it was. -/
theorem updatePath_falls_back_to_hint (sh : Shell) (rel lnk : List Nat) (wd : Option (List Nat))
    (hfit : (linkCandidate sh lnk rel).length < 2 * MAX_PATH)
    (h1 : SHELL_ExistsFileW sh (cstr (linkCandidate sh lnk rel)) = false)
    (h2 : ∀ w, wd = some w → ∃ c, workCandidate w rel = some c ∧ SHELL_ExistsFileW sh c = false) :
    (∃ probes, ShellLink_UpdatePath sh (some rel) (some lnk) wd none
        = some (S_OK, some (cstr rel), probes)) ∧
    (∀ rel1 lnk1 wd1 sPath1 r p probes,
      ShellLink_UpdatePath sh rel1 lnk1 wd1 sPath1 = some (r, p, probes) → FAILED r = true →
        lnk1 = none ∧ r = E_INVALIDARG ∧ p = sPath1) := by
  constructor
  · unfold ShellLink_UpdatePath
    have hn : ¬ 2 * MAX_PATH < (linkCandidate sh lnk rel).length + 1 := by omega
    simp only [hn, if_false, h1, Bool.false_eq_true]
    cases wd with
    | none => exact ⟨[cstr (linkCandidate sh lnk rel)], by simp [updatePathStore, chr]⟩
    | some w =>
      obtain ⟨c, hc, hex⟩ := h2 w rfl
      simp only [hc, hex, Bool.false_eq_true, if_false]
      exact ⟨[cstr (linkCandidate sh lnk rel), c], by simp [updatePathStore, chr]⟩
  · intro rel1 lnk1 wd1 sPath1 r p probes h hf
    unfold ShellLink_UpdatePath at h
    cases lnk1 with
    | none =>
      simp only [Option.some.injEq, Prod.mk.injEq] at h
      exact ⟨rfl, h.1.symm, h.2.1.symm⟩
    | some l =>
      exfalso
      have hok : ∀ x y, (some (S_OK, x, y) : Option (HRESULT × Option (List Nat) × List (List Nat)))
          = some (r, p, probes) → False := by
        intro x y e
        simp only [Option.some.injEq, Prod.mk.injEq] at e
        rw [← e.1] at hf
        exact absurd hf (by decide)
      simp only at h
      split at h
      · split at h
        · cases h
        · split at h
          · exact hok _ _ h
          · split at h
            · exact hok _ _ h
            · split at h
              · cases h
              · split at h
                · exact hok _ _ h
                · exact hok _ _ h
      · exact hok _ _ h

theorem updatePath_falls_back_to_hint_witness :
    (∃ probes, ShellLink_UpdatePath scenarioShell (some (units "tool.exe"))
        (some (units "/links/a.lnk")) (some (units "/opt/app")) none
        = some (S_OK, some (cstr (units "tool.exe")), probes)) ∧
    (∀ rel1 lnk1 wd1 sPath1 r p probes,
      ShellLink_UpdatePath scenarioShell rel1 lnk1 wd1 sPath1 = some (r, p, probes) →
        FAILED r = true → lnk1 = none ∧ r = E_INVALIDARG ∧ p = sPath1) :=
  updatePath_falls_back_to_hint scenarioShell (units "tool.exe") (units "/links/a.lnk")
    (some (units "/opt/app")) (by decide) (by decide)
    (fun w hw => ⟨units "/opt/app" ++ [92] ++ units "tool.exe", by cases hw; decide, by decide⟩)

/-- C16: `ShellLink_UpdatePath` leaves a cached target path as it is, whatever the hint, the
working directory and the file system are, and leaves the target path as it is (unset when it
was unset) when there is no hint; in both cases no path is probed. -/
theorem updatePath_keeps_cached_path (sh : Shell) (rel path wd sPath : Option (List Nat))
    (s : List Nat) :
    ShellLink_UpdatePath sh rel path wd (some s)
      = some (if path = none then E_INVALIDARG else S_OK, some s, []) ∧
    ShellLink_UpdatePath sh none path wd sPath
      = some (if path = none then E_INVALIDARG else S_OK, sPath, []) ∧
    ShellLink_UpdatePath sh none path wd none
      = some (if path = none then E_INVALIDARG else S_OK, none, []) := by
  unfold ShellLink_UpdatePath
  cases path <;> cases rel <;> cases sPath <;> simp

theorem and_high_mask (n : Nat) (h : n < 4294967296) :
    n &&& 0xffff0000 = (n / 65536) * 65536 := by
  apply Nat.eq_of_testBit_eq
  intro i
  have e1 : (0xffff0000 : Nat) = (2 ^ 16 - 1) <<< 16 := by decide
  have e2 : (n / 65536) * 65536 = (n >>> 16) <<< 16 := by
    rw [Nat.shiftRight_eq_div_pow, Nat.shiftLeft_eq]
  rw [Nat.testBit_and, e1, e2, Nat.testBit_shiftLeft, Nat.testBit_shiftLeft,
    Nat.testBit_two_pow_sub_one, Nat.testBit_shiftRight]
  by_cases hi : 16 ≤ i
  · have e3 : 16 + (i - 16) = i := by omega
    rw [e3]
    by_cases hj : i < 32
    · have : i - 16 < 16 := by omega
      simp [hi, this]
    · have hb : n.testBit i = false := by
        apply Nat.testBit_eq_false_of_lt
        calc n < 2 ^ 32 := h
          _ ≤ 2 ^ i := Nat.pow_le_pow_right (by decide) (by omega)
      simp [hb]
  · simp [hi]

theorem high_word_iff (n : Nat) (h : n < 4294967296) :
    n &&& 0xffff0000 = 0xa0000000 ↔ n / 65536 = 0xA000 := by
  rw [and_high_mask n h]
  omega

theorem u32_lt (b : List Nat) : u32 b < 4294967296 := by
  unfold u32 byte
  have := Nat.mod_lt (b.getD 0 0) (show 0 < 256 by decide)
  have := Nat.mod_lt (b.getD 1 0) (show 0 < 256 by decide)
  have := Nat.mod_lt (b.getD 2 0) (show 0 < 256 by decide)
  have := Nat.mod_lt (b.getD 3 0) (show 0 < 256 by decide)
  omega

theorem drop_take_window (l : List Nat) (a b : Nat) :
    ((l.take (a + b)).drop a).take b = (l.drop a).take b := by
  rw [List.drop_take, List.take_take]
  simp

/-- `Stream_LoadAdvertiseInfo` on a stream whose block, if it has one, holds a zero unit in
its wide buffer. It returns `S_OK` when the first word is the size of the structure (0x314),
the 0x314 bytes of the block are there, and the high 16 bits of the signature word are
0xA000; the string it stores is then the text of the block's wide buffer (offset 8 +
`MAX_PATH`, `MAX_PATH` units) up to its first zero unit, and the stream is left behind the
block. In every other case it returns `E_FAIL` and leaves the string pointer as it was. -/
theorem loadAdvertiseInfo_accepts_iff (junk stm : List Nat) (str : Option (List Nat)) :
    (u32 stm = sizeof_EXP_DARWIN_LINK ∧ sizeof_EXP_DARWIN_LINK ≤ stm.length ∧
        u32At stm 4 / 65536 = 0xA000 →
      0 ∈ wideUnits ((stm.drop (8 + MAX_PATH)).take (2 * MAX_PATH)) →
      Stream_LoadAdvertiseInfo junk stm str
        = some (S_OK, some (cstr (wideUnits ((stm.drop (8 + MAX_PATH)).take (2 * MAX_PATH)))),
            stm.drop sizeof_EXP_DARWIN_LINK)) ∧
    (¬ (u32 stm = sizeof_EXP_DARWIN_LINK ∧ sizeof_EXP_DARWIN_LINK ≤ stm.length ∧
        u32At stm 4 / 65536 = 0xA000) →
      ∃ rest, Stream_LoadAdvertiseInfo junk stm str = some (E_FAIL, str, rest)) := by
  have hsig : u32 ((stm.drop 4).take 784) = u32At stm 4 := by
    rw [u32_take _ (show 4 ≤ 784 by omega)]; rfl
  have hw : (((stm.drop 4).take 784).drop (4 + MAX_PATH)).take (2 * MAX_PATH)
      = (stm.drop (8 + MAX_PATH)).take (2 * MAX_PATH) := by
    have : (784 : Nat) = (4 + MAX_PATH) + 2 * MAX_PATH := by decide
    rw [this, drop_take_window, List.drop_drop]
    have : 4 + (4 + MAX_PATH) = 8 + MAX_PATH := by decide
    rw [this]
  have hmask := high_word_iff (u32At stm 4) (u32_lt _)
  constructor
  · rintro ⟨h1, h2, h3⟩ h0
    have hl4 : (stm.take 4).length = 4 := by
      simp only [List.length_take]; unfold sizeof_EXP_DARWIN_LINK MAX_PATH at h2; omega
    have hcb : u32 (stm.take 4 ++ junk.drop (stm.take 4).length) = sizeof_EXP_DARWIN_LINK := by
      rw [← h1]
      have a := u32_take (stm.take 4 ++ junk.drop (stm.take 4).length) (show 4 ≤ 4 by omega)
      rw [← a, List.take_append_of_le_length (by omega), List.take_take]
      exact u32_take stm (show 4 ≤ 4 by omega)
    have hl2 : ((stm.drop 4).take 784).length = 784 := by
      simp only [List.length_take, List.length_drop]
      unfold sizeof_EXP_DARWIN_LINK MAX_PATH at h2; omega
    unfold Stream_LoadAdvertiseInfo
    simp only [IStream_Read, hcb, ne_eq, not_true_eq_false, if_false]
    have hsz : sizeof_EXP_DARWIN_LINK - 4 = 784 := by decide
    simp only [hsz, hl2, not_true_eq_false, if_false, hsig, hmask.mpr h3, hw, h0, if_true,
      List.drop_drop]
    rfl
  · intro hno
    unfold Stream_LoadAdvertiseInfo
    simp only [IStream_Read]
    have hsz : sizeof_EXP_DARWIN_LINK - 4 = 784 := by decide
    simp only [hsz, hsig]
    split
    · exact ⟨_, rfl⟩
    rename_i hcb
    simp only [ne_eq, not_not] at hcb
    split
    · exact ⟨_, rfl⟩
    rename_i hl2
    simp only [ne_eq, not_not] at hl2
    split
    · exact ⟨_, rfl⟩
    rename_i hs
    simp only [ne_eq, not_not] at hs
    exfalso
    apply hno
    have hlen : sizeof_EXP_DARWIN_LINK ≤ stm.length := by
      simp only [List.length_take, List.length_drop] at hl2
      unfold sizeof_EXP_DARWIN_LINK MAX_PATH; omega
    have hl4 : (stm.take 4).length = 4 := by
      simp only [List.length_take]; unfold sizeof_EXP_DARWIN_LINK MAX_PATH at hlen; omega
    refine ⟨?_, hlen, hmask.mp hs⟩
    rw [← hcb]
    have a := u32_take (stm.take 4 ++ junk.drop (stm.take 4).length) (show 4 ≤ 4 by omega)
    rw [← a, List.take_append_of_le_length (by omega), List.take_take]
    exact (u32_take stm (show 4 ≤ 4 by omega)).symm

theorem readChunk_ok (stm p stm1 : List Nat) (h : Stream_ReadChunk stm = some (S_OK, p, stm1)) :
    p.length = u32At p 0 ∧ 4 ≤ p.length := by
  unfold Stream_ReadChunk at h
  simp only [IStream_Read] at h
  split at h
  · simp [E_FAIL, S_OK] at h
  split at h
  · cases h
  rename_i h4 hsz
  split at h
  · simp [E_FAIL, S_OK] at h
  rename_i hl
  simp only [ne_eq, not_not] at hl h4
  simp only [Option.some.injEq, Prod.mk.injEq, true_and] at h
  obtain ⟨hp, _⟩ := h
  have hlt := u32_lt (stm.take 4)
  have hu : u32At p 0 = u32 (List.take 4 stm) := by
    rw [← hp]
    exact u32_le32 _ _ hlt
  rw [hu, ← hp, List.length_append, length_le32, hl]
  omega

theorem u32At_window (p : List Nat) (a k : Nat) (hk : k + 4 ≤ 16) :
    u32At ((p.drop a).take 16) k = u32At p (a + k) := by
  unfold u32At
  rw [List.drop_take, List.drop_drop, u32_take _ (show 4 ≤ 16 - k by omega)]

theorem length_cstr_label (l : List Nat) (h1 : l.length = 12) (h2 : chr l 11 = 0) :
    lstrlenW l ≤ 11 := by
  unfold lstrlenW
  have hp : cstr l <+: l := List.takeWhile_prefix _
  have hle := hp.length_le
  by_contra hgt
  have heq : (cstr l).length = l.length := by omega
  have hcl : cstr l = l := hp.eq_of_length heq
  have hz := zero_not_mem_cstr l
  rw [hcl] at hz
  apply hz
  have : l.getD 11 0 = 0 := h2
  rw [List.getD_eq_getElem?_getD, List.getElem?_eq_getElem (by omega)] at this
  simp only [Option.getD_some] at this
  rw [← this]
  exact List.getElem_mem _

theorem store_label (label src : List Nat) (h1 : label.length = 12) (h2 : chr label 11 = 0)
    (h3 : src.length ≤ 11) :
    (store label src).length = 12 ∧ chr (store label src) 11 = 0 := by
  unfold store
  constructor
  · simp only [List.length_append, List.length_drop]; omega
  · unfold chr at h2 ⊢
    rw [List.getD_append_right _ _ _ _ (by omega), List.getD_eq_getElem?_getD,
      List.getElem?_drop]
    have : src.length + (11 - src.length) = 11 := by omega
    rw [this, ← List.getD_eq_getElem?_getD]
    exact h2

theorem peek_length {p : List Nat} {a n : Nat} {src : List Nat} (h : peek p a n = some src) :
    src.length = n := by
  unfold peek at h
  split at h
  · cases h
    simp only [List.length_take, List.length_drop]; omega
  · cases h

/-- `Stream_LoadVolume` keeps the label array at 12 units with a zero in the last one. -/
theorem loadVolume_label (p : List Nat) (ofs : Nat) (volume v1 : volume_info) (b : Bool)
    (h1 : volume.label.length = 12) (h2 : chr volume.label 11 = 0)
    (h : Stream_LoadVolume p ofs volume = some (b, v1)) :
    v1.label.length = 12 ∧ chr v1.label 11 = 0 := by
  unfold Stream_LoadVolume at h
  split at h
  · cases h
  simp only at h
  split at h
  · cases h; exact ⟨h1, h2⟩
  split at h
  · cases h; exact ⟨h1, h2⟩
  split at h
  · cases h
  rename_i n hn
  split at h
  · cases h
  rename_i src hsrc
  cases h
  have hl := peek_length hsrc
  exact store_label _ _ h1 h2 (by rw [List.length_map, hl]; omega)

theorem loadLocation_label (stm : List Nat) (volume v1 : volume_info)
    (path path1 : Option (List Nat)) (r : HRESULT) (stm1 : List Nat)
    (h1 : volume.label.length = 12) (h2 : chr volume.label 11 = 0)
    (h : Stream_LoadLocation stm volume path = some (r, v1, path1, stm1)) :
    v1.label.length = 12 ∧ chr v1.label 11 = 0 := by
  unfold Stream_LoadLocation at h
  split at h
  · cases h
  simp only at h
  split at h
  · cases h; exact ⟨h1, h2⟩
  split at h
  · cases h; exact ⟨h1, h2⟩
  split at h
  · cases h
  rename_i vol hvol
  have hv : vol.label.length = 12 ∧ chr vol.label 11 = 0 := by
    split at hvol
    · rw [Option.map_eq_some'] at hvol
      obtain ⟨x, hx, hx2⟩ := hvol
      rw [← hx2]
      exact loadVolume_label _ _ _ _ x.1 h1 h2 hx
    · cases hvol; exact ⟨h1, h2⟩
  split at h
  · split at h
    · cases h
    · cases h; exact hv
  · cases h; exact hv

theorem drop_label (label : List Nat) (h1 : label.length = 12) (h2 : chr label 11 = 0) :
    label.drop 11 = [0] := by
  unfold chr at h2
  rw [List.getD_eq_getElem?_getD, List.getElem?_eq_getElem (by omega)] at h2
  simp only [Option.getD_some] at h2
  rw [List.drop_eq_getElem_cons (by omega), h2, List.drop_of_length_le (by omega)]

/-- C17: location decode of a chunk whose volume sub-record declares a label of more than 11
characters succeeds, and the label array then holds the first 11 characters of the declared
label followed by a terminator; and whatever the chunk, after location decode the label array
holds a string of at most 11 characters. The label array has 12 units and, as in the object
`IPersistStream_fnLoad` has just cleared, a zero in the last one. -/
theorem loadLocation_truncates_label (stm p stm1 : List Nat) (volume : volume_info)
    (path : Option (List Nat))
    (hchunk : Stream_ReadChunk stm = some (S_OK, p, stm1))
    (hlong : DeclaresLongLabel p) (hpath : PathInside p)
    (hlabel : volume.label.length = 12) (hterm : chr volume.label 11 = 0) :
    (∃ path1, Stream_LoadLocation stm volume path
      = some (S_OK,
          { type := u32At p (u32At p 12 + 4), serial := u32At p (u32At p 12 + 8),
            label := ((declaredLabel p).take 11).map mbtowc ++ [0] },
          path1, stm1)) ∧
    (∀ (stm2 : List Nat) (vol v1 : volume_info) (pth pth1 : Option (List Nat)) (r : HRESULT)
        (rest : List Nat),
      vol.label.length = 12 → chr vol.label 11 = 0 →
      Stream_LoadLocation stm2 vol pth = some (r, v1, pth1, rest) → lstrlenW v1.label ≤ 11) := by
  constructor
  · obtain ⟨hhdr, ⟨hv0, hvfit⟩, hl0, hl, hpos⟩ := hlong
    obtain ⟨hplen, _⟩ := readChunk_ok stm p stm1 hchunk
    have htot := u32_lt (p.drop 0)
    have htot : u32At p 0 < 4294967296 := htot
    unfold sizeof_LOCAL_VOLUME_INFO at hvfit
    have hmod : (u32At p 12 + 16) % 4294967296 = u32At p 12 + 16 := Nat.mod_eq_of_lt (by omega)
    -- the declared label
    have hdl : (declaredLabel p).length
        = min (u32At p (u32At p 12) - u32At p (u32At p 12 + 12))
            (p.length - (u32At p 12 + u32At p (u32At p 12 + 12))) := by
      unfold declaredLabel
      simp only [List.length_take, List.length_drop]
    have hsz : 11 < u32At p (u32At p 12) - u32At p (u32At p 12 + 12) := by omega
    have hin : u32At p 12 + u32At p (u32At p 12 + 12) + 11 ≤ p.length := by omega
    have htake : (declaredLabel p).take 11
        = (p.drop (u32At p 12 + u32At p (u32At p 12 + 12))).take 11 := by
      unfold declaredLabel
      rw [List.take_take, min_eq_left (by omega)]
    have hvolume : Stream_LoadVolume p (u32At p 12) volume
        = some (true, (⟨u32At p (u32At p 12 + 4), u32At p (u32At p 12 + 8),
            ((declaredLabel p).take 11).map mbtowc ++ [0]⟩ : volume_info)) := by
      unfold Stream_LoadVolume
      have hpk : peek p (u32At p 12) sizeof_LOCAL_VOLUME_INFO
          = some ((p.drop (u32At p 12)).take 16) := by
        unfold peek sizeof_LOCAL_VOLUME_INFO
        rw [if_pos (by omega)]
      rw [hpk]
      simp only [u32At_window p (u32At p 12) 0 (by omega), u32At_window p (u32At p 12) 4 (by omega),
        u32At_window p (u32At p 12) 8 (by omega), u32At_window p (u32At p 12) 12 (by omega),
        Nat.add_zero]
      rw [if_neg hl0, if_neg (by omega), if_pos hpos]
      simp only
      have hpk2 : peek p (u32At p 12 + u32At p (u32At p 12 + 12))
          (min (u32At p (u32At p 12) - u32At p (u32At p 12 + 12)) 11)
          = some ((p.drop (u32At p 12 + u32At p (u32At p 12 + 12))).take 11) := by
        unfold peek
        rw [min_eq_right (by omega), if_pos hin]
      rw [hpk2]
      simp only [htake, store, List.length_map, List.length_take, List.length_drop,
        Option.some.injEq, Prod.mk.injEq, true_and]
      have : min 11 (p.length - (u32At p 12 + u32At p (u32At p 12 + 12))) = 11 := by omega
      rw [this, drop_label _ hlabel hterm]
    unfold Stream_LoadLocation
    rw [hchunk]
    simp only [FAILED_S_OK, Bool.false_eq_true, if_false]
    rw [if_neg (by omega)]
    simp only [sizeof_LOCAL_VOLUME_INFO, hmod, hvolume, Option.map_some']
    rw [if_pos ⟨hv0, by omega⟩]
    simp only
    by_cases hn : u32At p 16 ≠ 0 ∧ u32At p 16 < u32At p 0
    · obtain ⟨s, hs⟩ := hpath hn.1 hn.2
      rw [if_pos hn, hs]
      exact ⟨_, rfl⟩
    · rw [if_neg hn]
      exact ⟨_, rfl⟩
  · intro stm2 vol v1 pth pth1 r rest h1 h2 h
    obtain ⟨a, b⟩ := loadLocation_label stm2 vol v1 pth pth1 r rest h1 h2 h
    exact length_cstr_label _ a b

theorem content_next {s s1 : LoadState} {f : HRESULT → IShellLinkImpl → List Nat → LoadState}
    (hs : s.content = s1.content)
    (hf : ∀ r T T1 stm, content T = content T1 → (f r T stm).content = (f r T1 stm).content) :
    (s.next f).content = (s1.next f).content := by
  cases s with
  | none =>
    cases s1 with
    | none => rfl
    | some y => simp [LoadState.content] at hs
  | some x =>
    cases s1 with
    | none => simp [LoadState.content] at hs
    | some y =>
      obtain ⟨r, T, stm⟩ := x
      obtain ⟨r1, T1, stm1⟩ := y
      simp only [LoadState.content, Option.map_some', Option.some.injEq, Prod.mk.injEq] at hs
      obtain ⟨rfl, hT, rfl⟩ := hs
      simp only [LoadState.next]
      split
      · simp only [LoadState.content, Option.map_some', hT]
      · exact hf r T T1 stm hT

theorem content_stringSection (present unicode : Bool)
    (get : IShellLinkImpl → Option (List Nat))
    (set : IShellLinkImpl → Option (List Nat) → IShellLinkImpl)
    (hget : ∀ t t1, content t = content t1 → get t = get t1)
    (hset : ∀ t t1 v, content t = content t1 → content (set t v) = content (set t1 v))
    (r : HRESULT) (T T1 : IShellLinkImpl) (stm : List Nat) (h : content T = content T1) :
    (loadStringSection present unicode get set r T stm).content
      = (loadStringSection present unicode get set r T1 stm).content := by
  unfold loadStringSection
  rw [hget T T1 h]
  split
  · simp only [LoadState.content, Option.map_some', hset _ _ _ h]
  · simp only [LoadState.content, Option.map_some', h]

theorem content_advertiseSection (present : Bool) (junk : List Nat)
    (get : IShellLinkImpl → Option (List Nat))
    (set : IShellLinkImpl → Option (List Nat) → IShellLinkImpl)
    (hget : ∀ t t1, content t = content t1 → get t = get t1)
    (hset : ∀ t t1 v, content t = content t1 → content (set t v) = content (set t1 v))
    (r : HRESULT) (T T1 : IShellLinkImpl) (stm : List Nat) (h : content T = content T1) :
    (loadAdvertiseSection present junk get set r T stm).content
      = (loadAdvertiseSection present junk get set r T1 stm).content := by
  unfold loadAdvertiseSection
  rw [hget T T1 h]
  split
  · cases Stream_LoadAdvertiseInfo junk stm (get T1) with
    | none => rfl
    | some x => simp only [LoadState.content, Option.map_some', hset _ _ _ h]
  · simp only [LoadState.content, Option.map_some', h]

theorem content_fields {t t1 : IShellLinkImpl} (h : content t = content t1) :
    t.pPidl = t1.pPidl ∧ t.wHotKey = t1.wHotKey ∧ t.sIcoPath = t1.sIcoPath ∧
    t.iIcoNdx = t1.iIcoNdx ∧ t.sPath = t1.sPath ∧ t.sArgs = t1.sArgs ∧
    t.sWorkDir = t1.sWorkDir ∧ t.sDescription = t1.sDescription ∧ t.sPathRel = t1.sPathRel ∧
    t.sProduct = t1.sProduct ∧ t.sComponent = t1.sComponent ∧ t.volume = t1.volume := by
  unfold content at h
  simp only [IShellLinkImpl.mk.injEq] at h
  obtain ⟨a, b, _, _, _, _, c, d, e, f, g, i, j, k, l, m, _⟩ := h
  exact ⟨a, b, c, d, e, f, g, i, j, k, l, m⟩

theorem content_loadNewStuff (env : Collaborators) (junk : Indeterminate) (dwFlags : Nat)
    (r : HRESULT) (T T1 : IShellLinkImpl) (stm : List Nat) (h : content T = content T1) :
    (loadNewStuff env junk dwFlags r T stm).content
      = (loadNewStuff env junk dwFlags r T1 stm).content := by
  have fld := @content_fields
  have upd : ∀ (set : IShellLinkImpl → Option (List Nat) → IShellLinkImpl),
      (∀ t v, content (set t v) = set (content t) v) →
      ∀ t t1 v, content t = content t1 → content (set t v) = content (set t1 v) := by
    intro set hs t t1 v e
    rw [hs, hs, e]
  unfold loadNewStuff
  simp only
  refine content_next (content_next (content_next (content_next (content_next (content_next
    (content_next (content_next (content_next ?_ ?_) ?_)
    (content_stringSection _ _ _ _ (fun t t1 e => (fld e).2.2.2.2.2.2.2.1)
      (upd _ (fun _ _ => rfl))))
    (content_stringSection _ _ _ _ (fun t t1 e => (fld e).2.2.2.2.2.2.2.2.1)
      (upd _ (fun _ _ => rfl))))
    (content_stringSection _ _ _ _ (fun t t1 e => (fld e).2.2.2.2.2.2.1)
      (upd _ (fun _ _ => rfl))))
    (content_stringSection _ _ _ _ (fun t t1 e => (fld e).2.2.2.2.2.1)
      (upd _ (fun _ _ => rfl))))
    (content_stringSection _ _ _ _ (fun t t1 e => (fld e).2.2.1)
      (upd _ (fun _ _ => rfl))))
    (content_advertiseSection _ _ _ _ (fun t t1 e => (fld e).2.2.2.2.2.2.2.2.2.1)
      (upd _ (fun _ _ => rfl))))
    (content_advertiseSection _ _ _ _ (fun t t1 e => (fld e).2.2.2.2.2.2.2.2.2.2.1)
      (upd _ (fun _ _ => rfl)))
  · simp only [LoadState.content, Option.map_some', h]
  · intro r0 t t1 stm0 e
    split
    · have : ∀ v, content { t with pPidl := v } = content { t1 with pPidl := v } :=
        fun v => upd (fun t v => { t with pPidl := v }) (fun _ _ => rfl) t t1 v e
      simp only [LoadState.content, Option.map_some', this]
    · simp only [LoadState.content, Option.map_some', e]
  · intro r0 t t1 stm0 e
    split
    · rw [(fld e).2.2.2.2.1, (fld e).2.2.2.2.2.2.2.2.2.2.2]
      cases Stream_LoadLocation stm0 t1.volume t1.sPath with
      | none => rfl
      | some x =>
        have : content { t with volume := x.2.1, sPath := x.2.2.1 }
            = content { t1 with volume := x.2.1, sPath := x.2.2.1 } := by
          have a : ∀ u : IShellLinkImpl, content { u with volume := x.2.1, sPath := x.2.2.1 }
              = { content u with volume := x.2.1, sPath := x.2.2.1 } := fun _ => rfl
          rw [a, a, e]
        simp only [LoadState.content, Option.map_some', this]
    · simp only [LoadState.content, Option.map_some', e]

theorem keeps_stringSection_if {P : IShellLinkImpl → Prop} (present unicode : Bool)
    (get : IShellLinkImpl → Option (List Nat))
    (set : IShellLinkImpl → Option (List Nat) → IShellLinkImpl)
    (hset : present = true → ∀ t v, P t → P (set t v)) (r : HRESULT) (T : IShellLinkImpl)
    (stm : List Nat) (hT : P T) : Keeps P (loadStringSection present unicode get set r T stm) := by
  intro r1 T1 rest h
  unfold loadStringSection at h
  split at h <;> simp only [Option.some.injEq, Prod.mk.injEq] at h
  · rename_i hp
    rw [← h.2.1]; exact hset hp _ _ hT
  · rw [← h.2.1]; exact hT

theorem keeps_advertiseSection_if {P : IShellLinkImpl → Prop} (present : Bool) (junk : List Nat)
    (get : IShellLinkImpl → Option (List Nat))
    (set : IShellLinkImpl → Option (List Nat) → IShellLinkImpl)
    (hset : present = true → ∀ t v, P t → P (set t v)) (r : HRESULT) (T : IShellLinkImpl)
    (stm : List Nat) (hT : P T) :
    Keeps P (loadAdvertiseSection present junk get set r T stm) := by
  intro r1 T1 rest h
  unfold loadAdvertiseSection at h
  split at h
  · rename_i hp
    rw [Option.map_eq_some'] at h
    obtain ⟨x, _, hx⟩ := h
    simp only [Prod.mk.injEq] at hx
    rw [← hx.2.1]; exact hset hp _ _ hT
  · simp only [Option.some.injEq, Prod.mk.injEq] at h
    rw [← h.2.1]; exact hT

/-- A property of the object that every section present in the flags preserves holds after
`loadNewStuff` when it held before. -/
theorem loadNewStuff_keeps_if (P : IShellLinkImpl → Prop) (env : Collaborators)
    (junk : Indeterminate) (dwFlags : Nat) (r : HRESULT) (T : IShellLinkImpl) (stm : List Nat)
    (hT : P T)
    (h1 : hasFlag dwFlags SLDF_HAS_ID_LIST = true → ∀ t v, P t → P { t with pPidl := v })
    (h2 : hasFlag dwFlags SLDF_HAS_LINK_INFO = true →
      ∀ t vol v, P t → P { t with volume := vol, sPath := v })
    (h3 : hasFlag dwFlags SLDF_HAS_NAME = true → ∀ t v, P t → P { t with sDescription := v })
    (h4 : hasFlag dwFlags SLDF_HAS_RELPATH = true → ∀ t v, P t → P { t with sPathRel := v })
    (h5 : hasFlag dwFlags SLDF_HAS_WORKINGDIR = true → ∀ t v, P t → P { t with sWorkDir := v })
    (h6 : hasFlag dwFlags SLDF_HAS_ARGS = true → ∀ t v, P t → P { t with sArgs := v })
    (h7 : hasFlag dwFlags SLDF_HAS_ICONLOCATION = true →
      ∀ t v, P t → P { t with sIcoPath := v })
    (h8 : hasFlag dwFlags SLDF_HAS_LOGO3ID = true → ∀ t v, P t → P { t with sProduct := v })
    (h9 : hasFlag dwFlags SLDF_HAS_DARWINID = true → ∀ t v, P t → P { t with sComponent := v }) :
    Keeps P (loadNewStuff env junk dwFlags r T stm) := by
  unfold loadNewStuff
  refine keeps_next (keeps_next (keeps_next (keeps_next (keeps_next (keeps_next (keeps_next
    (keeps_next (keeps_next ?_ ?_) ?_)
    (keeps_stringSection_if _ _ _ _ h3)) (keeps_stringSection_if _ _ _ _ h4))
    (keeps_stringSection_if _ _ _ _ h5)) (keeps_stringSection_if _ _ _ _ h6))
    (keeps_stringSection_if _ _ _ _ h7))
    (keeps_advertiseSection_if _ _ _ _ h8))
    (keeps_advertiseSection_if _ _ _ _ h9)
  · intro r1 T1 rest h
    simp only [Option.some.injEq, Prod.mk.injEq] at h
    rw [← h.2.1]; exact hT
  · intro r0 T0 stm0 h0 r1 T1 rest h
    split at h <;> simp only [Option.some.injEq, Prod.mk.injEq] at h
    · rename_i hp
      rw [← h.2.1]; exact h1 hp _ _ h0
    · rw [← h.2.1]; exact h0
  · intro r0 T0 stm0 h0 r1 T1 rest h
    split at h
    · rename_i hp
      rw [Option.map_eq_some'] at h
      obtain ⟨x, _, hx⟩ := h
      simp only [Prod.mk.injEq] at hx
      rw [← hx.2.1]; exact h2 hp _ _ _ h0
    · simp only [Option.some.injEq, Prod.mk.injEq] at h
      rw [← h.2.1]; exact h0

/-- The same for the whole of `IPersistStream_fnLoad`, for an outcome that is not a failure:
the property holds of the object the header fields leave. -/
theorem load_keeps_if (P : IShellLinkImpl → Prop) (env : Collaborators)
    (junk : Indeterminate) (This : IShellLinkImpl) (stm : List Nat) (r : HRESULT)
    (T : IShellLinkImpl) (rest : List Nat)
    (h : IPersistStream_fnLoad env junk This stm = some (r, T, rest)) (hok : FAILED r = false)
    (hT : ∀ hdr, P (loadHeaderFields env This hdr))
    (h1 : hasFlag (u32At stm 0x14) SLDF_HAS_ID_LIST = true → ∀ t v, P t → P { t with pPidl := v })
    (h2 : hasFlag (u32At stm 0x14) SLDF_HAS_LINK_INFO = true →
      ∀ t vol v, P t → P { t with volume := vol, sPath := v })
    (h3 : hasFlag (u32At stm 0x14) SLDF_HAS_NAME = true →
      ∀ t v, P t → P { t with sDescription := v })
    (h4 : hasFlag (u32At stm 0x14) SLDF_HAS_RELPATH = true →
      ∀ t v, P t → P { t with sPathRel := v })
    (h5 : hasFlag (u32At stm 0x14) SLDF_HAS_WORKINGDIR = true →
      ∀ t v, P t → P { t with sWorkDir := v })
    (h6 : hasFlag (u32At stm 0x14) SLDF_HAS_ARGS = true → ∀ t v, P t → P { t with sArgs := v })
    (h7 : hasFlag (u32At stm 0x14) SLDF_HAS_ICONLOCATION = true →
      ∀ t v, P t → P { t with sIcoPath := v })
    (h8 : hasFlag (u32At stm 0x14) SLDF_HAS_LOGO3ID = true →
      ∀ t v, P t → P { t with sProduct := v })
    (h9 : hasFlag (u32At stm 0x14) SLDF_HAS_DARWINID = true →
      ∀ t v, P t → P { t with sComponent := v }) : P T := by
  have hfl : u32At (stm.take 76) 0x14 = u32At stm 0x14 := by
    unfold u32At
    rw [List.drop_take, u32_take _ (show 4 ≤ 76 - 0x14 by omega)]
  have bad : ∀ a b, (some (E_FAIL, a, b) : LoadState) = some (r, T, rest) → False := by
    intro a b e
    simp only [Option.some.injEq, Prod.mk.injEq] at e
    rw [← e.1] at hok
    exact absurd hok (by decide)
  unfold IPersistStream_fnLoad at h
  simp only [IStream_Read, sizeof_LINK_HEADER] at h
  split at h
  · exact (bad _ _ h).elim
  split at h
  · exact (bad _ _ h).elim
  split at h
  · exact (bad _ _ h).elim
  rw [hfl] at h
  have k := keeps_next
    (loadNewStuff_keeps_if P env junk (u32At stm 0x14) S_OK
      (loadHeaderFields env This (stm.take 76)) (stm.drop 76) (hT _)
      h1 h2 h3 h4 h5 h6 h7 h8 h9)
    (f := fun _ This stm => some (S_OK, This, (IStream_Read stm 4).2))
    (by
      intro r0 T0 stm0 h0 r1 T1 rest1 e
      simp only [Option.some.injEq, Prod.mk.injEq] at e
      rw [← e.2.1]; exact h0)
  exact k r T rest h

/-- Loads of one stream into two objects that do not fail give the same code, the same
remaining stream and objects with the same content. -/
theorem load_content (env : Collaborators) (junk : Indeterminate) (A B : IShellLinkImpl)
    (stm : List Nat) (r : HRESULT) (A1 : IShellLinkImpl) (rest : List Nat)
    (hA : IPersistStream_fnLoad env junk A stm = some (r, A1, rest)) (hok : FAILED r = false) :
    ∃ B1, IPersistStream_fnLoad env junk B stm = some (r, B1, rest) ∧ content B1 = content A1 := by
  have bad : ∀ a b, (some (E_FAIL, a, b) : LoadState) = some (r, A1, rest) → False := by
    intro a b e
    simp only [Option.some.injEq, Prod.mk.injEq] at e
    rw [← e.1] at hok
    exact absurd hok (by decide)
  have key : (IPersistStream_fnLoad env junk B stm).content
      = (IPersistStream_fnLoad env junk A stm).content := by
    unfold IPersistStream_fnLoad at hA ⊢
    simp only [IStream_Read, sizeof_LINK_HEADER] at hA ⊢
    split at hA
    · exact (bad _ _ hA).elim
    split at hA
    · exact (bad _ _ hA).elim
    split at hA
    · exact (bad _ _ hA).elim
    rename_i c1 c2 c3
    rw [if_neg c1, if_neg c2, if_neg c3, if_neg c1, if_neg c2, if_neg c3]
    refine content_next (content_loadNewStuff env junk _ S_OK
      (loadHeaderFields env B (stm.take 76)) (loadHeaderFields env A (stm.take 76)) _ rfl) ?_
    intro r0 T T1 stm0 e
    simp only [LoadState.content, Option.map_some', e]
  rw [hA] at key
  cases hB : IPersistStream_fnLoad env junk B stm with
  | none => rw [hB] at key; simp [LoadState.content] at key
  | some y =>
    obtain ⟨r1, B1, rest1⟩ := y
    rw [hB] at key
    simp only [LoadState.content, Option.map_some', Option.some.injEq, Prod.mk.injEq] at key
    obtain ⟨rfl, hc, rfl⟩ := key
    exact ⟨B1, rfl, hc⟩

/-- C19 (code defect, evaluated): one stream (a header without flags and the terminator) is
loaded into a fresh object, whose show command is `SW_SHOWNORMAL`, and into an object that
differs from it in the show command only (3); both loads return `S_OK` and the show command
of each object is what it was before: `IPersistStream_fnLoad` never assigns `iShowCmd`, so
the two objects are not equal afterwards. -/
theorem load_keeps_previous_showCmd :
    (IPersistStream_fnLoad plainCollaborators ⟨[], []⟩ IShellLink_Constructor
        (sampleHeader 0 ++ [0, 0, 0, 0])).map (fun x => (x.1, x.2.1.iShowCmd))
      = some (S_OK, SW_SHOWNORMAL)
    ∧ (IPersistStream_fnLoad plainCollaborators ⟨[], []⟩
        { IShellLink_Constructor with iShowCmd := 3 }
        (sampleHeader 0 ++ [0, 0, 0, 0])).map (fun x => (x.1, x.2.1.iShowCmd))
      = some (S_OK, 3)
    ∧ IShellLink_Constructor.iShowCmd = SW_SHOWNORMAL ∧ SW_SHOWNORMAL ≠ 3 := by
  decide

/-- What `IPersistStream_fnLoad` does discard: when loading a stream into an object `A` does
not fail, loading it into any other object `B` gives the same code and the same remaining
stream, and the two objects agree afterwards in the id list, the volume, the target path, the
description, the relative path, the working directory, the arguments, the icon path and
index, the hot key, the product and the component; the dirty flag of `B` is as it was. A
section whose flag bit is clear in the header leaves its member `NULL` (the volume
zeroed). -/
theorem load_discards_previous_content (env : Collaborators) (junk : Indeterminate)
    (A B : IShellLinkImpl) (stm : List Nat) (r : HRESULT) (A1 : IShellLinkImpl)
    (rest : List Nat)
    (hA : IPersistStream_fnLoad env junk A stm = some (r, A1, rest)) (hok : FAILED r = false) :
    (∃ B1, IPersistStream_fnLoad env junk B stm = some (r, B1, rest) ∧
      B1.pPidl = A1.pPidl ∧ B1.volume = A1.volume ∧ B1.sPath = A1.sPath ∧
      B1.sDescription = A1.sDescription ∧ B1.sPathRel = A1.sPathRel ∧
      B1.sWorkDir = A1.sWorkDir ∧ B1.sArgs = A1.sArgs ∧ B1.sIcoPath = A1.sIcoPath ∧
      B1.iIcoNdx = A1.iIcoNdx ∧ B1.wHotKey = A1.wHotKey ∧ B1.sProduct = A1.sProduct ∧
      B1.sComponent = A1.sComponent ∧ B1.bDirty = B.bDirty) ∧
    (hasFlag (u32At stm 0x14) SLDF_HAS_ID_LIST = false → A1.pPidl = none) ∧
    (hasFlag (u32At stm 0x14) SLDF_HAS_LINK_INFO = false →
      A1.sPath = none ∧ A1.volume = ⟨0, 0, List.replicate 12 0⟩) ∧
    (hasFlag (u32At stm 0x14) SLDF_HAS_NAME = false → A1.sDescription = none) ∧
    (hasFlag (u32At stm 0x14) SLDF_HAS_RELPATH = false → A1.sPathRel = none) ∧
    (hasFlag (u32At stm 0x14) SLDF_HAS_WORKINGDIR = false → A1.sWorkDir = none) ∧
    (hasFlag (u32At stm 0x14) SLDF_HAS_ARGS = false → A1.sArgs = none) ∧
    (hasFlag (u32At stm 0x14) SLDF_HAS_ICONLOCATION = false → A1.sIcoPath = none) ∧
    (hasFlag (u32At stm 0x14) SLDF_HAS_LOGO3ID = false → A1.sProduct = none) ∧
    (hasFlag (u32At stm 0x14) SLDF_HAS_DARWINID = false → A1.sComponent = none) := by
  have no : ∀ {b : Bool} {Q : Prop}, b = false → b = true → Q :=
    fun h1 h2 => absurd (h1.symm.trans h2) (by decide)
  refine ⟨?_, ?_, ?_, ?_, ?_, ?_, ?_, ?_, ?_, ?_⟩
  · obtain ⟨B1, hB, hc⟩ := load_content env junk A B stm r A1 rest hA hok
    obtain ⟨a, b, c, d, e, f, g, i, j, k, l, m⟩ := content_fields hc
    have hd := load_keeps_showCmd env junk B stm r B1 rest hB
    exact ⟨B1, hB, a, m, e, i, j, g, f, c, d, b, k, l, hd.2⟩
  · intro hf
    exact load_keeps_if (fun t => t.pPidl = none) env junk A stm r A1 rest hA hok
      (fun _ => rfl) (no hf) (fun _ _ _ _ h => h) (fun _ _ _ h => h) (fun _ _ _ h => h)
      (fun _ _ _ h => h) (fun _ _ _ h => h) (fun _ _ _ h => h) (fun _ _ _ h => h)
      (fun _ _ _ h => h)
  · intro hf
    exact load_keeps_if (fun t => t.sPath = none ∧ t.volume = ⟨0, 0, List.replicate 12 0⟩)
      env junk A stm r A1 rest hA hok
      (fun _ => ⟨rfl, rfl⟩) (fun _ _ _ h => h) (no hf) (fun _ _ _ h => h) (fun _ _ _ h => h)
      (fun _ _ _ h => h) (fun _ _ _ h => h) (fun _ _ _ h => h) (fun _ _ _ h => h)
      (fun _ _ _ h => h)
  · intro hf
    exact load_keeps_if (fun t => t.sDescription = none) env junk A stm r A1 rest hA hok
      (fun _ => rfl) (fun _ _ _ h => h) (fun _ _ _ _ h => h) (no hf) (fun _ _ _ h => h)
      (fun _ _ _ h => h) (fun _ _ _ h => h) (fun _ _ _ h => h) (fun _ _ _ h => h)
      (fun _ _ _ h => h)
  · intro hf
    exact load_keeps_if (fun t => t.sPathRel = none) env junk A stm r A1 rest hA hok
      (fun _ => rfl) (fun _ _ _ h => h) (fun _ _ _ _ h => h) (fun _ _ _ h => h) (no hf)
      (fun _ _ _ h => h) (fun _ _ _ h => h) (fun _ _ _ h => h) (fun _ _ _ h => h)
      (fun _ _ _ h => h)
  · intro hf
    exact load_keeps_if (fun t => t.sWorkDir = none) env junk A stm r A1 rest hA hok
      (fun _ => rfl) (fun _ _ _ h => h) (fun _ _ _ _ h => h) (fun _ _ _ h => h)
      (fun _ _ _ h => h) (no hf) (fun _ _ _ h => h) (fun _ _ _ h => h) (fun _ _ _ h => h)
      (fun _ _ _ h => h)
  · intro hf
    exact load_keeps_if (fun t => t.sArgs = none) env junk A stm r A1 rest hA hok
      (fun _ => rfl) (fun _ _ _ h => h) (fun _ _ _ _ h => h) (fun _ _ _ h => h)
      (fun _ _ _ h => h) (fun _ _ _ h => h) (no hf) (fun _ _ _ h => h) (fun _ _ _ h => h)
      (fun _ _ _ h => h)
  · intro hf
    exact load_keeps_if (fun t => t.sIcoPath = none) env junk A stm r A1 rest hA hok
      (fun _ => rfl) (fun _ _ _ h => h) (fun _ _ _ _ h => h) (fun _ _ _ h => h)
      (fun _ _ _ h => h) (fun _ _ _ h => h) (fun _ _ _ h => h) (no hf) (fun _ _ _ h => h)
      (fun _ _ _ h => h)
  · intro hf
    exact load_keeps_if (fun t => t.sProduct = none) env junk A stm r A1 rest hA hok
      (fun _ => rfl) (fun _ _ _ h => h) (fun _ _ _ _ h => h) (fun _ _ _ h => h)
      (fun _ _ _ h => h) (fun _ _ _ h => h) (fun _ _ _ h => h) (fun _ _ _ h => h) (no hf)
      (fun _ _ _ h => h)
  · intro hf
    exact load_keeps_if (fun t => t.sComponent = none) env junk A stm r A1 rest hA hok
      (fun _ => rfl) (fun _ _ _ h => h) (fun _ _ _ _ h => h) (fun _ _ _ h => h)
      (fun _ _ _ h => h) (fun _ _ _ h => h) (fun _ _ _ h => h) (fun _ _ _ h => h)
      (fun _ _ _ h => h) (no hf)

theorem setAdvertiseInfo_rejects_malformed_segment_witness :
    ∃ hr, FAILED hr = true ∧
      ShellLink_SetAdvertiseInfo IShellLink_Constructor
        (segments [(units "\x7b9db1186e-40df-11d1-aa8c-00c04fb67863\x7d", units "MyComp")]
          ++ units "::\x7b00000000-0000-0000-0000-000000000000\x7d:x::")
        = some (hr, IShellLink_Constructor) :=
  setAdvertiseInfo_rejects_malformed_segment IShellLink_Constructor
    [(units "\x7b9db1186e-40df-11d1-aa8c-00c04fb67863\x7d", units "MyComp")]
    (units "::\x7b00000000-0000-0000-0000-000000000000\x7d:x::")
    (by decide) (Or.inr (by decide)) (by decide)
    (Or.inr (Or.inr ⟨units "\x7b00000000-0000-0000-0000-000000000000\x7d", units "x::",
      by decide, by decide, by decide, by decide, by decide⟩))

theorem setAdvertiseInfo_needs_component_witness :
    ShellLink_SetAdvertiseInfo IShellLink_Constructor
        (segment (units "\x7b9db1186f-40df-11d1-aa8c-00c04fb67863\x7d") (units "MyProd")
          ++ segment (units "\x7b9DB1186E-40DF-11D1-AA8C-00C04FB67863\x7d") (units "MyComp")
          ++ [58, 58])
      = some (S_OK, { IShellLink_Constructor with
          sComponent := some (units "MyComp"), sProduct := some (units "MyProd") }) :=
  (setAdvertiseInfo_needs_component IShellLink_Constructor
    (units "\x7b9db1186f-40df-11d1-aa8c-00c04fb67863\x7d")
    (units "\x7b9DB1186E-40DF-11D1-AA8C-00C04FB67863\x7d") (units "MyProd") (units "MyComp")
    (by decide) (by decide) (by decide) (by decide)).2.2.2.2.1

theorem loadLocation_truncates_label_witness :
    ∃ path1, Stream_LoadLocation longLabelChunk ⟨0, 0, List.replicate 12 0⟩ none
      = some (S_OK, ⟨3, 0x1234, units "ABCDEFGHIJK" ++ [0]⟩, path1, []) :=
  (loadLocation_truncates_label longLabelChunk longLabelChunk [] ⟨0, 0, List.replicate 12 0⟩
    none (by decide)
    ⟨by decide, by decide, by decide, by decide, by decide⟩
    (fun h => absurd (by decide) h) (by decide) (by decide)).1

set_option maxRecDepth 100000 in
theorem loadAdvertiseInfo_accepts_iff_witness :
    Stream_LoadAdvertiseInfo [] (advertiseImage (units "MyComp") EXP_DARWIN_ID_SIG) none
      = some (S_OK, some (units "MyComp"), []) :=
  (loadAdvertiseInfo_accepts_iff [] (advertiseImage (units "MyComp") EXP_DARWIN_ID_SIG) none).1
    ⟨by decide, by decide, by decide⟩ (by decide)

set_option maxRecDepth 100000 in
/-- C18 (code defect, evaluated): the block of 0x314 bytes holds the size 0x314 in its first
word and 0xA000 in the high half of its signature word, and all of it is in the stream, so
the three conditions hold; its wide buffer has no zero unit. `Stream_LoadAdvertiseInfo` does
not succeed with a string taken from the buffer, and it does not fail: `lstrlenW` measures
the buffer past the end of the local block (the outcome `none` of the embedding), whatever
the prior contents of the local and of the string pointer are, and so does
`IPersistStream_fnLoad` on a stream that holds this block as its component block. With a
zero in the last unit of the buffer the decode returns `S_OK` and the 259 units before it. -/
theorem loadAdvertiseInfo_unterminated_buffer :
    u32 unterminatedBlock = sizeof_EXP_DARWIN_LINK
    ∧ unterminatedBlock.length = sizeof_EXP_DARWIN_LINK
    ∧ u32At unterminatedBlock 4 / 65536 = 0xA000
    ∧ 0 ∉ wideUnits ((unterminatedBlock.drop (8 + MAX_PATH)).take (2 * MAX_PATH))
    ∧ (∀ junk str, Stream_LoadAdvertiseInfo junk unterminatedBlock str = none)
    ∧ IPersistStream_fnLoad plainCollaborators ⟨[], []⟩ IShellLink_Constructor
        (sampleHeader SLDF_HAS_DARWINID ++ unterminatedBlock ++ [0, 0, 0, 0]) = none
    ∧ Stream_LoadAdvertiseInfo [] terminatedBlock none
        = some (S_OK, some (List.replicate (MAX_PATH - 1) 97), []) := by
  refine ⟨by decide, by decide, by decide, by decide, ?_, by decide, by decide⟩
  intro junk str
  have h1 : (IStream_Read unterminatedBlock 4).1 = le32 sizeof_EXP_DARWIN_LINK := by decide
  have h2 : ∀ j : List Nat, u32 (le32 sizeof_EXP_DARWIN_LINK ++ j) = sizeof_EXP_DARWIN_LINK :=
    fun j => u32_le32 _ j (by decide)
  unfold Stream_LoadAdvertiseInfo
  simp only [h1, h2, ne_eq, not_true_eq_false, if_false]
  rw [if_neg (by decide), if_neg (by decide), if_neg (by decide)]

theorem setters_mark_dirty_witness :
    Setter.call bareShell IShellLink_Constructor (.W_SetDescription (units "a"))
        = some (S_OK, { IShellLink_Constructor with
            sDescription := some (units "a"), bDirty := true }) ∧
      FAILED S_OK = false ∧
      ({ IShellLink_Constructor with sDescription := some (units "a"), bDirty := true }
        : IShellLinkImpl).bDirty = true :=
  ⟨by decide, by decide,
    (setters_mark_dirty bareShell IShellLink_Constructor (.W_SetDescription (units "a")) S_OK
      { IShellLink_Constructor with sDescription := some (units "a"), bDirty := true }
      (by decide) (by decide)).1⟩

/-- C21: `IPersistFile_fnSave` returns `E_FAIL` without a file name and the code of
`SHCreateStreamOnFileW` when that failed, the object being untouched; once the stream is open
it returns what `IPersistStream_fnSave` returned, and the object afterwards is the object
before with `bDirty` cleared when that code is a success and the very same object when it is a
failure. -/
theorem fileSave_clears_dirty_on_success (env : Collaborators)
    (SHCreateStreamOnFileW : List Nat → Nat → HRESULT × WStream) (This : IShellLinkImpl) :
    IPersistFile_fnSave env SHCreateStreamOnFileW This none = some (E_FAIL, This, [])
    ∧ (∀ name,
        FAILED (SHCreateStreamOnFileW name
          (STGM_READWRITE ||| STGM_CREATE ||| STGM_SHARE_EXCLUSIVE)).1 = true →
        IPersistFile_fnSave env SHCreateStreamOnFileW This (some name)
          = some ((SHCreateStreamOnFileW name
              (STGM_READWRITE ||| STGM_CREATE ||| STGM_SHARE_EXCLUSIVE)).1, This, []))
    ∧ (∀ name r,
        FAILED (SHCreateStreamOnFileW name
          (STGM_READWRITE ||| STGM_CREATE ||| STGM_SHARE_EXCLUSIVE)).1 = false →
        (IPersistStream_fnSave env This (SHCreateStreamOnFileW name
          (STGM_READWRITE ||| STGM_CREATE ||| STGM_SHARE_EXCLUSIVE)).2).map (fun x => x.1)
          = some r →
        (FAILED r = false →
          IPersistFile_fnSave env SHCreateStreamOnFileW This (some name)
            = some (r, { This with bDirty := false }, [FileAction.StartLinkProcessor name]))
        ∧ (FAILED r = true →
          IPersistFile_fnSave env SHCreateStreamOnFileW This (some name)
            = some (r, This, [FileAction.DeleteFileW name]))) := by
  refine ⟨rfl, ?_, ?_⟩
  · intro name h
    simp only [IPersistFile_fnSave, h, if_true]
  · intro name r hc hs
    obtain ⟨x, hx, rfl⟩ := Option.map_eq_some'.mp hs
    obtain ⟨r, w⟩ := x
    constructor
    · intro hr
      simp only [IPersistFile_fnSave, hc, hx, hr, Bool.false_eq_true, if_false]
    · intro hr
      simp only [IPersistFile_fnSave, hc, hx, hr, Bool.false_eq_true, if_false, if_true]

theorem fileSave_clears_dirty_on_success_witness :
    targetLink.bDirty = true
    ∧ IPersistFile_fnSave plainCollaborators createEmpty targetLink (some (units "a.lnk"))
        = some (S_OK, { targetLink with bDirty := false },
            [FileAction.StartLinkProcessor (units "a.lnk")])
    ∧ IPersistFile_fnSave plainCollaborators createFull targetLink (some (units "a.lnk"))
        = some (STG_E_MEDIUMFULL, targetLink, [FileAction.DeleteFileW (units "a.lnk")]) :=
  ⟨rfl,
    ((fileSave_clears_dirty_on_success plainCollaborators createEmpty targetLink).2.2
      (units "a.lnk") S_OK (by decide) (by decide)).1 (by decide),
    ((fileSave_clears_dirty_on_success plainCollaborators createFull targetLink).2.2
      (units "a.lnk") STG_E_MEDIUMFULL (by decide) (by decide)).2 (by decide)⟩

theorem wctomb_ne_zero {c : Nat} (h : c ≠ 0) : wctomb c ≠ 0 := by
  unfold wctomb
  split <;> omega

theorem zero_not_mem_map_wctomb (s : List Nat) : 0 ∉ (cstr s).map wctomb := by
  intro h
  obtain ⟨c, hc, h0⟩ := List.mem_map.mp h
  have hne : c ≠ 0 := fun e => zero_not_mem_cstr s (e ▸ hc)
  exact wctomb_ne_zero hne h0

theorem cstr_store_terminated (dst l : List Nat) (h : 0 ∉ l) :
    cstr (store dst (l ++ [0])) = l := by
  unfold store
  rw [List.append_assoc]
  exact cstr_append_zero _ h

theorem getPathW_of_plain (This : IShellLinkImpl) (pszFile : List Nat) (cchMaxPath : Nat)
    (hp : This.sProduct = none) (hc : This.sComponent = none)
    (hcap : cchMaxPath ≤ pszFile.length) (hpos : 0 < cchMaxPath) :
    IShellLinkW_fnGetPath This pszFile cchMaxPath
      = match This.sPath with
        | none => some (S_OK, store pszFile [0])
        | some sPath => some (S_OK,
            store (store pszFile [0]) ((cstr sPath).take (cchMaxPath - 1) ++ [0])) := by
  have h1 : storeIn pszFile [0] = some (store pszFile [0]) := by
    unfold storeIn
    rw [if_pos (by simp only [List.length_singleton]; omega)]
  have hl : (store pszFile [0]).length = pszFile.length := by
    simp only [store, List.length_append, List.length_singleton, List.length_drop]
    omega
  unfold IShellLinkW_fnGetPath
  simp only [hp, hc, Option.isSome_none, Bool.false_eq_true, or_self, if_false, ne_eq,
    show ¬ cchMaxPath = 0 by omega, not_false_eq_true, if_true, h1]
  cases This.sPath with
  | none => rfl
  | some sPath =>
    simp only
    unfold storeIn
    rw [if_pos (by
      simp only [List.length_append, List.length_take, List.length_singleton, hl]
      omega)]
    rfl

theorem getPathA_of_plain (This : IShellLinkImpl) (pszFile : List Nat) (cchMaxPath : Nat)
    (hp : This.sProduct = none) (hc : This.sComponent = none)
    (hcap : cchMaxPath ≤ pszFile.length) (hpos : 0 < cchMaxPath) :
    IShellLinkA_fnGetPath This pszFile cchMaxPath
      = match This.sPath with
        | none => some (S_OK, store pszFile [0])
        | some sPath => some (S_OK,
            store (store pszFile [0]) (((cstr sPath).map wctomb ++ [0]).take cchMaxPath)) := by
  have h1 : storeIn pszFile [0] = some (store pszFile [0]) := by
    unfold storeIn
    rw [if_pos (by simp only [List.length_singleton]; omega)]
  have hl : (store pszFile [0]).length = pszFile.length := by
    simp only [store, List.length_append, List.length_singleton, List.length_drop]
    omega
  unfold IShellLinkA_fnGetPath
  simp only [hp, hc, Option.isSome_none, Bool.false_eq_true, or_self, if_false, ne_eq,
    show ¬ cchMaxPath = 0 by omega, not_false_eq_true, if_true, h1]
  cases This.sPath with
  | none => rfl
  | some sPath =>
    simp only
    unfold storeIn
    rw [if_pos (by
      simp only [List.length_take, hl]
      omega)]
    rfl

/-- C22: with an advertised product or component present, both variants of `GetPath` return
`S_FALSE` and leave the caller's buffer as it was, whatever the target path is. With neither
present they return `S_OK`, and in a buffer of `cchMaxPath` units that holds the target path
and its terminator the caller finds the target path (its narrow form in the narrow variant);
without a target path the caller finds the empty string. -/
theorem getPath_reports_target (This : IShellLinkImpl) (pszFile : List Nat) (cchMaxPath : Nat) :
    ((This.sProduct ≠ none ∨ This.sComponent ≠ none) →
        IShellLinkW_fnGetPath This pszFile cchMaxPath = some (S_FALSE, pszFile)
        ∧ IShellLinkA_fnGetPath This pszFile cchMaxPath = some (S_FALSE, pszFile))
    ∧ (This.sProduct = none → This.sComponent = none → cchMaxPath ≤ pszFile.length →
        (∀ p, This.sPath = some p → lstrlenW p < cchMaxPath →
          (∃ b, IShellLinkW_fnGetPath This pszFile cchMaxPath = some (S_OK, b)
            ∧ cstr b = cstr p)
          ∧ (∃ b, IShellLinkA_fnGetPath This pszFile cchMaxPath = some (S_OK, b)
            ∧ cstr b = (cstr p).map wctomb))
        ∧ (This.sPath = none → 0 < cchMaxPath →
          (∃ b, IShellLinkW_fnGetPath This pszFile cchMaxPath = some (S_OK, b) ∧ cstr b = [])
          ∧ (∃ b, IShellLinkA_fnGetPath This pszFile cchMaxPath = some (S_OK, b)
            ∧ cstr b = []))) := by
  constructor
  · intro h
    have hs : This.sComponent.isSome = true ∨ This.sProduct.isSome = true := by
      rcases h with h | h
      · exact Or.inr (Option.isSome_iff_ne_none.mpr h)
      · exact Or.inl (Option.isSome_iff_ne_none.mpr h)
    exact ⟨by unfold IShellLinkW_fnGetPath; rw [if_pos hs],
      by unfold IShellLinkA_fnGetPath; rw [if_pos hs]⟩
  · intro hp hc hcap
    constructor
    · intro p hsp hlen
      have hW := getPathW_of_plain This pszFile cchMaxPath hp hc hcap (by omega)
      have hA := getPathA_of_plain This pszFile cchMaxPath hp hc hcap (by omega)
      rw [hsp] at hW hA
      simp only at hW hA
      have ht : (cstr p).take (cchMaxPath - 1) = cstr p :=
        List.take_of_length_le (by unfold lstrlenW at hlen; omega)
      have hta : ((cstr p).map wctomb ++ [0]).take cchMaxPath = (cstr p).map wctomb ++ [0] :=
        List.take_of_length_le (by
          simp only [List.length_append, List.length_map, List.length_singleton]
          unfold lstrlenW at hlen
          omega)
      rw [ht] at hW
      rw [hta] at hA
      exact ⟨⟨_, hW, cstr_store_terminated _ _ (zero_not_mem_cstr p)⟩,
        ⟨_, hA, cstr_store_terminated _ _ (zero_not_mem_map_wctomb p)⟩⟩
    · intro hsp hpos
      have hW := getPathW_of_plain This pszFile cchMaxPath hp hc hcap hpos
      have hA := getPathA_of_plain This pszFile cchMaxPath hp hc hcap hpos
      rw [hsp] at hW hA
      simp only at hW hA
      have he : cstr (store pszFile [0]) = [] :=
        cstr_store_terminated pszFile [] (by simp)
      exact ⟨⟨_, hW, he⟩, ⟨_, hA, he⟩⟩

theorem getPath_reports_target_witness :
    (IShellLinkW_fnGetPath advertisedLink (List.replicate 16 7) 16
        = some (S_FALSE, List.replicate 16 7)
      ∧ IShellLinkA_fnGetPath advertisedLink (List.replicate 16 7) 16
        = some (S_FALSE, List.replicate 16 7))
    ∧ ((∃ b, IShellLinkW_fnGetPath targetLink (List.replicate 16 7) 16 = some (S_OK, b)
          ∧ cstr b = cstr (units "C:\\a.exe"))
      ∧ (∃ b, IShellLinkA_fnGetPath targetLink (List.replicate 16 7) 16 = some (S_OK, b)
          ∧ cstr b = (cstr (units "C:\\a.exe")).map wctomb))
    ∧ ((∃ b, IShellLinkW_fnGetPath IShellLink_Constructor (List.replicate 16 7) 16
          = some (S_OK, b) ∧ cstr b = [])
      ∧ (∃ b, IShellLinkA_fnGetPath IShellLink_Constructor (List.replicate 16 7) 16
          = some (S_OK, b) ∧ cstr b = [])) :=
  ⟨(getPath_reports_target advertisedLink (List.replicate 16 7) 16).1 (by decide),
    ((getPath_reports_target targetLink (List.replicate 16 7) 16).2 rfl rfl (by decide)).1
      (units "C:\\a.exe") rfl (by decide),
    ((getPath_reports_target IShellLink_Constructor (List.replicate 16 7) 16).2 rfl rfl
      (by decide)).2 rfl (by decide)⟩

theorem save_strings_accepting (This : IShellLinkImpl) (stm2 : WStream) (a2 : Accepting stm2) :
    (IStream_Write (writeOptional This.sComponent
          (fun s v => Stream_WriteAdvertiseInfo s v EXP_DARWIN_ID_SIG)
          (writeOptional This.sProduct (fun s v => Stream_WriteAdvertiseInfo s v EXP_SZ_ICON_SIG)
          (writeOptional This.sIcoPath Stream_WriteString
          (writeOptional This.sArgs Stream_WriteString
          (writeOptional This.sWorkDir Stream_WriteString
          (writeOptional This.sPathRel Stream_WriteString
          (writeOptional This.sDescription Stream_WriteString stm2)))))))
          (le32 0)).2.data
      = stm2.data
          ++ (optImage This.sDescription stringImage
          ++ (optImage This.sPathRel stringImage
          ++ (optImage This.sWorkDir stringImage
          ++ (optImage This.sArgs stringImage
          ++ (optImage This.sIcoPath stringImage
          ++ (optImage This.sProduct (fun b => advertiseImage b EXP_SZ_ICON_SIG)
          ++ (optImage This.sComponent (fun b => advertiseImage b EXP_DARWIN_ID_SIG)
          ++ [0, 0, 0, 0]))))))) := by
  obtain ⟨d3, a3⟩ := writeOptional_accepting This.sDescription Stream_WriteString stringImage
    stm2 a2 writeString_accepting
  obtain ⟨d4, a4⟩ := writeOptional_accepting This.sPathRel Stream_WriteString stringImage
    _ a3 writeString_accepting
  obtain ⟨d5, a5⟩ := writeOptional_accepting This.sWorkDir Stream_WriteString stringImage
    _ a4 writeString_accepting
  obtain ⟨d6, a6⟩ := writeOptional_accepting This.sArgs Stream_WriteString stringImage
    _ a5 writeString_accepting
  obtain ⟨d7, a7⟩ := writeOptional_accepting This.sIcoPath Stream_WriteString stringImage
    _ a6 writeString_accepting
  obtain ⟨d8, a8⟩ := writeOptional_accepting This.sProduct
    (fun s v => Stream_WriteAdvertiseInfo s v EXP_SZ_ICON_SIG)
    (fun b => advertiseImage b EXP_SZ_ICON_SIG) _ a7
    (fun s v hs => writeAdvertiseInfo_accepting s v _ hs)
  obtain ⟨d9, a9⟩ := writeOptional_accepting This.sComponent
    (fun s v => Stream_WriteAdvertiseInfo s v EXP_DARWIN_ID_SIG)
    (fun b => advertiseImage b EXP_DARWIN_ID_SIG) _ a8
    (fun s v hs => writeAdvertiseInfo_accepting s v _ hs)
  obtain ⟨_, d10, _⟩ := write_accepting _ (le32 0) a9
  rw [d10, d9, d8, d7, d6, d5, d4, d3]
  simp only [List.append_assoc]
  rfl

/-- The bytes of a save that stays inside its locals. On a stream that accepts every write,
for an object whose target path fits the `MAX_PATH` units of the local `exePath` and whose
label array holds a terminator, `IPersistStream_fnSave` returns `S_OK` and appends exactly:
the 76-byte header, whose first field is 0x4C and whose bytes 4 to 19 are `CLSID_ShellLink`;
what `ILSaveToStream` appended for the id list, if there is one; the location block, if there
is a target path; the strings of the description, the relative path, the working directory,
the arguments and the icon path, each if present and in this order; the advertised-info block
of the product and that of the component, each if present; and four zero bytes. -/
theorem save_emits_sections_in_order (env : Collaborators) (This : IShellLinkImpl)
    (w : WStream) (idList exePath : List Nat) (hacc : Accepting w)
    (hid : match This.pPidl with
      | none => idList = []
      | some pidl => ∀ w1, Accepting w1 → FAILED (env.ILSaveToStream w1 pidl).1 = false
          ∧ (env.ILSaveToStream w1 pidl).2.data = w1.data ++ idList
          ∧ Accepting (env.ILSaveToStream w1 pidl).2)
    (hexe : saveExePath env This = some exePath)
    (hlabel : This.sPath ≠ none → 0 ∈ This.volume.label) :
    ∃ header w1, IPersistStream_fnSave env This w = some (S_OK, w1)
      ∧ header.length = 76 ∧ u32At header 0 = 0x4C
      ∧ (header.drop 4).take 16 = CLSID_ShellLink
      ∧ w1.data = w.data ++ (header ++ (idList
          ++ (optImage This.sPath (fun _ => locationImage exePath This.volume)
          ++ (optImage This.sDescription stringImage
          ++ (optImage This.sPathRel stringImage
          ++ (optImage This.sWorkDir stringImage
          ++ (optImage This.sArgs stringImage
          ++ (optImage This.sIcoPath stringImage
          ++ (optImage This.sProduct (fun b => advertiseImage b EXP_SZ_ICON_SIG)
          ++ (optImage This.sComponent (fun b => advertiseImage b EXP_DARWIN_ID_SIG)
          ++ [0, 0, 0, 0])))))))))) := by
  obtain ⟨k1, k2, k3⟩ := write_accepting w (saveHeader env This) hacc
  obtain ⟨f1, f2, _⟩ := saveHeader_fields env This
  -- the stream after the id list
  obtain ⟨w1, hw1a, hw1d, hstep⟩ : ∃ w1 : WStream, Accepting w1
      ∧ w1.data = w.data ++ saveHeader env This ++ idList
      ∧ IPersistStream_fnSave env This w
        = (match (match This.sPath with
            | none => some w1
            | some _ => (Stream_WriteLocationInfo w1 exePath This.volume).map (fun x => x.2))
          with
          | none => none
          | some stm2 => some (S_OK, (IStream_Write (writeOptional This.sComponent
              (fun s v => Stream_WriteAdvertiseInfo s v EXP_DARWIN_ID_SIG)
              (writeOptional This.sProduct
                (fun s v => Stream_WriteAdvertiseInfo s v EXP_SZ_ICON_SIG)
              (writeOptional This.sIcoPath Stream_WriteString
              (writeOptional This.sArgs Stream_WriteString
              (writeOptional This.sWorkDir Stream_WriteString
              (writeOptional This.sPathRel Stream_WriteString
              (writeOptional This.sDescription Stream_WriteString stm2)))))))
              (le32 0)).2)) := by
    cases hpp : This.pPidl with
    | none =>
      rw [hpp] at hid
      simp only at hid
      refine ⟨_, k3, by rw [k2, hid, List.append_nil], ?_⟩
      unfold IPersistStream_fnSave
      simp only [hexe, k1, FAILED_S_OK, Bool.false_eq_true, if_false, hpp, Option.isSome_none,
        false_and]
      cases This.sPath <;> rfl
    | some pidl =>
      rw [hpp] at hid
      obtain ⟨q1, q2, q3⟩ := hid _ k3
      refine ⟨_, q3, by rw [q2, k2], ?_⟩
      unfold IPersistStream_fnSave
      simp only [hexe, k1, FAILED_S_OK, Bool.false_eq_true, if_false, hpp, q1, and_false]
      cases This.sPath <;> rfl
  refine ⟨saveHeader env This, ?_⟩
  cases hsp : This.sPath with
  | none =>
    rw [hsp] at hstep
    refine ⟨_, hstep, length_saveHeader env This, f1, f2, ?_⟩
    have e : optImage (none : Option (List Nat))
        (fun _ => locationImage exePath This.volume) = [] := rfl
    rw [save_strings_accepting This w1 hw1a, hw1d, e, List.nil_append]
    simp only [List.append_assoc]
  | some b =>
    have hz := hlabel (by rw [hsp]; exact Option.some_ne_none b)
    obtain ⟨x, hx, hd, ha⟩ := writeLocationInfo_accepting w1 exePath This.volume hw1a hz
    rw [hsp] at hstep
    simp only [hx, Option.map_some'] at hstep
    refine ⟨_, hstep, length_saveHeader env This, f1, f2, ?_⟩
    have e : optImage (some b) (fun _ => locationImage exePath This.volume)
        = locationImage exePath This.volume := rfl
    rw [save_strings_accepting This x.2 ha, hd, hw1d, e]
    simp only [List.append_assoc]

theorem save_emits_sections_in_order_witness :
    ∃ header w1, IPersistStream_fnSave plainCollaborators sampleLink emptyStream
        = some (S_OK, w1)
      ∧ header.length = 76 ∧ u32At header 0 = 0x4C
      ∧ (header.drop 4).take 16 = CLSID_ShellLink
      ∧ w1.data = emptyStream.data ++ (header ++ ([3, 0, 1, 2, 3]
          ++ (optImage sampleLink.sPath
                (fun _ => locationImage (units "C:\\a.exe") sampleLink.volume)
          ++ (optImage sampleLink.sDescription stringImage
          ++ (optImage sampleLink.sPathRel stringImage
          ++ (optImage sampleLink.sWorkDir stringImage
          ++ (optImage sampleLink.sArgs stringImage
          ++ (optImage sampleLink.sIcoPath stringImage
          ++ (optImage sampleLink.sProduct (fun b => advertiseImage b EXP_SZ_ICON_SIG)
          ++ (optImage sampleLink.sComponent (fun b => advertiseImage b EXP_DARWIN_ID_SIG)
          ++ [0, 0, 0, 0])))))))))) :=
  save_emits_sections_in_order plainCollaborators sampleLink emptyStream [3, 0, 1, 2, 3]
    (units "C:\\a.exe") (fun _ => rfl)
    (fun w1 h1 => by
      obtain ⟨a, b, c⟩ := write_accepting w1 [3, 0, 1, 2, 3] h1
      exact ⟨by
        show FAILED (IStream_Write w1 [3, 0, 1, 2, 3]).1 = false
        rw [a]; rfl, b, c⟩)
    (by decide) (fun _ => by decide)

set_option maxRecDepth 100000 in
/-- C23 (code defect, evaluated): a record whose target path has 260 characters, for which
`SHELL_FindExecutable` finds nothing. `IPersistStream_fnSave` copies the path with
`lstrcpyW(exePath, This->sPath)` into the `MAX_PATH` units of its local before it writes
anything: the 260 characters and the terminator do not fit, and the call does not return
the bytes of a header, a location block and a terminator (the outcome `none` of the
embedding), whatever the stream. The program produces such a record: `ShellLink_UpdatePath`
stores a hint of 260 characters as the target path when no candidate exists. A target path
of 259 characters is saved. -/
theorem save_overruns_exePath :
    lstrlenW longPath = MAX_PATH
    ∧ chr (plainCollaborators.SHELL_FindExecutable longPath) 0 = 0
    ∧ saveExePath plainCollaborators longPathLink = none
    ∧ (∀ w, IPersistStream_fnSave plainCollaborators longPathLink w = none)
    ∧ ShellLink_UpdatePath bareShell (some longPath) (some (units "/links/a.lnk")) none none
        = some (S_OK, some longPath, [longPath])
    ∧ (IPersistStream_fnSave plainCollaborators
          { IShellLink_Constructor with sPath := some (longPath.take 259) } emptyStream).map
        (fun x => x.1) = some S_OK := by
  refine ⟨by decide, by decide, by decide, ?_, by decide, by decide⟩
  intro w
  have h : saveExePath plainCollaborators longPathLink = none := by decide
  unfold IPersistStream_fnSave
  rw [h]

/-- What `Stream_LoadString` does on a stream that holds the two count bytes and the payload
it then asks for: with count `n` it takes `2 * n mod 65536` bytes in wide mode and `n` bytes
in narrow mode. -/
theorem loadString_payload (c0 c1 : Nat) (payload rest : List Nat) (unicode : Bool)
    (old : Option (List Nat))
    (hlen : payload.length
      = if unicode then (u16 [c0, c1] * 2) % 65536 else u16 [c0, c1]) :
    Stream_LoadString (c0 :: c1 :: (payload ++ rest)) unicode old
      = (S_OK, some (if unicode then wideUnits payload else payload.map mbtowc), rest) := by
  unfold Stream_LoadString
  simp only [IStream_Read, List.take_succ_cons, List.take_zero, List.drop_succ_cons,
    List.drop_zero, List.length_cons, List.length_nil, ne_eq, not_true_eq_false, if_false]
  rw [← hlen, List.take_left' rfl, List.drop_left' rfl]
  cases unicode <;> simp

theorem lstrlenW_longText : lstrlenW longText = 32767 := by
  unfold lstrlenW longText
  rw [cstr_eq_self (fun h => absurd (List.eq_of_mem_replicate h) (by decide)),
    List.length_replicate]

theorem length_wide_longText : (wideBytes (longText ++ [0])).length = 65536 := by
  rw [length_wideBytes, List.length_append, longText, List.length_replicate]
  rfl

/-- C24 (code defect, evaluated): the stream holds the count 32768 (bytes `00 80`) followed by
32768 wide elements, 65536 bytes. Read in wide mode, `Stream_LoadString` returns `S_OK` with
the empty string and has consumed the two count bytes only: all 65536 payload bytes are still
in the stream. -/
theorem loadString_wide_count_32768 :
    (wideBytes (longText ++ [0])).length = 2 * 32768
    ∧ u16 [0x00, 0x80] = 32768
    ∧ Stream_LoadString ([0x00, 0x80] ++ wideBytes (longText ++ [0])) true none
      = (S_OK, some [], wideBytes (longText ++ [0])) := by
  refine ⟨length_wide_longText, by decide, ?_⟩
  have h := loadString_payload 0x00 0x80 [] (wideBytes (longText ++ [0])) true none (by decide)
  simpa [wideUnits] using h

theorem stringImage_longText : stringImage longText = [0x00, 0x80] := by
  unfold stringImage
  rw [lstrlenW_longText]
  rfl

theorem writeString_longText :
    Stream_WriteString emptyStream longText
      = (S_OK, { data := [0x00, 0x80], calls := 2, fails := fun _ => false }) := by
  unfold Stream_WriteString
  rw [lstrlenW_longText]
  rfl

/-- C25 (code defect, evaluated): for the text of 32767 units `a` on a stream that accepts
every write, `Stream_WriteString` returns `S_OK` and has stored two bytes in all: the count
32768 (`00 80`), followed by none of the 65536 bytes of the text and its terminator. -/
theorem writeString_drops_long_text :
    lstrlenW longText = 32767
    ∧ (Stream_WriteString emptyStream longText).1 = S_OK
    ∧ (Stream_WriteString emptyStream longText).2.data = [0x00, 0x80]
    ∧ u16 [0x00, 0x80] = 32767 + 1 := by
  rw [writeString_longText]
  exact ⟨lstrlenW_longText, rfl, rfl, by decide⟩

/-- C26 (code defect, evaluated): the bytes `Stream_WriteString` stores for the text of 32767
units `a`, which holds no zero unit, are read back in wide mode with `S_OK`, the stream is
consumed to its end, and the string returned is empty, not the text. -/
theorem loadString_of_written_long_text :
    0 ∉ longText ∧ lstrlenW longText = 32767
    ∧ Stream_LoadString (Stream_WriteString emptyStream longText).2.data true none
      = (S_OK, some [], [])
    ∧ cstr ([] : List Nat) ≠ cstr longText := by
  refine ⟨fun h => absurd (List.eq_of_mem_replicate h) (by decide), lstrlenW_longText, ?_, ?_⟩
  · rw [writeString_longText]
    decide
  · intro h
    have := congrArg List.length h
    rw [show (cstr longText).length = 32767 from lstrlenW_longText] at this
    simp [cstr] at this

/-- What `Stream_WriteString` stores for a string of fewer than 32767 units: the count
`lstrlenW + 1` and the units of the string and its terminator, two bytes each. -/
theorem writeString_of_short (w : WStream) (b : List Nat) (hacc : Accepting w)
    (hlen : lstrlenW b < 32767) :
    (Stream_WriteString w b).2.data
        = w.data ++ (le16 (lstrlenW b + 1) ++ wideBytes (cstr b ++ [0]))
      ∧ (wideBytes (cstr b ++ [0])).length = 2 * (lstrlenW b + 1) := by
  have hl : (lstrlenW b + 1) % 65536 = lstrlenW b + 1 := by omega
  have hl2 : (lstrlenW b + 1) * 2 % 65536 = (wideBytes (cstr b ++ [0])).length := by
    rw [length_wideBytes]
    simp only [List.length_append, List.length_singleton, lstrlenW] at *
    omega
  refine ⟨?_, ?_⟩
  · rw [(writeString_accepting w b hacc).1, stringImage, hl, hl2, List.take_length]
  · rw [length_wideBytes]
    simp only [List.length_append, List.length_singleton, lstrlenW]

/-- The outcomes of `Stream_ReadChunk` on the streams it handles within the block it
allocates: fewer than four bytes give `E_FAIL`; with a size field of at least 4, a stream
that holds fewer than `size - 4` further bytes gives `E_FAIL`, and otherwise the chunk is the
size field followed by exactly `size - 4` payload bytes. -/
theorem readChunk_outcome (stm : List Nat) :
    (stm.length < 4 → Stream_ReadChunk stm = some (E_FAIL, [], []))
    ∧ (4 ≤ stm.length → 4 ≤ u32At stm 0 → stm.length < u32At stm 0 →
        Stream_ReadChunk stm = some (E_FAIL, [], []))
    ∧ (4 ≤ stm.length → 4 ≤ u32At stm 0 → u32At stm 0 ≤ stm.length →
        Stream_ReadChunk stm
          = some (S_OK, le32 (u32At stm 0) ++ (stm.drop 4).take (u32At stm 0 - 4),
              stm.drop (u32At stm 0))) := by
  have hu : u32 (stm.take 4) = u32At stm 0 := by
    unfold u32At
    rw [List.drop_zero]
    exact u32_take stm (Nat.le_refl 4)
  refine ⟨?_, ?_, ?_⟩
  · intro h
    unfold Stream_ReadChunk
    simp only [IStream_Read, List.length_take]
    rw [if_pos (by omega), List.drop_eq_nil_of_le (by omega)]
  · intro h4 hs hshort
    unfold Stream_ReadChunk
    simp only [IStream_Read, List.length_take, hu, List.length_drop, List.drop_drop]
    rw [if_neg (by omega), if_neg (by omega), if_pos (by omega),
      List.drop_eq_nil_of_le (by omega)]
  · intro h4 hs hfit
    unfold Stream_ReadChunk
    simp only [IStream_Read, List.length_take, hu, List.length_drop, List.drop_drop]
    rw [if_neg (by omega), if_neg (by omega), if_neg (by omega)]
    congr 4
    omega

/-- C27 (code defect, evaluated): on a stream whose size field declares 2 bytes in all,
`Stream_ReadChunk` does not return a failure code: it goes on to store the size field in, and
to read the rest of the stream into, a block of 2 bytes (the outcome `none` of the embedding),
whatever follows the size field. A declared size of 4 is handled. -/
theorem readChunk_declared_size_below_four :
    u32At [2, 0, 0, 0, 1, 2, 3] 0 = 2
    ∧ Stream_ReadChunk [2, 0, 0, 0, 1, 2, 3] = none
    ∧ (∀ rest, Stream_ReadChunk ([2, 0, 0, 0] ++ rest) = none)
    ∧ Stream_ReadChunk [4, 0, 0, 0, 1, 2, 3] = some (S_OK, [4, 0, 0, 0], [1, 2, 3]) := by
  refine ⟨by decide, by decide, ?_, by decide⟩
  intro rest
  unfold Stream_ReadChunk
  simp only [IStream_Read, List.cons_append, List.nil_append, List.take_succ_cons,
    List.take_zero, List.length_cons, List.length_nil, ne_eq, not_true_eq_false, if_false]
  rw [if_pos (by decide)]

theorem u32At_le32_append (n : Nat) (l : List Nat) (h : n < 4294967296) :
    u32At (le32 n ++ l) 0 = n := by
  unfold u32At
  rw [List.drop_zero]
  exact u32_le32 n l h

theorem u32At_zero_lt (stm : List Nat) : u32At stm 0 < 4294967296 := by
  unfold u32At
  exact u32_lt _

/-- C28: on a stream whose size field declares a chunk of at least 4 and fewer than 28 bytes
(the size of `LOCATION_INFO`), `Stream_LoadLocation` returns `E_FAIL` and leaves the volume
and the path as they were. -/
theorem loadLocation_rejects_short_chunk (stm : List Nat) (volume : volume_info)
    (path : Option (List Nat)) (h4 : 4 ≤ u32At stm 0)
    (h28 : u32At stm 0 < sizeof_LOCATION_INFO) :
    ∃ rest, Stream_LoadLocation stm volume path = some (E_FAIL, volume, path, rest) := by
  obtain ⟨o1, o2, o3⟩ := readChunk_outcome stm
  by_cases hl : stm.length < 4
  · refine ⟨[], ?_⟩
    unfold Stream_LoadLocation
    rw [o1 hl]
    rfl
  by_cases hs : stm.length < u32At stm 0
  · refine ⟨[], ?_⟩
    unfold Stream_LoadLocation
    rw [o2 (by omega) h4 hs]
    rfl
  · refine ⟨stm.drop (u32At stm 0), ?_⟩
    unfold Stream_LoadLocation
    rw [o3 (by omega) h4 (by omega)]
    simp only [FAILED_S_OK, Bool.false_eq_true, if_false,
      u32At_le32_append _ _ (u32At_zero_lt stm), h28, if_true]

theorem loadLocation_rejects_short_chunk_witness :
    ∃ rest, Stream_LoadLocation (le32 27 ++ List.replicate 23 7 ++ [1, 2])
        ⟨3, 5, List.replicate 12 0⟩ (some [97])
      = some (E_FAIL, ⟨3, 5, List.replicate 12 0⟩, some [97], rest) :=
  loadLocation_rejects_short_chunk (le32 27 ++ List.replicate 23 7 ++ [1, 2])
    ⟨3, 5, List.replicate 12 0⟩ (some [97]) (by decide) (by decide)

theorem loadPath_scan_inside (mem : List Nat) (maxlen k len : Nat)
    (hobj : mem.length + k ≤ maxlen)
    (h : Stream_LoadPath_scan mem maxlen k = some len) :
    len = k + (mem.takeWhile (fun b => b % 256 ≠ 0)).length
      ∧ mem.take (len - k) = mem.takeWhile (fun b => b % 256 ≠ 0) := by
  induction mem generalizing k with
  | nil => simp [Stream_LoadPath_scan] at h
  | cons b rest ih =>
    simp only [List.length_cons] at hobj
    rw [Stream_LoadPath_scan] at h
    by_cases hb : b % 256 = 0
    · rw [if_pos hb] at h
      cases h
      simp [List.takeWhile_cons, hb]
    · rw [if_neg hb, if_pos (by omega)] at h
      obtain ⟨e1, e2⟩ := ih (k + 1) (by omega) h
      have htw : (b :: rest).takeWhile (fun b => b % 256 ≠ 0)
          = b :: rest.takeWhile (fun b => b % 256 ≠ 0) := by
        simp [List.takeWhile_cons, hb]
      rw [htw, List.length_cons]
      refine ⟨by omega, ?_⟩
      rw [show len - k = (len - (k + 1)) + 1 by omega, List.take_succ_cons, e2]

/-- What `Stream_LoadLocation` sets on a chunk of at least 28 bytes whose offsets keep every
read inside the chunk (the sum of the volume-table offset and 16 does not wrap, the label
bytes that are converted and the local path with its terminator lie in the chunk): the
decode returns `S_OK`; volume type and serial are those of the sub-record if the volume-table
offset is non-zero and offset + 16 is at most the total size, and the volume is as it was
otherwise; the path is the narrow string at the local-path offset if that offset is non-zero
and below the total size, and as it was otherwise. -/
theorem loadLocation_inside (stm p stm1 : List Nat) (volume : volume_info)
    (path : Option (List Nat))
    (hchunk : Stream_ReadChunk stm = some (S_OK, p, stm1))
    (h28 : sizeof_LOCATION_INFO ≤ u32At p 0)
    (hwrap : u32At p 12 + sizeof_LOCAL_VOLUME_INFO < 4294967296)
    (hlabel : u32At p 12 ≠ 0 → u32At p 12 + sizeof_LOCAL_VOLUME_INFO ≤ u32At p 0 →
      ∃ x, Stream_LoadVolume p (u32At p 12) volume = some x)
    (hpath : PathInside p) :
    ∃ v1 path1, Stream_LoadLocation stm volume path = some (S_OK, v1, path1, stm1)
      ∧ (if u32At p 12 ≠ 0 ∧ u32At p 12 + sizeof_LOCAL_VOLUME_INFO ≤ u32At p 0
          then v1.type = u32At p (u32At p 12 + 4) ∧ v1.serial = u32At p (u32At p 12 + 8)
          else v1 = volume)
      ∧ (if u32At p 16 ≠ 0 ∧ u32At p 16 < u32At p 0
          then path1 = some (((p.drop (u32At p 16)).takeWhile (fun b => b % 256 ≠ 0)).map
            mbtowc)
          else path1 = path) := by
  obtain ⟨hlen, _⟩ := readChunk_ok stm p stm1 hchunk
  -- the volume step
  obtain ⟨v1, hv1, hv1f⟩ : ∃ v1 : volume_info,
      (if u32At p 12 ≠ 0
            ∧ (u32At p 12 + sizeof_LOCAL_VOLUME_INFO) % 4294967296 ≤ u32At p 0 then
          (Stream_LoadVolume p (u32At p 12) volume).map (fun x => x.2)
        else some volume) = some v1
      ∧ (if u32At p 12 ≠ 0 ∧ u32At p 12 + sizeof_LOCAL_VOLUME_INFO ≤ u32At p 0
          then v1.type = u32At p (u32At p 12 + 4) ∧ v1.serial = u32At p (u32At p 12 + 8)
          else v1 = volume) := by
    rw [Nat.mod_eq_of_lt hwrap]
    by_cases hc : u32At p 12 ≠ 0 ∧ u32At p 12 + sizeof_LOCAL_VOLUME_INFO ≤ u32At p 0
    · obtain ⟨x, hx⟩ := hlabel hc.1 hc.2
      refine ⟨x.2, by rw [if_pos hc, hx]; rfl, ?_⟩
      rw [if_pos hc]
      have hpk : peek p (u32At p 12) sizeof_LOCAL_VOLUME_INFO
          = some ((p.drop (u32At p 12)).take 16) := by
        unfold peek
        rw [if_pos (by rw [hlen]; exact hc.2)]
        rfl
      have h4 := u32At_window p (u32At p 12) 4 (by omega)
      have h8 := u32At_window p (u32At p 12) 8 (by omega)
      unfold Stream_LoadVolume at hx
      rw [hpk] at hx
      simp only [h4, h8] at hx
      split at hx
      · cases hx; exact ⟨rfl, rfl⟩
      split at hx
      · cases hx; exact ⟨rfl, rfl⟩
      split at hx
      · cases hx
      split at hx
      · cases hx
      · cases hx; exact ⟨rfl, rfl⟩
    · exact ⟨volume, by rw [if_neg hc], by rw [if_neg hc]⟩
  -- the path step
  by_cases hn : u32At p 16 ≠ 0 ∧ u32At p 16 < u32At p 0
  · obtain ⟨s, hs⟩ := hpath hn.1 hn.2
    have hs' := hs
    unfold Stream_LoadPath at hs'
    obtain ⟨len, hscan, hlen2⟩ := Option.map_eq_some'.mp hs'
    obtain ⟨_, e2⟩ := loadPath_scan_inside _ _ 0 len
      (by rw [List.length_drop, hlen]; omega) hscan
    rw [Nat.sub_zero] at e2
    refine ⟨v1, some s, ?_, hv1f, ?_⟩
    · unfold Stream_LoadLocation
      simp only [hchunk, FAILED_S_OK, Bool.false_eq_true, if_false,
        show ¬ u32At p 0 < sizeof_LOCATION_INFO by omega, hv1, hn, and_self, if_true, hs,
        ne_eq, not_false_eq_true]
    · rw [if_pos hn, ← hlen2, e2]
  · refine ⟨v1, path, ?_, hv1f, by rw [if_neg hn]⟩
    unfold Stream_LoadLocation
    simp only [hchunk, FAILED_S_OK, Bool.false_eq_true, if_false,
      show ¬ u32At p 0 < sizeof_LOCATION_INFO by omega, hv1, hn, if_false]

/-- C29 (code defect, evaluated): the chunk of 28 bytes with volume-table offset 0xFFFFFFF0
and local-path offset 0 is delivered by the chunk reader. The offset is non-zero, and
offset + 16 exceeds the total size, but computed in 32 bits the sum is 0, so the test
`dwVolTableOfs + sizeof(LOCAL_VOLUME_INFO) <= dwTotalSize` holds and `Stream_LoadVolume` is
given the address `&p[0xFFFFFFF0]`: the decode does not end with `S_OK` and the volume left
as it was, it reads the volume fields outside the chunk (the outcome `none` of the
embedding). -/
theorem loadLocation_wrapped_volume_offset :
    Stream_ReadChunk wrappedOffsetChunk = some (S_OK, wrappedOffsetChunk, [])
    ∧ u32At wrappedOffsetChunk 0 = 28
    ∧ u32At wrappedOffsetChunk 12 = 0xFFFFFFF0
    ∧ ¬ (0xFFFFFFF0 + sizeof_LOCAL_VOLUME_INFO ≤ 28)
    ∧ (0xFFFFFFF0 + sizeof_LOCAL_VOLUME_INFO) % 4294967296 ≤ 28
    ∧ Stream_LoadVolume wrappedOffsetChunk 0xFFFFFFF0 ⟨0, 0, List.replicate 12 0⟩ = none
    ∧ Stream_LoadLocation wrappedOffsetChunk ⟨0, 0, List.replicate 12 0⟩ none = none := by
  decide

/-- C30 (code defect, evaluated): two chunks that the chunk reader delivers and whose header
`Stream_LoadLocation` accepts. In the first, of 30 bytes, the local path starts at offset 28
and has no zero byte: the loop of `Stream_LoadPath` tests `p[len]` before `len < maxlen` and
so reads `p[2]` of the path, byte 30 of the chunk. In the second, of 44 bytes, the volume
sub-record at offset 28 lies in the chunk and declares its label at offset 44: the
conversion reads the label bytes from byte 44 of the chunk on. Both decodes read past the end
of the chunk (the outcome `none` of the embedding); with one more byte in the chunk, a zero
that ends the path, the first decode stays inside. -/
theorem loadLocation_reads_past_chunk :
    (Stream_ReadChunk unterminatedPathChunk = some (S_OK, unterminatedPathChunk, [])
      ∧ unterminatedPathChunk.length = 30 ∧ u32At unterminatedPathChunk 0 = 30
      ∧ u32At unterminatedPathChunk 16 = 28
      ∧ Stream_LoadPath (unterminatedPathChunk.drop 28) (30 - 28) = none
      ∧ Stream_LoadLocation unterminatedPathChunk ⟨0, 0, List.replicate 12 0⟩ none = none)
    ∧ (Stream_ReadChunk outsideLabelChunk = some (S_OK, outsideLabelChunk, [])
      ∧ outsideLabelChunk.length = 44 ∧ u32At outsideLabelChunk 0 = 44
      ∧ u32At outsideLabelChunk 12 = 28 ∧ 28 + sizeof_LOCAL_VOLUME_INFO ≤ 44
      ∧ u32At outsideLabelChunk (28 + 12) = 16
      ∧ Stream_LoadVolume outsideLabelChunk 28 ⟨0, 0, List.replicate 12 0⟩ = none
      ∧ Stream_LoadLocation outsideLabelChunk ⟨0, 0, List.replicate 12 0⟩ none = none)
    ∧ Stream_LoadLocation
        (le32 31 ++ le32 28 ++ le32 1 ++ le32 0 ++ le32 28 ++ le32 0 ++ le32 0 ++ [97, 98, 0])
        ⟨0, 0, List.replicate 12 0⟩ none
      = some (S_OK, ⟨0, 0, List.replicate 12 0⟩, some [97, 98], []) := by
  refine ⟨?_, ?_, ?_⟩ <;> decide

/-- C39: on a stream that starts with the two bytes of a count `n`, `Stream_LoadString` asks
for `2 * n mod 65536` payload bytes in wide mode and for `n` in narrow mode: when the stream
holds that many it returns `S_OK` and has consumed exactly the count and that many bytes, and
when it holds fewer it returns `E_FAIL`. For `n` of 32768 or more the wide byte count is
less than `2 * n`. -/
theorem loadString_byte_count (c0 c1 : Nat) (rest : List Nat) (unicode : Bool)
    (old : Option (List Nat)) :
    (u16 [c0, c1] < 65536)
    ∧ ((if unicode then (u16 [c0, c1] * 2) % 65536 else u16 [c0, c1]) ≤ rest.length →
        ∃ v, Stream_LoadString (c0 :: c1 :: rest) unicode old
          = (S_OK, some v,
              rest.drop (if unicode then (u16 [c0, c1] * 2) % 65536 else u16 [c0, c1])))
    ∧ (rest.length < (if unicode then (u16 [c0, c1] * 2) % 65536 else u16 [c0, c1]) →
        Stream_LoadString (c0 :: c1 :: rest) unicode old = (E_FAIL, old, []))
    ∧ (32768 ≤ u16 [c0, c1] → (u16 [c0, c1] * 2) % 65536 < 2 * u16 [c0, c1]) := by
  refine ⟨?_, ?_, ?_, ?_⟩
  · simp only [u16, byte, List.getD_cons_zero, List.getD_cons_succ]
    omega
  · intro h
    have := loadString_payload c0 c1
      (rest.take (if unicode then (u16 [c0, c1] * 2) % 65536 else u16 [c0, c1]))
      (rest.drop (if unicode then (u16 [c0, c1] * 2) % 65536 else u16 [c0, c1])) unicode old
      (by rw [List.length_take]; omega)
    rw [List.take_append_drop] at this
    exact ⟨_, this⟩
  · intro h
    unfold Stream_LoadString
    simp only [IStream_Read, List.take_succ_cons, List.take_zero, List.drop_succ_cons,
      List.drop_zero, List.length_cons, List.length_nil, ne_eq, not_true_eq_false, if_false,
      List.length_take]
    rw [if_pos (by omega), List.drop_eq_nil_of_le (by omega)]
  · intro h
    omega

theorem loadString_byte_count_witness :
    (∃ v, Stream_LoadString (0x00 :: 0x80 :: [1, 2, 3]) true none
        = (S_OK, some v, [1, 2, 3].drop (if true then (u16 [0x00, 0x80] * 2) % 65536
            else u16 [0x00, 0x80])))
    ∧ (∃ v, Stream_LoadString (0x02 :: 0x00 :: [65, 66, 67]) false none
        = (S_OK, some v, [65, 66, 67].drop (if false then (u16 [0x02, 0x00] * 2) % 65536
            else u16 [0x02, 0x00])))
    ∧ Stream_LoadString (0x02 :: 0x00 :: [65, 0, 66]) true (some [7]) = (E_FAIL, some [7], [])
    ∧ (u16 [0x00, 0x80] * 2) % 65536 < 2 * u16 [0x00, 0x80] :=
  ⟨(loadString_byte_count 0x00 0x80 [1, 2, 3] true none).2.1 (by decide),
    (loadString_byte_count 0x02 0x00 [65, 66, 67] false none).2.1 (by decide),
    (loadString_byte_count 0x02 0x00 [65, 0, 66] true (some [7])).2.2.1 (by decide),
    (loadString_byte_count 0x00 0x80 [] true none).2.2.2 (by decide)⟩

/-- C35: `SetRelativePath`, in both variants, stores the hint and sets `bDirty`, and calls
`ShellLink_UpdatePath` with the target path in the place of the link file path. Without a
target path that call returns `E_INVALIDARG` and the target path stays `NULL`; with a target
path it returns `S_OK` and the path stays what it was. In both cases no path is given to
`SHELL_ExistsFileW` and every other member is left as it was. -/
theorem setRelativePath_keeps_target (sh : Shell) (This : IShellLinkImpl)
    (pszPathRel : List Nat) :
    (This.sPath = none →
      IShellLinkW_fnSetRelativePath sh This pszPathRel
        = some (E_INVALIDARG, { This with sPathRel := some (cstr pszPathRel), bDirty := true })
      ∧ IShellLinkA_fnSetRelativePath sh This pszPathRel
        = some (E_INVALIDARG,
            { This with sPathRel := some (HEAP_strdupAtoW pszPathRel), bDirty := true }))
    ∧ (This.sPath ≠ none →
      IShellLinkW_fnSetRelativePath sh This pszPathRel
        = some (S_OK, { This with sPathRel := some (cstr pszPathRel), bDirty := true })
      ∧ IShellLinkA_fnSetRelativePath sh This pszPathRel
        = some (S_OK,
            { This with sPathRel := some (HEAP_strdupAtoW pszPathRel), bDirty := true }))
    ∧ (∀ rel, ∃ r, ShellLink_UpdatePath sh (some rel) This.sPath This.sWorkDir This.sPath
        = some (r, This.sPath, [])) := by
  refine ⟨?_, ?_, ?_⟩
  · intro h
    simp only [IShellLinkW_fnSetRelativePath, IShellLinkA_fnSetRelativePath, h,
      ShellLink_UpdatePath, Option.map_some', and_self]
  · intro h
    obtain ⟨p, hp⟩ := Option.ne_none_iff_exists'.mp h
    simp only [IShellLinkW_fnSetRelativePath, IShellLinkA_fnSetRelativePath, hp,
      ShellLink_UpdatePath, Option.map_some']
    constructor
    · cases This
      simp only at hp
      simp only [hp]
    · cases This
      simp only at hp
      simp only [hp]
  · intro rel
    cases h : This.sPath with
    | none => exact ⟨E_INVALIDARG, rfl⟩
    | some p => exact ⟨S_OK, rfl⟩

theorem setRelativePath_keeps_target_witness :
    (IShellLinkW_fnSetRelativePath scenarioShell hintedLink (units "x.exe")
        = some (E_INVALIDARG,
            { hintedLink with sPathRel := some (cstr (units "x.exe")), bDirty := true })
      ∧ IShellLinkA_fnSetRelativePath scenarioShell hintedLink (units "x.exe")
        = some (E_INVALIDARG,
            { hintedLink with sPathRel := some (HEAP_strdupAtoW (units "x.exe")),
                              bDirty := true }))
    ∧ (IShellLinkW_fnSetRelativePath scenarioShell targetLink (units "x.exe")
        = some (S_OK,
            { targetLink with sPathRel := some (cstr (units "x.exe")), bDirty := true })
      ∧ IShellLinkA_fnSetRelativePath scenarioShell targetLink (units "x.exe")
        = some (S_OK,
            { targetLink with sPathRel := some (HEAP_strdupAtoW (units "x.exe")),
                              bDirty := true })) :=
  ⟨(setRelativePath_keeps_target scenarioShell hintedLink (units "x.exe")).1 rfl,
    (setRelativePath_keeps_target scenarioShell targetLink (units "x.exe")).2.1 (by decide)⟩

/-- The file-level load on the runs in which the two calls it makes stay inside their
objects. When `SHCreateStreamOnFileW` fails, `IPersistFile_fnLoad` returns its code and
leaves the object, the dirty flag included, as it was. When the file is opened, whatever
code `r` and object `This1` the stream-level load gives, failure or not, the function goes
on to `ShellLink_UpdatePath` with the hint, the working directory and the target path of
`This1` and the file name as link path, stores the path that call gives, clears `bDirty`, and
returns `r`. -/
theorem fileLoad_clears_dirty_when_opened (env : Collaborators) (junk : Indeterminate)
    (sh : Shell) (SHCreateStreamOnFileW : Option (List Nat) → Nat → HRESULT × List Nat)
    (This : IShellLinkImpl) (pszFileName : Option (List Nat)) (dwMode : Nat) :
    (FAILED (SHCreateStreamOnFileW pszFileName
        (if dwMode = 0 then STGM_READ ||| STGM_SHARE_DENY_WRITE else dwMode)).1 = true →
      IPersistFile_fnLoad env junk sh SHCreateStreamOnFileW This pszFileName dwMode
        = some ((SHCreateStreamOnFileW pszFileName
            (if dwMode = 0 then STGM_READ ||| STGM_SHARE_DENY_WRITE else dwMode)).1, This, []))
    ∧ (∀ r This1 rest ru sPath probed,
      FAILED (SHCreateStreamOnFileW pszFileName
        (if dwMode = 0 then STGM_READ ||| STGM_SHARE_DENY_WRITE else dwMode)).1 = false →
      IPersistStream_fnLoad env junk This (SHCreateStreamOnFileW pszFileName
        (if dwMode = 0 then STGM_READ ||| STGM_SHARE_DENY_WRITE else dwMode)).2
        = some (r, This1, rest) →
      ShellLink_UpdatePath sh This1.sPathRel pszFileName This1.sWorkDir This1.sPath
        = some (ru, sPath, probed) →
      IPersistFile_fnLoad env junk sh SHCreateStreamOnFileW This pszFileName dwMode
        = some (r, { This1 with sPath := sPath, bDirty := false }, probed)) := by
  constructor
  · intro h
    simp only [IPersistFile_fnLoad, h, if_true]
  · intro r This1 rest ru sPath probed hc hl hu
    simp only [IPersistFile_fnLoad, hc, hl, hu, Bool.false_eq_true, if_false]

theorem fileLoad_clears_dirty_when_opened_witness :
    hintedLink.bDirty = true
    ∧ IPersistFile_fnLoad plainCollaborators ⟨[], []⟩ scenarioShell openNothing hintedLink
        (some (units "/links/a.lnk")) 0 = some (E_FAIL, hintedLink, [])
    ∧ IPersistFile_fnLoad plainCollaborators ⟨[], []⟩ scenarioShell openEmpty hintedLink
        (some (units "/links/a.lnk")) 0
      = some (E_FAIL,
          { hintedLink with sPath := some (units "/opt/app/app.exe"), bDirty := false },
          [units "/links/app.exe", units "/opt/app" ++ 92 :: units "app.exe"])
    ∧ IPersistFile_fnLoad plainCollaborators ⟨[], []⟩ scenarioShell openBlank hintedLink
        (some (units "/links/a.lnk")) 0
      = some (S_OK,
          { loadHeaderFields plainCollaborators hintedLink (sampleHeader 0) with
            sPath := none, bDirty := false }, []) :=
  ⟨rfl,
    (fileLoad_clears_dirty_when_opened plainCollaborators ⟨[], []⟩ scenarioShell openNothing
      hintedLink (some (units "/links/a.lnk")) 0).1 (by decide),
    (fileLoad_clears_dirty_when_opened plainCollaborators ⟨[], []⟩ scenarioShell openEmpty
      hintedLink (some (units "/links/a.lnk")) 0).2 E_FAIL hintedLink [] S_OK
      (some (units "/opt/app/app.exe"))
      [units "/links/app.exe", units "/opt/app" ++ 92 :: units "app.exe"]
      (by decide) (by decide) (by decide),
    (fileLoad_clears_dirty_when_opened plainCollaborators ⟨[], []⟩ scenarioShell openBlank
      hintedLink (some (units "/links/a.lnk")) 0).2 S_OK
      (loadHeaderFields plainCollaborators hintedLink (sampleHeader 0)) [] S_OK
      none [] (by decide) (by decide) (by decide)⟩

theorem length_linkCandidate (sh : Shell) (path rel : List Nat) :
    (cstr rel).length ≤ (linkCandidate sh path rel).length := by
  unfold linkCandidate
  simp only [List.length_append]
  omega

/-- A hint of `2*MAX_PATH` units or more, copied behind the directory of the link file, does
not fit the work buffer. -/
theorem updatePath_long_hint (sh : Shell) (rel lnk : List Nat) (wd : Option (List Nat))
    (h : 2 * MAX_PATH ≤ (cstr rel).length) :
    ShellLink_UpdatePath sh (some rel) (some lnk) wd none = none := by
  have := length_linkCandidate sh lnk rel
  unfold ShellLink_UpdatePath
  simp only
  rw [if_pos (by omega)]

set_option maxRecDepth 100000 in
/-- C37 (code defect, evaluated): a file that can be opened and holds a header, a relative
path of 520 characters and the terminator. The stream-level load succeeds and leaves the hint
of 520 characters, no target path and no working directory. `IPersistFile_fnLoad` then calls
`ShellLink_UpdatePath`, which copies the hint with `lstrcpyW(final, sPathRel)` into its work
buffer of `2*MAX_PATH` units: the 520 characters and the terminator do not fit it, whatever the
file system and the name of the link file are. The call does not return with the target path
resolved and `bDirty` cleared (the outcome `none` of the embedding). A file with a hint of 519
characters is loaded, and `bDirty` is clear afterwards. -/
theorem fileLoad_overruns_on_long_hint :
    longHint.length = 2 * MAX_PATH
    ∧ IPersistStream_fnLoad plainCollaborators ⟨[], []⟩ hintedLink longHintFile
      = some (S_OK,
          { loadHeaderFields plainCollaborators hintedLink (sampleHeader SLDF_HAS_RELPATH) with
            sPathRel := some longHint }, [])
    ∧ (∀ sh lnk wd, ShellLink_UpdatePath sh (some longHint) (some lnk) wd none = none)
    ∧ (∀ sh lnk dwMode, IPersistFile_fnLoad plainCollaborators ⟨[], []⟩ sh openLongHint
        hintedLink (some lnk) dwMode = none)
    ∧ (IPersistFile_fnLoad plainCollaborators ⟨[], []⟩ bareShell
        (fun _ _ => (S_OK, sampleHeader SLDF_HAS_RELPATH
          ++ stringSection false (longHint.take 519) ++ [0, 0, 0, 0]))
        hintedLink (some (units "/links/a.lnk")) 0).map
          (fun x => (x.1, x.2.1.sPath, x.2.1.bDirty))
      = some (S_OK, some (longHint.take 519), false) := by
  have hload : IPersistStream_fnLoad plainCollaborators ⟨[], []⟩ hintedLink longHintFile
      = some (S_OK,
          { loadHeaderFields plainCollaborators hintedLink (sampleHeader SLDF_HAS_RELPATH) with
            sPathRel := some longHint }, []) := by decide
  refine ⟨by decide, hload, ?_, ?_, by decide⟩
  · intro sh lnk wd
    exact updatePath_long_hint sh longHint lnk wd (by decide)
  · intro sh lnk dwMode
    unfold IPersistFile_fnLoad
    simp only [openLongHint, FAILED_S_OK, Bool.false_eq_true, if_false, hload]
    rw [show (loadHeaderFields plainCollaborators hintedLink
        (sampleHeader SLDF_HAS_RELPATH)).sWorkDir = none from rfl,
      show (loadHeaderFields plainCollaborators hintedLink
        (sampleHeader SLDF_HAS_RELPATH)).sPath = none from rfl,
      updatePath_long_hint sh longHint (lnk) none (by decide)]

theorem setPath_literal_members (sh : Shell) (This : IShellLinkImpl) (text : List Nat)
    (r0 : HRESULT) (hr0 : r0 ≠ S_OK)
    (hparse : ∀ T : IShellLinkImpl, ShellLink_SetAdvertiseInfo T text = some (r0, T))
    (r : HRESULT) (T : IShellLinkImpl)
    (h : IShellLinkW_fnSetPath sh This text = some (r, T)) :
    T.sComponent = none ∧ T.sProduct = This.sProduct := by
  unfold IShellLinkW_fnSetPath at h
  simp only [hparse, ne_eq, hr0, not_false_eq_true, if_true] at h
  split at h
  · cases h
  · cases h
    exact ⟨rfl, rfl⟩
  · cases h
    exact ⟨rfl, rfl⟩

/-- C36: for a text that the advertised parse answers with a code other than `S_OK`,
whatever `IShellLinkW_fnSetPath` returns, the component is `NULL` afterwards and the product
is what it was before; the call has such an outcome when the text is empty, when
`GetFullPathNameW` returns 0 (the outcome is then `E_FAIL`), and when it stores a full path.
So when the product was set before, `IShellLinkW_fnGetPath` on the object afterwards returns
`S_FALSE` and leaves the caller's buffer as it was. -/
theorem setPath_literal_keeps_product (sh : Shell) (This : IShellLinkImpl) (text : List Nat)
    (r0 : HRESULT) (hr0 : r0 ≠ S_OK)
    (hparse : ∀ T : IShellLinkImpl, ShellLink_SetAdvertiseInfo T text = some (r0, T)) :
    (∀ r T, IShellLinkW_fnSetPath sh This text = some (r, T) →
      T.sComponent = none ∧ T.sProduct = This.sProduct
      ∧ (This.sProduct ≠ none → ∀ pszFile cchMaxPath,
          IShellLinkW_fnGetPath T pszFile cchMaxPath = some (S_FALSE, pszFile)))
    ∧ (chr text 0 = 0 → ∃ T, IShellLinkW_fnSetPath sh This text = some (S_OK, T))
    ∧ (chr text 0 ≠ 0 → (sh.GetFullPathNameW (cstr text) MAX_PATH).1 = 0 →
        ∃ T, IShellLinkW_fnSetPath sh This text = some (E_FAIL, T))
    ∧ (chr text 0 ≠ 0 → ∀ full, Canonical sh (cstr text) full →
        ∃ r T, IShellLinkW_fnSetPath sh This text = some (r, T) ∧ FAILED r = false
          ∧ T.sPath = some full) := by
  refine ⟨?_, ?_, ?_, ?_⟩
  · intro r T h
    obtain ⟨h1, h2⟩ := setPath_literal_members sh This text r0 hr0 hparse r T h
    refine ⟨h1, h2, ?_⟩
    intro hp pszFile cchMaxPath
    have hs : T.sComponent.isSome = true ∨ T.sProduct.isSome = true :=
      Or.inr (Option.isSome_iff_ne_none.mpr (by rw [h2]; exact hp))
    unfold IShellLinkW_fnGetPath
    rw [if_pos hs]
  · intro h0
    unfold IShellLinkW_fnSetPath
    simp only [hparse, ne_eq, hr0, not_false_eq_true, if_true, h0]
    exact ⟨_, rfl⟩
  · intro h0 hg
    unfold IShellLinkW_fnSetPath
    simp only [hparse, ne_eq, hr0, not_false_eq_true, if_true, h0, if_false, hg]
    exact ⟨_, rfl⟩
  · intro h0 full hc
    obtain ⟨n, k, hg, hn, hne, hz⟩ := hc
    unfold IShellLinkW_fnSetPath
    simp only [hparse, ne_eq, hr0, not_false_eq_true, if_true, h0, if_false, hg, hn]
    refine ⟨_, _, rfl, ?_, ?_⟩
    · split <;> decide
    · simp only [cstr_eq_self hz]

theorem setPath_literal_keeps_product_witness :
    ∃ T1 r T2, IShellLinkW_fnSetPath scenarioShell IShellLink_Constructor advertisedText
        = some (S_OK, T1)
      ∧ T1.sProduct = some (units "prod")
      ∧ IShellLinkW_fnSetPath scenarioShell T1 (units "/links/a.lnk") = some (r, T2)
      ∧ T2.sPath = some (units "/links/a.lnk")
      ∧ T2.sComponent = none ∧ T2.sProduct = T1.sProduct
      ∧ ∀ pszFile cchMaxPath,
          IShellLinkW_fnGetPath T2 pszFile cchMaxPath = some (S_FALSE, pszFile) := by
  have h1 : IShellLinkW_fnSetPath scenarioShell IShellLink_Constructor advertisedText
      = some (S_OK, { IShellLink_Constructor with
          sProduct := some (units "prod"), sComponent := some (units "comp"),
          bDirty := true }) := by decide
  have hparse : ∀ T : IShellLinkImpl,
      ShellLink_SetAdvertiseInfo T (units "/links/a.lnk") = some (E_FAIL, T) := fun T => rfl
  have key := setPath_literal_keeps_product scenarioShell
    { IShellLink_Constructor with
      sProduct := some (units "prod"), sComponent := some (units "comp"), bDirty := true }
    (units "/links/a.lnk") E_FAIL (by decide) hparse
  obtain ⟨r, T2, h2, _, hp⟩ := key.2.2.2 (by decide) (units "/links/a.lnk")
    ⟨12, some 7, by decide, by decide, by decide, by decide⟩
  obtain ⟨k1, k2, k3⟩ := key.1 r T2 h2
  exact ⟨_, r, T2, h1, rfl, h2, hp, k1, k2, k3 (by decide)⟩

theorem component_ne_product : SHELL32_AdvtShortcutComponent ≠ SHELL32_AdvtShortcutProduct := by
  decide

/-- The loop returns a failure when the text is made of segments followed by a segment whose
GUID text reads as an identifier that is already taken: by a pointer found before, or by one
of the segments in front of it. -/
theorem advertiseLoop_repeated : ∀ (a : List (List Nat × List Nat)) (fuel : Nat)
    (g rest : List Nat) (szC szP : Option (List Nat)),
    (∀ gv ∈ a, Plain gv.1 ∧ Plain gv.2) →
    (segments a ++ segment g rest).length < fuel →
    ((CLSIDFromString g = (S_OK, SHELL32_AdvtShortcutComponent)
        ∧ (szC ≠ none ∨ ∃ gv ∈ a, CLSIDFromString gv.1 = (S_OK, SHELL32_AdvtShortcutComponent)))
      ∨ (CLSIDFromString g = (S_OK, SHELL32_AdvtShortcutProduct)
        ∧ (szP ≠ none
          ∨ ∃ gv ∈ a, CLSIDFromString gv.1 = (S_OK, SHELL32_AdvtShortcutProduct)))) →
    ∃ hr, FAILED hr = true
      ∧ advertiseLoop fuel (segments a ++ segment g rest) szC szP = some (.error hr) := by
  intro a
  induction a with
  | nil =>
    intro fuel g rest szC szP _ hlen hrep
    obtain ⟨f, rfl⟩ : ∃ f, fuel = f + 1 := ⟨fuel - 1, by omega⟩
    have hg : CLSIDFromString g = (S_OK, SHELL32_AdvtShortcutComponent)
        ∨ CLSIDFromString g = (S_OK, SHELL32_AdvtShortcutProduct) := by
      rcases hrep with h | h
      · exact Or.inl h.1
      · exact Or.inr h.1
    have hplain : g.length = 38 ∧ Plain g := by
      rcases hg with h | h
      · exact CLSIDFromString_plain g _ h
      · exact CLSIDFromString_plain g _ h
    have hstr : segments [] ++ segment g rest = 58 :: 58 :: (g ++ 58 :: rest) := by
      simp [segments, segment]
    rw [hstr, advertiseLoop_unfold f g rest szC szP hplain.2]
    rw [if_neg (by simp [hplain.1])]
    refine ⟨E_FAIL, FAILED_E_FAIL, ?_⟩
    rcases hrep with ⟨h, hs⟩ | ⟨h, hs⟩
    · have hsz : szC ≠ none := by
        rcases hs with hs | ⟨gv, hgv, _⟩
        · exact hs
        · cases hgv
      rw [h]
      simp only [ne_eq, not_true_eq_false, if_false, hsz, and_false, component_ne_product,
        false_and]
    · have hsz : szP ≠ none := by
        rcases hs with hs | ⟨gv, hgv, _⟩
        · exact hs
        · cases hgv
      rw [h]
      simp only [ne_eq, not_true_eq_false, if_false, hsz, and_false,
        component_ne_product.symm, false_and]
  | cons gv0 a ih =>
    intro fuel g rest szC szP ha hlen hrep
    obtain ⟨f, rfl⟩ : ∃ f, fuel = f + 1 := ⟨fuel - 1, by omega⟩
    have hgv := ha gv0 (List.mem_cons_self _ _)
    have ha1 : ∀ x ∈ a, Plain x.1 ∧ Plain x.2 :=
      fun x hx => ha x (List.mem_cons_of_mem _ hx)
    obtain ⟨tl, htl⟩ : ∃ tl, segments a ++ segment g rest = 58 :: tl := by
      cases a with
      | nil => exact ⟨_, by simp [segments, segment]; rfl⟩
      | cons x xs => exact ⟨_, by simp [segments, segment]; rfl⟩
    have hstr : segments (gv0 :: a) ++ segment g rest
        = 58 :: 58 :: (gv0.1 ++ 58 :: (gv0.2 ++ 58 :: tl)) := by
      have : segments (gv0 :: a) ++ segment g rest
          = segment gv0.1 gv0.2 ++ (segments a ++ segment g rest) := by
        simp [segments]
      rw [this, htl]
      simp [segment]
    have hlen1 : (segments a ++ segment g rest).length < f := by
      rw [hstr] at hlen
      rw [htl]
      simp only [List.length_cons, List.length_append] at hlen ⊢
      omega
    have hscan : strchrW (gv0.2 ++ 58 :: tl) 58 = some (58 :: tl) := strchrW_append _ hgv.2
    rw [hstr, advertiseLoop_unfold f gv0.1 _ szC szP hgv.1, hscan, ← htl]
    by_cases h1 : gv0.1.length ≠ 38
    · exact ⟨E_FAIL, FAILED_E_FAIL, by rw [if_pos h1]⟩
    rw [if_neg h1]
    by_cases h2 : (CLSIDFromString gv0.1).1 ≠ S_OK
    · rw [if_pos h2]
      refine ⟨_, ?_, rfl⟩
      rcases CLSIDFromString_code gv0.1 with h | h
      · exact absurd h h2
      · rw [h]; decide
    rw [if_neg h2]
    have h2' : (CLSIDFromString gv0.1).1 = S_OK := by
      by_contra hc
      exact h2 hc
    by_cases hb1 : (CLSIDFromString gv0.1).2 = SHELL32_AdvtShortcutComponent ∧ szC = none
    · rw [if_pos hb1]
      apply ih f g rest (some (gv0.2 ++ (segments a ++ segment g rest))) szP ha1 hlen1
      rcases hrep with ⟨h, _⟩ | ⟨h, hs⟩
      · exact Or.inl ⟨h, Or.inl (by simp)⟩
      · refine Or.inr ⟨h, ?_⟩
        rcases hs with hs | ⟨gv, hmem, hgvp⟩
        · exact Or.inl hs
        · rcases List.mem_cons.mp hmem with e | hmem
          · subst e
            have := hb1.1
            rw [hgvp] at this
            exact absurd this.symm component_ne_product
          · exact Or.inr ⟨gv, hmem, hgvp⟩
    rw [if_neg hb1]
    by_cases hb2 : (CLSIDFromString gv0.1).2 = SHELL32_AdvtShortcutProduct ∧ szP = none
    · rw [if_pos hb2]
      apply ih f g rest szC (some (gv0.2 ++ (segments a ++ segment g rest))) ha1 hlen1
      rcases hrep with ⟨h, hs⟩ | ⟨h, _⟩
      · refine Or.inl ⟨h, ?_⟩
        rcases hs with hs | ⟨gv, hmem, hgvp⟩
        · exact Or.inl hs
        · rcases List.mem_cons.mp hmem with e | hmem
          · subst e
            have := hb2.1
            rw [hgvp] at this
            exact absurd this component_ne_product
          · exact Or.inr ⟨gv, hmem, hgvp⟩
      · exact Or.inr ⟨h, Or.inl (by simp)⟩
    · rw [if_neg hb2]
      exact ⟨E_FAIL, FAILED_E_FAIL, rfl⟩

/-- C38: a text made of segments (each `::`, a colon-free text, `:`, a colon-free value), one
of whose GUID texts reads as the product identifier or as the component identifier, followed
by a further segment whose GUID text reads as the same identifier, makes
`ShellLink_SetAdvertiseInfo` return a failure code and leave the object as it was, whatever
follows the GUID text of that further segment. -/
theorem setAdvertiseInfo_rejects_repeated_identifier (This : IShellLinkImpl)
    (a : List (List Nat × List Nat)) (g rest : List Nat) (guid : GUID)
    (ha : ∀ gv ∈ a, Plain gv.1 ∧ Plain gv.2) (hrest : 0 ∉ rest)
    (hguid : guid = SHELL32_AdvtShortcutProduct ∨ guid = SHELL32_AdvtShortcutComponent)
    (hfirst : ∃ gv ∈ a, CLSIDFromString gv.1 = (S_OK, guid))
    (hsecond : CLSIDFromString g = (S_OK, guid)) :
    ∃ hr, FAILED hr = true
      ∧ ShellLink_SetAdvertiseInfo This (segments a ++ segment g rest) = some (hr, This) := by
  have hg := (CLSIDFromString_plain g guid hsecond).2
  have hz : 0 ∉ segments a ++ segment g rest := by
    simp only [List.mem_append, not_or]
    refine ⟨zero_not_mem_segments a ha, ?_⟩
    simp only [segment, List.mem_cons, List.mem_append, not_or]
    exact ⟨by decide, by decide, fun h => (hg 0 h).2 rfl, by decide, hrest⟩
  obtain ⟨hr, hf, hloop⟩ := advertiseLoop_repeated a
    ((segments a ++ segment g rest).length + 1) g rest none none ha (by omega)
    (by
      rcases hguid with e | e
      · subst e; exact Or.inr ⟨hsecond, Or.inr hfirst⟩
      · subst e; exact Or.inl ⟨hsecond, Or.inr hfirst⟩)
  refine ⟨hr, hf, ?_⟩
  unfold ShellLink_SetAdvertiseInfo
  rw [cstr_eq_self hz, hloop]

theorem setAdvertiseInfo_rejects_repeated_identifier_witness :
    ∃ hr, FAILED hr = true
      ∧ ShellLink_SetAdvertiseInfo IShellLink_Constructor
          (segments [(componentText, units "a"), (productText, units "b")]
            ++ segment componentText (units "c::"))
        = some (hr, IShellLink_Constructor) :=
  setAdvertiseInfo_rejects_repeated_identifier IShellLink_Constructor
    [(componentText, units "a"), (productText, units "b")] componentText (units "c::")
    SHELL32_AdvtShortcutComponent (by decide) (by decide) (Or.inr rfl)
    ⟨(componentText, units "a"), by decide, by decide⟩ (by decide)

theorem length_advertiseImage (s : List Nat) (magic : Nat) :
    (advertiseImage s magic).length = sizeof_EXP_DARWIN_LINK := by
  simp only [advertiseImage, List.length_append, length_le32, length_padTo]
  rfl

/-- Reading back an advertised-info block gives the first `MAX_PATH - 1` units of the string
it was written for. -/
theorem loadAdvertiseInfo_truncated (junk s rest : List Nat) (magic : Nat)
    (old : Option (List Nat)) (hu : ∀ c ∈ cstr s, c < 65536)
    (hm : magic < 4294967296) (hsig : magic &&& 0xffff0000 = 0xa0000000) :
    Stream_LoadAdvertiseInfo junk (advertiseImage s magic ++ rest) old
      = some (S_OK, some ((cstr s).take 259), rest) := by
  obtain ⟨t, ht⟩ : ∃ t, t = (cstr s).take 259 := ⟨_, rfl⟩
  have hl : t.length ≤ 259 := by
    rw [ht, List.length_take]; omega
  have hut : ∀ c ∈ t, c < 65536 := fun c hc => hu c (List.mem_of_mem_take (ht ▸ hc))
  have hzt : 0 ∉ t := fun h => zero_not_mem_cstr s (List.mem_of_mem_take (ht ▸ h))
  set A := padTo MAX_PATH ((cstr s).map wctomb) with hA
  set W := padTo (2 * MAX_PATH) (wideBytes ((cstr s).take (MAX_PATH - 1))) with hW
  have lA : A.length = 260 := length_padTo _ _
  have lW : W.length = 520 := length_padTo _ _
  have e : advertiseImage s magic ++ rest
      = le32 sizeof_EXP_DARWIN_LINK ++ ((le32 magic ++ A ++ W) ++ rest) := by
    simp only [advertiseImage, List.append_assoc, ← hA, ← hW]
  have lB : (le32 magic ++ A ++ W).length = sizeof_EXP_DARWIN_LINK - 4 := by
    simp only [List.length_append, length_le32, lA, lW]; rfl
  have hWu : wideUnits W = t ++ List.replicate (260 - t.length) 0 := by
    have h1 : (cstr s).take (MAX_PATH - 1) = t := by rw [ht]; rfl
    rw [hW, h1, padTo_eq _ _ (by rw [length_wideBytes]; simp only [MAX_PATH]; omega),
      length_wideBytes,
      show 2 * MAX_PATH - 2 * t.length = 2 * (260 - t.length) by
        simp only [MAX_PATH]; omega,
      wideUnits_wideBytes_append _ _ hut]
  have hz : (0 : Nat) ∈ wideUnits W := by
    rw [hWu]
    apply List.mem_append_right
    rw [List.mem_replicate]
    exact ⟨by omega, rfl⟩
  have hc : cstr (wideUnits W) = t := by
    rw [hWu, show 260 - t.length = (259 - t.length) + 1 by omega, List.replicate_succ]
    exact cstr_append_zero _ hzt
  unfold Stream_LoadAdvertiseInfo
  simp only [IStream_Read, e]
  rw [List.take_left' (length_le32 _), List.drop_left' (length_le32 _),
    List.take_left' lB, List.drop_left' lB]
  have hs1 : u32 (le32 sizeof_EXP_DARWIN_LINK
        ++ List.drop (le32 sizeof_EXP_DARWIN_LINK).length junk)
      = sizeof_EXP_DARWIN_LINK := u32_le32 _ _ (by decide)
  have hs2 : u32 (le32 magic ++ A ++ W) = magic := by
    rw [List.append_assoc]; exact u32_le32 _ _ hm
  have hd : ((le32 magic ++ A ++ W).drop (4 + MAX_PATH)).take (2 * MAX_PATH) = W := by
    rw [List.drop_left' (by simp only [List.length_append, length_le32, lA]; rfl),
      List.take_of_length_le (by rw [lW]; decide)]
  simp only [hs1, hs2, hd, hsig, hz, hc, ne_eq, not_true_eq_false, if_false, if_true, lB, ht]

/-- C33: for a string of 16-bit units and either signature that `IPersistStream_fnSave`
passes, `Stream_WriteAdvertiseInfo` on a stream that accepts the write returns `S_OK` and
appends a block of exactly 0x314 bytes; `Stream_LoadAdvertiseInfo` reads that block back
with `S_OK`, takes nothing more from the stream, and returns the first 259 units of the
string, which is the string itself when it has at most 259 units. -/
theorem advertiseInfo_roundtrip_truncates (w : WStream) (s junk rest : List Nat)
    (magic : Nat) (old : Option (List Nat)) (hacc : Accepting w)
    (hu : ∀ c ∈ cstr s, c < 65536)
    (hmagic : magic = EXP_SZ_ICON_SIG ∨ magic = EXP_DARWIN_ID_SIG) :
    ∃ block, (Stream_WriteAdvertiseInfo w s magic).1 = S_OK
      ∧ (Stream_WriteAdvertiseInfo w s magic).2.data = w.data ++ block
      ∧ block.length = 0x314
      ∧ Stream_LoadAdvertiseInfo junk (block ++ rest) old
          = some (S_OK, some ((cstr s).take 259), rest)
      ∧ (lstrlenW s ≤ 259 → (cstr s).take 259 = cstr s)
      ∧ ((cstr s).take 259).length ≤ 259 ∧ 0 ∉ (cstr s).take 259 := by
  have hm : magic < 4294967296 ∧ magic &&& 0xffff0000 = 0xa0000000 := by
    rcases hmagic with e | e <;> subst e <;> decide
  refine ⟨advertiseImage s magic, ?_, (writeAdvertiseInfo_accepting w s magic hacc).1,
    length_advertiseImage s magic,
    loadAdvertiseInfo_truncated junk s rest magic old hu hm.1 hm.2,
    fun h => List.take_of_length_le h, by rw [List.length_take]; omega,
    fun h => zero_not_mem_cstr s (List.mem_of_mem_take h)⟩
  exact (write_accepting w _ hacc).1

theorem advertiseInfo_roundtrip_truncates_witness :
    ∃ block, (Stream_WriteAdvertiseInfo emptyStream (List.replicate 300 65)
          EXP_DARWIN_ID_SIG).1 = S_OK
      ∧ (Stream_WriteAdvertiseInfo emptyStream (List.replicate 300 65) EXP_DARWIN_ID_SIG).2.data
          = emptyStream.data ++ block
      ∧ block.length = 0x314
      ∧ Stream_LoadAdvertiseInfo [] (block ++ [1, 2]) none
          = some (S_OK, some ((cstr (List.replicate 300 65)).take 259), [1, 2])
      ∧ (lstrlenW (List.replicate 300 65) ≤ 259
          → (cstr (List.replicate 300 65)).take 259 = cstr (List.replicate 300 65))
      ∧ ((cstr (List.replicate 300 65)).take 259).length ≤ 259
      ∧ 0 ∉ (cstr (List.replicate 300 65)).take 259 :=
  advertiseInfo_roundtrip_truncates emptyStream (List.replicate 300 65) [] [1, 2]
    EXP_DARWIN_ID_SIG none (fun _ => rfl)
    (fun c hc => by
      have := List.eq_of_mem_replicate ((List.takeWhile_sublist _).subset hc)
      omega)
    (Or.inr rfl)

theorem cstr_store_label (prior lab : List Nat) (h1 : prior.length = 12)
    (h2 : chr prior 11 = 0) (hz : 0 ∉ lab) :
    (lab.length = 11 → cstr (store prior lab) = lab)
      ∧ cstr (store prior (lab ++ [0])) = lab := by
  constructor
  · intro h11
    unfold store
    rw [h11, drop_label prior h1 h2]
    exact cstr_append_zero [] hz
  · unfold store
    rw [List.append_assoc]
    exact cstr_append_zero _ hz

/-- `Stream_LoadLocation` on a block laid out as `Stream_WriteLocationInfo` lays it out, read
into a volume whose label array has 12 units, the last of them zero. -/
theorem loadLocation_block (total vis n fin type serial : Nat) (lab pth rest : List Nat)
    (volume : volume_info) (path : Option (List Nat))
    (hvis : vis = 17 + lab.length) (hn : n = 28 + vis) (htot : total = n + pth.length + 2)
    (hl : ∀ c ∈ lab, c < 256) (hlz : 0 ∉ lab) (hll : lab.length ≤ 11)
    (hp : ∀ c ∈ pth, c < 256) (hpz : 0 ∉ pth) (hpl : pth.length < 2147483584)
    (ht : type < 4294967296) (hs : serial < 4294967296)
    (h1 : volume.label.length = 12) (h2 : chr volume.label 11 = 0) :
    ∃ label, Stream_LoadLocation
      (le32 total ++ le32 28 ++ le32 1 ++ le32 28 ++ le32 n ++ le32 0 ++ le32 fin
        ++ le32 vis ++ le32 type ++ le32 serial ++ le32 16 ++ lab ++ [0] ++ pth ++ [0] ++ [0]
        ++ rest)
      volume path
      = some (S_OK, ⟨type, serial, label⟩, some pth, rest) ∧ cstr label = lab := by
  obtain ⟨p, hpdef⟩ : ∃ p, p = le32 total ++ le32 28 ++ le32 1 ++ le32 28 ++ le32 n ++ le32 0
      ++ le32 fin ++ le32 vis ++ le32 type ++ le32 serial ++ le32 16 ++ lab ++ [0] ++ pth
      ++ [0] ++ [0] := ⟨_, rfl⟩
  rw [← hpdef]
  simp only [List.append_assoc] at hpdef
  have hlen : p.length = total := by
    simp only [hpdef, List.length_append, length_le32, List.length_cons, List.length_nil]
    omega
  have hchunk := readChunk_image p _ rest total hpdef hlen (by omega)
  have h0 : u32At p 0 = total := by
    rw [u32At, List.drop_zero, hpdef]; exact u32_le32 _ _ (by omega)
  have h12 : u32At p 12 = 28 := by
    rw [u32At, hpdef, drop_le32, drop_le32, drop_le32, List.drop_zero]
    exact u32_le32 _ _ (by omega)
  have h16 : u32At p 16 = n := by
    rw [u32At, hpdef, drop_le32, drop_le32, drop_le32, drop_le32, List.drop_zero]
    exact u32_le32 _ _ (by omega)
  have hd28 : p.drop 28 = le32 vis ++ (le32 type ++ (le32 serial ++ (le32 16
        ++ (lab ++ ([0] ++ (pth ++ ([0] ++ [0]))))))) := by
    rw [hpdef, drop_le32, drop_le32, drop_le32, drop_le32, drop_le32, drop_le32, drop_le32,
      List.drop_zero]
  have hd44 : p.drop 44 = lab ++ ([0] ++ (pth ++ ([0] ++ [0]))) := by
    rw [show 44 = 28 + 16 by rfl, ← List.drop_drop, hd28, drop_le32, drop_le32, drop_le32,
      drop_le32, List.drop_zero]
  have hdn : p.drop n = pth ++ ([0] ++ [0]) := by
    rw [hn, hvis, show 28 + (17 + lab.length) = 44 + (lab.length + 1) by omega,
      ← List.drop_drop, hd44, ← List.append_assoc, List.drop_left' (by simp)]
  have hpeek1 : peek p 28 sizeof_LOCAL_VOLUME_INFO
      = some (le32 vis ++ le32 type ++ le32 serial ++ le32 16) := by
    unfold peek
    rw [if_pos (by rw [hlen]; simp only [sizeof_LOCAL_VOLUME_INFO]; omega), hd28]
    simp [le32, sizeof_LOCAL_VOLUME_INFO]
  have hv0 : u32At (le32 vis ++ le32 type ++ le32 serial ++ le32 16) 0 = vis := by
    rw [u32At, List.drop_zero, List.append_assoc, List.append_assoc]
    exact u32_le32 _ _ (by omega)
  have hv4 : u32At (le32 vis ++ le32 type ++ le32 serial ++ le32 16) 4 = type := by
    rw [u32At, List.append_assoc, List.append_assoc, drop_le32 _ 0, List.drop_zero]
    exact u32_le32 _ _ ht
  have hv8 : u32At (le32 vis ++ le32 type ++ le32 serial ++ le32 16) 8 = serial := by
    rw [u32At, List.append_assoc, List.append_assoc, drop_le32 _ 4, drop_le32 _ 0,
      List.drop_zero]
    exact u32_le32 _ _ hs
  have hv12 : u32At (le32 vis ++ le32 type ++ le32 serial ++ le32 16) 12 = 16 := by
    rw [u32At, List.append_assoc, List.append_assoc, drop_le32 _ 8, drop_le32 _ 4,
      drop_le32 _ 0, List.drop_zero]
    rfl
  obtain ⟨hs11, hsz⟩ := cstr_store_label volume.label lab h1 h2 hlz
  have hlabel : ∃ src, peek p (28 + 16) (min (vis - 16) 11) = some src
      ∧ cstr (store volume.label (src.map mbtowc)) = lab := by
    unfold peek
    rw [if_pos (by rw [hlen]; omega), hd44]
    by_cases h11 : lab.length = 11
    · refine ⟨lab, ?_, ?_⟩
      · rw [show min (vis - 16) 11 = lab.length by omega, List.take_left' rfl]
      · rw [map_mbtowc_of_lt hl]
        exact hs11 h11
    · refine ⟨lab ++ [0], ?_, ?_⟩
      · rw [show min (vis - 16) 11 = lab.length + 1 by omega, ← List.append_assoc,
          List.take_left' (by simp)]
      · have hl0 : ∀ c ∈ lab ++ [0], c < 256 := by
          intro c hc
          rcases List.mem_append.mp hc with h | h
          · exact hl c h
          · simp at h; omega
        rw [map_mbtowc_of_lt hl0]
        exact hsz
  obtain ⟨src, hsrc, hstore⟩ := hlabel
  have hscan : Stream_LoadPath (p.drop n) (total - n) = some pth := by
    have hnz : ∀ c ∈ pth, c % 256 ≠ 0 := by
      intro c hc
      have h0 : c ≠ 0 := fun e => hpz (e ▸ hc)
      have := hp c hc
      omega
    unfold Stream_LoadPath
    rw [hdn, show pth ++ ([0] ++ [0]) = pth ++ 0 :: [0] from rfl,
      loadPath_scan_append pth [0] (total - n) 0 hnz (by omega)]
    simp only [Nat.zero_add, Option.map_some', List.take_left' rfl, map_mbtowc_of_lt hp]
  refine ⟨store volume.label (src.map mbtowc), ?_, hstore⟩
  unfold Stream_LoadLocation
  rw [hchunk]
  simp only [show FAILED S_OK = false from by decide, Bool.false_eq_true, if_false, h0, h12,
    h16, sizeof_LOCATION_INFO, show ¬ total < 28 by omega]
  rw [if_pos ⟨by omega, by simp only [sizeof_LOCAL_VOLUME_INFO]; omega⟩]
  unfold Stream_LoadVolume
  simp only [hpeek1, hv0, hv4, hv8, hv12]
  rw [if_neg (by omega), if_neg (by omega), if_pos (by omega)]
  simp only [hsrc, Option.map_some']
  rw [if_pos ⟨by omega, by omega⟩, hscan]

theorem mem_zero_of_label (label : List Nat) (h12 : label.length = 12)
    (hll : lstrlenW label ≤ 11) : 0 ∈ label := by
  by_contra hz
  have := cstr_eq_self hz
  unfold lstrlenW at hll
  rw [this] at hll
  omega

/-- C31: for a volume whose label array holds a terminator and a path and label whose narrow
forms fit a 32-bit size, `Stream_WriteLocationInfo` on a stream that accepts the write
returns `S_OK` and appends one block. With `L` and `P` the lengths of label and path: the
block's first field is its own length, 28 + 16 + (L + 1) + (P + 1) + 1; the header size is 28
and the volume-table offset is 28; the volume sub-record has size 16 + (L + 1) and label
offset 16; the narrow label and its terminator stand at offset 28 + 16, directly followed by
the narrow path and its terminator, where the local-path offset points; the network-volume
offset is 0; and the final-path offset points at the last byte of the block, a zero. -/
theorem writeLocationInfo_layout (w : WStream) (path : List Nat) (volume : volume_info)
    (hacc : Accepting w) (hz : 0 ∈ volume.label)
    (hsize : lstrlenW volume.label + lstrlenW path + 64 < 4294967296) :
    ∃ x block, Stream_WriteLocationInfo w path volume = some x ∧ x.1 = S_OK
      ∧ x.2.data = w.data ++ block
      ∧ block.length = 28 + 16 + (lstrlenW volume.label + 1) + (lstrlenW path + 1) + 1
      ∧ u32At block 0 = block.length
      ∧ u32At block 4 = 28
      ∧ u32At block 12 = 28
      ∧ u32At block 28 = 16 + (lstrlenW volume.label + 1)
      ∧ u32At block (28 + 12) = 16
      ∧ block.drop (28 + 16)
          = (cstr volume.label).map wctomb ++ [0] ++ ((cstr path).map wctomb ++ [0] ++ [0])
      ∧ u32At block 16 = 28 + 16 + (lstrlenW volume.label + 1)
      ∧ block.drop (u32At block 16) = (cstr path).map wctomb ++ [0] ++ [0]
      ∧ u32At block 20 = 0
      ∧ u32At block 24 = 28 + 16 + (lstrlenW volume.label + 1) + (lstrlenW path + 1)
      ∧ block.drop (u32At block 24) = [0]
      ∧ 0 ∉ (cstr volume.label).map wctomb ∧ 0 ∉ (cstr path).map wctomb := by
  obtain ⟨x, hx, hd, _⟩ := writeLocationInfo_accepting w path volume hacc hz
  have hx1 : x.1 = S_OK := by
    unfold Stream_WriteLocationInfo at hx
    rw [if_pos hz] at hx
    cases hx
    exact (write_accepting w _ hacc).1
  obtain ⟨lab, hlab⟩ : ∃ lab, lab = (cstr volume.label).map wctomb := ⟨_, rfl⟩
  obtain ⟨pth, hpth⟩ : ∃ pth, pth = (cstr path).map wctomb := ⟨_, rfl⟩
  have hL : lab.length = lstrlenW volume.label := by rw [hlab, List.length_map]; rfl
  have hP : pth.length = lstrlenW path := by rw [hpth, List.length_map]; rfl
  obtain ⟨block, hblock⟩ : ∃ block, block = locationImage path volume := ⟨_, rfl⟩
  have hdef : block = le32 (28 + (16 + (lab.length + 1)) + (pth.length + 1) + 1)
      ++ (le32 28 ++ (le32 1 ++ (le32 28 ++ (le32 (28 + (16 + (lab.length + 1)))
      ++ (le32 0 ++ (le32 (28 + (16 + (lab.length + 1)) + (pth.length + 1))
      ++ (le32 (16 + (lab.length + 1)) ++ (le32 volume.type ++ (le32 volume.serial
      ++ (le32 16 ++ (lab ++ ([0] ++ (pth ++ ([0] ++ [0])))))))))))))) := by
    rw [hblock, hlab, hpth]
    simp only [locationImage, sizeof_LOCATION_INFO, sizeof_LOCAL_VOLUME_INFO,
      List.length_append, List.length_singleton, List.append_assoc]
  have hlen : block.length = 28 + 16 + (lab.length + 1) + (pth.length + 1) + 1 := by
    rw [hdef]
    simp only [List.length_append, length_le32, List.length_singleton]
    omega
  have f0 : u32At block 0 = 28 + (16 + (lab.length + 1)) + (pth.length + 1) + 1 := by
    rw [u32At, List.drop_zero, hdef]; exact u32_le32 _ _ (by omega)
  have f4 : u32At block 4 = 28 := by
    rw [u32At, hdef, drop_le32 _ 0, List.drop_zero]; exact u32_le32 _ _ (by omega)
  have f12 : u32At block 12 = 28 := by
    rw [u32At, hdef, drop_le32 _ 8, drop_le32 _ 4, drop_le32 _ 0, List.drop_zero]
    exact u32_le32 _ _ (by omega)
  have f16 : u32At block 16 = 28 + (16 + (lab.length + 1)) := by
    rw [u32At, hdef, drop_le32 _ 12, drop_le32 _ 8, drop_le32 _ 4, drop_le32 _ 0,
      List.drop_zero]
    exact u32_le32 _ _ (by omega)
  have f20 : u32At block 20 = 0 := by
    rw [u32At, hdef, drop_le32 _ 16, drop_le32 _ 12, drop_le32 _ 8, drop_le32 _ 4,
      drop_le32 _ 0, List.drop_zero]
    exact u32_le32 _ _ (by omega)
  have f24 : u32At block 24 = 28 + (16 + (lab.length + 1)) + (pth.length + 1) := by
    rw [u32At, hdef, drop_le32 _ 20, drop_le32 _ 16, drop_le32 _ 12, drop_le32 _ 8,
      drop_le32 _ 4, drop_le32 _ 0, List.drop_zero]
    exact u32_le32 _ _ (by omega)
  have d28 : block.drop 28 = le32 (16 + (lab.length + 1)) ++ (le32 volume.type
      ++ (le32 volume.serial ++ (le32 16 ++ (lab ++ ([0] ++ (pth ++ ([0] ++ [0]))))))) := by
    rw [hdef, drop_le32 _ 24, drop_le32 _ 20, drop_le32 _ 16, drop_le32 _ 12, drop_le32 _ 8,
      drop_le32 _ 4, drop_le32 _ 0, List.drop_zero]
  have f28 : u32At block 28 = 16 + (lab.length + 1) := by
    rw [u32At, d28]; exact u32_le32 _ _ (by omega)
  have f40 : u32At block (28 + 12) = 16 := by
    rw [u32At, ← List.drop_drop, d28, drop_le32 _ 8, drop_le32 _ 4, drop_le32 _ 0,
      List.drop_zero]
    exact u32_le32 _ _ (by omega)
  have d44 : block.drop (28 + 16) = lab ++ ([0] ++ (pth ++ ([0] ++ [0]))) := by
    rw [← List.drop_drop, d28, drop_le32 _ 12, drop_le32 _ 8, drop_le32 _ 4, drop_le32 _ 0,
      List.drop_zero]
  have dpath : block.drop (28 + (16 + (lab.length + 1))) = pth ++ ([0] ++ [0]) := by
    rw [show 28 + (16 + (lab.length + 1)) = (28 + 16) + (lab.length + 1) by omega,
      ← List.drop_drop, d44, ← List.append_assoc, List.drop_left' (by simp)]
  have dfin : block.drop (28 + (16 + (lab.length + 1)) + (pth.length + 1)) = [0] := by
    rw [← List.drop_drop, dpath, ← List.append_assoc, List.drop_left' (by simp)]
  refine ⟨x, block, hx, hx1, by rw [hd, hblock], ?_, ?_, f4, f12, ?_, f40, ?_, ?_, ?_, f20, ?_,
    ?_, ?_, ?_⟩
  · rw [hlen, hL, hP]
  · rw [f0, hlen]; omega
  · rw [f28, hL]
  · rw [d44, ← hlab, ← hpth]; simp only [List.append_assoc]
  · rw [f16, hL]; omega
  · rw [f16, dpath, ← hpth]; simp only [List.append_assoc]
  · rw [f24, hL, hP]; omega
  · rw [f24, dfin]
  · exact zero_not_mem_map_wctomb volume.label
  · exact zero_not_mem_map_wctomb path

theorem writeLocationInfo_layout_witness :
    ∃ x block, Stream_WriteLocationInfo emptyStream (units "C:\\a.exe") sampleLink.volume
        = some x ∧ x.1 = S_OK
      ∧ x.2.data = emptyStream.data ++ block
      ∧ block.length = 28 + 16 + (lstrlenW sampleLink.volume.label + 1)
          + (lstrlenW (units "C:\\a.exe") + 1) + 1
      ∧ u32At block 0 = block.length
      ∧ u32At block 4 = 28
      ∧ u32At block 12 = 28
      ∧ u32At block 28 = 16 + (lstrlenW sampleLink.volume.label + 1)
      ∧ u32At block (28 + 12) = 16
      ∧ block.drop (28 + 16)
          = (cstr sampleLink.volume.label).map wctomb ++ [0]
            ++ ((cstr (units "C:\\a.exe")).map wctomb ++ [0] ++ [0])
      ∧ u32At block 16 = 28 + 16 + (lstrlenW sampleLink.volume.label + 1)
      ∧ block.drop (u32At block 16) = (cstr (units "C:\\a.exe")).map wctomb ++ [0] ++ [0]
      ∧ u32At block 20 = 0
      ∧ u32At block 24 = 28 + 16 + (lstrlenW sampleLink.volume.label + 1)
          + (lstrlenW (units "C:\\a.exe") + 1)
      ∧ block.drop (u32At block 24) = [0]
      ∧ 0 ∉ (cstr sampleLink.volume.label).map wctomb
      ∧ 0 ∉ (cstr (units "C:\\a.exe")).map wctomb :=
  writeLocationInfo_layout emptyStream (units "C:\\a.exe") sampleLink.volume (fun _ => rfl)
    (by decide) (by decide)

/-- C32: `Stream_WriteLocationInfo` writes, on a stream that accepts the write, a block that
`Stream_LoadLocation` reads back with `S_OK`, taking nothing more from the stream: the path
read is the path written, and the volume read has the drive type, the serial number and the
label that were written. The path is made of single-byte characters; the label array has 12
units and holds a string of at most 11 single-byte characters; drive type and serial number
are 32-bit values; the volume read into has a label array of 12 units, the last of them zero
(as in the object `IPersistStream_fnLoad` has cleared). -/
theorem location_roundtrip (w : WStream) (path rest : List Nat) (volume prior : volume_info)
    (priorPath : Option (List Nat)) (hacc : Accepting w)
    (hp : ∀ c ∈ cstr path, c < 256) (hpl : lstrlenW path < 2147483584)
    (h12 : volume.label.length = 12) (hll : lstrlenW volume.label ≤ 11)
    (hl : ∀ c ∈ cstr volume.label, c < 256)
    (ht : volume.type < 4294967296) (hs : volume.serial < 4294967296)
    (k1 : prior.label.length = 12) (k2 : chr prior.label 11 = 0) :
    ∃ x block label, Stream_WriteLocationInfo w path volume = some x ∧ x.1 = S_OK
      ∧ x.2.data = w.data ++ block
      ∧ Stream_LoadLocation (block ++ rest) prior priorPath
          = some (S_OK, ⟨volume.type, volume.serial, label⟩, some (cstr path), rest)
      ∧ cstr label = cstr volume.label := by
  have hz := mem_zero_of_label volume.label h12 hll
  obtain ⟨x, hx, hd, _⟩ := writeLocationInfo_accepting w path volume hacc hz
  have hx1 : x.1 = S_OK := by
    unfold Stream_WriteLocationInfo at hx
    rw [if_pos hz] at hx
    cases hx
    exact (write_accepting w _ hacc).1
  have key := loadLocation_block
    (sizeof_LOCATION_INFO + (sizeof_LOCAL_VOLUME_INFO + (cstr volume.label ++ [0]).length)
      + (cstr path ++ [0]).length + 1)
    (sizeof_LOCAL_VOLUME_INFO + (cstr volume.label ++ [0]).length)
    (sizeof_LOCATION_INFO + (sizeof_LOCAL_VOLUME_INFO + (cstr volume.label ++ [0]).length))
    (sizeof_LOCATION_INFO + (sizeof_LOCAL_VOLUME_INFO + (cstr volume.label ++ [0]).length)
      + (cstr path ++ [0]).length)
    volume.type volume.serial (cstr volume.label) (cstr path) rest prior priorPath
    (by simp [sizeof_LOCAL_VOLUME_INFO]; omega)
    (by simp [sizeof_LOCATION_INFO])
    (by simp [sizeof_LOCATION_INFO, sizeof_LOCAL_VOLUME_INFO]; omega)
    hl (zero_not_mem_cstr _) hll hp (zero_not_mem_cstr path) hpl ht hs k1 k2
  obtain ⟨label, hload, hlabel⟩ := key
  refine ⟨x, locationImage path volume, label, hx, hx1, hd, ?_, hlabel⟩
  simp only [locationImage, map_wctomb_of_lt hl, map_wctomb_of_lt hp, lstrlenW,
    sizeof_LOCATION_INFO, sizeof_LOCAL_VOLUME_INFO, List.append_assoc] at hload ⊢
  exact hload

theorem location_roundtrip_witness :
    ∃ x block label, Stream_WriteLocationInfo emptyStream (units "C:\\a.exe")
        sampleLink.volume = some x ∧ x.1 = S_OK
      ∧ x.2.data = emptyStream.data ++ block
      ∧ Stream_LoadLocation (block ++ [1, 2]) ⟨7, 7, List.replicate 12 0⟩ (some [9])
          = some (S_OK, ⟨sampleLink.volume.type, sampleLink.volume.serial, label⟩,
              some (cstr (units "C:\\a.exe")), [1, 2])
      ∧ cstr label = cstr sampleLink.volume.label :=
  location_roundtrip emptyStream (units "C:\\a.exe") [1, 2] sampleLink.volume
    ⟨7, 7, List.replicate 12 0⟩ (some [9]) (fun _ => rfl) (by decide) (by decide) (by decide)
    (by decide) (by decide) (by decide) (by decide) (by decide) (by decide)

theorem loadString_stringSection (unicode : Bool) (s rest : List Nat)
    (old : Option (List Nat))
    (hlen : s.length < (if unicode then 32768 else 65536))
    (hu : unicode = true → ∀ c ∈ s, c < 65536) :
    Stream_LoadString (stringSection unicode s ++ rest) unicode old
      = (S_OK, some (sectionText unicode s), rest) := by
  have hn : s.length < 65536 := by
    cases unicode <;> simp at hlen <;> omega
  have h16 : u16 [s.length % 256, s.length / 256 % 256] = s.length := by
    have := u16_le16 s.length [] hn
    simpa [le16] using this
  have e : stringSection unicode s ++ rest
      = s.length % 256 :: s.length / 256 % 256
        :: ((if unicode then wideBytes s else s) ++ rest) := by
    simp [stringSection, le16]
  rw [e, loadString_payload _ _ _ rest unicode old (by
    rw [h16]
    cases unicode
    · simp
    · simp only [if_true, length_wideBytes]
      simp at hlen
      omega)]
  cases unicode
  · simp [sectionText]
  · simp [sectionText, wideUnits_wideBytes s (hu rfl)]

theorem reads_next_inv {s : LoadState} {f : HRESULT → IShellLinkImpl → List Nat → LoadState}
    {Q Q1 : IShellLinkImpl → Prop} {R R1 : List Nat} (hs : ∃ T, Reads s T R ∧ Q T)
    (hf : ∀ r T, FAILED r = false → Q T → ∃ T1, Reads (f r T R) T1 R1 ∧ Q1 T1) :
    ∃ T1, Reads (s.next f) T1 R1 ∧ Q1 T1 := by
  obtain ⟨T, ⟨r, hr, rfl⟩, hq⟩ := hs
  simp only [LoadState.next, hr, Bool.false_eq_true, if_false]
  exact hf r T hr hq

/-- One string section on a stream that holds the section when its flag is set: the member
is set to the text read in the given encoding, or left as it was. -/
theorem reads_flaggedSection (flags mask : Nat) (unicode : Bool) (s rest : List Nat)
    (get : IShellLinkImpl → Option (List Nat))
    (set : IShellLinkImpl → Option (List Nat) → IShellLinkImpl) (T : IShellLinkImpl)
    (r : HRESULT) (hr : FAILED r = false)
    (hlen : s.length < (if unicode then 32768 else 65536))
    (hu : unicode = true → ∀ c ∈ s, c < 65536) :
    Reads (loadStringSection (hasFlag flags mask) unicode get set r T
        (flaggedSection flags mask unicode s ++ rest))
      (bif hasFlag flags mask then set T (some (sectionText unicode s)) else T) rest := by
  unfold loadStringSection flaggedSection
  cases hasFlag flags mask
  · exact ⟨r, hr, by simp⟩
  · exact ⟨S_OK, FAILED_S_OK, by
      simp only [if_true, loadString_stringSection unicode s rest _ hlen hu, cond_true]⟩

/-- The sections of `loadNewStuff` in their order, on a stream that holds the bytes `P` of the
id list, the bytes `L` of the location block, the five string sections and the bytes `A` and
`C` of the two advertised-info blocks, each present when its flag is set: the five string
members are read in the encoding the flag `SLDF_UNICODE` selects. -/
theorem newStuff_string_sections (env : Collaborators) (junk : Indeterminate) (flags : Nat)
    (T0 : IShellLinkImpl) (P L s1 s2 s3 s4 s5 A C rest : List Nat)
    (d r w a i : Option (List Nat))
    (hP : if hasFlag flags SLDF_HAS_ID_LIST then
        ∀ X, FAILED (env.ILLoadFromStream (P ++ X)).1 = false
          ∧ (env.ILLoadFromStream (P ++ X)).2.2 = X
      else P = [])
    (hL : if hasFlag flags SLDF_HAS_LINK_INFO then
        ∀ X vol path, ∃ c v p, FAILED c = false
          ∧ Stream_LoadLocation (L ++ X) vol path = some (c, v, p, X)
      else L = [])
    (hA : if hasFlag flags SLDF_HAS_LOGO3ID then
        ∀ X old, ∃ c v, FAILED c = false
          ∧ Stream_LoadAdvertiseInfo junk.logo3 (A ++ X) old = some (c, v, X)
      else A = [])
    (hC : if hasFlag flags SLDF_HAS_DARWINID then
        ∀ X old, ∃ c v, FAILED c = false
          ∧ Stream_LoadAdvertiseInfo junk.darwin (C ++ X) old = some (c, v, X)
      else C = [])
    (hlen : ∀ s ∈ [s1, s2, s3, s4, s5],
      s.length < (if hasFlag flags SLDF_UNICODE then 32768 else 65536))
    (hu : hasFlag flags SLDF_UNICODE = true → ∀ s ∈ [s1, s2, s3, s4, s5], ∀ c ∈ s, c < 65536)
    (h0 : StringMembers d r w a i T0) :
    ∃ T1, Reads (loadNewStuff env junk flags S_OK T0
        (P ++ (L
          ++ (flaggedSection flags SLDF_HAS_NAME (hasFlag flags SLDF_UNICODE) s1
          ++ (flaggedSection flags SLDF_HAS_RELPATH (hasFlag flags SLDF_UNICODE) s2
          ++ (flaggedSection flags SLDF_HAS_WORKINGDIR (hasFlag flags SLDF_UNICODE) s3
          ++ (flaggedSection flags SLDF_HAS_ARGS (hasFlag flags SLDF_UNICODE) s4
          ++ (flaggedSection flags SLDF_HAS_ICONLOCATION (hasFlag flags SLDF_UNICODE) s5
          ++ (A ++ (C ++ rest)))))))))) T1 rest
      ∧ StringMembers
          (flaggedText flags SLDF_HAS_NAME (hasFlag flags SLDF_UNICODE) s1 d)
          (flaggedText flags SLDF_HAS_RELPATH (hasFlag flags SLDF_UNICODE) s2 r)
          (flaggedText flags SLDF_HAS_WORKINGDIR (hasFlag flags SLDF_UNICODE) s3 w)
          (flaggedText flags SLDF_HAS_ARGS (hasFlag flags SLDF_UNICODE) s4 a)
          (flaggedText flags SLDF_HAS_ICONLOCATION (hasFlag flags SLDF_UNICODE) s5 i) T1 := by
  have l1 := hlen s1 (by simp)
  have l2 := hlen s2 (by simp)
  have l3 := hlen s3 (by simp)
  have l4 := hlen s4 (by simp)
  have l5 := hlen s5 (by simp)
  have u1 := fun h => hu h s1 (by simp)
  have u2 := fun h => hu h s2 (by simp)
  have u3 := fun h => hu h s3 (by simp)
  have u4 := fun h => hu h s4 (by simp)
  have u5 := fun h => hu h s5 (by simp)
  obtain ⟨u, hudef⟩ : ∃ u, u = hasFlag flags SLDF_UNICODE := ⟨_, rfl⟩
  obtain ⟨t1, ht1⟩ : ∃ t, t = flaggedText flags SLDF_HAS_NAME u s1 d := ⟨_, rfl⟩
  obtain ⟨t2, ht2⟩ : ∃ t, t = flaggedText flags SLDF_HAS_RELPATH u s2 r := ⟨_, rfl⟩
  obtain ⟨t3, ht3⟩ : ∃ t, t = flaggedText flags SLDF_HAS_WORKINGDIR u s3 w := ⟨_, rfl⟩
  obtain ⟨t4, ht4⟩ : ∃ t, t = flaggedText flags SLDF_HAS_ARGS u s4 a := ⟨_, rfl⟩
  obtain ⟨t5, ht5⟩ : ∃ t, t = flaggedText flags SLDF_HAS_ICONLOCATION u s5 i := ⟨_, rfl⟩
  obtain ⟨R8, hR8⟩ : ∃ R, R = C ++ rest := ⟨_, rfl⟩
  obtain ⟨R7, hR7⟩ : ∃ R, R = A ++ R8 := ⟨_, rfl⟩
  obtain ⟨R6, hR6⟩ : ∃ R, R = flaggedSection flags SLDF_HAS_ICONLOCATION u s5 ++ R7 :=
    ⟨_, rfl⟩
  obtain ⟨R5, hR5⟩ : ∃ R, R = flaggedSection flags SLDF_HAS_ARGS u s4 ++ R6 := ⟨_, rfl⟩
  obtain ⟨R4, hR4⟩ : ∃ R, R = flaggedSection flags SLDF_HAS_WORKINGDIR u s3 ++ R5 := ⟨_, rfl⟩
  obtain ⟨R3, hR3⟩ : ∃ R, R = flaggedSection flags SLDF_HAS_RELPATH u s2 ++ R4 := ⟨_, rfl⟩
  obtain ⟨R2, hR2⟩ : ∃ R, R = flaggedSection flags SLDF_HAS_NAME u s1 ++ R3 := ⟨_, rfl⟩
  obtain ⟨R1, hR1⟩ : ∃ R, R = L ++ R2 := ⟨_, rfl⟩
  rw [← hudef, ← ht1, ← ht2, ← ht3, ← ht4, ← ht5, ← hR8, ← hR7, ← hR6, ← hR5, ← hR4, ← hR3,
    ← hR2, ← hR1]
  unfold loadNewStuff
  simp only [← hudef]
  refine reads_next_inv (Q := StringMembers t1 t2 t3 t4 t5) (R := R8) ?h8 ?s9
  case h8 =>
    refine reads_next_inv (Q := StringMembers t1 t2 t3 t4 t5) (R := R7) ?h7 ?s8
    case h7 =>
      refine reads_next_inv (Q := StringMembers t1 t2 t3 t4 i) (R := R6) ?h6 ?s7
      case h6 =>
        refine reads_next_inv (Q := StringMembers t1 t2 t3 a i) (R := R5) ?h5 ?s6
        case h5 =>
          refine reads_next_inv (Q := StringMembers t1 t2 w a i) (R := R4) ?h4 ?s5
          case h4 =>
            refine reads_next_inv (Q := StringMembers t1 r w a i) (R := R3) ?h3 ?s4
            case h3 =>
              refine reads_next_inv (Q := StringMembers d r w a i) (R := R2) ?h2 ?s3
              case h2 =>
                refine reads_next_inv (Q := StringMembers d r w a i) (R := R1) ?h1 ?s2
                case h1 =>
                  refine reads_next_inv (Q := StringMembers d r w a i) (R := P ++ R1)
                    ⟨T0, ⟨S_OK, FAILED_S_OK, rfl⟩, h0⟩ ?s1
                  intro c T hc hq
                  by_cases hf : hasFlag flags SLDF_HAS_ID_LIST = true
                  · rw [if_pos hf] at hP
                    obtain ⟨q1, q2⟩ := hP R1
                    refine ⟨{ T with pPidl := (env.ILLoadFromStream (P ++ R1)).2.1 },
                      ⟨_, q1, ?_⟩, hq⟩
                    simp only [hf, if_true, q2]
                  · rw [if_neg hf] at hP
                    subst hP
                    exact ⟨T, ⟨c, hc, by simp only [hf, Bool.false_eq_true, if_false, List.nil_append]⟩, hq⟩
                case s2 =>
                  intro c T hc hq
                  by_cases hf : hasFlag flags SLDF_HAS_LINK_INFO = true
                  · rw [if_pos hf] at hL
                    obtain ⟨c1, v, p, q1, q2⟩ := hL R2 T.volume T.sPath
                    rw [hR1]
                    refine ⟨{ T with volume := v, sPath := p }, ⟨c1, q1, ?_⟩, hq⟩
                    simp only [hf, if_true, q2, Option.map_some']
                  · rw [if_neg hf] at hL
                    subst hL
                    rw [hR1]
                    exact ⟨T, ⟨c, hc, by simp only [hf, Bool.false_eq_true, if_false, List.nil_append]⟩, hq⟩
              case s3 =>
                intro c T hc hq
                rw [hR2]
                refine ⟨_, reads_flaggedSection flags SLDF_HAS_NAME u s1 R3 _ _ T c hc
                  (hudef ▸ l1) (hudef ▸ u1), ?_⟩
                rw [ht1]
                unfold flaggedText
                obtain ⟨q1, q2, q3, q4, q5⟩ := hq
                cases hasFlag flags SLDF_HAS_NAME
                · exact ⟨q1, q2, q3, q4, q5⟩
                · exact ⟨rfl, q2, q3, q4, q5⟩
            case s4 =>
              intro c T hc hq
              rw [hR3]
              refine ⟨_, reads_flaggedSection flags SLDF_HAS_RELPATH u s2 R4 _ _ T c hc
                (hudef ▸ l2) (hudef ▸ u2), ?_⟩
              rw [ht2]
              unfold flaggedText
              obtain ⟨q1, q2, q3, q4, q5⟩ := hq
              cases hasFlag flags SLDF_HAS_RELPATH
              · exact ⟨q1, q2, q3, q4, q5⟩
              · exact ⟨q1, rfl, q3, q4, q5⟩
          case s5 =>
            intro c T hc hq
            rw [hR4]
            refine ⟨_, reads_flaggedSection flags SLDF_HAS_WORKINGDIR u s3 R5 _ _ T c hc
              (hudef ▸ l3) (hudef ▸ u3), ?_⟩
            rw [ht3]
            unfold flaggedText
            obtain ⟨q1, q2, q3, q4, q5⟩ := hq
            cases hasFlag flags SLDF_HAS_WORKINGDIR
            · exact ⟨q1, q2, q3, q4, q5⟩
            · exact ⟨q1, q2, rfl, q4, q5⟩
        case s6 =>
          intro c T hc hq
          rw [hR5]
          refine ⟨_, reads_flaggedSection flags SLDF_HAS_ARGS u s4 R6 _ _ T c hc
            (hudef ▸ l4) (hudef ▸ u4), ?_⟩
          rw [ht4]
          unfold flaggedText
          obtain ⟨q1, q2, q3, q4, q5⟩ := hq
          cases hasFlag flags SLDF_HAS_ARGS
          · exact ⟨q1, q2, q3, q4, q5⟩
          · exact ⟨q1, q2, q3, rfl, q5⟩
      case s7 =>
        intro c T hc hq
        rw [hR6]
        refine ⟨_, reads_flaggedSection flags SLDF_HAS_ICONLOCATION u s5 R7 _ _ T c hc
          (hudef ▸ l5) (hudef ▸ u5), ?_⟩
        rw [ht5]
        unfold flaggedText
        obtain ⟨q1, q2, q3, q4, q5⟩ := hq
        cases hasFlag flags SLDF_HAS_ICONLOCATION
        · exact ⟨q1, q2, q3, q4, q5⟩
        · exact ⟨q1, q2, q3, q4, rfl⟩
    case s8 =>
      intro c T hc hq
      rw [hR7]
      unfold loadAdvertiseSection
      by_cases hf : hasFlag flags SLDF_HAS_LOGO3ID = true
      · rw [if_pos hf] at hA
        obtain ⟨c1, v, q1, q2⟩ := hA R8 T.sProduct
        refine ⟨{ T with sProduct := v }, ⟨c1, q1, ?_⟩, hq⟩
        simp only [hf, if_true, q2, Option.map_some']
      · rw [if_neg hf] at hA
        subst hA
        exact ⟨T, ⟨c, hc, by simp only [hf, Bool.false_eq_true, if_false, List.nil_append]⟩, hq⟩
  case s9 =>
    intro c T hc hq
    rw [hR8]
    unfold loadAdvertiseSection
    by_cases hf : hasFlag flags SLDF_HAS_DARWINID = true
    · rw [if_pos hf] at hC
      obtain ⟨c1, v, q1, q2⟩ := hC rest T.sComponent
      refine ⟨{ T with sComponent := v }, ⟨c1, q1, ?_⟩, hq⟩
      simp only [hf, if_true, q2, Option.map_some']
    · rw [if_neg hf] at hC
      subst hC
      exact ⟨T, ⟨c, hc, by simp only [hf, Bool.false_eq_true, if_false, List.nil_append]⟩, hq⟩

/-- C34: a stream made of an accepted header and, each present when its flag bit is set, the
id list, the location block, the five string sections and the two advertised-info blocks is
loaded with `S_OK`, and each of the five string members is set from its section exactly when
its flag bit is set. The one bit `SLDF_UNICODE` of the header fixes how all five are read:
with the bit clear a section is its count and that many bytes, each of which becomes one
unit; with the bit set a section is its count and that many 16-bit units. The id list, the
location block and the advertised-info blocks are any bytes their readers accept; sections
of up to 65535 narrow or 32767 wide elements are covered. -/
theorem load_strings_follow_unicode_flag (env : Collaborators) (junk : Indeterminate)
    (This : IShellLinkImpl) (flags : Nat) (hdr P L s1 s2 s3 s4 s5 A C rest : List Nat)
    (hl : hdr.length = 76) (h0 : u32At hdr 0 = 76)
    (hm : ((hdr.drop 4).take 16).map (fun b => b % 256) = CLSID_ShellLink)
    (hflags : u32At hdr 0x14 = flags)
    (hP : if hasFlag flags SLDF_HAS_ID_LIST then
        ∀ X, FAILED (env.ILLoadFromStream (P ++ X)).1 = false
          ∧ (env.ILLoadFromStream (P ++ X)).2.2 = X
      else P = [])
    (hL : if hasFlag flags SLDF_HAS_LINK_INFO then
        ∀ X vol path, ∃ c v p, FAILED c = false
          ∧ Stream_LoadLocation (L ++ X) vol path = some (c, v, p, X)
      else L = [])
    (hA : if hasFlag flags SLDF_HAS_LOGO3ID then
        ∀ X old, ∃ c v, FAILED c = false
          ∧ Stream_LoadAdvertiseInfo junk.logo3 (A ++ X) old = some (c, v, X)
      else A = [])
    (hC : if hasFlag flags SLDF_HAS_DARWINID then
        ∀ X old, ∃ c v, FAILED c = false
          ∧ Stream_LoadAdvertiseInfo junk.darwin (C ++ X) old = some (c, v, X)
      else C = [])
    (hlen : ∀ s ∈ [s1, s2, s3, s4, s5],
      s.length < (if hasFlag flags SLDF_UNICODE then 32768 else 65536))
    (hu : hasFlag flags SLDF_UNICODE = true → ∀ s ∈ [s1, s2, s3, s4, s5], ∀ c ∈ s, c < 65536) :
    ∃ T1, IPersistStream_fnLoad env junk This
        (hdr ++ (P ++ (L
          ++ (flaggedSection flags SLDF_HAS_NAME (hasFlag flags SLDF_UNICODE) s1
          ++ (flaggedSection flags SLDF_HAS_RELPATH (hasFlag flags SLDF_UNICODE) s2
          ++ (flaggedSection flags SLDF_HAS_WORKINGDIR (hasFlag flags SLDF_UNICODE) s3
          ++ (flaggedSection flags SLDF_HAS_ARGS (hasFlag flags SLDF_UNICODE) s4
          ++ (flaggedSection flags SLDF_HAS_ICONLOCATION (hasFlag flags SLDF_UNICODE) s5
          ++ (A ++ (C ++ rest))))))))))
        = some (S_OK, T1, rest.drop 4)
      ∧ StringMembers
          (flaggedText flags SLDF_HAS_NAME (hasFlag flags SLDF_UNICODE) s1 none)
          (flaggedText flags SLDF_HAS_RELPATH (hasFlag flags SLDF_UNICODE) s2 none)
          (flaggedText flags SLDF_HAS_WORKINGDIR (hasFlag flags SLDF_UNICODE) s3 none)
          (flaggedText flags SLDF_HAS_ARGS (hasFlag flags SLDF_UNICODE) s4 none)
          (flaggedText flags SLDF_HAS_ICONLOCATION (hasFlag flags SLDF_UNICODE) s5 none)
          T1 := by
  obtain ⟨T1, ⟨c, hc, hT1⟩, hq⟩ := newStuff_string_sections env junk flags
    (loadHeaderFields env This hdr) P L s1 s2 s3 s4 s5 A C rest none none none none none
    hP hL hA hC hlen hu ⟨rfl, rfl, rfl, rfl, rfl⟩
  refine ⟨T1, ?_, hq⟩
  rw [load_of_header env junk This hdr _ hl h0 hm, hflags, hT1]
  simp only [LoadState.next, hc, Bool.false_eq_true, if_false, IStream_Read]

theorem framedILLoad_sample (X : List Nat) :
    framedILLoad ([3, 0, 1, 2, 3] ++ X) = (S_OK, some [1, 2, 3], X) := by
  simp [framedILLoad, IStream_Read, u16, byte]

theorem load_strings_follow_unicode_flag_witness :
    (∃ T1, IPersistStream_fnLoad plainCollaborators ⟨[], []⟩ IShellLink_Constructor
        (sampleHeader 0x7D ++ ([3, 0, 1, 2, 3] ++ ([]
          ++ (flaggedSection 0x7D SLDF_HAS_NAME (hasFlag 0x7D SLDF_UNICODE) (units "ab")
          ++ (flaggedSection 0x7D SLDF_HAS_RELPATH (hasFlag 0x7D SLDF_UNICODE) (units "cd")
          ++ (flaggedSection 0x7D SLDF_HAS_WORKINGDIR (hasFlag 0x7D SLDF_UNICODE) (units "ef")
          ++ (flaggedSection 0x7D SLDF_HAS_ARGS (hasFlag 0x7D SLDF_UNICODE) (units "gh")
          ++ (flaggedSection 0x7D SLDF_HAS_ICONLOCATION (hasFlag 0x7D SLDF_UNICODE)
                (units "ij")
          ++ ([] ++ ([] ++ [0, 0, 0, 0]))))))))))
        = some (S_OK, T1, [0, 0, 0, 0].drop 4)
      ∧ StringMembers
          (flaggedText 0x7D SLDF_HAS_NAME (hasFlag 0x7D SLDF_UNICODE) (units "ab") none)
          (flaggedText 0x7D SLDF_HAS_RELPATH (hasFlag 0x7D SLDF_UNICODE) (units "cd") none)
          (flaggedText 0x7D SLDF_HAS_WORKINGDIR (hasFlag 0x7D SLDF_UNICODE) (units "ef") none)
          (flaggedText 0x7D SLDF_HAS_ARGS (hasFlag 0x7D SLDF_UNICODE) (units "gh") none)
          (flaggedText 0x7D SLDF_HAS_ICONLOCATION (hasFlag 0x7D SLDF_UNICODE) (units "ij")
            none) T1)
    ∧ (∃ T1, IPersistStream_fnLoad plainCollaborators ⟨[], []⟩ IShellLink_Constructor
        (sampleHeader 0x10A4 ++ ([] ++ ([]
          ++ (flaggedSection 0x10A4 SLDF_HAS_NAME (hasFlag 0x10A4 SLDF_UNICODE) (units "ab")
          ++ (flaggedSection 0x10A4 SLDF_HAS_RELPATH (hasFlag 0x10A4 SLDF_UNICODE)
                (units "cd")
          ++ (flaggedSection 0x10A4 SLDF_HAS_WORKINGDIR (hasFlag 0x10A4 SLDF_UNICODE)
                (units "ef")
          ++ (flaggedSection 0x10A4 SLDF_HAS_ARGS (hasFlag 0x10A4 SLDF_UNICODE) (units "gh")
          ++ (flaggedSection 0x10A4 SLDF_HAS_ICONLOCATION (hasFlag 0x10A4 SLDF_UNICODE)
                (units "ij")
          ++ ([] ++ (advertiseImage (units "comp") EXP_DARWIN_ID_SIG
          ++ [0, 0, 0, 0]))))))))))
        = some (S_OK, T1, [0, 0, 0, 0].drop 4)
      ∧ StringMembers
          (flaggedText 0x10A4 SLDF_HAS_NAME (hasFlag 0x10A4 SLDF_UNICODE) (units "ab") none)
          (flaggedText 0x10A4 SLDF_HAS_RELPATH (hasFlag 0x10A4 SLDF_UNICODE) (units "cd") none)
          (flaggedText 0x10A4 SLDF_HAS_WORKINGDIR (hasFlag 0x10A4 SLDF_UNICODE) (units "ef")
            none)
          (flaggedText 0x10A4 SLDF_HAS_ARGS (hasFlag 0x10A4 SLDF_UNICODE) (units "gh") none)
          (flaggedText 0x10A4 SLDF_HAS_ICONLOCATION (hasFlag 0x10A4 SLDF_UNICODE) (units "ij")
            none) T1)
    ∧ flaggedSection 0x7D SLDF_HAS_NAME (hasFlag 0x7D SLDF_UNICODE) (units "ab")
        = [2, 0, 97, 98]
    ∧ flaggedText 0x7D SLDF_HAS_NAME (hasFlag 0x7D SLDF_UNICODE) (units "ab") none
        = some [97, 98]
    ∧ flaggedSection 0x10A4 SLDF_HAS_ARGS (hasFlag 0x10A4 SLDF_UNICODE) (units "gh")
        = [2, 0, 103, 0, 104, 0]
    ∧ flaggedText 0x10A4 SLDF_HAS_ARGS (hasFlag 0x10A4 SLDF_UNICODE) (units "gh") none
        = some [103, 104]
    ∧ flaggedSection 0x10A4 SLDF_HAS_RELPATH (hasFlag 0x10A4 SLDF_UNICODE) (units "cd") = []
    ∧ flaggedText 0x10A4 SLDF_HAS_RELPATH (hasFlag 0x10A4 SLDF_UNICODE) (units "cd") none
        = none :=
  ⟨load_strings_follow_unicode_flag plainCollaborators ⟨[], []⟩ IShellLink_Constructor 0x7D
      (sampleHeader 0x7D) [3, 0, 1, 2, 3] []
      (units "ab") (units "cd") (units "ef") (units "gh") (units "ij") [] [] [0, 0, 0, 0]
      (by decide) (by decide) (by decide) (by decide)
      (by
        rw [if_pos (by decide)]
        intro X
        show FAILED (framedILLoad ([3, 0, 1, 2, 3] ++ X)).1 = false
          ∧ (framedILLoad ([3, 0, 1, 2, 3] ++ X)).2.2 = X
        rw [framedILLoad_sample]
        exact ⟨FAILED_S_OK, rfl⟩)
      (by rw [if_neg (by decide)]) (by rw [if_neg (by decide)]) (by rw [if_neg (by decide)])
      (by decide) (by decide),
    load_strings_follow_unicode_flag plainCollaborators ⟨[], []⟩ IShellLink_Constructor 0x10A4
      (sampleHeader 0x10A4) [] []
      (units "ab") (units "cd") (units "ef") (units "gh") (units "ij") []
      (advertiseImage (units "comp") EXP_DARWIN_ID_SIG) [0, 0, 0, 0]
      (by decide) (by decide) (by decide) (by decide)
      (by rw [if_neg (by decide)]) (by rw [if_neg (by decide)]) (by rw [if_neg (by decide)])
      (by
        rw [if_pos (by decide)]
        intro X old
        exact ⟨S_OK, _, FAILED_S_OK,
          loadAdvertiseInfo_truncated [] (units "comp") X EXP_DARWIN_ID_SIG old
            (by decide) (by decide) (by decide)⟩)
      (by decide) (by decide),
    by decide, by decide, by decide, by decide, by decide, by decide⟩

end ShellLink
